import Mathlib

/-!
# xAODAnaHelpers: electron and muon selectors

A shallow embedding of `Root/ElectronSelector.cxx` and `Root/MuonSelector.cxx`.

Conventions of the embedding.

* The `float`/`double` values read from the event and from the configuration (pT, eta, impact
  parameters, event weight, bounds) are finite and are given by the rational they denote; the
  sentinel `1e8` is the rational `100000000`. A comparison of two such values is exact.
* The result of a floating-point operation is a `FloatValue`: a finite value, a negative zero,
  an infinity or NaN. The operations themselves (`+`, `-`, `*`, `/` with their rounding) are
  the fields of `FloatArith`, a parameter of the embedding carried by the configuration of each
  selector: every statement holds for every such arithmetic, IEEE single and double precision
  included. The two isolation ratios of the muon `PassCuts` alone are exact quotients, tested
  for `> 0.0` before anything else.
* The cutflow counters are `int` members: their updates wrap on 32 bits (`wrapInt`). The local
  counts `nObj` and `nPass` of a run are bounded by the size of the container and are integers.
* A `const xAOD::Electron*` is the immutable record `Electron`; the decorations written on it
  through `auxdecor`/`Decorator` live in a separate `Decorations` table carried next to it.
* External tools (`accept`) are functions of the immutable object.
* The transient store is an association list from keys to typed objects.
* `m_debug` messages are not modelled; the `return` statement taken by `PassCuts` is recorded
  in the result (each one is identified in the source by its own message).
-/

namespace xAH

/-! ## Status codes, decorations -/

/-- The two values of `EL::StatusCode` used by the selectors. -/
inductive StatusCode where
  | SUCCESS
  | FAILURE
  deriving DecidableEq, Repr

/-- Decorations of one object: the most recent write for a key comes first. -/
abbrev Decorations := List (String × Int)

/-- Write of a decoration, as in `obj->auxdecor<char>(key) = value`. -/
def auxdecor (d : Decorations) (key : String) (value : Int) : Decorations :=
  (key, value) :: d

/-- Read of a decoration: the last value written for `key`, if any. -/
def getDecor (d : Decorations) (key : String) : Option Int :=
  d.lookup key

/-- The sentinel `1e8` that disables a kinematic bound. -/
def sentinel : ℚ := 100000000

/-! ## Event data -/

/-- The value of a floating-point expression: a finite value, the negative zero, an infinity
or NaN. -/
inductive FloatValue where
  | finite (value : ℚ)
  | negZero
  | posInf
  | negInf
  | nan
  deriving DecidableEq, Repr

/-- A numeral denotes the finite value of that number. -/
instance (n : Nat) : OfNat FloatValue n := ⟨FloatValue.finite n⟩

namespace FloatValue

/-- The function `fabs`: it clears the sign and is exact. -/
def fabs : FloatValue → FloatValue
  | finite value => finite |value|
  | negZero => finite 0
  | posInf => posInf
  | negInf => posInf
  | nan => nan

/-- The comparison `x < bound` of a floating-point value with a finite bound: false for NaN
and for the positive infinity. -/
def lt : FloatValue → ℚ → Bool
  | finite value, bound => decide (value < bound)
  | negZero, bound => decide (0 < bound)
  | posInf, _ => false
  | negInf, _ => true
  | nan, _ => false

end FloatValue

/-- The floating-point operations of the machine, each with its rounding and its results on
zero divisors, overflow and NaN. They are a parameter of the embedding: the operand types are
declared in the xAOD headers and in the selector headers, outside the sources, and decide the
precision in which each operation is carried out. -/
structure FloatArith where
  add : FloatValue → FloatValue → FloatValue
  sub : FloatValue → FloatValue → FloatValue
  mul : FloatValue → FloatValue → FloatValue
  div : FloatValue → FloatValue → FloatValue
  /-- The compound assignment `member += value`, in the type of the member. -/
  accumulate : FloatValue → FloatValue → FloatValue

/-- The value an `int` holds after an operation whose mathematical result is `x`: the
representative of `x` modulo `2^32` in the range from `-2^31` to `2^31 - 1`. -/
def wrapInt (x : Int) : Int :=
  (x + 2147483648) % 4294967296 - 2147483648

/-- The track quantities read by `PassCuts`: `d0()`, `z0()`, `vz()`, `sin(theta())` and the
value returned by `sqrt(definingParametersCovMatrix()(0,0))`, which is NaN for a negative
matrix element and a zero for a zero one. -/
structure TrackParticle where
  d0 : ℚ
  z0 : ℚ
  vz : ℚ
  sinTheta : ℚ
  sqrtCov00 : FloatValue
  deriving DecidableEq, Repr

/-- The primary vertex chosen by `HelperFunctions::getPrimaryVertex`; only `z()` is read. -/
structure Vertex where
  z : ℚ
  deriving DecidableEq, Repr

/-- The immutable content of an `xAOD::Electron` read by the selector. `authorElectron` and
`authorAmbiguous` are the truth values of `author(AuthorElectron)` and
`author(AuthorAmbiguous)`; `caloCluster` is the cluster `eta()` when there is a cluster. -/
structure Electron where
  pt : ℚ
  eta : ℚ
  OQ : Nat
  authorElectron : Bool
  authorAmbiguous : Bool
  caloCluster : Option ℚ
  trackParticle : TrackParticle
  deriving DecidableEq, Repr

/-- An object of a container together with its decorations. -/
structure Decorated (α : Type) where
  obj : α
  aux : Decorations
  deriving DecidableEq, Repr

/-- The `xAOD::Muon::MuonType` enumeration, in the order of its values 0..4. -/
inductive MuonType where
  | Combined
  | MuonStandAlone
  | SegmentTagged
  | CaloTagged
  | SiliconAssociatedForwardMuon
  deriving DecidableEq, Repr

/-- The immutable content of an `xAOD::Muon` read by the selector. `isolation` lists the
isolation variables that can be retrieved from the muon, keyed by the name of the isolation
type (the name stands for the value `EnumParser<xAOD::Iso::IsolationType>` gives it). -/
structure Muon where
  pt : ℚ
  eta : ℚ
  muonType : MuonType
  primaryTrackParticle : TrackParticle
  isolation : List (String × ℚ)
  deriving DecidableEq, Repr

/-! ## Electron identification tools -/

/-- An identification tool (`AsgElectronLikelihoodTool`, `AsgElectronIsEMSelector`): its
operating-point name and its decision. -/
structure PIDTool where
  getOperatingPointName : String
  accept : Electron → Bool

/-- The part of a PID manager (`ElectronLHPIDManager`, `ElectronCutBasedPIDManager`) that
`PassCuts` uses. Both are parameters of the embedding: `m_allWPAuxDecors` is the table of
default decorations written by `setDecorations`, `m_validWPTools` is the multimap returned by
`getValidTools`, in iteration order. -/
structure PIDManager where
  m_allWPAuxDecors : List (String × Int)
  m_validWPTools : List (String × PIDTool)

/-- Writes the default value of every working-point decoration. -/
def PIDManager.setDecorations (m : PIDManager) (d : Decorations) : Decorations :=
  m.m_allWPAuxDecors.foldl (fun acc kv => auxdecor acc kv.1 kv.2) d

/-- The multimap of valid tools. -/
def PIDManager.getValidTools (m : PIDManager) : List (String × PIDTool) :=
  m.m_validWPTools

/-- Lookup `tools.find(key)`: the first entry with that key, `none` for `end()`. -/
def findTool (tools : List (String × PIDTool)) (key : String) : Option PIDTool :=
  (tools.find? (fun kv => kv.1 == key)).map Prod.snd

/-- The decoration loop `for (auto it : tools) electron->auxdecor<char>(name) = accept`. -/
def decorateWPs (tools : List (String × PIDTool)) (electron : Electron) (d : Decorations) :
    Decorations :=
  tools.foldl
    (fun acc kv => auxdecor acc kv.2.getOperatingPointName (if kv.2.accept electron then 1 else 0))
    d

/-! ## ElectronSelector -/

/-- Configuration members of `ElectronSelector`, with the tools created by `initialize` and
the floating-point arithmetic `floatArith` of the machine the selector runs on. -/
structure ElectronSelector where
  m_inContainerName : String
  m_outContainerName : String
  m_inputAlgoSystNames : String
  m_outputAlgoSystNames : String
  m_decorateSelectedObjects : Bool
  m_createSelectedContainer : Bool
  m_nToProcess : Int
  m_pass_max : Int
  m_pass_min : Int
  m_pT_max : ℚ
  m_pT_min : ℚ
  m_eta_max : ℚ
  m_vetoCrack : Bool
  m_d0_max : ℚ
  m_d0sig_max : ℚ
  m_z0sintheta_max : ℚ
  m_doAuthorCut : Bool
  m_doOQCut : Bool
  m_doLHPIDcut : Bool
  m_LHOperatingPoint : String
  m_doCutBasedPIDcut : Bool
  m_CutBasedOperatingPoint : String
  m_doIsolation : Bool
  m_passAuxDecorKeys : String
  m_failAuxDecorKeys : String
  m_el_LH_PIDManager : PIDManager
  m_el_CutBased_PIDManager : PIDManager
  m_IsolationSelectionTool : Electron → Bool
  floatArith : FloatArith

/-- The criteria of `ElectronSelector::PassCuts`, in the order of their `return 0`. -/
inductive ElectronCut where
  | author
  | objectQuality
  | pTMax
  | pTMin
  | etaMax
  | crackVeto
  | d0
  | d0sig
  | z0sintheta
  | likelihoodPID
  | cutBasedPID
  | isolation
  deriving DecidableEq, Repr

/-- A call of an external tool's `accept` made by `PassCuts`. -/
inductive ToolCall where
  | likelihood (wp : String)
  | cutBased (wp : String)
  | isolation
  deriving DecidableEq, Repr

/-- What one call of `ElectronSelector::PassCuts` does: the returned value, the `return 0`
taken (`none` for the final `return 1`), the decorations of the electron afterwards and the
tools whose `accept` was called, in call order. -/
structure PassCutsResult where
  value : Int
  failed : Option ElectronCut
  aux : Decorations
  calls : List ToolCall
  deriving DecidableEq, Repr

/-- The `accept` calls of a decoration loop. -/
def wpCalls (mk : String → ToolCall) (tools : List (String × PIDTool)) : List ToolCall :=
  tools.map (fun kv => mk kv.2.getOperatingPointName)

/-- The local `float d0_significance = fabs(tp->d0()) / sqrt(cov(0,0))` computed at the top of
both `PassCuts`: the machine quotient of the two values. -/
def d0_significance (arith : FloatArith) (tp : TrackParticle) : FloatValue :=
  arith.div (FloatValue.fabs (FloatValue.finite tp.d0)) tp.sqrtCov00

/-- The local `float z0sintheta = (tp->z0() + tp->vz() - primaryVertex->z()) * sin(tp->theta())`
computed at the top of both `PassCuts`, one machine operation after the other. -/
def z0sintheta (arith : FloatArith) (tp : TrackParticle) (primaryVertex : Vertex) : FloatValue :=
  arith.mul
    (arith.sub (arith.add (FloatValue.finite tp.z0) (FloatValue.finite tp.vz))
      (FloatValue.finite primaryVertex.z))
    (FloatValue.finite tp.sinTheta)

namespace ElectronSelector

/-- The crack test `fabs(cluster eta) > 1.37 && fabs(cluster eta) < 1.52`, evaluated only when
`electron->caloCluster()` is not null. -/
def inCrack : Option ℚ → Bool
  | none => false
  | some clEta => decide (|clEta| > 137 / 100 ∧ |clEta| < 152 / 100)

/-- The isolation step and the final `return 1` of `PassCuts`. -/
def passIsolation (cfg : ElectronSelector) (electron : Electron) (aux : Decorations)
    (calls : List ToolCall) : PassCutsResult :=
  let passIso := cfg.m_IsolationSelectionTool electron
  let aux1 := auxdecor aux "isIsolated" (if passIso then 1 else 0)
  let calls1 := calls ++ [ToolCall.isolation]
  if cfg.m_doIsolation && !passIso then
    { value := 0, failed := some ElectronCut.isolation, aux := aux1, calls := calls1 }
  else
    { value := 1, failed := none, aux := aux1, calls := calls1 }

/-- The cut-based identification step of `PassCuts` and what follows it. The result is `none`
when the configured operating point is looked up and is not a key of the tool map (the source
dereferences `end()`). -/
def passCutBasedPID (cfg : ElectronSelector) (electron : Electron) (aux : Decorations)
    (calls : List ToolCall) : Option PassCutsResult :=
  let aux1 := cfg.m_el_CutBased_PIDManager.setDecorations aux
  let myCutBasedTools := cfg.m_el_CutBased_PIDManager.getValidTools
  let decorate : List ToolCall → PassCutsResult := fun calls1 =>
    passIsolation cfg electron (decorateWPs myCutBasedTools electron aux1)
      (calls1 ++ wpCalls ToolCall.cutBased myCutBasedTools)
  if cfg.m_doCutBasedPIDcut then
    match findTool myCutBasedTools cfg.m_CutBasedOperatingPoint with
    | none => none
    | some tool =>
      let calls1 := calls ++ [ToolCall.cutBased tool.getOperatingPointName]
      if !tool.accept electron then
        some { value := 0, failed := some ElectronCut.cutBasedPID, aux := aux1, calls := calls1 }
      else
        some (decorate calls1)
  else
    some (decorate calls)

/-- The likelihood identification step of `PassCuts` and what follows it; `none` as for
`passCutBasedPID`. -/
def passLikelihoodPID (cfg : ElectronSelector) (electron : Electron) (aux : Decorations) :
    Option PassCutsResult :=
  let aux1 := cfg.m_el_LH_PIDManager.setDecorations aux
  let myLHTools := cfg.m_el_LH_PIDManager.getValidTools
  let decorate : List ToolCall → Option PassCutsResult := fun calls1 =>
    passCutBasedPID cfg electron (decorateWPs myLHTools electron aux1)
      (calls1 ++ wpCalls ToolCall.likelihood myLHTools)
  if cfg.m_doLHPIDcut then
    match findTool myLHTools cfg.m_LHOperatingPoint with
    | none => none
    | some tool =>
      let calls1 := [ToolCall.likelihood tool.getOperatingPointName]
      if !tool.accept electron then
        some { value := 0, failed := some ElectronCut.likelihoodPID, aux := aux1, calls := calls1 }
      else
        decorate calls1
  else
    decorate []

/-- The criteria of `PassCuts` that precede identification: the first `return 0` taken among
author, object quality, pT max, pT min, |eta| max, crack veto, d0, d0 significance and
z0 sin(theta), or `none` when the electron reaches the identification step. -/
def kinematicCut (cfg : ElectronSelector) (electron : Electron) (primaryVertex : Vertex) :
    Option ElectronCut :=
  let et := electron.pt
  let eta := electron.eta
  let oq : Nat := electron.OQ &&& 1446
  let tp := electron.trackParticle
  if cfg.m_doAuthorCut && !(electron.authorElectron || electron.authorAmbiguous) then
    some ElectronCut.author
  else if cfg.m_doOQCut && !(oq == 0) then
    some ElectronCut.objectQuality
  else if cfg.m_pT_max ≠ sentinel ∧ et > cfg.m_pT_max then
    some ElectronCut.pTMax
  else if cfg.m_pT_min ≠ sentinel ∧ et < cfg.m_pT_min then
    some ElectronCut.pTMin
  else if cfg.m_eta_max ≠ sentinel ∧ |eta| > cfg.m_eta_max then
    some ElectronCut.etaMax
  else if cfg.m_vetoCrack && inCrack electron.caloCluster then
    some ElectronCut.crackVeto
  else if ¬ (tp.d0 < cfg.m_d0_max) then
    some ElectronCut.d0
  else if ¬ ((d0_significance cfg.floatArith tp).lt cfg.m_d0sig_max) then
    some ElectronCut.d0sig
  else if ¬ ((z0sintheta cfg.floatArith tp primaryVertex).fabs.lt cfg.m_z0sintheta_max) then
    some ElectronCut.z0sintheta
  else
    none

/-- `ElectronSelector::PassCuts`. -/
def PassCuts (cfg : ElectronSelector) (electron : Electron) (aux : Decorations)
    (primaryVertex : Vertex) : Option PassCutsResult :=
  match kinematicCut cfg electron primaryVertex with
  | some cut => some { value := 0, failed := some cut, aux := aux, calls := [] }
  | none => passLikelihoodPID cfg electron aux

end ElectronSelector

/-! ## MuonSelector -/

/-- Configuration members of `MuonSelector`, with the tool created by `initialize` and the
floating-point arithmetic `floatArith` of the machine the selector runs on. -/
structure MuonSelector where
  m_inContainerName : String
  m_outContainerName : String
  m_decorateSelectedObjects : Bool
  m_createSelectedContainer : Bool
  m_nToProcess : Int
  m_muonQuality : String
  m_muonType : String
  m_pass_max : Int
  m_pass_min : Int
  m_pT_max : ℚ
  m_pT_min : ℚ
  m_eta_max : ℚ
  m_d0_max : ℚ
  m_d0sig_max : ℚ
  m_z0sintheta_max : ℚ
  m_doIsolation : Bool
  m_CaloBasedIsoType : String
  m_CaloBasedIsoCut : ℚ
  m_TrackBasedIsoType : String
  m_TrackBasedIsoCut : ℚ
  m_passAuxDecorKeys : String
  m_failAuxDecorKeys : String
  m_muonSelectionTool : Muon → Bool
  floatArith : FloatArith

/-- Modelled from the spec: `HelperClasses::EnumParser<xAOD::Muon::MuonType>::parseEnum`, which
is defined outside the two selector sources; the known muon types are Combined,
MuonStandAlone, SegmentTagged, CaloTagged and SiliconAssociatedForwardMuon, and any other name
has no value. -/
def parseMuonType (name : String) : Option MuonType :=
  if name = "Combined" then some MuonType.Combined
  else if name = "MuonStandAlone" then some MuonType.MuonStandAlone
  else if name = "SegmentTagged" then some MuonType.SegmentTagged
  else if name = "CaloTagged" then some MuonType.CaloTagged
  else if name = "SiliconAssociatedForwardMuon" then some MuonType.SiliconAssociatedForwardMuon
  else none

/-- The criteria of `MuonSelector::PassCuts`, in the order of their `return 0`. -/
inductive MuonCut where
  | pTMax
  | pTMin
  | etaMax
  | d0
  | d0sig
  | z0sintheta
  | muonType
  | isolation
  | selectionTool
  deriving DecidableEq, Repr

/-- What one call of `MuonSelector::PassCuts` returns: the value and the `return 0` taken
(`none` for the final `return 1`). -/
structure MuonPassCutsResult where
  value : Int
  failed : Option MuonCut
  deriving DecidableEq, Repr

namespace MuonSelector

/-- The isolation step of `MuonSelector::PassCuts`: `true` when the muon is rejected by it.
Nothing is tested unless both isolation variables can be retrieved. -/
def failsIsolation (cfg : MuonSelector) (muon : Muon) : Bool :=
  match muon.isolation.lookup cfg.m_TrackBasedIsoType,
        muon.isolation.lookup cfg.m_CaloBasedIsoType with
  | some ptcone_dr, some etcone_dr =>
    let isTrackIso : Bool :=
      decide (ptcone_dr / muon.pt > 0 ∧ ptcone_dr / muon.pt < cfg.m_TrackBasedIsoCut)
    let isCaloIso : Bool :=
      decide (etcone_dr / muon.pt > 0 ∧ etcone_dr / muon.pt < cfg.m_CaloBasedIsoCut)
    !(isTrackIso && isCaloIso)
  | _, _ => false

/-- The last two steps of `MuonSelector::PassCuts`: isolation and the muon selection tool. -/
def passIsoTool (cfg : MuonSelector) (muon : Muon) : MuonPassCutsResult :=
  if cfg.m_doIsolation && failsIsolation cfg muon then
    { value := 0, failed := some MuonCut.isolation }
  else if !cfg.m_muonSelectionTool muon then
    { value := 0, failed := some MuonCut.selectionTool }
  else
    { value := 1, failed := none }

/-- The type requirement of `MuonSelector::PassCuts` and what follows it. The result is `none`
when `m_muonType` is not empty and is not the name of a muon type. -/
def passType (cfg : MuonSelector) (muon : Muon) : Option MuonPassCutsResult :=
  if cfg.m_muonType ≠ "" then
    match parseMuonType cfg.m_muonType with
    | none => none
    | some required =>
      if muon.muonType ≠ required then some { value := 0, failed := some MuonCut.muonType }
      else some (passIsoTool cfg muon)
  else
    some (passIsoTool cfg muon)

/-- `MuonSelector::PassCuts`. -/
def PassCuts (cfg : MuonSelector) (muon : Muon) (primaryVertex : Vertex) :
    Option MuonPassCutsResult :=
  let tp := muon.primaryTrackParticle
  let type := muon.muonType
  if cfg.m_pT_max ≠ sentinel ∧ muon.pt > cfg.m_pT_max then
    some { value := 0, failed := some MuonCut.pTMax }
  else if cfg.m_pT_min ≠ sentinel ∧ muon.pt < cfg.m_pT_min then
    some { value := 0, failed := some MuonCut.pTMin }
  else if cfg.m_eta_max ≠ sentinel ∧ |muon.eta| > cfg.m_eta_max then
    some { value := 0, failed := some MuonCut.etaMax }
  else if type ≠ MuonType.MuonStandAlone ∧ ¬ (tp.d0 < cfg.m_d0_max) then
    some { value := 0, failed := some MuonCut.d0 }
  else if type ≠ MuonType.MuonStandAlone ∧
      ¬ ((d0_significance cfg.floatArith tp).lt cfg.m_d0sig_max) then
    some { value := 0, failed := some MuonCut.d0sig }
  else if type ≠ MuonType.MuonStandAlone ∧
      ¬ ((z0sintheta cfg.floatArith tp primaryVertex).fabs.lt cfg.m_z0sintheta_max) then
    some { value := 0, failed := some MuonCut.z0sintheta }
  else
    passType cfg muon

end MuonSelector

/-! ## The event store -/

/-- The objects the selectors read from and record to the store. A `selectedElectrons` or
`selectedMuons` object is a `ConstDataVector` created with `SG::VIEW_ELEMENTS`: it holds
pointers to objects of the input container, given here by their positions in it. -/
inductive StoreObj where
  | eventInfo (mcEventWeight : Option ℚ)
  | vertices (primaryVertex : Vertex)
  | electrons (container : List (Decorated Electron))
  | muons (container : List (Decorated Muon))
  | selectedElectrons (view : List Nat)
  | selectedMuons (view : List Nat)
  | systNames (names : List String)
  deriving DecidableEq, Repr

/-- Modelled from the spec: the event store (`xAOD::TEvent`/`xAOD::TStore` behind
`HelperFunctions::retrieve`, all defined outside the two selector sources) is a table from
keys to objects; a retrieval fails when the object is absent, and recording under a key that
is already taken is an error. -/
abbrev Store := List (String × StoreObj)

namespace Store

/-- Retrieval of the event information: its `mcEventWeight` decoration, if available. -/
def retrieveEventInfo (st : Store) (key : String) : Option (Option ℚ) :=
  match st.lookup key with
  | some (StoreObj.eventInfo w) => some w
  | _ => none

/-- Retrieval of the vertex container, with its primary vertex. -/
def retrieveVertices (st : Store) (key : String) : Option Vertex :=
  match st.lookup key with
  | some (StoreObj.vertices pvx) => some pvx
  | _ => none

/-- Retrieval of an electron container. -/
def retrieveElectrons (st : Store) (key : String) : Option (List (Decorated Electron)) :=
  match st.lookup key with
  | some (StoreObj.electrons c) => some c
  | _ => none

/-- Retrieval of a muon container. -/
def retrieveMuons (st : Store) (key : String) : Option (List (Decorated Muon)) :=
  match st.lookup key with
  | some (StoreObj.muons c) => some c
  | _ => none

/-- Retrieval of a list of systematic names. -/
def retrieveSystNames (st : Store) (key : String) : Option (List String) :=
  match st.lookup key with
  | some (StoreObj.systNames l) => some l
  | _ => none

/-- Recording `m_store->record(obj, key)`: `none` (a failure) when the key is taken. -/
def record (st : Store) (key : String) (obj : StoreObj) : Option Store :=
  match st.lookup key with
  | some _ => none
  | none => some (st ++ [(key, obj)])

/-- The container stored under `key` after its objects have been decorated in place. -/
def decorated (st : Store) (key : String) (obj : StoreObj) : Store :=
  st.map (fun kv => if kv.1 = key then (kv.1, obj) else kv)

end Store

/-! ## The object loop -/

/-- The cutflow members of a selector. The members are declared in the selector headers,
outside the sources: the four counts are `int` members, as in the headers of the sibling
algorithms, and hold the value `wrapInt` gives after each update; the weight sum is updated
by `FloatArith.accumulate`. -/
structure Cutflow where
  m_numEvent : Int
  m_numObject : Int
  m_numEventPass : Int
  m_weightNumEventPass : FloatValue
  m_numObjectPass : Int
  deriving DecidableEq, Repr

/-- State of the object loop when it ends: the container with the decorations written, the
counts `nObj` and `nPass`, the view pushed to the output container and the positions of the
objects that were passed to `PassCuts`. -/
structure LoopResult (α : Type) where
  objects : List (Decorated α)
  nObj : Int
  nPass : Int
  selected : List Nat
  evaluated : List Nat
  deriving DecidableEq, Repr

/-- The loop over the input container, written once for `ElectronSelector::executeSelection`
and `MuonSelector::executeConst` (the source has the same loop in both). `passCuts` gives the
value stored in the local `passSel` and the decorations of the object after the call; `idx` is
the position of the first object of the list in the container. -/
def selectionLoop {α : Type} (passCuts : α → Decorations → Option (Int × Decorations))
    (m_nToProcess : Int) (m_decorateSelectedObjects m_createSelectedContainer : Bool) :
    Nat → List (Decorated α) → Int → Int → List Nat → List Nat → Option (LoopResult α)
  | _, [], nObj, nPass, selected, evaluated =>
    some { objects := [], nObj := nObj, nPass := nPass, selected := selected,
           evaluated := evaluated }
  | idx, x :: rest, nObj, nPass, selected, evaluated =>
    if m_nToProcess > 0 ∧ nObj ≥ m_nToProcess then
      if m_decorateSelectedObjects then
        (selectionLoop passCuts m_nToProcess m_decorateSelectedObjects m_createSelectedContainer
            (idx + 1) rest nObj nPass selected evaluated).map
          (fun r => { r with objects := { x with aux := auxdecor x.aux "passSel" (-1) } :: r.objects })
      else
        some { objects := x :: rest, nObj := nObj, nPass := nPass, selected := selected,
               evaluated := evaluated }
    else
      match passCuts x.obj x.aux with
      | none => none
      | some (passSel, aux) =>
        let aux1 := if m_decorateSelectedObjects then auxdecor aux "passSel" passSel else aux
        let nPass1 := if passSel ≠ 0 then nPass + 1 else nPass
        let selected1 :=
          if passSel ≠ 0 ∧ m_createSelectedContainer = true then selected ++ [idx] else selected
        (selectionLoop passCuts m_nToProcess m_decorateSelectedObjects m_createSelectedContainer
            (idx + 1) rest (nObj + 1) nPass1 selected1 (evaluated ++ [idx])).map
          (fun r => { r with objects := { obj := x.obj, aux := aux1 } :: r.objects })

/-- Result of a selector run over one container. -/
structure SelectionResult (α : Type) where
  eventPass : Bool
  cutflow : Cutflow
  objects : List (Decorated α)
  nObj : Int
  nPass : Int
  selected : List Nat
  evaluated : List Nat
  deriving DecidableEq, Repr

/-- State after `execute`: the status returned, the cutflow members, the store and whether
`wk()->skipEvent()` was called. -/
structure ExecResult where
  status : StatusCode
  cutflow : Cutflow
  store : Store
  skipEvent : Bool
  deriving DecidableEq, Repr

namespace ElectronSelector

/-- The call `bool passSel = this->PassCuts( el_itr, pvx )` of the loop body. -/
def passSel (cfg : ElectronSelector) (pvx : Vertex) (electron : Electron) (aux : Decorations) :
    Option (Int × Decorations) :=
  (PassCuts cfg electron aux pvx).map (fun r => (if r.value ≠ 0 then 1 else 0, r.aux))

/-- `ElectronSelector::executeSelection`. When `PrimaryVertices` cannot be retrieved the
`RETURN_CHECK` returns `EL::StatusCode::FAILURE` from this `bool` function, that is `false`. -/
def executeSelection (cfg : ElectronSelector) (st : Store) (c : Cutflow)
    (inElectrons : List (Decorated Electron)) (mcEvtWeight : ℚ) (countPass : Bool) :
    Option (SelectionResult Electron) :=
  match st.retrieveVertices "PrimaryVertices" with
  | none =>
    some { eventPass := false, cutflow := c, objects := inElectrons, nObj := 0, nPass := 0,
           selected := [], evaluated := [] }
  | some pvx =>
    match selectionLoop (passSel cfg pvx) cfg.m_nToProcess cfg.m_decorateSelectedObjects
        cfg.m_createSelectedContainer 0 inElectrons 0 0 [] [] with
    | none => none
    | some r =>
      let c1 : Cutflow :=
        if countPass then
          { c with m_numObject := wrapInt (c.m_numObject + r.nObj),
                   m_numObjectPass := wrapInt (c.m_numObjectPass + r.nPass) }
        else c
      if cfg.m_pass_min > 0 ∧ r.nPass < cfg.m_pass_min then
        some { eventPass := false, cutflow := c1, objects := r.objects, nObj := r.nObj,
               nPass := r.nPass, selected := r.selected, evaluated := r.evaluated }
      else if cfg.m_pass_max > 0 ∧ r.nPass > cfg.m_pass_max then
        some { eventPass := false, cutflow := c1, objects := r.objects, nObj := r.nObj,
               nPass := r.nPass, selected := r.selected, evaluated := r.evaluated }
      else
        let c2 : Cutflow :=
          if countPass then
            { c1 with m_numEventPass := wrapInt (c1.m_numEventPass + 1),
                      m_weightNumEventPass :=
                        cfg.floatArith.accumulate c1.m_weightNumEventPass
                          (FloatValue.finite mcEvtWeight) }
          else c1
        some { eventPass := true, cutflow := c2, objects := r.objects, nObj := r.nObj,
               nPass := r.nPass, selected := r.selected, evaluated := r.evaluated }

/-- State of the loop over systematic names in `execute`: `ok` is `false` when a
`RETURN_CHECK` has returned `FAILURE`. -/
structure FanOut where
  ok : Bool
  cutflow : Cutflow
  store : Store
  eventPass : Bool
  vecOutContainerNames : List String
  deriving DecidableEq, Repr

/-- The loop `for ( auto systName : *systNames )` of `execute`. -/
def systLoop (cfg : ElectronSelector) (mcEvtWeight : ℚ) :
    List String → Cutflow → Store → Bool → Bool → List String → Option FanOut
  | [], c, st, _, eventPass, vecOut =>
    some { ok := true, cutflow := c, store := st, eventPass := eventPass,
           vecOutContainerNames := vecOut }
  | systName :: rest, c, st, countPass, eventPass, vecOut =>
    match st.retrieveElectrons (cfg.m_inContainerName ++ systName) with
    | none =>
      some { ok := false, cutflow := c, store := st, eventPass := eventPass,
             vecOutContainerNames := vecOut }
    | some inElectrons =>
      match executeSelection cfg st c inElectrons mcEvtWeight countPass with
      | none => none
      | some r =>
        let st1 := st.decorated (cfg.m_inContainerName ++ systName) (StoreObj.electrons r.objects)
        let eventPassThisSyst := r.eventPass
        let vecOut1 := if eventPassThisSyst then vecOut ++ [systName] else vecOut
        let eventPass1 := eventPass || eventPassThisSyst
        if cfg.m_createSelectedContainer && eventPassThisSyst then
          match st1.record (cfg.m_outContainerName ++ systName)
              (StoreObj.selectedElectrons r.selected) with
          | none =>
            some { ok := false, cutflow := r.cutflow, store := st1, eventPass := eventPass1,
                   vecOutContainerNames := vecOut1 }
          | some st2 => systLoop cfg mcEvtWeight rest r.cutflow st2 false eventPass1 vecOut1
        else
          systLoop cfg mcEvtWeight rest r.cutflow st1 false eventPass1 vecOut1

/-- The end of `execute`: `skipEvent` when no collection passed; the status is `SUCCESS`. -/
def finish (c : Cutflow) (st : Store) (eventPass : Bool) : ExecResult :=
  { status := StatusCode.SUCCESS, cutflow := c, store := st, skipEvent := !eventPass }

/-- A `RETURN_CHECK` of `execute` that returns `FAILURE`. -/
def failure (c : Cutflow) (st : Store) : ExecResult :=
  { status := StatusCode.FAILURE, cutflow := c, store := st, skipEvent := false }

/-- `ElectronSelector::execute`. -/
def execute (cfg : ElectronSelector) (c : Cutflow) (st : Store) : Option ExecResult :=
  match st.retrieveEventInfo "EventInfo" with
  | none => some (failure c st)
  | some none => some (failure c st)
  | some (some mcEvtWeight) =>
    let c0 : Cutflow := { c with m_numEvent := wrapInt (c.m_numEvent + 1) }
    if cfg.m_inputAlgoSystNames = "" then
      match st.retrieveElectrons cfg.m_inContainerName with
      | none => some (failure c0 st)
      | some inElectrons =>
        match executeSelection cfg st c0 inElectrons mcEvtWeight true with
        | none => none
        | some r =>
          let st1 := st.decorated cfg.m_inContainerName (StoreObj.electrons r.objects)
          if cfg.m_createSelectedContainer && r.eventPass then
            match st1.record cfg.m_outContainerName (StoreObj.selectedElectrons r.selected) with
            | none => some (failure r.cutflow st1)
            | some st2 => some (finish r.cutflow st2 r.eventPass)
          else
            some (finish r.cutflow st1 r.eventPass)
    else
      match st.retrieveSystNames cfg.m_inputAlgoSystNames with
      | none => some (failure c0 st)
      | some systNames =>
        match systLoop cfg mcEvtWeight systNames c0 st true false [] with
        | none => none
        | some f =>
          if f.ok then
            match f.store.record cfg.m_outputAlgoSystNames
                (StoreObj.systNames f.vecOutContainerNames) with
            | none => some (failure f.cutflow f.store)
            | some st2 => some (finish f.cutflow st2 f.eventPass)
          else
            some (failure f.cutflow f.store)

end ElectronSelector

namespace MuonSelector

/-- The call `int passSel = this->PassCuts( mu_itr, pvx )` of the loop body. -/
def passSel (cfg : MuonSelector) (pvx : Vertex) (muon : Muon) (aux : Decorations) :
    Option (Int × Decorations) :=
  (PassCuts cfg muon pvx).map (fun r => (r.value, aux))

/-- Result of `MuonSelector::executeConst`: the state after it and the loop results. -/
structure ConstResult where
  exec : ExecResult
  objects : List (Decorated Muon)
  nObj : Int
  nPass : Int
  selected : List Nat
  evaluated : List Nat
  deriving DecidableEq, Repr

/-- `MuonSelector::executeConst`; `key` is the store key of `inMuons`, whose objects the loop
decorates in place. -/
def executeConst (cfg : MuonSelector) (c : Cutflow) (st : Store) (key : String)
    (inMuons : List (Decorated Muon)) (mcEvtWeight : ℚ) : Option ConstResult :=
  match st.retrieveVertices "PrimaryVertices" with
  | none =>
    some { exec := { status := StatusCode.FAILURE, cutflow := c, store := st, skipEvent := false },
           objects := inMuons, nObj := 0, nPass := 0, selected := [], evaluated := [] }
  | some pvx =>
    match selectionLoop (passSel cfg pvx) cfg.m_nToProcess cfg.m_decorateSelectedObjects
        cfg.m_createSelectedContainer 0 inMuons 0 0 [] [] with
    | none => none
    | some r =>
      let st1 := st.decorated key (StoreObj.muons r.objects)
      let c1 : Cutflow :=
        { c with m_numObject := wrapInt (c.m_numObject + r.nObj),
                 m_numObjectPass := wrapInt (c.m_numObjectPass + r.nPass) }
      let result : ExecResult → ConstResult := fun e =>
        { exec := e, objects := r.objects, nObj := r.nObj, nPass := r.nPass,
          selected := r.selected, evaluated := r.evaluated }
      if cfg.m_pass_min > 0 ∧ r.nPass < cfg.m_pass_min then
        some (result { status := StatusCode.SUCCESS, cutflow := c1, store := st1,
                       skipEvent := true })
      else if cfg.m_pass_max > 0 ∧ r.nPass > cfg.m_pass_max then
        some (result { status := StatusCode.SUCCESS, cutflow := c1, store := st1,
                       skipEvent := true })
      else
        let c2 : Cutflow :=
          { c1 with m_numEventPass := wrapInt (c1.m_numEventPass + 1),
                    m_weightNumEventPass :=
                      cfg.floatArith.accumulate c1.m_weightNumEventPass
                        (FloatValue.finite mcEvtWeight) }
        if cfg.m_createSelectedContainer then
          match st1.record cfg.m_outContainerName (StoreObj.selectedMuons r.selected) with
          | none =>
            some (result { status := StatusCode.FAILURE, cutflow := c2, store := st1,
                           skipEvent := false })
          | some st2 =>
            some (result { status := StatusCode.SUCCESS, cutflow := c2, store := st2,
                           skipEvent := false })
        else
          some (result { status := StatusCode.SUCCESS, cutflow := c2, store := st1,
                         skipEvent := false })

/-- `MuonSelector::execute`. -/
def execute (cfg : MuonSelector) (c : Cutflow) (st : Store) : Option ExecResult :=
  match st.retrieveEventInfo "EventInfo" with
  | none => some { status := StatusCode.FAILURE, cutflow := c, store := st, skipEvent := false }
  | some none =>
    some { status := StatusCode.FAILURE, cutflow := c, store := st, skipEvent := false }
  | some (some mcEvtWeight) =>
    let c0 : Cutflow := { c with m_numEvent := wrapInt (c.m_numEvent + 1) }
    match st.retrieveMuons cfg.m_inContainerName with
    | none =>
      some { status := StatusCode.FAILURE, cutflow := c0, store := st, skipEvent := false }
    | some inMuons =>
      (executeConst cfg c0 st cfg.m_inContainerName inMuons mcEvtWeight).map (fun r => r.exec)

end MuonSelector

/-! ## A sequence of events -/

/-- The cutflow members after `ElectronSelector::execute` has been called once for each event
of the list, in turn, whatever status each call returns; `none` when a call does not
return. -/
def ElectronSelector.executeEvents (cfg : ElectronSelector) : Cutflow → List Store → Option Cutflow
  | c, [] => some c
  | c, st :: rest =>
    match ElectronSelector.execute cfg c st with
    | none => none
    | some r => ElectronSelector.executeEvents cfg r.cutflow rest

/-- The cutflow members after `MuonSelector::execute` has been called once for each event of
the list, in turn, whatever status each call returns. -/
def MuonSelector.executeEvents (cfg : MuonSelector) : Cutflow → List Store → Option Cutflow
  | c, [] => some c
  | c, st :: rest =>
    match MuonSelector.execute cfg c st with
    | none => none
    | some r => MuonSelector.executeEvents cfg r.cutflow rest

/-! ## configure and initialize -/

/-- The loop `while ( std::getline(ss, token, ',') ) keys.push_back(token);` on the characters
that are left in the stream, `cur` being the characters already extracted into the token.
A comma ends the token, which is pushed whether or not it is empty; at the end of the stream
the token is pushed when characters were extracted into it, and `getline` fails otherwise. -/
def getlineTokens (cur : List Char) : List Char → List (List Char)
  | [] => if cur = [] then [] else [cur]
  | c :: cs => if c = ',' then cur :: getlineTokens [] cs else getlineTokens (cur ++ [c]) cs

/-- The keys that the parsing block of `configure` pushes for one comma-separated string. -/
def parseKeys (s : String) : List String :=
  (getlineTokens [] s.data).map String.mk

/-- What `configure` leaves behind: its status and the two key lists. -/
structure ConfigureResult where
  status : StatusCode
  m_passKeys : List String
  m_failKeys : List String
  deriving DecidableEq, Repr

/-- `ElectronSelector::configure`, from the test of `m_inContainerName` on; `cfg` holds the
members as they are after the optional read of the configuration file, and the key lists are
empty before the call. -/
def ElectronSelector.configure (cfg : ElectronSelector) : ConfigureResult :=
  if cfg.m_inContainerName = "" then
    { status := StatusCode.FAILURE, m_passKeys := [], m_failKeys := [] }
  else if cfg.m_LHOperatingPoint ≠ "VeryLoose" ∧ cfg.m_LHOperatingPoint ≠ "Loose" ∧
      cfg.m_LHOperatingPoint ≠ "Medium" ∧ cfg.m_LHOperatingPoint ≠ "Tight" ∧
      cfg.m_LHOperatingPoint ≠ "VeryTight" then
    { status := StatusCode.FAILURE, m_passKeys := [], m_failKeys := [] }
  else if cfg.m_CutBasedOperatingPoint ≠ "IsEMLoose" ∧
      cfg.m_CutBasedOperatingPoint ≠ "IsEMMedium" ∧
      cfg.m_CutBasedOperatingPoint ≠ "IsEMTight" then
    { status := StatusCode.FAILURE, m_passKeys := [], m_failKeys := [] }
  else
    { status := StatusCode.SUCCESS,
      m_passKeys := parseKeys cfg.m_passAuxDecorKeys,
      m_failKeys := parseKeys cfg.m_failAuxDecorKeys }

/-- `ElectronSelector::initialize`: the status and the counters it leaves. `toolSetup` is the
outcome of the set-up calls of the external tools, which come after the counters are reset. -/
def ElectronSelector.initialize (cfg : ElectronSelector) (c : Cutflow)
    (toolSetup : StatusCode) : StatusCode × Cutflow :=
  if (ElectronSelector.configure cfg).status = StatusCode.FAILURE then
    (StatusCode.FAILURE, c)
  else
    (toolSetup,
     { m_numEvent := 0, m_numObject := 0, m_numEventPass := 0, m_weightNumEventPass := 0,
       m_numObjectPass := 0 })

/-- The names inserted into `muonQualitySet` by `MuonSelector::configure`. -/
def muonQualitySet : List String := ["Tight", "Medium", "Loose", "VeryLoose"]

/-- The names inserted into `muonTypeSet` by `MuonSelector::configure`. -/
def muonTypeSet : List String :=
  ["", "Combined", "MuonStandAlone", "SegmentTagged", "CaloTagged",
   "SiliconAssociatedForwardMuon"]

/-- `MuonSelector::configure`, from the test of `m_muonQuality` on; the keys are parsed before
`m_inContainerName` is tested. -/
def MuonSelector.configure (cfg : MuonSelector) : ConfigureResult :=
  if cfg.m_muonQuality ∉ muonQualitySet then
    { status := StatusCode.FAILURE, m_passKeys := [], m_failKeys := [] }
  else if cfg.m_muonType ∉ muonTypeSet then
    { status := StatusCode.FAILURE, m_passKeys := [], m_failKeys := [] }
  else
    let m_passKeys := parseKeys cfg.m_passAuxDecorKeys
    let m_failKeys := parseKeys cfg.m_failAuxDecorKeys
    if cfg.m_inContainerName = "" then
      { status := StatusCode.FAILURE, m_passKeys := m_passKeys, m_failKeys := m_failKeys }
    else
      { status := StatusCode.SUCCESS, m_passKeys := m_passKeys, m_failKeys := m_failKeys }

/-- `MuonSelector::initialize`: the status and the counters it leaves. `toolSetup` is the
outcome of the set-up calls of the muon selection tool, which come after the counters are
reset. -/
def MuonSelector.initialize (cfg : MuonSelector) (c : Cutflow)
    (toolSetup : StatusCode) : StatusCode × Cutflow :=
  if (MuonSelector.configure cfg).status = StatusCode.FAILURE then
    (StatusCode.FAILURE, c)
  else
    (toolSetup,
     { m_numEvent := 0, m_numObject := 0, m_numEventPass := 0, m_weightNumEventPass := 0,
       m_numObjectPass := 0 })

/-! ## Comma-separated segments, as the specification reads a key string -/

/-- The comma-separated segments of a string, empty ones included: one more segment than
there are commas. -/
def commaSegments : List Char → List (List Char)
  | [] => [[]]
  | c :: cs =>
    if c = ',' then [] :: commaSegments cs
    else
      match commaSegments cs with
      | [] => [[c]]
      | s :: rest => (c :: s) :: rest

/-- A list of segments without its last segment when that one is empty. -/
def dropTrailingEmpty (l : List (List Char)) : List (List Char) :=
  if l.getLast? = some [] then l.dropLast else l

/-! ## Example configurations and events -/

/-- A likelihood manager with three valid working points; `Loose` accepts an electron of
pT above 10, `Medium` above 20 and `Tight` above 30 (in GeV). -/
def exampleLH : PIDManager :=
  { m_allWPAuxDecors := [("VeryLoose", -1), ("Loose", -1), ("Medium", -1), ("Tight", -1),
                         ("VeryTight", -1)],
    m_validWPTools :=
      [("Loose", { getOperatingPointName := "Loose", accept := fun e => decide (e.pt > 10) }),
       ("Medium", { getOperatingPointName := "Medium", accept := fun e => decide (e.pt > 20) }),
       ("Tight", { getOperatingPointName := "Tight", accept := fun e => decide (e.pt > 30) })] }

/-- A cut-based manager with two valid working points. -/
def exampleCutBased : PIDManager :=
  { m_allWPAuxDecors := [("IsEMLoose", -1), ("IsEMMedium", -1), ("IsEMTight", -1)],
    m_validWPTools :=
      [("IsEMLoose",
        { getOperatingPointName := "IsEMLoose", accept := fun e => decide (e.pt > 10) }),
       ("IsEMMedium",
        { getOperatingPointName := "IsEMMedium", accept := fun e => decide (e.pt > 20) })] }

/-- Sign bit of a value; NaN has none here. -/
def FloatValue.isNegative : FloatValue → Bool
  | .finite value => decide (value < 0)
  | .negZero => true
  | .posInf => false
  | .negInf => true
  | .nan => false

/-- The rational a finite value or a zero denotes; `0` for the others. -/
def FloatValue.toRat : FloatValue → ℚ
  | .finite value => value
  | _ => 0

/-- Whether the value is an infinity. -/
def FloatValue.isInfinite : FloatValue → Bool
  | .posInf => true
  | .negInf => true
  | _ => false

/-- Whether the value is NaN. -/
def FloatValue.isNaN : FloatValue → Bool
  | .nan => true
  | _ => false

/-- The infinity of the given sign. -/
def FloatValue.signedInf (negative : Bool) : FloatValue :=
  if negative then FloatValue.negInf else FloatValue.posInf

/-- The zero of the given sign. -/
def FloatValue.signedZero (negative : Bool) : FloatValue :=
  if negative then FloatValue.negZero else FloatValue.finite 0

/-- The value of `-x`. -/
def FloatValue.negate : FloatValue → FloatValue
  | .finite value => if value = 0 then .negZero else .finite (-value)
  | .negZero => .finite 0
  | .posInf => .negInf
  | .negInf => .posInf
  | .nan => .nan

/-- Sum without rounding, with the IEEE results on zeros, infinities and NaN. -/
def exactAdd (x y : FloatValue) : FloatValue :=
  if x.isNaN || y.isNaN then .nan
  else if x.isInfinite && y.isInfinite then
    (if x.isNegative = y.isNegative then x else .nan)
  else if x.isInfinite then x
  else if y.isInfinite then y
  else if x = .negZero ∧ y = .negZero then .negZero
  else .finite (x.toRat + y.toRat)

/-- Difference without rounding: the sum with the negated value. -/
def exactSub (x y : FloatValue) : FloatValue :=
  exactAdd x y.negate

/-- Product without rounding, with the IEEE results on zeros, infinities and NaN. -/
def exactMul (x y : FloatValue) : FloatValue :=
  let negative := xor x.isNegative y.isNegative
  if x.isNaN || y.isNaN then .nan
  else if x.isInfinite || y.isInfinite then
    (if (!x.isInfinite && x.toRat = 0) || (!y.isInfinite && y.toRat = 0) then .nan
     else FloatValue.signedInf negative)
  else if x.toRat * y.toRat = 0 then FloatValue.signedZero negative
  else .finite (x.toRat * y.toRat)

/-- Quotient without rounding, with the IEEE results on zeros, infinities and NaN: a nonzero
value over a zero is an infinity, a zero over a zero is NaN. -/
def exactDiv (x y : FloatValue) : FloatValue :=
  let negative := xor x.isNegative y.isNegative
  if x.isNaN || y.isNaN then .nan
  else if x.isInfinite then (if y.isInfinite then .nan else FloatValue.signedInf negative)
  else if y.isInfinite then FloatValue.signedZero negative
  else if y.toRat = 0 then (if x.toRat = 0 then .nan else FloatValue.signedInf negative)
  else if x.toRat = 0 then FloatValue.signedZero negative
  else .finite (x.toRat / y.toRat)

/-- The arithmetic of the examples: no operation rounds. It agrees with IEEE arithmetic of
either precision on every operation whose exact result is representable, which is the case of
the operations of the examples (small integers and halves). -/
def exactArith : FloatArith :=
  { add := exactAdd
    sub := exactSub
    mul := exactMul
    div := exactDiv
    accumulate := exactAdd }

/-- The default configuration of `ElectronSelector::configure` (the defaults of its
`GetValue` calls), reading `Electrons` and writing `SelEl`, with the example tools and an
isolation tool that accepts an electron of |eta| below 2. -/
def exampleElectronSelector : ElectronSelector :=
  { m_inContainerName := "Electrons"
    m_outContainerName := "SelEl"
    m_inputAlgoSystNames := ""
    m_outputAlgoSystNames := "ElectronSelector_Syst"
    m_decorateSelectedObjects := true
    m_createSelectedContainer := false
    m_nToProcess := -1
    m_pass_max := -1
    m_pass_min := -1
    m_pT_max := sentinel
    m_pT_min := sentinel
    m_eta_max := sentinel
    m_vetoCrack := true
    m_d0_max := sentinel
    m_d0sig_max := sentinel
    m_z0sintheta_max := sentinel
    m_doAuthorCut := true
    m_doOQCut := true
    m_doLHPIDcut := false
    m_LHOperatingPoint := "Loose"
    m_doCutBasedPIDcut := false
    m_CutBasedOperatingPoint := "IsEMLoose"
    m_doIsolation := false
    m_passAuxDecorKeys := ""
    m_failAuxDecorKeys := ""
    m_el_LH_PIDManager := exampleLH
    m_el_CutBased_PIDManager := exampleCutBased
    m_IsolationSelectionTool := fun e => decide (|e.eta| < 2)
    floatArith := exactArith }

/-- A track with all parameters zero and unit d0 uncertainty. -/
def exampleTrack : TrackParticle :=
  { d0 := 0, z0 := 0, vz := 0, sinTheta := 1, sqrtCov00 := FloatValue.finite 1 }

/-- An electron of the given pT at eta 0, of author Electron, with clean object quality. -/
def exampleElectron (pt : ℚ) : Electron :=
  { pt := pt, eta := 0, OQ := 0, authorElectron := true, authorAmbiguous := false,
    caloCluster := some 0, trackParticle := exampleTrack }

/-- The default configuration of `MuonSelector::configure`, reading `Muons` and writing
`SelMu`, with a selection tool that accepts a muon of |eta| below 5/2. -/
def exampleMuonSelector : MuonSelector :=
  { m_inContainerName := "Muons"
    m_outContainerName := "SelMu"
    m_decorateSelectedObjects := true
    m_createSelectedContainer := false
    m_nToProcess := -1
    m_muonQuality := "Medium"
    m_muonType := ""
    m_pass_max := -1
    m_pass_min := -1
    m_pT_max := sentinel
    m_pT_min := sentinel
    m_eta_max := sentinel
    m_d0_max := sentinel
    m_d0sig_max := sentinel
    m_z0sintheta_max := sentinel
    m_doIsolation := false
    m_CaloBasedIsoType := "etcone20"
    m_CaloBasedIsoCut := 5 / 100
    m_TrackBasedIsoType := "ptcone20"
    m_TrackBasedIsoCut := 5 / 100
    m_passAuxDecorKeys := ""
    m_failAuxDecorKeys := ""
    m_muonSelectionTool := fun m => decide (|m.eta| < 5 / 2)
    floatArith := exactArith }

/-- A combined muon of the given pT at eta 0. -/
def exampleMuon (pt : ℚ) : Muon :=
  { pt := pt, eta := 0, muonType := MuonType.Combined, primaryTrackParticle := exampleTrack,
    isolation := [] }

/-- The cutflow members as set by `initialize`. -/
def Cutflow.zero : Cutflow :=
  { m_numEvent := 0, m_numObject := 0, m_numEventPass := 0, m_weightNumEventPass := 0,
    m_numObjectPass := 0 }

/-- A store with the event information (weight 1), a primary vertex at z = 0 and the given
electrons under `Electrons`. -/
def exampleStore (electrons : List (Decorated Electron)) : Store :=
  [("EventInfo", StoreObj.eventInfo (some 1)),
   ("PrimaryVertices", StoreObj.vertices { z := 0 }),
   ("Electrons", StoreObj.electrons electrons)]

/-- The example electron configuration with the gate `PassMin = 1`, `PassMax = 2`. -/
def gatedElectronSelector : ElectronSelector :=
  { exampleElectronSelector with m_pass_min := 1, m_pass_max := 2 }

/-- The example muon configuration with the gate `PassMin = 1`, `PassMax = 2`. -/
def gatedMuonSelector : MuonSelector :=
  { exampleMuonSelector with m_pass_min := 1, m_pass_max := 2 }

/-- The example electron configuration with `NToProcess = 1`. -/
def cappedElectronSelector : ElectronSelector :=
  { exampleElectronSelector with m_nToProcess := 1 }

/-- The example muon configuration with `NToProcess = 1`. -/
def cappedMuonSelector : MuonSelector :=
  { exampleMuonSelector with m_nToProcess := 1 }

/-- The example electron configuration with `CreateSelectedContainer` enabled and
`pTMin = 10`. -/
def materializingElectronSelector : ElectronSelector :=
  { exampleElectronSelector with m_createSelectedContainer := true, m_pT_min := 10 }

/-- The example muon configuration with `CreateSelectedContainer` enabled and `pTMin = 10`. -/
def materializingMuonSelector : MuonSelector :=
  { exampleMuonSelector with m_createSelectedContainer := true, m_pT_min := 10 }

/-- The example electron configuration with the likelihood hard cut at `Medium`. -/
def mediumLHElectronSelector : ElectronSelector :=
  { exampleElectronSelector with m_doLHPIDcut := true, m_LHOperatingPoint := "Medium" }

/-- The example electron configuration in fan-out mode, with materialization, `pTMin = 10`
and `PassMin = 1`. -/
def fanOutElectronSelector : ElectronSelector :=
  { exampleElectronSelector with
    m_inputAlgoSystNames := "ElectronCalibrator_Syst"
    m_createSelectedContainer := true
    m_pT_min := 10
    m_pass_min := 1 }

/-- A store for an event with three variations: the nominal container holds an electron of
pT 5, the `SYS_UP` one an electron of pT 15 and the `SYS_DOWN` one an electron of pT 4; there
is also a muon container. The event weight is 2. -/
def fanOutStore : Store :=
  [("EventInfo", StoreObj.eventInfo (some 2)),
   ("PrimaryVertices", StoreObj.vertices { z := 0 }),
   ("ElectronCalibrator_Syst", StoreObj.systNames ["", "SYS_UP", "SYS_DOWN"]),
   ("Electrons", StoreObj.electrons [{ obj := exampleElectron 5, aux := [] }]),
   ("ElectronsSYS_UP", StoreObj.electrons [{ obj := exampleElectron 15, aux := [] }]),
   ("ElectronsSYS_DOWN", StoreObj.electrons [{ obj := exampleElectron 4, aux := [] }]),
   ("Muons", StoreObj.muons [{ obj := exampleMuon 15, aux := [] }])]

/-- The store `fanOutStore` with the list of variations cut down to its first label. -/
def fanOutStoreFirstOnly : Store :=
  fanOutStore.decorated "ElectronCalibrator_Syst" (StoreObj.systNames [""])

/-- The default muon configuration with a d0 bound that no track of d0 zero can meet. -/
def impossibleD0MuonSelector : MuonSelector :=
  { exampleMuonSelector with m_d0_max := -1 }

/-- The muon of `exampleMuon`, reconstructed as a stand-alone muon. -/
def standAloneMuon (pt : ℚ) : Muon :=
  { exampleMuon pt with muonType := MuonType.MuonStandAlone }

/-- The comma-separated segments of a key string in their order, the segment after the last
comma being left out when it is empty. -/
def keySegments (s : String) : List String :=
  (dropTrailingEmpty (commaSegments s.data)).map String.mk

/-- The default electron configuration with an unknown likelihood operating point, the
likelihood cut being disabled. -/
def unknownLHElectronSelector : ElectronSelector :=
  { exampleElectronSelector with m_LHOperatingPoint := "Bogus" }

/-- The default muon configuration with an unknown muon quality. -/
def unknownQualityMuonSelector : MuonSelector :=
  { exampleMuonSelector with m_muonQuality := "Bogus" }

/-- The default electron configuration with the pass keys `a,,b` and the fail keys `a,`. -/
def keyedElectronSelector : ElectronSelector :=
  { exampleElectronSelector with m_passAuxDecorKeys := "a,,b", m_failAuxDecorKeys := "a," }

/-- The default muon configuration with the pass keys `,a` and the fail keys `a,b`. -/
def keyedMuonSelector : MuonSelector :=
  { exampleMuonSelector with m_passAuxDecorKeys := ",a", m_failAuxDecorKeys := "a,b" }

/-- The store `fanOutStore` without the container of the last variation, `SYS_DOWN`. -/
def fanOutStoreMissingDown : Store :=
  [("EventInfo", StoreObj.eventInfo (some 2)),
   ("PrimaryVertices", StoreObj.vertices { z := 0 }),
   ("ElectronCalibrator_Syst", StoreObj.systNames ["", "SYS_UP", "SYS_DOWN"]),
   ("Electrons", StoreObj.electrons [{ obj := exampleElectron 5, aux := [] }]),
   ("ElectronsSYS_UP", StoreObj.electrons [{ obj := exampleElectron 15, aux := [] }]),
   ("Muons", StoreObj.muons [{ obj := exampleMuon 15, aux := [] }])]

/-- A store with the event information (weight 1) and a primary vertex, and nothing else. -/
def noContainerStore : Store :=
  [("EventInfo", StoreObj.eventInfo (some 1)),
   ("PrimaryVertices", StoreObj.vertices { z := 0 })]

/-- A store with the event information (weight 1), an electron of pT 15 under `Electrons` and
a muon of pT 15 under `Muons`, and no primary vertex. -/
def noVertexStore : Store :=
  [("EventInfo", StoreObj.eventInfo (some 1)),
   ("Electrons", StoreObj.electrons [{ obj := exampleElectron 15, aux := [] }]),
   ("Muons", StoreObj.muons [{ obj := exampleMuon 15, aux := [] }])]

/-- The store of an event of weight -1 with a primary vertex, an electron of pT 15 under
`Electrons` and a muon of pT 15 under `Muons`. -/
def negativeWeightStore : Store :=
  [("EventInfo", StoreObj.eventInfo (some (-1))),
   ("PrimaryVertices", StoreObj.vertices { z := 0 }),
   ("Electrons", StoreObj.electrons [{ obj := exampleElectron 15, aux := [] }]),
   ("Muons", StoreObj.muons [{ obj := exampleMuon 15, aux := [] }])]

/-- The store of an event (weight 1, a primary vertex) whose list of variations is empty. -/
def emptyLabelsStore : Store :=
  [("EventInfo", StoreObj.eventInfo (some 1)),
   ("PrimaryVertices", StoreObj.vertices { z := 0 }),
   ("ElectronCalibrator_Syst", StoreObj.systNames [])]

/-- The default electron configuration with `pTMin` = 10. -/
def pTMinElectronSelector : ElectronSelector :=
  { exampleElectronSelector with m_pT_min := 10 }

/-- The store of an event of weight 1 with a primary vertex and two electrons, of pT 15 and
of pT 5. -/
def passFailStore : Store :=
  exampleStore [{ obj := exampleElectron 15, aux := [] }, { obj := exampleElectron 5, aux := [] }]

/-! ## Preconditions and observations used in the statements -/

/-- The configured operating points are keys of the tool maps whenever `PassCuts` looks them
up, so that `find` does not return `end()`. -/
def ElectronSelector.operatingPointsPresent (cfg : ElectronSelector) : Prop :=
  (cfg.m_doLHPIDcut = true →
      (findTool cfg.m_el_LH_PIDManager.getValidTools cfg.m_LHOperatingPoint).isSome = true) ∧
  (cfg.m_doCutBasedPIDcut = true →
      (findTool cfg.m_el_CutBased_PIDManager.getValidTools
        cfg.m_CutBasedOperatingPoint).isSome = true)

/-- The value `PassCuts` gives to `passSel` for an electron (its decorations do not matter,
see `passSel_eq_passValue`). -/
def ElectronSelector.passValue (cfg : ElectronSelector) (pvx : Vertex) (electron : Electron) :
    Int :=
  match ElectronSelector.passSel cfg pvx electron [] with
  | some (v, _) => v
  | none => 0

/-- The type requirement can be evaluated: `m_muonType` is empty or names a muon type. -/
def MuonSelector.muonTypeKnown (cfg : MuonSelector) : Prop :=
  cfg.m_muonType ≠ "" → (parseMuonType cfg.m_muonType).isSome = true

/-- The value `PassCuts` gives to `passSel` for a muon. -/
def MuonSelector.passValue (cfg : MuonSelector) (pvx : Vertex) (muon : Muon) : Int :=
  match MuonSelector.PassCuts cfg muon pvx with
  | some r => r.value
  | none => 0

/-- The event-pass flag returned by the `executeSelection` run over the container stored
under `InputContainer + label`. -/
def ElectronSelector.selectionPasses (cfg : ElectronSelector) (st : Store) (label : String) :
    Bool :=
  match st.retrieveElectrons (cfg.m_inContainerName ++ label) with
  | none => false
  | some inElectrons =>
    match ElectronSelector.executeSelection cfg st Cutflow.zero inElectrons 0 false with
    | some r => r.eventPass
    | none => false

/-- The store holds a materialized electron collection under `key`. -/
def Store.holdsSelectedElectrons (st : Store) (key : String) : Prop :=
  ∃ view, st.lookup key = some (StoreObj.selectedElectrons view)

/-- The store holds a materialized muon collection under `key`. -/
def Store.holdsSelectedMuons (st : Store) (key : String) : Prop :=
  ∃ view, st.lookup key = some (StoreObj.selectedMuons view)

/-- The positions of the objects of a container whose `passSel` decoration is 1, in order. -/
def positionsDecoratedPass {α : Type} (objects : List (Decorated α)) : List Nat :=
  ((objects.enum).filter (fun p => getDecor p.2.aux "passSel" = some 1)).map Prod.fst

/-- Number of electrons or muons an object of the store holds. -/
def StoreObj.size : StoreObj → Nat
  | StoreObj.electrons container => container.length
  | StoreObj.muons container => container.length
  | _ => 0

/-- Number of electrons and muons held by the containers of an event store. -/
def Store.objectCount (st : Store) : Nat :=
  (st.map (fun kv => kv.2.size)).sum

/-- The four counts are values of an `int`, and `events` more events and `objects` more
objects take none of them past the largest `int`, 2147483647. -/
def Cutflow.roomFor (c : Cutflow) (events objects : Nat) : Prop :=
  (-2147483648 ≤ c.m_numEvent ∧ c.m_numEvent + events ≤ 2147483647) ∧
  (-2147483648 ≤ c.m_numEventPass ∧ c.m_numEventPass + events ≤ 2147483647) ∧
  (-2147483648 ≤ c.m_numObject ∧ c.m_numObject + objects ≤ 2147483647) ∧
  (-2147483648 ≤ c.m_numObjectPass ∧ c.m_numObjectPass + objects ≤ 2147483647)

/-- The counters of events and objects of `c'` are not below those of `c`. -/
def Cutflow.countsNotBelow (c c' : Cutflow) : Prop :=
  c.m_numEvent ≤ c'.m_numEvent ∧ c.m_numObject ≤ c'.m_numObject ∧
  c.m_numEventPass ≤ c'.m_numEventPass ∧ c.m_numObjectPass ≤ c'.m_numObjectPass

/-- The relations between the counters that hold throughout a job: no more objects passed
than seen, no more events passed than executed. -/
def Cutflow.consistent (c : Cutflow) : Prop :=
  0 ≤ c.m_numObjectPass ∧ c.m_numObjectPass ≤ c.m_numObject ∧
  0 ≤ c.m_numEventPass ∧ c.m_numEventPass ≤ c.m_numEvent

/-- The bits of the object-quality word that are set in the mask 1446. -/
def objectQualityBits : List Nat := [1, 2, 5, 7, 8, 10]

/-! ## The criteria of the electron `PassCuts` as the specification lists them -/

/-- The decision of the configured likelihood tool, looked up as `PassCuts` does (`false`
when the operating point is not a key of the tool map). -/
def ElectronSelector.configuredLHAccepts (cfg : ElectronSelector) (electron : Electron) : Bool :=
  match findTool cfg.m_el_LH_PIDManager.getValidTools cfg.m_LHOperatingPoint with
  | some tool => tool.accept electron
  | none => false

/-- The decision of the configured cut-based tool, looked up as `PassCuts` does. -/
def ElectronSelector.configuredCutBasedAccepts (cfg : ElectronSelector) (electron : Electron) :
    Bool :=
  match findTool cfg.m_el_CutBased_PIDManager.getValidTools cfg.m_CutBasedOperatingPoint with
  | some tool => tool.accept electron
  | none => false

/-- The criteria that precede identification, as the specification lists them, in its fixed
order: each with the truth value of "the criterion is disabled or it holds". The d0
significance and z0 sin(theta) of the list are the floating-point values `d0_significance` and
`z0sintheta`, compared with their bounds as the machine compares them. -/
def ElectronSelector.kinematicCriteria (cfg : ElectronSelector) (electron : Electron)
    (primaryVertex : Vertex) : List (ElectronCut × Bool) :=
  [ (ElectronCut.author,
      decide (cfg.m_doAuthorCut = true →
        electron.authorElectron = true ∨ electron.authorAmbiguous = true)),
    (ElectronCut.objectQuality, decide (cfg.m_doOQCut = true → electron.OQ &&& 1446 = 0)),
    (ElectronCut.pTMax, decide (cfg.m_pT_max ≠ sentinel → electron.pt ≤ cfg.m_pT_max)),
    (ElectronCut.pTMin, decide (cfg.m_pT_min ≠ sentinel → electron.pt ≥ cfg.m_pT_min)),
    (ElectronCut.etaMax, decide (cfg.m_eta_max ≠ sentinel → |electron.eta| ≤ cfg.m_eta_max)),
    (ElectronCut.crackVeto,
      decide (cfg.m_vetoCrack = true → ∀ clEta, electron.caloCluster = some clEta →
        ¬ (137 / 100 < |clEta| ∧ |clEta| < 152 / 100))),
    (ElectronCut.d0, decide (electron.trackParticle.d0 < cfg.m_d0_max)),
    (ElectronCut.d0sig,
      (d0_significance cfg.floatArith electron.trackParticle).lt cfg.m_d0sig_max),
    (ElectronCut.z0sintheta,
      (z0sintheta cfg.floatArith electron.trackParticle primaryVertex).fabs.lt
        cfg.m_z0sintheta_max) ]

/-- The identification and isolation criteria, as the specification lists them. -/
def ElectronSelector.identificationCriteria (cfg : ElectronSelector) (electron : Electron) :
    List (ElectronCut × Bool) :=
  [ (ElectronCut.likelihoodPID,
      decide (cfg.m_doLHPIDcut = true → ElectronSelector.configuredLHAccepts cfg electron = true)),
    (ElectronCut.cutBasedPID,
      decide (cfg.m_doCutBasedPIDcut = true → ElectronSelector.configuredCutBasedAccepts cfg electron = true)),
    (ElectronCut.isolation,
      decide (cfg.m_doIsolation = true → cfg.m_IsolationSelectionTool electron = true)) ]

/-- The criteria of `PassCuts` as the specification lists them, in its fixed order. -/
def ElectronSelector.criteria (cfg : ElectronSelector) (electron : Electron)
    (primaryVertex : Vertex) : List (ElectronCut × Bool) :=
  ElectronSelector.kinematicCriteria cfg electron primaryVertex ++
    ElectronSelector.identificationCriteria cfg electron

/-- The first criterion of a list that does not hold, if any. -/
def firstFailing (cs : List (ElectronCut × Bool)) : Option ElectronCut :=
  (cs.find? (fun c => !c.2)).map Prod.fst

/-- The decoration names used by `PassCuts` do not collide: the valid likelihood tools have
pairwise distinct operating-point names, so have the valid cut-based tools, no likelihood name
is a cut-based name, a cut-based default decoration or `isIsolated`, and no cut-based name is
`isIsolated`. -/
def ElectronSelector.decorationNamesDistinct (cfg : ElectronSelector) : Prop :=
  (cfg.m_el_LH_PIDManager.getValidTools.map (fun kv => kv.2.getOperatingPointName)).Nodup ∧
  (cfg.m_el_CutBased_PIDManager.getValidTools.map (fun kv => kv.2.getOperatingPointName)).Nodup ∧
  (∀ n ∈ cfg.m_el_LH_PIDManager.getValidTools.map (fun kv => kv.2.getOperatingPointName),
    n ∉ cfg.m_el_CutBased_PIDManager.getValidTools.map (fun kv => kv.2.getOperatingPointName) ∧
    n ∉ cfg.m_el_CutBased_PIDManager.m_allWPAuxDecors.map Prod.fst ∧
    n ≠ "isIsolated") ∧
  (∀ n ∈ cfg.m_el_CutBased_PIDManager.getValidTools.map (fun kv => kv.2.getOperatingPointName),
    n ≠ "isIsolated")

/-- The decorations of an electron after the likelihood step of `PassCuts` has written the
defaults and the decision of every valid likelihood tool. -/
def ElectronSelector.auxAfterLH (cfg : ElectronSelector) (electron : Electron)
    (aux : Decorations) : Decorations :=
  decorateWPs cfg.m_el_LH_PIDManager.getValidTools electron
    (cfg.m_el_LH_PIDManager.setDecorations aux)

/-- The decorations of an electron after the cut-based step of `PassCuts` has written the
defaults and the decision of every valid cut-based tool. -/
def ElectronSelector.auxAfterCutBased (cfg : ElectronSelector) (electron : Electron)
    (aux : Decorations) : Decorations :=
  decorateWPs cfg.m_el_CutBased_PIDManager.getValidTools electron
    (cfg.m_el_CutBased_PIDManager.setDecorations (ElectronSelector.auxAfterLH cfg electron aux))

/-- A likelihood manager whose valid tools are those from `Medium` up, as when `Medium` is the
selected working point. -/
def exampleLHFromMedium : PIDManager :=
  { m_allWPAuxDecors := [("VeryLoose", -1), ("Loose", -1), ("Medium", -1), ("Tight", -1),
                         ("VeryTight", -1)],
    m_validWPTools :=
      [("Medium", { getOperatingPointName := "Medium", accept := fun e => decide (e.pt > 20) }),
       ("Tight", { getOperatingPointName := "Tight", accept := fun e => decide (e.pt > 30) })] }

/-- The example electron configuration with the likelihood hard cut at `Medium` and the
likelihood manager set up for it. -/
def mediumLHCutElectronSelector : ElectronSelector :=
  { exampleElectronSelector with
    m_doLHPIDcut := true, m_LHOperatingPoint := "Medium",
    m_el_LH_PIDManager := exampleLHFromMedium }

/-- Two stores give the selector the same inputs: the same primary vertex and, under every
key, electron containers with the same objects (their decorations may differ). -/
def Store.SameInputs (st st' : Store) : Prop :=
  st'.retrieveVertices "PrimaryVertices" = st.retrieveVertices "PrimaryVertices" ∧
  ∀ key, (st'.retrieveElectrons key).map (List.map Decorated.obj) =
    (st.retrieveElectrons key).map (List.map Decorated.obj)

/-! ## Floating-point values and the arithmetic of the examples -/

namespace FloatValue

@[simp] theorem zero_eq_finite : (0 : FloatValue) = finite 0 := by
  show finite ((0 : Nat) : ℚ) = finite 0
  norm_num

@[simp] theorem one_eq_finite : (1 : FloatValue) = finite 1 := by
  show finite ((1 : Nat) : ℚ) = finite 1
  norm_num

@[simp] theorem two_eq_finite : (2 : FloatValue) = finite 2 := by
  show finite ((2 : Nat) : ℚ) = finite 2
  norm_num

@[simp] theorem fabs_finite (v : ℚ) : (finite v).fabs = finite |v| := rfl

@[simp] theorem fabs_negZero : negZero.fabs = finite 0 := rfl

@[simp] theorem fabs_posInf : posInf.fabs = posInf := rfl

@[simp] theorem fabs_negInf : negInf.fabs = posInf := rfl

@[simp] theorem fabs_nan : nan.fabs = nan := rfl

@[simp] theorem lt_finite (v b : ℚ) : (finite v).lt b = decide (v < b) := rfl

@[simp] theorem lt_negZero (b : ℚ) : negZero.lt b = decide (0 < b) := rfl

@[simp] theorem lt_posInf (b : ℚ) : posInf.lt b = false := rfl

@[simp] theorem lt_negInf (b : ℚ) : negInf.lt b = true := rfl

@[simp] theorem lt_nan (b : ℚ) : nan.lt b = false := rfl

@[simp] theorem signedInf_true : signedInf true = negInf := rfl

@[simp] theorem signedInf_false : signedInf false = posInf := rfl

@[simp] theorem signedZero_true : signedZero true = negZero := rfl

@[simp] theorem signedZero_false : signedZero false = finite 0 := rfl

end FloatValue

@[simp] theorem exactArith_add : exactArith.add = exactAdd := rfl

@[simp] theorem exactArith_sub : exactArith.sub = exactSub := rfl

@[simp] theorem exactArith_mul : exactArith.mul = exactMul := rfl

@[simp] theorem exactArith_div : exactArith.div = exactDiv := rfl

@[simp] theorem exactArith_accumulate : exactArith.accumulate = exactAdd := rfl

@[simp] theorem exactAdd_finite (a b : ℚ) :
    exactAdd (FloatValue.finite a) (FloatValue.finite b) = FloatValue.finite (a + b) := by
  simp [exactAdd, FloatValue.isNaN, FloatValue.isInfinite, FloatValue.toRat]

@[simp] theorem exactSub_finite (a b : ℚ) :
    exactSub (FloatValue.finite a) (FloatValue.finite b) = FloatValue.finite (a - b) := by
  by_cases hb : b = 0
  · simp [exactSub, exactAdd, FloatValue.negate, FloatValue.isNaN, FloatValue.isInfinite,
      FloatValue.toRat, hb]
  · simp [exactSub, exactAdd, FloatValue.negate, FloatValue.isNaN, FloatValue.isInfinite,
      FloatValue.toRat, hb, sub_eq_add_neg]

@[simp] theorem exactMul_finite (a b : ℚ) :
    exactMul (FloatValue.finite a) (FloatValue.finite b) =
      if a * b = 0 then FloatValue.signedZero (xor (decide (a < 0)) (decide (b < 0)))
      else FloatValue.finite (a * b) := by
  simp [exactMul, FloatValue.isNaN, FloatValue.isInfinite, FloatValue.toRat,
    FloatValue.isNegative]

@[simp] theorem exactDiv_finite (a b : ℚ) :
    exactDiv (FloatValue.finite a) (FloatValue.finite b) =
      if b = 0 then
        (if a = 0 then FloatValue.nan
         else FloatValue.signedInf (xor (decide (a < 0)) (decide (b < 0))))
      else if a = 0 then FloatValue.signedZero (xor (decide (a < 0)) (decide (b < 0)))
      else FloatValue.finite (a / b) := by
  simp [exactDiv, FloatValue.isNaN, FloatValue.isInfinite, FloatValue.toRat,
    FloatValue.isNegative]

/-! ## Lemmas on `PassCuts` -/

namespace ElectronSelector

theorem passIsolation_congr (cfg : ElectronSelector) (el : Electron) (a a' : Decorations)
    (cs cs' : List ToolCall) :
    (passIsolation cfg el a cs).value = (passIsolation cfg el a' cs').value ∧
    (passIsolation cfg el a cs).failed = (passIsolation cfg el a' cs').failed := by
  unfold passIsolation
  simp only []
  split <;> exact ⟨rfl, rfl⟩

theorem passIsolation_value01 (cfg : ElectronSelector) (el : Electron) (a : Decorations)
    (cs : List ToolCall) :
    (passIsolation cfg el a cs).value = 0 ∨ (passIsolation cfg el a cs).value = 1 := by
  unfold passIsolation
  simp only []
  split
  · exact Or.inl rfl
  · exact Or.inr rfl

theorem passCutBasedPID_congr (cfg : ElectronSelector) (el : Electron) (a a' : Decorations)
    (cs cs' : List ToolCall) (h : cfg.operatingPointsPresent) :
    ∃ r r', passCutBasedPID cfg el a cs = some r ∧ passCutBasedPID cfg el a' cs' = some r' ∧
      r.value = r'.value ∧ r.failed = r'.failed ∧ (r.value = 0 ∨ r.value = 1) := by
  unfold passCutBasedPID
  simp only []
  by_cases hcb : cfg.m_doCutBasedPIDcut = true
  · obtain ⟨t, ht⟩ := Option.isSome_iff_exists.mp (h.2 hcb)
    simp only [hcb, ht, if_true]
    by_cases hacc : t.accept el = true
    · simp only [hacc, Bool.not_true, Bool.false_eq_true, if_false]
      exact ⟨_, _, rfl, rfl, (passIsolation_congr cfg el _ _ _ _).1,
        (passIsolation_congr cfg el _ _ _ _).2, passIsolation_value01 cfg el _ _⟩
    · simp [hacc]
  · simp only [hcb]
    exact ⟨_, _, rfl, rfl, (passIsolation_congr cfg el _ _ _ _).1,
        (passIsolation_congr cfg el _ _ _ _).2, passIsolation_value01 cfg el _ _⟩

theorem passLikelihoodPID_congr (cfg : ElectronSelector) (el : Electron) (a a' : Decorations)
    (h : cfg.operatingPointsPresent) :
    ∃ r r', passLikelihoodPID cfg el a = some r ∧ passLikelihoodPID cfg el a' = some r' ∧
      r.value = r'.value ∧ r.failed = r'.failed ∧ (r.value = 0 ∨ r.value = 1) := by
  unfold passLikelihoodPID
  simp only []
  by_cases hlh : cfg.m_doLHPIDcut = true
  · obtain ⟨t, ht⟩ := Option.isSome_iff_exists.mp (h.1 hlh)
    simp only [hlh, ht, if_true]
    by_cases hacc : t.accept el = true
    · simp only [hacc, Bool.not_true, Bool.false_eq_true, if_false]
      exact passCutBasedPID_congr cfg el _ _ _ _ h
    · simp [hacc]
  · simp only [hlh]
    exact passCutBasedPID_congr cfg el _ _ _ _ h

theorem PassCuts_congr (cfg : ElectronSelector) (el : Electron) (a a' : Decorations)
    (pvx : Vertex) (h : cfg.operatingPointsPresent) :
    ∃ r r', PassCuts cfg el a pvx = some r ∧ PassCuts cfg el a' pvx = some r' ∧
      r.value = r'.value ∧ r.failed = r'.failed ∧ (r.value = 0 ∨ r.value = 1) := by
  unfold PassCuts
  cases hk : kinematicCut cfg el pvx with
  | some cut => exact ⟨_, _, rfl, rfl, rfl, rfl, Or.inl rfl⟩
  | none => exact passLikelihoodPID_congr cfg el a a' h

/-- Under the precondition on the operating points the call of `PassCuts` in the loop returns,
and the value of `passSel` is `passValue`, whatever the decorations of the electron. -/
theorem passSel_eq_passValue (cfg : ElectronSelector) (pvx : Vertex)
    (h : cfg.operatingPointsPresent) (el : Electron) (a : Decorations) :
    ∃ a', passSel cfg pvx el a = some (passValue cfg pvx el, a') := by
  obtain ⟨r, r', hr, hr', hv, -, -⟩ := PassCuts_congr cfg el a [] pvx h
  refine ⟨r.aux, ?_⟩
  simp [passValue, passSel, hr, hr', hv]

theorem passValue_01 (cfg : ElectronSelector) (pvx : Vertex) (el : Electron) :
    passValue cfg pvx el = 0 ∨ passValue cfg pvx el = 1 := by
  unfold passValue passSel
  cases PassCuts cfg el [] pvx with
  | none => exact Or.inl rfl
  | some r =>
    simp only [Option.map_some']
    by_cases hv : r.value = 0
    · simp [hv]
    · simp [hv]

end ElectronSelector

namespace MuonSelector

theorem passIsoTool_value01 (cfg : MuonSelector) (mu : Muon) :
    (passIsoTool cfg mu).value = 0 ∨ (passIsoTool cfg mu).value = 1 := by
  unfold passIsoTool
  split
  · exact Or.inl rfl
  · split
    · exact Or.inl rfl
    · exact Or.inr rfl

theorem passType_some (cfg : MuonSelector) (mu : Muon) (h : cfg.muonTypeKnown) :
    ∃ r, passType cfg mu = some r ∧ (r.value = 0 ∨ r.value = 1) := by
  unfold passType
  by_cases ht : cfg.m_muonType = ""
  · simp only [ht, ne_eq, not_true_eq_false, if_false]
    exact ⟨_, rfl, passIsoTool_value01 cfg mu⟩
  · obtain ⟨t, hpt⟩ := Option.isSome_iff_exists.mp (h ht)
    simp only [ne_eq, ht, not_false_eq_true, if_true, hpt]
    by_cases hm : mu.muonType = t
    · simp only [hm, not_true_eq_false, if_false]
      exact ⟨_, rfl, passIsoTool_value01 cfg mu⟩
    · simp only [hm, not_false_eq_true, if_true]
      exact ⟨_, rfl, Or.inl rfl⟩

theorem PassCuts_some (cfg : MuonSelector) (mu : Muon) (pvx : Vertex) (h : cfg.muonTypeKnown) :
    ∃ r, PassCuts cfg mu pvx = some r ∧ (r.value = 0 ∨ r.value = 1) := by
  unfold PassCuts
  simp only []
  split
  · exact ⟨_, rfl, Or.inl rfl⟩
  · split
    · exact ⟨_, rfl, Or.inl rfl⟩
    · split
      · exact ⟨_, rfl, Or.inl rfl⟩
      · split
        · exact ⟨_, rfl, Or.inl rfl⟩
        · split
          · exact ⟨_, rfl, Or.inl rfl⟩
          · split
            · exact ⟨_, rfl, Or.inl rfl⟩
            · exact passType_some cfg mu h

theorem muon_passSel_eq_passValue (cfg : MuonSelector) (pvx : Vertex) (h : cfg.muonTypeKnown)
    (mu : Muon) (a : Decorations) :
    ∃ a', passSel cfg pvx mu a = some (passValue cfg pvx mu, a') := by
  obtain ⟨r, hr, -⟩ := PassCuts_some cfg mu pvx h
  exact ⟨a, by simp [passSel, passValue, hr]⟩

theorem muon_passValue_01 (cfg : MuonSelector) (pvx : Vertex) (mu : Muon) (h : cfg.muonTypeKnown) :
    passValue cfg pvx mu = 0 ∨ passValue cfg pvx mu = 1 := by
  obtain ⟨r, hr, h01⟩ := PassCuts_some cfg mu pvx h
  simpa [passValue, hr] using h01

end MuonSelector

/-! ## Lemmas on the object loop -/

section Loop

variable {α : Type} (pc : α → Decorations → Option (Int × Decorations)) (v : α → Int)
  (n : Int) (dec cre : Bool)

theorem selectionLoop_skip (x : Decorated α) (rest : List (Decorated α)) (idx : Nat)
    (nObj nPass : Int) (sel ev : List Nat) (hcap : n > 0 ∧ nObj ≥ n) :
    selectionLoop pc n true cre idx (x :: rest) nObj nPass sel ev =
      (selectionLoop pc n true cre (idx + 1) rest nObj nPass sel ev).map
        (fun r => { r with objects := { x with aux := auxdecor x.aux "passSel" (-1) } :: r.objects }) := by
  simp only [selectionLoop, hcap, and_self, if_true]

theorem selectionLoop_break (x : Decorated α) (rest : List (Decorated α)) (idx : Nat)
    (nObj nPass : Int) (sel ev : List Nat) (hcap : n > 0 ∧ nObj ≥ n) :
    selectionLoop pc n false cre idx (x :: rest) nObj nPass sel ev =
      some { objects := x :: rest, nObj := nObj, nPass := nPass, selected := sel,
             evaluated := ev } := by
  simp only [selectionLoop, hcap, and_self, if_true, Bool.false_eq_true, if_false]

theorem selectionLoop_eval (x : Decorated α) (rest : List (Decorated α)) (idx : Nat)
    (nObj nPass : Int) (sel ev : List Nat) (hcap : ¬ (n > 0 ∧ nObj ≥ n))
    (p : Int) (a : Decorations) (hp : pc x.obj x.aux = some (p, a)) :
    selectionLoop pc n dec cre idx (x :: rest) nObj nPass sel ev =
      (selectionLoop pc n dec cre (idx + 1) rest (nObj + 1) (if p ≠ 0 then nPass + 1 else nPass)
          (if p ≠ 0 ∧ cre = true then sel ++ [idx] else sel) (ev ++ [idx])).map
        (fun r => { r with objects :=
          { obj := x.obj, aux := if dec = true then auxdecor a "passSel" p else a } :: r.objects }) := by
  simp only [selectionLoop, hcap, if_false, hp]

theorem selectionLoop_eval_none (x : Decorated α) (rest : List (Decorated α)) (idx : Nat)
    (nObj nPass : Int) (sel ev : List Nat) (hcap : ¬ (n > 0 ∧ nObj ≥ n))
    (hp : pc x.obj x.aux = none) :
    selectionLoop pc n dec cre idx (x :: rest) nObj nPass sel ev = none := by
  simp only [selectionLoop, hcap, if_false, hp]

/-- The loop returns when every call of `PassCuts` does. -/
theorem selectionLoop_some (hpc : ∀ o a, ∃ a', pc o a = some (v o, a'))
    (xs : List (Decorated α)) (idx : Nat) (nObj nPass : Int) (sel ev : List Nat) :
    ∃ r, selectionLoop pc n dec cre idx xs nObj nPass sel ev = some r := by
  induction xs generalizing idx nObj nPass sel ev with
  | nil => exact ⟨_, rfl⟩
  | cons x rest ih =>
    by_cases hcap : n > 0 ∧ nObj ≥ n
    · cases dec with
      | true =>
        obtain ⟨r, hr⟩ := ih (idx + 1) nObj nPass sel ev
        rw [selectionLoop_skip pc n cre x rest idx nObj nPass sel ev hcap, hr]
        exact ⟨_, rfl⟩
      | false => exact ⟨_, selectionLoop_break pc n cre x rest idx nObj nPass sel ev hcap⟩
    · obtain ⟨a', ha'⟩ := hpc x.obj x.aux
      obtain ⟨r, hr⟩ := ih (idx + 1) (nObj + 1) (if v x.obj ≠ 0 then nPass + 1 else nPass)
        (if v x.obj ≠ 0 ∧ cre = true then sel ++ [idx] else sel) (ev ++ [idx])
      rw [selectionLoop_eval pc n dec cre x rest idx nObj nPass sel ev hcap _ _ ha', hr]
      exact ⟨_, rfl⟩

/-- The loop changes decorations only: the objects of the container are the same. -/
theorem selectionLoop_objects (xs : List (Decorated α)) (idx : Nat) (nObj nPass : Int)
    (sel ev : List Nat) (r : LoopResult α)
    (h : selectionLoop pc n dec cre idx xs nObj nPass sel ev = some r) :
    r.objects.map Decorated.obj = xs.map Decorated.obj := by
  induction xs generalizing idx nObj nPass sel ev r with
  | nil =>
    simp only [selectionLoop, Option.some.injEq] at h
    subst h; rfl
  | cons x rest ih =>
    by_cases hcap : n > 0 ∧ nObj ≥ n
    · cases dec with
      | true =>
        rw [selectionLoop_skip pc n cre x rest idx nObj nPass sel ev hcap] at h
        obtain ⟨r1, hr1, rfl⟩ := Option.map_eq_some'.mp h
        simp [ih _ _ _ _ _ _ hr1]
      | false =>
        rw [selectionLoop_break pc n cre x rest idx nObj nPass sel ev hcap] at h
        simp only [Option.some.injEq] at h
        subst h; rfl
    · cases hp : pc x.obj x.aux with
      | none =>
        rw [selectionLoop_eval_none pc n dec cre x rest idx nObj nPass sel ev hcap hp] at h
        exact absurd h (by simp)
      | some pa =>
        rw [selectionLoop_eval pc n dec cre x rest idx nObj nPass sel ev hcap pa.1 pa.2 hp] at h
        obtain ⟨r1, hr1, rfl⟩ := Option.map_eq_some'.mp h
        simp [ih _ _ _ _ _ _ hr1]

/-- The counts and the view built by the loop depend on the objects only, not on their
decorations. -/
theorem selectionLoop_congr (hpc : ∀ o a, ∃ a', pc o a = some (v o, a'))
    (xs ys : List (Decorated α)) (hxy : xs.map Decorated.obj = ys.map Decorated.obj)
    (idx : Nat) (nObj nPass : Int) (sel ev : List Nat) (r r' : LoopResult α)
    (h : selectionLoop pc n dec cre idx xs nObj nPass sel ev = some r)
    (h' : selectionLoop pc n dec cre idx ys nObj nPass sel ev = some r') :
    r.nObj = r'.nObj ∧ r.nPass = r'.nPass ∧ r.selected = r'.selected ∧
      r.evaluated = r'.evaluated := by
  induction xs generalizing ys idx nObj nPass sel ev r r' with
  | nil =>
    cases ys with
    | nil =>
      simp only [selectionLoop, Option.some.injEq] at h h'
      subst h; subst h'; exact ⟨rfl, rfl, rfl, rfl⟩
    | cons y ys' => simp at hxy
  | cons x rest ih =>
    cases ys with
    | nil => simp at hxy
    | cons y ys' =>
      simp only [List.map_cons, List.cons.injEq] at hxy
      obtain ⟨hobj, hrest⟩ := hxy
      by_cases hcap : n > 0 ∧ nObj ≥ n
      · cases dec with
        | true =>
          rw [selectionLoop_skip pc n cre x rest idx nObj nPass sel ev hcap] at h
          rw [selectionLoop_skip pc n cre y ys' idx nObj nPass sel ev hcap] at h'
          obtain ⟨r1, hr1, rfl⟩ := Option.map_eq_some'.mp h
          obtain ⟨r2, hr2, rfl⟩ := Option.map_eq_some'.mp h'
          exact ih ys' hrest _ _ _ _ _ r1 r2 hr1 hr2
        | false =>
          rw [selectionLoop_break pc n cre x rest idx nObj nPass sel ev hcap] at h
          rw [selectionLoop_break pc n cre y ys' idx nObj nPass sel ev hcap] at h'
          simp only [Option.some.injEq] at h h'
          subst h; subst h'; exact ⟨rfl, rfl, rfl, rfl⟩
      · obtain ⟨a1, ha1⟩ := hpc x.obj x.aux
        obtain ⟨a2, ha2⟩ := hpc y.obj y.aux
        have ha2' : pc y.obj y.aux = some (v x.obj, a2) := by rw [ha2, hobj]
        rw [selectionLoop_eval pc n dec cre x rest idx nObj nPass sel ev hcap _ _ ha1] at h
        rw [selectionLoop_eval pc n dec cre y ys' idx nObj nPass sel ev hcap _ _ ha2'] at h'
        obtain ⟨r1, hr1, rfl⟩ := Option.map_eq_some'.mp h
        obtain ⟨r2, hr2, rfl⟩ := Option.map_eq_some'.mp h'
        exact ih ys' hrest _ _ _ _ _ r1 r2 hr1 hr2

theorem getDecor_auxdecor (d : Decorations) (key : String) (value : Int) :
    getDecor (auxdecor d key value) key = some value := by
  simp [getDecor, auxdecor, List.lookup]

theorem getDecor_auxdecor_ne (d : Decorations) (key key' : String) (value : Int)
    (h : key' ≠ key) : getDecor (auxdecor d key value) key' = getDecor d key' := by
  have hb : (key' == key) = false := by simpa using h
  simp [getDecor, auxdecor, List.lookup, hb]

/-- With decoration enabled and a positive cap, every object at a position at or beyond the
cap is decorated -1 and is not passed to `PassCuts`. The loop is entered with `nObj` equal to
the position, or with the cap already reached. -/
theorem selectionLoop_beyond_cap (hn : 0 < n) (xs : List (Decorated α)) (idx : Nat)
    (nObj nPass : Int) (sel ev : List Nat) (r : LoopResult α)
    (hinv : nObj = idx ∨ nObj ≥ n)
    (h : selectionLoop pc n true cre idx xs nObj nPass sel ev = some r) :
    (∀ (k : Nat) (x : Decorated α), r.objects[k]? = some x → n ≤ ((idx + k : Nat) : Int) →
        getDecor x.aux "passSel" = some (-1)) ∧
    (∀ e ∈ r.evaluated, e ∈ ev ∨ (e : Int) < n) := by
  induction xs generalizing idx nObj nPass sel ev r with
  | nil =>
    simp only [selectionLoop, Option.some.injEq] at h
    subst h
    exact ⟨fun k x hk => by simp at hk, fun e he => Or.inl he⟩
  | cons x rest ih =>
    by_cases hcap : n > 0 ∧ nObj ≥ n
    · rw [selectionLoop_skip pc n cre x rest idx nObj nPass sel ev hcap] at h
      obtain ⟨r1, hr1, rfl⟩ := Option.map_eq_some'.mp h
      obtain ⟨ih1, ih2⟩ := ih (idx + 1) nObj nPass sel ev r1 (Or.inr hcap.2) hr1
      refine ⟨?_, ih2⟩
      intro k y hk hle
      cases k with
      | zero =>
        simp only [List.getElem?_cons_zero, Option.some.injEq] at hk
        subst hk
        exact getDecor_auxdecor _ _ _
      | succ k =>
        simp only [List.getElem?_cons_succ] at hk
        exact ih1 k y hk (by push_cast at hle ⊢; omega)
    · have hlt : nObj < n := by
        by_contra hge
        exact hcap ⟨hn, by omega⟩
      have hidx : nObj = idx := by
        rcases hinv with h1 | h1
        · exact h1
        · omega
      cases hp : pc x.obj x.aux with
      | none =>
        rw [selectionLoop_eval_none pc n true cre x rest idx nObj nPass sel ev hcap hp] at h
        exact absurd h (by simp)
      | some pa =>
        rw [selectionLoop_eval pc n true cre x rest idx nObj nPass sel ev hcap pa.1 pa.2 hp] at h
        obtain ⟨r1, hr1, rfl⟩ := Option.map_eq_some'.mp h
        obtain ⟨ih1, ih2⟩ := ih (idx + 1) (nObj + 1) _ _ _ r1
          (Or.inl (by push_cast; omega)) hr1
        constructor
        · intro k y hk hle
          cases k with
          | zero => exfalso; push_cast at hle; omega
          | succ k =>
            simp only [List.getElem?_cons_succ] at hk
            exact ih1 k y hk (by push_cast at hle ⊢; omega)
        · intro e he
          rcases ih2 e he with h1 | h1
          · rcases List.mem_append.mp h1 with h2 | h2
            · exact Or.inl h2
            · simp only [List.mem_singleton] at h2
              subst h2
              exact Or.inr (by omega)
          · exact Or.inr h1

/-- With decoration and materialization both enabled, the view pushed by the loop is made of
the positions of the objects it decorates with `passSel` 1, in order. -/
theorem selectionLoop_selected
    (hv : ∀ o a p a', pc o a = some (p, a') → p = 0 ∨ p = 1)
    (xs : List (Decorated α)) (idx : Nat) (nObj nPass : Int) (sel ev : List Nat)
    (r : LoopResult α)
    (h : selectionLoop pc n true true idx xs nObj nPass sel ev = some r) :
    r.selected = sel ++ ((r.objects.enumFrom idx).filter
      (fun p => getDecor p.2.aux "passSel" = some 1)).map Prod.fst := by
  induction xs generalizing idx nObj nPass sel ev r with
  | nil =>
    simp only [selectionLoop, Option.some.injEq] at h
    subst h
    simp
  | cons x rest ih =>
    by_cases hcap : n > 0 ∧ nObj ≥ n
    · rw [selectionLoop_skip pc n true x rest idx nObj nPass sel ev hcap] at h
      obtain ⟨r1, hr1, rfl⟩ := Option.map_eq_some'.mp h
      have := ih (idx + 1) nObj nPass sel ev r1 hr1
      simp [List.enumFrom_cons, List.filter_cons, getDecor_auxdecor, this]
    · cases hp : pc x.obj x.aux with
      | none =>
        rw [selectionLoop_eval_none pc n true true x rest idx nObj nPass sel ev hcap hp] at h
        exact absurd h (by simp)
      | some pa =>
        rw [selectionLoop_eval pc n true true x rest idx nObj nPass sel ev hcap pa.1 pa.2 hp] at h
        obtain ⟨r1, hr1, rfl⟩ := Option.map_eq_some'.mp h
        have := ih (idx + 1) (nObj + 1) _ _ _ r1 hr1
        rcases hv x.obj x.aux pa.1 pa.2 hp with h0 | h1
        · simp [List.enumFrom_cons, List.filter_cons, getDecor_auxdecor, this, h0]
        · simp [List.enumFrom_cons, List.filter_cons, getDecor_auxdecor, this, h1]

end Loop

/-- A position is among `positionsDecoratedPass` exactly when the object there is decorated
`passSel = 1`. -/
theorem mem_positionsDecoratedPass {α : Type} (objects : List (Decorated α)) (i : Nat) :
    i ∈ positionsDecoratedPass objects ↔
      ∃ x, objects[i]? = some x ∧ getDecor x.aux "passSel" = some 1 := by
  unfold positionsDecoratedPass
  simp only [List.mem_map, List.mem_filter, decide_eq_true_eq, Prod.exists, exists_and_right,
    exists_eq_right, List.mk_mem_enum_iff_getElem?]

/-! ## Lemmas on the selector runs -/

namespace ElectronSelector

/-- Under the precondition on the operating points `executeSelection` returns. -/
theorem executeSelection_some (cfg : ElectronSelector) (st : Store) (c : Cutflow)
    (inElectrons : List (Decorated Electron)) (w : ℚ) (countPass : Bool)
    (hOP : cfg.operatingPointsPresent) :
    ∃ r, executeSelection cfg st c inElectrons w countPass = some r := by
  unfold executeSelection
  cases hv : st.retrieveVertices "PrimaryVertices" with
  | none => exact ⟨_, rfl⟩
  | some pvx =>
    obtain ⟨r, hr⟩ := selectionLoop_some (passSel cfg pvx) (passValue cfg pvx) cfg.m_nToProcess
      cfg.m_decorateSelectedObjects cfg.m_createSelectedContainer
      (passSel_eq_passValue cfg pvx hOP) inElectrons 0 0 0 [] []
    simp only [hr]
    split
    · exact ⟨_, rfl⟩
    · split
      · exact ⟨_, rfl⟩
      · exact ⟨_, rfl⟩

/-- What `executeSelection` returns when the primary vertices are in the store, in terms of
the result of the object loop. -/
theorem executeSelection_eq (cfg : ElectronSelector) (st : Store) (c : Cutflow)
    (inElectrons : List (Decorated Electron)) (w : ℚ) (countPass : Bool) (pvx : Vertex)
    (hpv : st.retrieveVertices "PrimaryVertices" = some pvx) (r : SelectionResult Electron)
    (h : executeSelection cfg st c inElectrons w countPass = some r) :
    ∃ l, selectionLoop (passSel cfg pvx) cfg.m_nToProcess cfg.m_decorateSelectedObjects
        cfg.m_createSelectedContainer 0 inElectrons 0 0 [] [] = some l ∧
      r.objects = l.objects ∧ r.nObj = l.nObj ∧ r.nPass = l.nPass ∧ r.selected = l.selected ∧
      r.evaluated = l.evaluated ∧
      (r.eventPass = true ↔
        ¬ (cfg.m_pass_min > 0 ∧ l.nPass < cfg.m_pass_min) ∧
        ¬ (cfg.m_pass_max > 0 ∧ l.nPass > cfg.m_pass_max)) := by
  unfold executeSelection at h
  simp only [hpv] at h
  cases hl : selectionLoop (passSel cfg pvx) cfg.m_nToProcess cfg.m_decorateSelectedObjects
      cfg.m_createSelectedContainer 0 inElectrons 0 0 [] [] with
  | none => simp [hl] at h
  | some l =>
    simp only [hl] at h
    refine ⟨l, rfl, ?_⟩
    by_cases hmin : cfg.m_pass_min > 0 ∧ l.nPass < cfg.m_pass_min
    · simp only [hmin, and_self, if_true, Option.some.injEq] at h
      subst h
      simp [hmin]
    · by_cases hmax : cfg.m_pass_max > 0 ∧ l.nPass > cfg.m_pass_max
      · simp only [hmin, hmax, and_self, if_true, if_false, Option.some.injEq] at h
        subst h
        simp [hmax]
      · simp only [hmin, hmax, if_false, Option.some.injEq] at h
        subst h
        simp [hmin, hmax]

end ElectronSelector

namespace MuonSelector

/-- When the muon type can be evaluated `executeConst` returns. -/
theorem executeConst_some (cfg : MuonSelector) (c : Cutflow) (st : Store) (key : String)
    (inMuons : List (Decorated Muon)) (w : ℚ) (hT : cfg.muonTypeKnown) :
    ∃ r, executeConst cfg c st key inMuons w = some r := by
  unfold executeConst
  cases hv : st.retrieveVertices "PrimaryVertices" with
  | none => exact ⟨_, rfl⟩
  | some pvx =>
    obtain ⟨r, hr⟩ := selectionLoop_some (passSel cfg pvx) (passValue cfg pvx) cfg.m_nToProcess
      cfg.m_decorateSelectedObjects cfg.m_createSelectedContainer
      (muon_passSel_eq_passValue cfg pvx hT) inMuons 0 0 0 [] []
    simp only [hr]
    split
    · exact ⟨_, rfl⟩
    · split
      · exact ⟨_, rfl⟩
      · split
        · split
          · exact ⟨_, rfl⟩
          · exact ⟨_, rfl⟩
        · exact ⟨_, rfl⟩

/-- What `executeConst` returns when the primary vertices are in the store, in terms of the
result of the object loop: `skipEvent` is called exactly when the pass-count gate fails. -/
theorem executeConst_eq (cfg : MuonSelector) (c : Cutflow) (st : Store) (key : String)
    (inMuons : List (Decorated Muon)) (w : ℚ) (pvx : Vertex)
    (hpv : st.retrieveVertices "PrimaryVertices" = some pvx) (r : ConstResult)
    (h : executeConst cfg c st key inMuons w = some r) :
    ∃ l, selectionLoop (passSel cfg pvx) cfg.m_nToProcess cfg.m_decorateSelectedObjects
        cfg.m_createSelectedContainer 0 inMuons 0 0 [] [] = some l ∧
      r.objects = l.objects ∧ r.nObj = l.nObj ∧ r.nPass = l.nPass ∧ r.selected = l.selected ∧
      r.evaluated = l.evaluated ∧
      (r.exec.skipEvent = false ↔
        ¬ (cfg.m_pass_min > 0 ∧ l.nPass < cfg.m_pass_min) ∧
        ¬ (cfg.m_pass_max > 0 ∧ l.nPass > cfg.m_pass_max)) := by
  unfold executeConst at h
  simp only [hpv] at h
  cases hl : selectionLoop (passSel cfg pvx) cfg.m_nToProcess cfg.m_decorateSelectedObjects
      cfg.m_createSelectedContainer 0 inMuons 0 0 [] [] with
  | none => simp [hl] at h
  | some l =>
    simp only [hl] at h
    refine ⟨l, rfl, ?_⟩
    by_cases hmin : cfg.m_pass_min > 0 ∧ l.nPass < cfg.m_pass_min
    · simp only [hmin, and_self, if_true, Option.some.injEq] at h
      subst h
      simp [hmin]
    · by_cases hmax : cfg.m_pass_max > 0 ∧ l.nPass > cfg.m_pass_max
      · simp only [hmin, hmax, and_self, if_true, if_false, Option.some.injEq] at h
        subst h
        simp [hmax]
      · simp only [hmin, hmax, if_false] at h
        split at h
        · split at h
          · simp only [Option.some.injEq] at h
            subst h
            simp [hmin, hmax]
          · simp only [Option.some.injEq] at h
            subst h
            simp [hmin, hmax]
        · simp only [Option.some.injEq] at h
          subst h
          simp [hmin, hmax]

end MuonSelector

/-! ## `PassCuts` against the list of criteria -/

namespace ElectronSelector

theorem inCrack_iff (c : Option ℚ) :
    inCrack c = true ↔ ∃ clEta, c = some clEta ∧ (137 / 100 < |clEta| ∧ |clEta| < 152 / 100) := by
  cases c with
  | none => simp [inCrack]
  | some x => simp [inCrack]

theorem kinematicCut_eq_firstFailing (cfg : ElectronSelector) (el : Electron) (pv : Vertex) :
    kinematicCut cfg el pv = firstFailing (kinematicCriteria cfg el pv) := by
  unfold kinematicCut firstFailing kinematicCriteria
  simp only []
  by_cases h1 : cfg.m_doAuthorCut = true ∧ el.authorElectron = false ∧ el.authorAmbiguous = false
  · simp [List.find?_cons, h1]
  by_cases h2 : cfg.m_doOQCut = true ∧ ¬ el.OQ &&& 1446 = 0
  · simp [List.find?_cons, h1, h2]
  by_cases h3 : ¬cfg.m_pT_max = sentinel ∧ cfg.m_pT_max < el.pt
  · simp [List.find?_cons, h1, h2, h3]
  by_cases h4 : ¬cfg.m_pT_min = sentinel ∧ el.pt < cfg.m_pT_min
  · simp [List.find?_cons, h1, h2, h3, h4]
  by_cases h5 : ¬cfg.m_eta_max = sentinel ∧ cfg.m_eta_max < |el.eta|
  · simp [List.find?_cons, h1, h2, h3, h4, h5]
  by_cases h6 : cfg.m_vetoCrack = true ∧ inCrack el.caloCluster = true
  · have h6' := h6
    rw [inCrack_iff] at h6'
    simp [List.find?_cons, h1, h2, h3, h4, h5, h6, h6']
  have h6' := h6
  rw [inCrack_iff] at h6'
  by_cases h7 : cfg.m_d0_max ≤ el.trackParticle.d0
  · simp [List.find?_cons, h1, h2, h3, h4, h5, h6, h6', h7]
  by_cases h8 : (d0_significance cfg.floatArith el.trackParticle).lt cfg.m_d0sig_max = false
  · simp [List.find?_cons, h1, h2, h3, h4, h5, h6, h6', h7, h8]
  by_cases h9 :
      (z0sintheta cfg.floatArith el.trackParticle pv).fabs.lt cfg.m_z0sintheta_max = false
  · simp [List.find?_cons, h1, h2, h3, h4, h5, h6, h6', h7, h8, h9]
  · simp [List.find?_cons, h1, h2, h3, h4, h5, h6, h6', h7, h8, h9]

theorem passIsolation_failed (cfg : ElectronSelector) (el : Electron) (a : Decorations)
    (cs : List ToolCall) :
    (passIsolation cfg el a cs).failed =
      firstFailing [(ElectronCut.isolation,
        decide (cfg.m_doIsolation = true → cfg.m_IsolationSelectionTool el = true))] ∧
    ((passIsolation cfg el a cs).value = if (passIsolation cfg el a cs).failed = none then 1 else 0) := by
  unfold passIsolation firstFailing
  simp only []
  cases cfg.m_doIsolation <;> cases cfg.m_IsolationSelectionTool el <;> simp

theorem passCutBasedPID_failed (cfg : ElectronSelector) (el : Electron) (a : Decorations)
    (cs : List ToolCall) (hOP : cfg.operatingPointsPresent) :
    ∃ r, passCutBasedPID cfg el a cs = some r ∧
      r.failed = firstFailing ((identificationCriteria cfg el).drop 1) ∧
      r.value = if r.failed = none then 1 else 0 := by
  unfold passCutBasedPID identificationCriteria
  simp only [List.drop_succ_cons, List.drop_zero]
  by_cases hcb : cfg.m_doCutBasedPIDcut = true
  · obtain ⟨t, ht⟩ := Option.isSome_iff_exists.mp (hOP.2 hcb)
    simp only [hcb, ht, if_true, configuredCutBasedAccepts]
    by_cases hacc : t.accept el = true
    · simp only [hacc, Bool.not_true, Bool.false_eq_true, if_false]
      refine ⟨_, rfl, ?_, (passIsolation_failed cfg el _ _).2⟩
      rw [(passIsolation_failed cfg el _ _).1]
      simp [firstFailing, List.find?_cons]
    · simp [hacc, firstFailing, List.find?_cons]
  · simp only [hcb]
    refine ⟨_, rfl, ?_, (passIsolation_failed cfg el _ _).2⟩
    rw [(passIsolation_failed cfg el _ _).1]
    simp [firstFailing, List.find?_cons]

theorem passLikelihoodPID_failed (cfg : ElectronSelector) (el : Electron) (a : Decorations)
    (hOP : cfg.operatingPointsPresent) :
    ∃ r, passLikelihoodPID cfg el a = some r ∧
      r.failed = firstFailing (identificationCriteria cfg el) ∧
      r.value = if r.failed = none then 1 else 0 := by
  unfold passLikelihoodPID
  simp only []
  by_cases hlh : cfg.m_doLHPIDcut = true
  · obtain ⟨t, ht⟩ := Option.isSome_iff_exists.mp (hOP.1 hlh)
    simp only [hlh, ht, if_true]
    by_cases hacc : t.accept el = true
    · simp only [hacc, Bool.not_true, Bool.false_eq_true, if_false]
      obtain ⟨r, hr, hf, hv⟩ := passCutBasedPID_failed cfg el
        (decorateWPs cfg.m_el_LH_PIDManager.getValidTools el
          (cfg.m_el_LH_PIDManager.setDecorations a))
        ([ToolCall.likelihood t.getOperatingPointName] ++
          wpCalls ToolCall.likelihood cfg.m_el_LH_PIDManager.getValidTools) hOP
      refine ⟨r, hr, ?_, hv⟩
      rw [hf]
      simp [identificationCriteria, firstFailing, List.find?_cons, configuredLHAccepts, ht, hacc]
    · simp [hacc, identificationCriteria, firstFailing, List.find?_cons, configuredLHAccepts, ht,
        hlh]
  · simp only [hlh]
    obtain ⟨r, hr, hf, hv⟩ := passCutBasedPID_failed cfg el
      (decorateWPs cfg.m_el_LH_PIDManager.getValidTools el
        (cfg.m_el_LH_PIDManager.setDecorations a))
      ([] ++ wpCalls ToolCall.likelihood cfg.m_el_LH_PIDManager.getValidTools) hOP
    refine ⟨r, hr, ?_, hv⟩
    rw [hf]
    simp [identificationCriteria, firstFailing, List.find?_cons, hlh]

theorem firstFailing_append (xs ys : List (ElectronCut × Bool)) :
    firstFailing (xs ++ ys) = (firstFailing xs).or (firstFailing ys) := by
  unfold firstFailing
  rw [List.find?_append]
  cases List.find? (fun c => !c.2) xs <;> simp

theorem firstFailing_eq_none (cs : List (ElectronCut × Bool)) :
    firstFailing cs = none ↔ ∀ c ∈ cs, c.2 = true := by
  unfold firstFailing
  simp [List.find?_eq_none]

/-- `PassCuts` returns 1 exactly when every criterion of the list holds, 0 otherwise, and the
`return 0` taken is that of the first criterion of the list that fails. -/
theorem PassCuts_eq_firstFailing (cfg : ElectronSelector) (el : Electron) (aux : Decorations) (pv : Vertex)
    (hOP : cfg.operatingPointsPresent) :
    ∃ r, PassCuts cfg el aux pv = some r ∧
      (r.value = 1 ↔ ∀ c ∈ criteria cfg el pv, c.2 = true) ∧
      (r.value ≠ 1 → r.value = 0) ∧
      r.failed = firstFailing (criteria cfg el pv) := by
  have hk := kinematicCut_eq_firstFailing cfg el pv
  unfold PassCuts
  cases hkc : kinematicCut cfg el pv with
  | some cut =>
    rw [hkc] at hk
    have hff : firstFailing (criteria cfg el pv) = some cut := by
      rw [criteria, firstFailing_append, ← hk]; rfl
    refine ⟨_, rfl, ?_, fun _ => rfl, hff.symm⟩
    rw [← firstFailing_eq_none, hff]
    simp
  | none =>
    rw [hkc] at hk
    obtain ⟨r, hr, hf, hv⟩ := passLikelihoodPID_failed cfg el aux hOP
    have hff : firstFailing (criteria cfg el pv) = r.failed := by
      rw [criteria, firstFailing_append, ← hk, hf]; rfl
    refine ⟨r, hr, ?_, ?_, hff.symm⟩
    · rw [← firstFailing_eq_none, hff, hv]
      by_cases hn : r.failed = none <;> simp [hn]
    · rw [hv]
      by_cases hn : r.failed = none <;> simp [hn]

end ElectronSelector

/-! ## Lemmas on the bounds of `PassCuts` -/

theorem firstFailing_mem (cs : List (ElectronCut × Bool)) (c : ElectronCut)
    (h : firstFailing cs = some c) : (c, false) ∈ cs := by
  unfold firstFailing at h
  obtain ⟨p, hp, hc⟩ := Option.map_eq_some'.mp h
  have hmem := List.mem_of_find?_eq_some hp
  have hfalse := List.find?_some hp
  obtain ⟨c', b⟩ := p
  simp only [Bool.not_eq_eq_eq_not, Bool.not_true] at hfalse
  simp only at hc
  subst hc; subst hfalse
  exact hmem

namespace MuonSelector

theorem passIsoTool_failed (cfg : MuonSelector) (mu : Muon) :
    (passIsoTool cfg mu).failed = some MuonCut.isolation ∨
    (passIsoTool cfg mu).failed = some MuonCut.selectionTool ∨
    (passIsoTool cfg mu).failed = none := by
  unfold passIsoTool
  split
  · exact Or.inl rfl
  · split
    · exact Or.inr (Or.inl rfl)
    · exact Or.inr (Or.inr rfl)

theorem passType_failed (cfg : MuonSelector) (mu : Muon) (r : MuonPassCutsResult)
    (h : passType cfg mu = some r) :
    r.failed = some MuonCut.muonType ∨ r.failed = some MuonCut.isolation ∨
    r.failed = some MuonCut.selectionTool ∨ r.failed = none := by
  unfold passType at h
  split at h
  · split at h
    · exact absurd h (by simp)
    · split at h
      · simp only [Option.some.injEq] at h
        subst h
        exact Or.inl rfl
      · simp only [Option.some.injEq] at h
        subst h
        exact Or.inr (passIsoTool_failed cfg mu)
  · simp only [Option.some.injEq] at h
    subst h
    exact Or.inr (passIsoTool_failed cfg mu)

/-- A kinematic bound of the muon `PassCuts` left at the sentinel rejects nothing, and a muon
that is not stand-alone and whose impact parameter is not below its bound is rejected. -/
theorem muon_PassCuts_bounds (cfg : MuonSelector) (mu : Muon) (pv : Vertex)
    (r : MuonPassCutsResult) (h : PassCuts cfg mu pv = some r) :
    (cfg.m_pT_max = sentinel → r.failed ≠ some MuonCut.pTMax) ∧
    (cfg.m_pT_min = sentinel → r.failed ≠ some MuonCut.pTMin) ∧
    (cfg.m_eta_max = sentinel → r.failed ≠ some MuonCut.etaMax) ∧
    (mu.muonType ≠ MuonType.MuonStandAlone →
      (¬ mu.primaryTrackParticle.d0 < cfg.m_d0_max ∨
       ¬ (d0_significance cfg.floatArith mu.primaryTrackParticle).lt cfg.m_d0sig_max ∨
       ¬ (z0sintheta cfg.floatArith mu.primaryTrackParticle pv).fabs.lt cfg.m_z0sintheta_max) →
      r.value = 0) := by
  unfold PassCuts at h
  simp only [] at h
  split at h
  · rename_i hc
    simp only [Option.some.injEq] at h
    subst h
    simp [hc.1]
  · split at h
    · rename_i hc
      simp only [Option.some.injEq] at h
      subst h
      simp [hc.1]
    · split at h
      · rename_i hc
        simp only [Option.some.injEq] at h
        subst h
        simp [hc.1]
      · split at h
        · simp only [Option.some.injEq] at h
          subst h
          simp
        · split at h
          · simp only [Option.some.injEq] at h
            subst h
            simp
          · split at h
            · simp only [Option.some.injEq] at h
              subst h
              simp
            · rename_i h4 h5 h6
              have hf := passType_failed cfg mu r h
              refine ⟨?_, ?_, ?_, ?_⟩
              · intro _ hx; rw [hx] at hf; simp at hf
              · intro _ hx; rw [hx] at hf; simp at hf
              · intro _ hx; rw [hx] at hf; simp at hf
              · intro hsa hor
                exfalso
                rcases hor with h1 | h1 | h1
                · exact h4 ⟨hsa, h1⟩
                · exact h5 ⟨hsa, h1⟩
                · exact h6 ⟨hsa, h1⟩

end MuonSelector

namespace ElectronSelector

/-- A kinematic bound of the electron `PassCuts` left at the sentinel rejects nothing, and an
electron whose impact parameter is not below its bound is rejected. -/
theorem PassCuts_bounds (cfg : ElectronSelector) (el : Electron) (aux : Decorations)
    (pv : Vertex) (hOP : cfg.operatingPointsPresent) :
    ∃ r, PassCuts cfg el aux pv = some r ∧
    (cfg.m_pT_max = sentinel → r.failed ≠ some ElectronCut.pTMax) ∧
    (cfg.m_pT_min = sentinel → r.failed ≠ some ElectronCut.pTMin) ∧
    (cfg.m_eta_max = sentinel → r.failed ≠ some ElectronCut.etaMax) ∧
    ((¬ el.trackParticle.d0 < cfg.m_d0_max ∨
       ¬ (d0_significance cfg.floatArith el.trackParticle).lt cfg.m_d0sig_max ∨
       ¬ (z0sintheta cfg.floatArith el.trackParticle pv).fabs.lt cfg.m_z0sintheta_max) →
      r.value = 0) := by
  obtain ⟨r, hr, hiff, h0, hf⟩ := PassCuts_eq_firstFailing cfg el aux pv hOP
  refine ⟨r, hr, ?_, ?_, ?_, ?_⟩
  · intro hs hx
    have := firstFailing_mem _ _ (hf ▸ hx)
    simp [criteria, kinematicCriteria, identificationCriteria, hs] at this
  · intro hs hx
    have := firstFailing_mem _ _ (hf ▸ hx)
    simp [criteria, kinematicCriteria, identificationCriteria, hs] at this
  · intro hs hx
    have := firstFailing_mem _ _ (hf ▸ hx)
    simp [criteria, kinematicCriteria, identificationCriteria, hs] at this
  · intro hor
    apply h0
    intro h1
    have hall := hiff.mp h1
    rcases hor with h2 | h2 | h2
    · have := hall (ElectronCut.d0, decide (el.trackParticle.d0 < cfg.m_d0_max))
        (by simp [criteria, kinematicCriteria])
      simp only [decide_eq_true_eq] at this
      exact h2 this
    · have := hall (ElectronCut.d0sig,
          (d0_significance cfg.floatArith el.trackParticle).lt cfg.m_d0sig_max)
        (by simp [criteria, kinematicCriteria])
      exact h2 this
    · have := hall (ElectronCut.z0sintheta,
          (z0sintheta cfg.floatArith el.trackParticle pv).fabs.lt cfg.m_z0sintheta_max)
        (by simp [criteria, kinematicCriteria])
      exact h2 this

end ElectronSelector

/-! ## Lemmas on the decorations written by `PassCuts` -/

theorem setDecorations_getDecor_notin (m : PIDManager) (d : Decorations) (key : String)
    (h : key ∉ m.m_allWPAuxDecors.map Prod.fst) :
    getDecor (m.setDecorations d) key = getDecor d key := by
  unfold PIDManager.setDecorations
  generalize m.m_allWPAuxDecors = l at h
  induction l generalizing d with
  | nil => rfl
  | cons kv rest ih =>
    simp only [List.map_cons, List.mem_cons, not_or] at h
    simp only [List.foldl_cons]
    rw [ih _ h.2, getDecor_auxdecor_ne _ _ _ _ h.1]

theorem decorateWPs_getDecor_notin (tools : List (String × PIDTool)) (el : Electron)
    (d : Decorations) (key : String)
    (h : key ∉ tools.map (fun kv => kv.2.getOperatingPointName)) :
    getDecor (decorateWPs tools el d) key = getDecor d key := by
  unfold decorateWPs
  induction tools generalizing d with
  | nil => rfl
  | cons kv rest ih =>
    simp only [List.map_cons, List.mem_cons, not_or] at h
    simp only [List.foldl_cons]
    rw [ih _ h.2, getDecor_auxdecor_ne _ _ _ _ h.1]

/-- After the decoration loop over tools of pairwise distinct names, every tool's decoration
is its decision. -/
theorem decorateWPs_getDecor_mem (tools : List (String × PIDTool)) (el : Electron)
    (d : Decorations) (hnd : (tools.map (fun kv => kv.2.getOperatingPointName)).Nodup)
    (kv : String × PIDTool) (hkv : kv ∈ tools) :
    getDecor (decorateWPs tools el d) kv.2.getOperatingPointName =
      some (if kv.2.accept el then 1 else 0) := by
  induction tools generalizing d with
  | nil => simp at hkv
  | cons t rest ih =>
    simp only [List.map_cons, List.nodup_cons] at hnd
    have hstep : decorateWPs (t :: rest) el d =
        decorateWPs rest el
          (auxdecor d t.2.getOperatingPointName (if t.2.accept el then 1 else 0)) := by
      simp [decorateWPs]
    rw [hstep]
    rcases List.mem_cons.mp hkv with h | h
    · subst h
      rw [decorateWPs_getDecor_notin rest el _ _ hnd.1, getDecor_auxdecor]
    · exact ih _ hnd.2 h

namespace ElectronSelector

theorem configuredLHAccepts_true (cfg : ElectronSelector) (el : Electron)
    (h : configuredLHAccepts cfg el = true) :
    ∃ t, findTool cfg.m_el_LH_PIDManager.getValidTools cfg.m_LHOperatingPoint = some t ∧
      t.accept el = true := by
  unfold configuredLHAccepts at h
  split at h
  · exact ⟨_, by assumption, h⟩
  · exact absurd h (by simp)

theorem configuredCutBasedAccepts_true (cfg : ElectronSelector) (el : Electron)
    (h : configuredCutBasedAccepts cfg el = true) :
    ∃ t, findTool cfg.m_el_CutBased_PIDManager.getValidTools cfg.m_CutBasedOperatingPoint
        = some t ∧ t.accept el = true := by
  unfold configuredCutBasedAccepts at h
  split at h
  · exact ⟨_, by assumption, h⟩
  · exact absurd h (by simp)

/-- The cut-based step when its hard cut is disabled or passed: the cut-based decorations are
written and `PassCuts` goes on to the isolation step. -/
theorem passCutBasedPID_accepted (cfg : ElectronSelector) (el : Electron) (a : Decorations)
    (cs : List ToolCall)
    (hCB : cfg.m_doCutBasedPIDcut = true → configuredCutBasedAccepts cfg el = true) :
    ∃ cs', passCutBasedPID cfg el a cs = some (passIsolation cfg el
      (decorateWPs cfg.m_el_CutBased_PIDManager.getValidTools el
        (cfg.m_el_CutBased_PIDManager.setDecorations a)) cs') := by
  unfold passCutBasedPID
  simp only []
  by_cases hcb : cfg.m_doCutBasedPIDcut = true
  · obtain ⟨t, ht, hacc⟩ := configuredCutBasedAccepts_true cfg el (hCB hcb)
    simp only [hcb, ht, if_true, hacc, Bool.not_true, Bool.false_eq_true, if_false]
    exact ⟨_, rfl⟩
  · simp only [hcb]
    exact ⟨_, rfl⟩

/-- The cut-based step when its hard cut is enabled and the configured tool rejects: the
return is taken before the decoration loop. -/
theorem passCutBasedPID_rejected (cfg : ElectronSelector) (el : Electron) (a : Decorations)
    (cs : List ToolCall) (hOP : cfg.operatingPointsPresent)
    (hcb : cfg.m_doCutBasedPIDcut = true) (hrej : configuredCutBasedAccepts cfg el = false) :
    ∃ cs', passCutBasedPID cfg el a cs =
      some { value := 0, failed := some ElectronCut.cutBasedPID,
             aux := cfg.m_el_CutBased_PIDManager.setDecorations a, calls := cs' } := by
  unfold passCutBasedPID
  simp only []
  obtain ⟨t, ht⟩ := Option.isSome_iff_exists.mp (hOP.2 hcb)
  have hacc : t.accept el = false := by simpa [configuredCutBasedAccepts, ht] using hrej
  simp only [hcb, ht, if_true, hacc, Bool.not_false]
  exact ⟨_, rfl⟩

/-- The likelihood step when its hard cut is disabled or passed: the likelihood decorations
are written and `PassCuts` goes on to the cut-based step. -/
theorem passLikelihoodPID_accepted (cfg : ElectronSelector) (el : Electron) (a : Decorations)
    (hLH : cfg.m_doLHPIDcut = true → configuredLHAccepts cfg el = true) :
    ∃ cs, passLikelihoodPID cfg el a = passCutBasedPID cfg el (auxAfterLH cfg el a) cs := by
  unfold passLikelihoodPID auxAfterLH
  simp only []
  by_cases hlh : cfg.m_doLHPIDcut = true
  · obtain ⟨t, ht, hacc⟩ := configuredLHAccepts_true cfg el (hLH hlh)
    simp only [hlh, ht, if_true, hacc, Bool.not_true, Bool.false_eq_true, if_false]
    exact ⟨_, rfl⟩
  · simp only [hlh]
    exact ⟨_, rfl⟩

/-- The likelihood step when its hard cut is enabled and the configured tool rejects: the
return is taken before the decoration loop. -/
theorem passLikelihoodPID_rejected (cfg : ElectronSelector) (el : Electron) (a : Decorations)
    (hOP : cfg.operatingPointsPresent)
    (hlh : cfg.m_doLHPIDcut = true) (hrej : configuredLHAccepts cfg el = false) :
    ∃ cs, passLikelihoodPID cfg el a =
      some { value := 0, failed := some ElectronCut.likelihoodPID,
             aux := cfg.m_el_LH_PIDManager.setDecorations a, calls := cs } := by
  unfold passLikelihoodPID
  simp only []
  obtain ⟨t, ht⟩ := Option.isSome_iff_exists.mp (hOP.1 hlh)
  have hacc : t.accept el = false := by simpa [configuredLHAccepts, ht] using hrej
  simp only [hlh, ht, if_true, hacc, Bool.not_false]
  exact ⟨_, rfl⟩

/-- An electron that passes every criterion preceding isolation reaches the isolation step
with the decorations of both identification loops written. -/
theorem PassCuts_reaches_isolation (cfg : ElectronSelector) (el : Electron) (a : Decorations)
    (pv : Vertex) (h0 : kinematicCut cfg el pv = none)
    (hLH : cfg.m_doLHPIDcut = true → configuredLHAccepts cfg el = true)
    (hCB : cfg.m_doCutBasedPIDcut = true → configuredCutBasedAccepts cfg el = true) :
    ∃ cs, PassCuts cfg el a pv = some (passIsolation cfg el (auxAfterCutBased cfg el a) cs) := by
  unfold PassCuts
  rw [h0]
  obtain ⟨cs, hcs⟩ := passLikelihoodPID_accepted cfg el a hLH
  obtain ⟨cs', hcs'⟩ := passCutBasedPID_accepted cfg el (auxAfterLH cfg el a) cs hCB
  exact ⟨cs', by simp only [hcs, hcs']; rfl⟩

theorem passIsolation_aux (cfg : ElectronSelector) (el : Electron) (a : Decorations)
    (cs : List ToolCall) :
    (passIsolation cfg el a cs).aux =
      auxdecor a "isIsolated" (if cfg.m_IsolationSelectionTool el then 1 else 0) := by
  unfold passIsolation
  simp only []
  split <;> rfl

theorem passIsolation_value (cfg : ElectronSelector) (el : Electron) (a : Decorations)
    (cs : List ToolCall) :
    (passIsolation cfg el a cs).value =
      if cfg.m_doIsolation = true ∧ cfg.m_IsolationSelectionTool el = false then 0 else 1 := by
  unfold passIsolation
  simp only []
  cases cfg.m_doIsolation <;> cases cfg.m_IsolationSelectionTool el <;> simp

end ElectronSelector

/-! ## Facts on the example configurations -/

/-- The electron of pT 25 passes every criterion of the example configuration that precedes
identification, with the likelihood cut at `Medium`. -/
theorem kinematicCut_example25 :
    ElectronSelector.kinematicCut mediumLHElectronSelector (exampleElectron 25) { z := 0 }
      = none := by
  norm_num [ElectronSelector.kinematicCut, mediumLHElectronSelector, exampleElectronSelector,
    exampleElectron, ElectronSelector.inCrack, d0_significance, z0sintheta, exampleTrack,
    sentinel]

/-- The `Medium` likelihood tool of the example accepts the electron of pT 25. -/
theorem configuredLHAccepts_example25 :
    ElectronSelector.configuredLHAccepts mediumLHElectronSelector (exampleElectron 25) = true := by
  simp +decide [ElectronSelector.configuredLHAccepts, mediumLHElectronSelector,
    exampleElectronSelector, exampleLH, PIDManager.getValidTools, findTool, exampleElectron]

/-- The example tools have decoration names that do not collide. -/
theorem decorationNamesDistinct_example : mediumLHElectronSelector.decorationNamesDistinct := by
  simp +decide [ElectronSelector.decorationNamesDistinct, mediumLHElectronSelector,
    exampleElectronSelector, exampleLH, exampleCutBased, PIDManager.getValidTools]

/-- The configured operating points of the example are keys of its tool maps. -/
theorem operatingPointsPresent_example : mediumLHElectronSelector.operatingPointsPresent := by
  simp +decide [ElectronSelector.operatingPointsPresent, mediumLHElectronSelector,
    exampleElectronSelector]

/-! ## Lemmas on the store -/

namespace Store

theorem lookup_cons_eq (k : String) (v : StoreObj) (rest : Store) (key' : String) :
    List.lookup key' ((k, v) :: rest) = if key' = k then some v else List.lookup key' rest := by
  by_cases h : key' = k
  · subst h; simp [List.lookup]
  · have hb : (key' == k) = false := by simpa using h
    simp [List.lookup, hb, h]

theorem lookup_decorated (st : Store) (key : String) (obj : StoreObj) (key' : String) :
    (st.decorated key obj).lookup key' =
      if key' = key then (st.lookup key).map (fun _ => obj) else st.lookup key' := by
  unfold decorated
  induction st with
  | nil => simp [List.lookup]
  | cons kv rest ih =>
    obtain ⟨k, v⟩ := kv
    by_cases hk : k = key
    · have hm : List.map (fun kv : String × StoreObj => if kv.1 = key then (kv.1, obj) else kv)
          ((k, v) :: rest) =
          (k, obj) :: List.map (fun kv => if kv.1 = key then (kv.1, obj) else kv) rest := by
        simp [hk]
      rw [hm]
      simp only [lookup_cons_eq, ih]
      subst hk
      by_cases hk' : key' = k
      · simp [hk']
      · simp [hk']
    · have hm : List.map (fun kv : String × StoreObj => if kv.1 = key then (kv.1, obj) else kv)
          ((k, v) :: rest) =
          (k, v) :: List.map (fun kv => if kv.1 = key then (kv.1, obj) else kv) rest := by
        simp [hk]
      rw [hm]
      simp only [lookup_cons_eq, ih]
      by_cases hk' : key' = k
      · have hne : ¬ key' = key := fun h => hk (hk' ▸ h)
        simp [hk', hk]
      · by_cases hkk : key' = key
        · have hne : ¬ key = k := fun h => hk' (hkk.trans h)
          simp [hk', hkk, hne]
        · simp [hk', hkk]

theorem lookup_append_single (st : Store) (key : String) (obj : StoreObj) (key' : String) :
    (st ++ [(key, obj)]).lookup key' =
      match st.lookup key' with
      | some x => some x
      | none => if key' = key then some obj else none := by
  induction st with
  | nil =>
    show List.lookup key' [(key, obj)] = _
    rw [lookup_cons_eq]
    simp [List.lookup]
  | cons kv rest ih =>
    obtain ⟨k, v⟩ := kv
    show List.lookup key' ((k, v) :: (rest ++ [(key, obj)])) = _
    rw [lookup_cons_eq, lookup_cons_eq]
    by_cases hk' : key' = k
    · simp [hk']
    · simp only [hk', if_false]
      exact ih

theorem record_eq_some (st : Store) (key : String) (obj : StoreObj) (h : st.lookup key = none) :
    st.record key obj = some (st ++ [(key, obj)]) := by
  simp [record, h]

theorem record_eq_none (st : Store) (key : String) (obj : StoreObj) (x : StoreObj)
    (h : st.lookup key = some x) : st.record key obj = none := by
  simp [record, h]

theorem SameInputs.refl (st : Store) : SameInputs st st :=
  ⟨rfl, fun _ => rfl⟩

theorem SameInputs.trans {a b c : Store} (h1 : SameInputs a b) (h2 : SameInputs b c) :
    SameInputs a c :=
  ⟨h2.1.trans h1.1, fun k => (h2.2 k).trans (h1.2 k)⟩

/-- Writing back a container whose objects are those of the container retrieved under the
same key gives the same inputs. -/
theorem SameInputs.decorated (st : Store) (key : String) (xs ys : List (Decorated Electron))
    (hx : st.retrieveElectrons key = some xs)
    (hy : ys.map Decorated.obj = xs.map Decorated.obj) :
    SameInputs st (st.decorated key (StoreObj.electrons ys)) := by
  have hl : ∃ v, st.lookup key = some v := by
    unfold retrieveElectrons at hx
    cases h : st.lookup key with
    | none => simp [h] at hx
    | some v => exact ⟨v, rfl⟩
  obtain ⟨v, hv⟩ := hl
  constructor
  · unfold retrieveVertices
    rw [lookup_decorated]
    by_cases hk : "PrimaryVertices" = key
    · subst hk
      unfold retrieveElectrons at hx
      rw [hv] at hx ⊢
      cases v <;> simp at hx ⊢
    · simp [hk]
  · intro k
    unfold retrieveElectrons at hx ⊢
    rw [lookup_decorated]
    by_cases hk : k = key
    · subst hk
      rw [hv] at hx ⊢
      cases v <;> simp at hx ⊢
      subst hx
      exact hy
    · simp [hk]

/-- Recording an object that is neither a vertex container nor an electron container under a
free key gives the same inputs. -/
theorem SameInputs.append (st : Store) (key : String) (obj : StoreObj)
    (hv : ∀ pvx, obj ≠ StoreObj.vertices pvx) (he : ∀ c, obj ≠ StoreObj.electrons c) :
    SameInputs st (st ++ [(key, obj)]) := by
  constructor
  · unfold retrieveVertices
    rw [lookup_append_single]
    cases hl : st.lookup "PrimaryVertices" with
    | some x => rfl
    | none =>
      by_cases hk : "PrimaryVertices" = key
      · simp only [hk, if_true]
        cases obj <;> first | rfl | exact absurd rfl (hv _)
      · simp [hk]
  · intro k
    unfold retrieveElectrons
    rw [lookup_append_single]
    cases hl : st.lookup k with
    | some x => rfl
    | none =>
      by_cases hk : k = key
      · simp only [hk, if_true]
        cases obj <;> first | rfl | exact absurd rfl (he _)
      · simp [hk]

end Store

theorem string_append_left_cancel (a b c : String) (h : a ++ b = a ++ c) : b = c := by
  have := congrArg String.data h
  simp only [String.data_append, List.append_cancel_left_eq] at this
  exact String.ext this

/-! ## Lemmas on the fan-out over systematic names -/

namespace ElectronSelector

/-- The event-pass flag, the counts and the view of a run depend only on the primary vertex
and on the objects of the container: not on their decorations, on the cutflow members, on the
event weight or on `countPass`. -/
theorem executeSelection_congr (cfg : ElectronSelector) (hOP : cfg.operatingPointsPresent)
    (st st' : Store)
    (hpv : st'.retrieveVertices "PrimaryVertices" = st.retrieveVertices "PrimaryVertices")
    (xs ys : List (Decorated Electron)) (hxy : xs.map Decorated.obj = ys.map Decorated.obj)
    (c c' : Cutflow) (w w' : ℚ) (cp cp' : Bool) (r r' : SelectionResult Electron)
    (h : executeSelection cfg st c xs w cp = some r)
    (h' : executeSelection cfg st' c' ys w' cp' = some r') :
    r.eventPass = r'.eventPass ∧ r.selected = r'.selected ∧ r.nObj = r'.nObj ∧
      r.nPass = r'.nPass := by
  cases hv : st.retrieveVertices "PrimaryVertices" with
  | none =>
    have hv' := hpv.trans hv
    simp only [executeSelection, hv, Option.some.injEq] at h
    simp only [executeSelection, hv', Option.some.injEq] at h'
    subst h; subst h'
    exact ⟨rfl, rfl, rfl, rfl⟩
  | some pvx =>
    have hv' := hpv.trans hv
    obtain ⟨l, hl, -, hn, hp, hs, -, hiff⟩ := executeSelection_eq cfg st c xs w cp pvx hv r h
    obtain ⟨l', hl', -, hn', hp', hs', -, hiff'⟩ :=
      executeSelection_eq cfg st' c' ys w' cp' pvx hv' r' h'
    obtain ⟨h1, h2, h3, -⟩ := selectionLoop_congr (passSel cfg pvx) (passValue cfg pvx)
      cfg.m_nToProcess cfg.m_decorateSelectedObjects cfg.m_createSelectedContainer
      (passSel_eq_passValue cfg pvx hOP) xs ys hxy 0 0 0 [] [] l l' hl hl'
    refine ⟨?_, by rw [hs, hs', h3], by rw [hn, hn', h1], by rw [hp, hp', h2]⟩
    rw [Bool.eq_iff_iff, hiff, hiff', h2]

/-- A run with `countPass = false` leaves the cutflow members as they are. -/
theorem executeSelection_cutflow_not_counted (cfg : ElectronSelector) (st : Store)
    (c : Cutflow) (xs : List (Decorated Electron)) (w : ℚ) (r : SelectionResult Electron)
    (h : executeSelection cfg st c xs w false = some r) : r.cutflow = c := by
  unfold executeSelection at h
  split at h
  · simp only [Option.some.injEq] at h
    subst h; rfl
  · split at h
    · exact absurd h (by simp)
    · simp only [Bool.false_eq_true, if_false] at h
      split at h
      · simp only [Option.some.injEq] at h
        subst h; rfl
      · split at h
        · simp only [Option.some.injEq] at h
          subst h; rfl
        · simp only [Option.some.injEq] at h
          subst h; rfl

/-- A run changes decorations only: the objects of the container are the same. -/
theorem executeSelection_objects (cfg : ElectronSelector) (st : Store)
    (c : Cutflow) (xs : List (Decorated Electron)) (w : ℚ) (cp : Bool)
    (r : SelectionResult Electron)
    (h : executeSelection cfg st c xs w cp = some r) :
    r.objects.map Decorated.obj = xs.map Decorated.obj := by
  cases hv : st.retrieveVertices "PrimaryVertices" with
  | none =>
    simp only [executeSelection, hv, Option.some.injEq] at h
    subst h; rfl
  | some pvx =>
    obtain ⟨l, hl, ho, -⟩ := executeSelection_eq cfg st c xs w cp pvx hv r h
    rw [ho]
    exact selectionLoop_objects _ _ _ _ _ _ _ _ _ _ _ hl

/-- The flag returned by the run over the container of a label is `selectionPasses`. -/
theorem eventPass_eq_selectionPasses (cfg : ElectronSelector)
    (hOP : cfg.operatingPointsPresent) (st : Store) (label : String)
    (xs : List (Decorated Electron))
    (hx : st.retrieveElectrons (cfg.m_inContainerName ++ label) = some xs)
    (c : Cutflow) (w : ℚ) (cp : Bool) (r : SelectionResult Electron)
    (h : executeSelection cfg st c xs w cp = some r) :
    r.eventPass = selectionPasses cfg st label := by
  obtain ⟨r0, hr0⟩ := executeSelection_some cfg st Cutflow.zero xs 0 false hOP
  simp only [selectionPasses, hx, hr0]
  exact (executeSelection_congr cfg hOP st st rfl xs xs rfl _ _ _ _ _ _ r r0 h hr0).1

/-- Stores with the same inputs give the same `selectionPasses`. -/
theorem selectionPasses_congr (cfg : ElectronSelector) (hOP : cfg.operatingPointsPresent)
    (st st' : Store) (hs : st.SameInputs st') (label : String) :
    selectionPasses cfg st' label = selectionPasses cfg st label := by
  have hk := hs.2 (cfg.m_inContainerName ++ label)
  cases hx : st.retrieveElectrons (cfg.m_inContainerName ++ label) with
  | none =>
    rw [hx] at hk
    cases hx' : st'.retrieveElectrons (cfg.m_inContainerName ++ label) with
    | none => simp [selectionPasses, hx, hx']
    | some ys => simp [hx'] at hk
  | some xs =>
    rw [hx] at hk
    cases hx' : st'.retrieveElectrons (cfg.m_inContainerName ++ label) with
    | none => simp [hx'] at hk
    | some ys =>
      simp only [hx', Option.map_some', Option.some.injEq] at hk
      obtain ⟨r, hr⟩ := executeSelection_some cfg st Cutflow.zero xs 0 false hOP
      obtain ⟨r', hr'⟩ := executeSelection_some cfg st' Cutflow.zero ys 0 false hOP
      simp only [selectionPasses, hx, hx', hr, hr']
      exact (executeSelection_congr cfg hOP st' st hs.1.symm ys xs hk _ _ _ _ _ _ r' r hr' hr).1

end ElectronSelector

namespace ElectronSelector

/-- One iteration of the loop over systematic names, when the container of the label is in the
store and its output key is free: the loop goes on from a store with the same inputs, to which
the materialized collection has been added exactly when it is requested and the run passed. -/
theorem systLoop_step (cfg : ElectronSelector) (hOP : cfg.operatingPointsPresent) (w : ℚ)
    (l : String) (ls : List String) (c : Cutflow) (st : Store) (cp ep : Bool)
    (out : List String)
    (hIn : (st.retrieveElectrons (cfg.m_inContainerName ++ l)).isSome = true)
    (hFresh : cfg.m_createSelectedContainer = true →
      st.lookup (cfg.m_outContainerName ++ l) = none) :
    ∃ c2 st2,
      systLoop cfg w (l :: ls) c st cp ep out =
        systLoop cfg w ls c2 st2 false (ep || selectionPasses cfg st l)
          (if selectionPasses cfg st l then out ++ [l] else out) ∧
      st.SameInputs st2 ∧
      (∀ k, st.lookup k = none →
        (cfg.m_createSelectedContainer = true → selectionPasses cfg st l = true →
          k ≠ cfg.m_outContainerName ++ l) → st2.lookup k = none) ∧
      (cfg.m_createSelectedContainer = true → selectionPasses cfg st l = true →
        st2.holdsSelectedElectrons (cfg.m_outContainerName ++ l)) ∧
      (∀ k view, st.lookup k = some (StoreObj.selectedElectrons view) →
        st2.lookup k = some (StoreObj.selectedElectrons view)) ∧
      (cp = false → c2 = c) := by
  obtain ⟨xs, hxs⟩ := Option.isSome_iff_exists.mp hIn
  obtain ⟨r, hr⟩ := executeSelection_some cfg st c xs w cp hOP
  have hpass := eventPass_eq_selectionPasses cfg hOP st l xs hxs c w cp r hr
  have hobj := executeSelection_objects cfg st c xs w cp r hr
  have hS1 := Store.SameInputs.decorated st (cfg.m_inContainerName ++ l) xs r.objects hxs hobj
  have hxl : ∃ v, st.lookup (cfg.m_inContainerName ++ l) = some v := by
    unfold Store.retrieveElectrons at hxs
    cases h : st.lookup (cfg.m_inContainerName ++ l) with
    | none => simp [h] at hxs
    | some v => exact ⟨v, rfl⟩
  obtain ⟨v0, hv0⟩ := hxl
  have hnone1 : ∀ k, st.lookup k = none →
      (st.decorated (cfg.m_inContainerName ++ l) (StoreObj.electrons r.objects)).lookup k
        = none := by
    intro k hk
    rw [Store.lookup_decorated]
    by_cases hkk : k = cfg.m_inContainerName ++ l
    · rw [hkk, hv0] at hk
      exact absurd hk (by simp)
    · simp [hkk, hk]
  have hsel1 : ∀ k view, st.lookup k = some (StoreObj.selectedElectrons view) →
      (st.decorated (cfg.m_inContainerName ++ l) (StoreObj.electrons r.objects)).lookup k
        = some (StoreObj.selectedElectrons view) := by
    intro k view hk
    rw [Store.lookup_decorated]
    by_cases hkk : k = cfg.m_inContainerName ++ l
    · unfold Store.retrieveElectrons at hxs
      rw [hkk] at hk
      rw [hk] at hxs
      simp at hxs
    · simp [hkk, hk]
  have hcut : cp = false → r.cutflow = c := by
    intro hcp
    subst hcp
    exact executeSelection_cutflow_not_counted cfg st c xs w r hr
  by_cases hrec : cfg.m_createSelectedContainer = true ∧ selectionPasses cfg st l = true
  · have hfree := hnone1 _ (hFresh hrec.1)
    refine ⟨r.cutflow, st.decorated (cfg.m_inContainerName ++ l) (StoreObj.electrons r.objects)
      ++ [(cfg.m_outContainerName ++ l, StoreObj.selectedElectrons r.selected)],
      ?_, ?_, ?_, ?_, ?_, hcut⟩
    · simp only [systLoop, hxs, hr, hpass, hrec.1, hrec.2, Bool.and_self, if_true,
        Store.record_eq_some _ _ _ hfree]
    · exact hS1.trans (Store.SameInputs.append _ _ _ (by intro pvx; simp) (by intro c; simp))
    · intro k hk hne
      rw [Store.lookup_append_single, hnone1 k hk]
      simp [hne hrec.1 hrec.2]
    · intro _ _
      exact ⟨r.selected, by rw [Store.lookup_append_single, hfree]; simp⟩
    · intro k view hk
      rw [Store.lookup_append_single, hsel1 k view hk]
  · refine ⟨r.cutflow, st.decorated (cfg.m_inContainerName ++ l) (StoreObj.electrons r.objects),
      ?_, hS1, ?_, ?_, hsel1, hcut⟩
    · have hb : (cfg.m_createSelectedContainer && selectionPasses cfg st l) = false := by
        cases h1 : cfg.m_createSelectedContainer <;> cases h2 : selectionPasses cfg st l <;>
          simp_all
      simp only [systLoop, hxs, hr, hpass, hb, Bool.false_eq_true, if_false]
    · intro k hk _
      exact hnone1 k hk
    · intro h1 h2
      exact absurd ⟨h1, h2⟩ hrec

/-- The loop over systematic names, when the container of every label is in the store and,
if materialization is requested, the labels are pairwise distinct and their output keys
free: no `RETURN_CHECK` fails, the labels collected are those whose run passed, in order, the
overall flag is the disjunction of the flags, and the store gains exactly the materialized
collections of the passing labels. -/
theorem systLoop_spec (cfg : ElectronSelector) (hOP : cfg.operatingPointsPresent) (w : ℚ)
    (labels : List String) (c : Cutflow) (st : Store) (cp ep : Bool) (out : List String)
    (hIn : ∀ l ∈ labels, (st.retrieveElectrons (cfg.m_inContainerName ++ l)).isSome = true)
    (hFresh : cfg.m_createSelectedContainer = true →
      labels.Nodup ∧ ∀ l ∈ labels, st.lookup (cfg.m_outContainerName ++ l) = none) :
    ∃ f, systLoop cfg w labels c st cp ep out = some f ∧ f.ok = true ∧
      f.vecOutContainerNames = out ++ labels.filter (selectionPasses cfg st) ∧
      f.eventPass = (ep || labels.any (selectionPasses cfg st)) ∧
      st.SameInputs f.store ∧
      (∀ k, st.lookup k = none →
        (cfg.m_createSelectedContainer = true → ∀ l ∈ labels,
          selectionPasses cfg st l = true → k ≠ cfg.m_outContainerName ++ l) →
        f.store.lookup k = none) ∧
      (cfg.m_createSelectedContainer = true → ∀ l ∈ labels, selectionPasses cfg st l = true →
        f.store.holdsSelectedElectrons (cfg.m_outContainerName ++ l)) ∧
      (∀ k view, st.lookup k = some (StoreObj.selectedElectrons view) →
        f.store.lookup k = some (StoreObj.selectedElectrons view)) := by
  induction labels generalizing c st cp ep out with
  | nil =>
    refine ⟨_, rfl, rfl, by simp, by simp, Store.SameInputs.refl st, ?_, ?_, ?_⟩
    · intro k hk _; exact hk
    · intro _ l hl; simp at hl
    · intro k view hk; exact hk
  | cons l ls ih =>
    obtain ⟨c2, st2, hstep, hS, hnone, hheld, hsel, -⟩ :=
      systLoop_step cfg hOP w l ls c st cp ep out (hIn l (List.mem_cons_self l ls))
        (fun hc => (hFresh hc).2 l (List.mem_cons_self l ls))
    have hcongr : ∀ l', selectionPasses cfg st2 l' = selectionPasses cfg st l' :=
      selectionPasses_congr cfg hOP st st2 hS
    have hIn2 : ∀ l' ∈ ls,
        (st2.retrieveElectrons (cfg.m_inContainerName ++ l')).isSome = true := by
      intro l' hl'
      have h1 := hIn l' (List.mem_cons_of_mem l hl')
      have h2 := hS.2 (cfg.m_inContainerName ++ l')
      obtain ⟨xs, hxs⟩ := Option.isSome_iff_exists.mp h1
      rw [hxs] at h2
      cases hx2 : st2.retrieveElectrons (cfg.m_inContainerName ++ l') with
      | none => simp [hx2] at h2
      | some ys => rfl
    have hFresh2 : cfg.m_createSelectedContainer = true →
        ls.Nodup ∧ ∀ l' ∈ ls, st2.lookup (cfg.m_outContainerName ++ l') = none := by
      intro hc
      obtain ⟨hnd, hfr⟩ := hFresh hc
      rw [List.nodup_cons] at hnd
      refine ⟨hnd.2, fun l' hl' => ?_⟩
      apply hnone _ (hfr l' (List.mem_cons_of_mem l hl'))
      intro _ _ heq
      have := string_append_left_cancel _ _ _ heq
      subst this
      exact hnd.1 hl'
    obtain ⟨f, hf, hok, hvec, hep, hS2, hnone2, hheld2, hsel2⟩ :=
      ih c2 st2 false (ep || selectionPasses cfg st l)
        (if selectionPasses cfg st l then out ++ [l] else out) hIn2 hFresh2
    refine ⟨f, hstep.trans hf, hok, ?_, ?_, hS.trans hS2, ?_, ?_, ?_⟩
    · rw [hvec, List.filter_congr (fun l' _ => hcongr l'), List.filter_cons]
      by_cases hp : selectionPasses cfg st l = true
      · simp [hp]
      · simp [hp]
    · rw [hep, List.any_cons]
      have : ls.any (selectionPasses cfg st2) = ls.any (selectionPasses cfg st) := by
        congr 1
        funext l'
        exact hcongr l'
      rw [this, Bool.or_assoc]
    · intro k hk hne
      apply hnone2 k
      · exact hnone k hk (fun hc hp => hne hc l (List.mem_cons_self l ls) hp)
      · intro hc l' hl' hp
        rw [hcongr] at hp
        exact hne hc l' (List.mem_cons_of_mem l hl') hp
    · intro hc l' hl' hp
      rcases List.mem_cons.mp hl' with h | h
      · subst h
        obtain ⟨view, hview⟩ := hheld hc hp
        exact ⟨view, hsel2 _ _ hview⟩
      · exact hheld2 hc l' h (by rw [hcongr]; exact hp)
    · intro k view hk
      exact hsel2 k view (hsel k view hk)

/-- After the first label the loop counts nothing: with `countPass = false` it leaves the
cutflow members as they are, whatever the store holds. -/
theorem systLoop_cutflow_not_counted (cfg : ElectronSelector)
    (hOP : cfg.operatingPointsPresent) (w : ℚ) (labels : List String) (c : Cutflow)
    (st : Store) (ep : Bool) (out : List String) :
    ∃ f, systLoop cfg w labels c st false ep out = some f ∧ f.cutflow = c := by
  induction labels generalizing st ep out with
  | nil => exact ⟨_, rfl, rfl⟩
  | cons l ls ih =>
    simp only [systLoop]
    cases hx : st.retrieveElectrons (cfg.m_inContainerName ++ l) with
    | none => exact ⟨_, rfl, rfl⟩
    | some xs =>
      obtain ⟨r, hr⟩ := executeSelection_some cfg st c xs w false hOP
      have hc := executeSelection_cutflow_not_counted cfg st c xs w r hr
      simp only [hr]
      split
      · split
        · exact ⟨_, rfl, hc⟩
        · rw [hc]
          exact ih _ _ _
      · rw [hc]
        exact ih _ _ _

end ElectronSelector

namespace ElectronSelector

/-- `executeSelection` reads the store through the primary vertices only. -/
theorem executeSelection_store_congr (cfg : ElectronSelector) (st st' : Store)
    (hpv : st'.retrieveVertices "PrimaryVertices" = st.retrieveVertices "PrimaryVertices")
    (c : Cutflow) (xs : List (Decorated Electron)) (w : ℚ) (cp : Bool) :
    executeSelection cfg st' c xs w cp = executeSelection cfg st c xs w cp := by
  unfold executeSelection
  rw [hpv]

/-- The cutflow members after the loop over a non-empty list of systematic names are those
after the run over the first one. -/
theorem systLoop_cutflow_first (cfg : ElectronSelector) (hOP : cfg.operatingPointsPresent)
    (w : ℚ) (hd : String) (tl : List String) (c : Cutflow) (st : Store) (ep : Bool)
    (out : List String) :
    ∃ f, systLoop cfg w (hd :: tl) c st true ep out = some f ∧
      f.cutflow =
        match st.retrieveElectrons (cfg.m_inContainerName ++ hd) with
        | none => c
        | some xs =>
          match executeSelection cfg st c xs w true with
          | some r => r.cutflow
          | none => c := by
  simp only [systLoop]
  cases hx : st.retrieveElectrons (cfg.m_inContainerName ++ hd) with
  | none => exact ⟨_, rfl, rfl⟩
  | some xs =>
    obtain ⟨r, hr⟩ := executeSelection_some cfg st c xs w true hOP
    simp only [hr]
    split
    · split
      · exact ⟨_, rfl, rfl⟩
      · exact systLoop_cutflow_not_counted cfg hOP w tl r.cutflow _ _ _
    · exact systLoop_cutflow_not_counted cfg hOP w tl r.cutflow _ _ _

/-- In fan-out mode `execute` returns, with the cutflow members left by the loop over the
systematic names. -/
theorem execute_fanout_cutflow (cfg : ElectronSelector) (c : Cutflow) (st : Store)
    (labels : List String) (w : ℚ) (hFan : cfg.m_inputAlgoSystNames ≠ "")
    (hEI : st.retrieveEventInfo "EventInfo" = some (some w))
    (hL : st.retrieveSystNames cfg.m_inputAlgoSystNames = some labels)
    (f : FanOut)
    (hf : systLoop cfg w labels { c with m_numEvent := wrapInt (c.m_numEvent + 1) } st true false []
      = some f) :
    ∃ r, execute cfg c st = some r ∧ r.cutflow = f.cutflow := by
  simp only [execute, hEI, hFan, if_false, hL, hf]
  split
  · split
    · exact ⟨_, rfl, rfl⟩
    · exact ⟨_, rfl, rfl⟩
  · exact ⟨_, rfl, rfl⟩

end ElectronSelector

/-! ## Lemmas on the materialized collections in the store -/

namespace Store

theorem lookup_decorated_none (st : Store) (key : String) (obj : StoreObj) (key' : String)
    (h : st.lookup key' = none) : (st.decorated key obj).lookup key' = none := by
  rw [lookup_decorated]
  by_cases hk : key' = key
  · subst hk
    simp [h]
  · simp [hk, h]

theorem holdsSelectedElectrons_append (st : Store) (key : String) (view : List Nat)
    (h : st.lookup key = none) :
    holdsSelectedElectrons (st ++ [(key, StoreObj.selectedElectrons view)]) key :=
  ⟨view, by rw [lookup_append_single, h]; simp⟩

theorem holdsSelectedMuons_append (st : Store) (key : String) (view : List Nat)
    (h : st.lookup key = none) :
    holdsSelectedMuons (st ++ [(key, StoreObj.selectedMuons view)]) key :=
  ⟨view, by rw [lookup_append_single, h]; simp⟩

theorem not_holdsSelectedElectrons_of_none (st : Store) (key : String)
    (h : st.lookup key = none) : ¬ holdsSelectedElectrons st key := by
  rintro ⟨view, hv⟩
  rw [h] at hv
  exact absurd hv (by simp)

theorem not_holdsSelectedMuons_of_none (st : Store) (key : String)
    (h : st.lookup key = none) : ¬ holdsSelectedMuons st key := by
  rintro ⟨view, hv⟩
  rw [h] at hv
  exact absurd hv (by simp)

/-- Recording a list of names does not add or remove a materialized electron collection. -/
theorem holdsSelectedElectrons_append_systNames (st : Store) (key key' : String)
    (names : List String) :
    holdsSelectedElectrons (st ++ [(key', StoreObj.systNames names)]) key ↔
      holdsSelectedElectrons st key := by
  unfold holdsSelectedElectrons
  rw [lookup_append_single]
  cases h : st.lookup key with
  | some x => simp
  | none =>
    by_cases hk : key = key'
    · simp [hk]
    · simp [hk]

end Store

namespace ElectronSelector

/-- Single-collection mode: the store holds the materialized collection under
`OutputContainer` after `execute` exactly when it is requested and the run passed. -/
theorem execute_single_materialized (cfg : ElectronSelector) (c : Cutflow) (st : Store)
    (xs : List (Decorated Electron)) (w : ℚ)
    (hOP : cfg.operatingPointsPresent)
    (hSingle : cfg.m_inputAlgoSystNames = "")
    (hEI : st.retrieveEventInfo "EventInfo" = some (some w))
    (hIn : st.retrieveElectrons cfg.m_inContainerName = some xs)
    (hFree : st.lookup cfg.m_outContainerName = none) :
    ∃ s e, executeSelection cfg st { c with m_numEvent := wrapInt (c.m_numEvent + 1) } xs w true
        = some s ∧
      execute cfg c st = some e ∧
      (e.store.holdsSelectedElectrons cfg.m_outContainerName ↔
        cfg.m_createSelectedContainer = true ∧ s.eventPass = true) := by
  obtain ⟨s, hs⟩ := executeSelection_some cfg st { c with m_numEvent := wrapInt (c.m_numEvent + 1) } xs w
    true hOP
  have hfree1 := Store.lookup_decorated_none st cfg.m_inContainerName
    (StoreObj.electrons s.objects) _ hFree
  by_cases hrec : cfg.m_createSelectedContainer = true ∧ s.eventPass = true
  · refine ⟨s, finish s.cutflow
      (st.decorated cfg.m_inContainerName (StoreObj.electrons s.objects) ++
        [(cfg.m_outContainerName, StoreObj.selectedElectrons s.selected)]) s.eventPass,
      hs, ?_, ?_⟩
    · simp only [execute, hEI, hSingle, if_true, hIn, hs, hrec.1, hrec.2, Bool.and_self,
        Store.record_eq_some _ _ _ hfree1]
    · simp only [finish]
      exact ⟨fun _ => hrec, fun _ => Store.holdsSelectedElectrons_append _ _ _ hfree1⟩
  · have hb : (cfg.m_createSelectedContainer && s.eventPass) = false := by
      cases h1 : cfg.m_createSelectedContainer <;> cases h2 : s.eventPass <;> simp_all
    refine ⟨s, finish s.cutflow
      (st.decorated cfg.m_inContainerName (StoreObj.electrons s.objects)) s.eventPass,
      hs, ?_, ?_⟩
    · simp only [execute, hEI, hSingle, if_true, hIn, hs, hb, Bool.false_eq_true, if_false]
    · simp only [finish]
      exact ⟨fun h => absurd h (Store.not_holdsSelectedElectrons_of_none _ _ hfree1),
        fun h => absurd h hrec⟩

/-- Fan-out mode: for every label, the store holds the materialized collection under
`OutputContainer + label` after `execute` exactly when it is requested and the run over that
label's container passed. -/
theorem execute_fanout_materialized (cfg : ElectronSelector) (c : Cutflow) (st : Store)
    (labels : List String) (w : ℚ)
    (hOP : cfg.operatingPointsPresent)
    (hFan : cfg.m_inputAlgoSystNames ≠ "")
    (hEI : st.retrieveEventInfo "EventInfo" = some (some w))
    (hL : st.retrieveSystNames cfg.m_inputAlgoSystNames = some labels)
    (hIn : ∀ l ∈ labels, (st.retrieveElectrons (cfg.m_inContainerName ++ l)).isSome = true)
    (hNodup : labels.Nodup)
    (hFree : ∀ l ∈ labels, st.lookup (cfg.m_outContainerName ++ l) = none) :
    ∃ e, execute cfg c st = some e ∧
      ∀ l ∈ labels, (e.store.holdsSelectedElectrons (cfg.m_outContainerName ++ l) ↔
        cfg.m_createSelectedContainer = true ∧ selectionPasses cfg st l = true) := by
  obtain ⟨f, hf, hok, -, -, -, hnone, hheld, -⟩ :=
    systLoop_spec cfg hOP w labels { c with m_numEvent := wrapInt (c.m_numEvent + 1) }
      st true false [] hIn (fun _ => ⟨hNodup, hFree⟩)
  have hiff : ∀ l ∈ labels, (f.store.holdsSelectedElectrons (cfg.m_outContainerName ++ l) ↔
      cfg.m_createSelectedContainer = true ∧ selectionPasses cfg st l = true) := by
    intro l hl
    constructor
    · intro hh
      by_contra hne
      apply Store.not_holdsSelectedElectrons_of_none _ _ _ hh
      apply hnone _ (hFree l hl)
      intro hc l' _ hp heq
      have := string_append_left_cancel _ _ _ heq
      subst this
      exact hne ⟨hc, hp⟩
    · intro h
      exact hheld h.1 l hl h.2
  cases hrec : f.store.record cfg.m_outputAlgoSystNames
      (StoreObj.systNames f.vecOutContainerNames) with
  | none =>
    refine ⟨failure f.cutflow f.store, ?_, hiff⟩
    simp only [execute, hEI, hFan, if_false, hL, hf, hok, if_true, hrec]
  | some st2 =>
    have hst2 : st2 = f.store ++
        [(cfg.m_outputAlgoSystNames, StoreObj.systNames f.vecOutContainerNames)] := by
      unfold Store.record at hrec
      split at hrec
      · exact absurd hrec (by simp)
      · simp only [Option.some.injEq] at hrec
        exact hrec.symm
    refine ⟨finish f.cutflow st2 f.eventPass, ?_, ?_⟩
    · simp only [execute, hEI, hFan, if_false, hL, hf, hok, if_true, hrec]
    · intro l hl
      simp only [finish, hst2]
      rw [Store.holdsSelectedElectrons_append_systNames]
      exact hiff l hl

end ElectronSelector

namespace MuonSelector

/-- The store holds the materialized muon collection under `OutputContainer` after `execute`
exactly when it is requested, the primary vertices are in the store and the pass-count gate
is passed (`skipEvent` is not called). -/
theorem execute_materialized (cfg : MuonSelector) (c : Cutflow) (st : Store)
    (ms : List (Decorated Muon)) (w : ℚ)
    (hT : cfg.muonTypeKnown)
    (hEI : st.retrieveEventInfo "EventInfo" = some (some w))
    (hIn : st.retrieveMuons cfg.m_inContainerName = some ms)
    (hFree : st.lookup cfg.m_outContainerName = none) :
    ∃ r, executeConst cfg { c with m_numEvent := wrapInt (c.m_numEvent + 1) } st cfg.m_inContainerName
        ms w = some r ∧
      execute cfg c st = some r.exec ∧
      (r.exec.store.holdsSelectedMuons cfg.m_outContainerName ↔
        cfg.m_createSelectedContainer = true ∧
        (st.retrieveVertices "PrimaryVertices").isSome = true ∧
        r.exec.skipEvent = false) := by
  obtain ⟨r, hr⟩ := executeConst_some cfg { c with m_numEvent := wrapInt (c.m_numEvent + 1) } st
    cfg.m_inContainerName ms w hT
  refine ⟨r, hr, by simp only [execute, hEI, hIn, hr, Option.map_some'], ?_⟩
  unfold executeConst at hr
  cases hv : st.retrieveVertices "PrimaryVertices" with
  | none =>
    simp only [hv, Option.some.injEq] at hr
    subst hr
    simp only [Option.isSome_none, Bool.false_eq_true, false_and, and_false, iff_false]
    exact Store.not_holdsSelectedMuons_of_none _ _ hFree
  | some pvx =>
    simp only [hv] at hr
    split at hr
    · exact absurd hr (by simp)
    · rename_i l hl
      have hfree1 := Store.lookup_decorated_none st cfg.m_inContainerName
        (StoreObj.muons l.objects) _ hFree
      split at hr
      · simp only [Option.some.injEq] at hr
        subst hr
        exact ⟨fun h => absurd h (Store.not_holdsSelectedMuons_of_none _ _ hfree1),
          fun h => absurd h.2.2 (by simp)⟩
      · split at hr
        · simp only [Option.some.injEq] at hr
          subst hr
          exact ⟨fun h => absurd h (Store.not_holdsSelectedMuons_of_none _ _ hfree1),
            fun h => absurd h.2.2 (by simp)⟩
        · split at hr
          · rename_i hc
            rw [Store.record_eq_some _ _ _ hfree1] at hr
            simp only [Option.some.injEq] at hr
            subst hr
            exact ⟨fun _ => ⟨hc, rfl, rfl⟩,
              fun _ => Store.holdsSelectedMuons_append _ _ _ hfree1⟩
          · rename_i hc
            simp only [Option.some.injEq] at hr
            subst hr
            exact ⟨fun h => absurd h (Store.not_holdsSelectedMuons_of_none _ _ hfree1),
              fun h => absurd h.1 hc⟩

end MuonSelector

/-! ## Facts on the example event -/

/-- In the example event only the `SYS_UP` variation passes. -/
theorem selectionPasses_fanOutStore :
    ["", "SYS_UP", "SYS_DOWN"].filter
      (ElectronSelector.selectionPasses fanOutElectronSelector fanOutStore) = ["SYS_UP"] := by
  simp +decide [ElectronSelector.selectionPasses, fanOutStore, fanOutElectronSelector,
    Store.retrieveElectrons, Store.lookup_cons_eq,
    ElectronSelector.executeSelection, Store.retrieveVertices,
    selectionLoop, ElectronSelector.passSel, ElectronSelector.PassCuts,
    ElectronSelector.kinematicCut, exampleElectronSelector, exampleElectron,
    ElectronSelector.inCrack, d0_significance, z0sintheta, exampleTrack, sentinel,
    ElectronSelector.passLikelihoodPID, ElectronSelector.passCutBasedPID,
    ElectronSelector.passIsolation, List.filter]
  norm_num

/-! ## The fan-out loop without assumptions on the store -/

namespace Store

theorem record_some (st : Store) (key : String) (obj : StoreObj) (st' : Store)
    (h : st.record key obj = some st') :
    st.lookup key = none ∧ st' = st ++ [(key, obj)] := by
  unfold record at h
  split at h
  · exact absurd h (by simp)
  · rename_i hl
    simp only [Option.some.injEq] at h
    exact ⟨hl, h.symm⟩

end Store

namespace ElectronSelector

/-- Under the precondition on the operating points the loop over systematic names returns. -/
theorem systLoop_some (cfg : ElectronSelector) (hOP : cfg.operatingPointsPresent) (w : ℚ)
    (labels : List String) (c : Cutflow) (st : Store) (cp ep : Bool) (out : List String) :
    ∃ f, systLoop cfg w labels c st cp ep out = some f := by
  induction labels generalizing c st cp ep out with
  | nil => exact ⟨_, rfl⟩
  | cons l ls ih =>
    simp only [systLoop]
    cases hx : st.retrieveElectrons (cfg.m_inContainerName ++ l) with
    | none => exact ⟨_, rfl⟩
    | some xs =>
      obtain ⟨r, hr⟩ := executeSelection_some cfg st c xs w cp hOP
      simp only [hr]
      split
      · split
        · exact ⟨_, rfl⟩
        · exact ih _ _ _ _ _
      · exact ih _ _ _ _ _

/-- Whenever the loop over systematic names ends without a failed `RETURN_CHECK`, the labels
collected are those whose run passed, in order, the overall flag is the disjunction of the
flags and the store has the same inputs as before. -/
theorem systLoop_ok (cfg : ElectronSelector) (hOP : cfg.operatingPointsPresent) (w : ℚ)
    (labels : List String) (c : Cutflow) (st : Store) (cp ep : Bool) (out : List String)
    (f : FanOut) (h : systLoop cfg w labels c st cp ep out = some f) (hok : f.ok = true) :
    f.vecOutContainerNames = out ++ labels.filter (selectionPasses cfg st) ∧
    f.eventPass = (ep || labels.any (selectionPasses cfg st)) ∧
    st.SameInputs f.store := by
  induction labels generalizing c st cp ep out with
  | nil =>
    simp only [systLoop, Option.some.injEq] at h
    subst h
    exact ⟨by simp, by simp, Store.SameInputs.refl st⟩
  | cons l ls ih =>
    simp only [systLoop] at h
    cases hx : st.retrieveElectrons (cfg.m_inContainerName ++ l) with
    | none =>
      simp only [hx, Option.some.injEq] at h
      subst h
      exact absurd hok (by simp)
    | some xs =>
      obtain ⟨r, hr⟩ := executeSelection_some cfg st c xs w cp hOP
      have hpass := eventPass_eq_selectionPasses cfg hOP st l xs hx c w cp r hr
      have hobj := executeSelection_objects cfg st c xs w cp r hr
      have hS1 := Store.SameInputs.decorated st (cfg.m_inContainerName ++ l) xs r.objects hx hobj
      simp only [hx, hr, hpass] at h
      have hfin : ∀ st2, st.SameInputs st2 →
          systLoop cfg w ls r.cutflow st2 false (ep || selectionPasses cfg st l)
            (if selectionPasses cfg st l = true then out ++ [l] else out) = some f →
          f.vecOutContainerNames = out ++ (l :: ls).filter (selectionPasses cfg st) ∧
          f.eventPass = (ep || (l :: ls).any (selectionPasses cfg st)) ∧
          st.SameInputs f.store := by
        intro st2 hS2 h2
        obtain ⟨hvec, hep, hS⟩ := ih _ _ _ _ _ h2
        have hcongr : ∀ l', selectionPasses cfg st2 l' = selectionPasses cfg st l' :=
          selectionPasses_congr cfg hOP st st2 hS2
        refine ⟨?_, ?_, hS2.trans hS⟩
        · rw [hvec, List.filter_congr (fun l' _ => hcongr l'), List.filter_cons]
          by_cases hp : selectionPasses cfg st l = true
          · simp [hp]
          · simp [hp]
        · rw [hep, List.any_cons]
          have : ls.any (selectionPasses cfg st2) = ls.any (selectionPasses cfg st) := by
            congr 1
            funext l'
            exact hcongr l'
          rw [this, Bool.or_assoc]
      split at h
      · cases hrec : (st.decorated (cfg.m_inContainerName ++ l)
            (StoreObj.electrons r.objects)).record (cfg.m_outContainerName ++ l)
            (StoreObj.selectedElectrons r.selected) with
        | none =>
          simp only [hrec, Option.some.injEq] at h
          subst h
          exact absurd hok (by simp)
        | some st2 =>
          simp only [hrec] at h
          obtain ⟨-, hst2⟩ := Store.record_some _ _ _ _ hrec
          refine hfin st2 ?_ h
          rw [hst2]
          exact hS1.trans (Store.SameInputs.append _ _ _ (by intro pvx; simp) (by intro c; simp))
      · exact hfin _ hS1 h

end ElectronSelector

/-! ## Lemmas on the muon `PassCuts`: stand-alone muons and isolation -/

namespace MuonSelector

/-- For a stand-alone muon the three impact-parameter tests of `PassCuts` are not made. -/
theorem PassCuts_standAlone (cfg : MuonSelector) (mu : Muon) (pv : Vertex)
    (hSA : mu.muonType = MuonType.MuonStandAlone) :
    PassCuts cfg mu pv =
      if cfg.m_pT_max ≠ sentinel ∧ mu.pt > cfg.m_pT_max then
        some { value := 0, failed := some MuonCut.pTMax }
      else if cfg.m_pT_min ≠ sentinel ∧ mu.pt < cfg.m_pT_min then
        some { value := 0, failed := some MuonCut.pTMin }
      else if cfg.m_eta_max ≠ sentinel ∧ |mu.eta| > cfg.m_eta_max then
        some { value := 0, failed := some MuonCut.etaMax }
      else passType cfg mu := by
  simp only [PassCuts, hSA, ne_eq, not_true_eq_false, false_and, if_false]

theorem passIsoTool_track (cfg : MuonSelector) (mu : Muon) (tp : TrackParticle)
    (htool : cfg.m_muonSelectionTool { mu with primaryTrackParticle := tp } =
      cfg.m_muonSelectionTool mu) :
    passIsoTool cfg { mu with primaryTrackParticle := tp } = passIsoTool cfg mu := by
  simp only [passIsoTool, failsIsolation, htool]

theorem passType_track (cfg : MuonSelector) (mu : Muon) (tp : TrackParticle)
    (htool : cfg.m_muonSelectionTool { mu with primaryTrackParticle := tp } =
      cfg.m_muonSelectionTool mu) :
    passType cfg { mu with primaryTrackParticle := tp } = passType cfg mu := by
  unfold passType
  rw [passIsoTool_track cfg mu tp htool]

theorem PassCuts_standAlone_failed (cfg : MuonSelector) (mu : Muon) (pv : Vertex)
    (hSA : mu.muonType = MuonType.MuonStandAlone) (r : MuonPassCutsResult)
    (hr : PassCuts cfg mu pv = some r) :
    r.failed ≠ some MuonCut.d0 ∧ r.failed ≠ some MuonCut.d0sig ∧
    r.failed ≠ some MuonCut.z0sintheta := by
  rw [PassCuts_standAlone cfg mu pv hSA] at hr
  split at hr
  · simp only [Option.some.injEq] at hr
    subst hr
    simp
  · split at hr
    · simp only [Option.some.injEq] at hr
      subst hr
      simp
    · split at hr
      · simp only [Option.some.injEq] at hr
        subst hr
        simp
      · rcases passType_failed cfg mu r hr with h | h | h | h <;> simp [h]

end MuonSelector

namespace MuonSelector

end MuonSelector

/-! ## Lemmas on the parsing of the key strings -/

theorem commaSegments_ne_nil (cs : List Char) : commaSegments cs ≠ [] := by
  cases cs with
  | nil => simp [commaSegments]
  | cons c cs =>
    unfold commaSegments
    split_ifs
    · simp
    · split <;> simp

theorem dropTrailingEmpty_cons (a : List Char) (l : List (List Char)) (h : l ≠ []) :
    dropTrailingEmpty (a :: l) = a :: dropTrailingEmpty l := by
  obtain ⟨b, l', rfl⟩ := List.exists_cons_of_ne_nil h
  unfold dropTrailingEmpty
  rw [List.getLast?_cons_cons]
  split_ifs
  · rw [List.dropLast_cons₂]
  · rfl

/-- The tokens pushed by the `getline` loop are the comma-separated segments of the text (the
characters already extracted being put before the first one), without the last segment when
it is empty. -/
theorem getlineTokens_eq (cs cur : List Char) :
    getlineTokens cur cs =
      dropTrailingEmpty
        (match commaSegments cs with
         | [] => [cur]
         | s :: rest => (cur ++ s) :: rest) := by
  induction cs generalizing cur with
  | nil =>
    simp only [getlineTokens, commaSegments, List.append_nil, dropTrailingEmpty,
      List.getLast?_singleton, Option.some.injEq, List.dropLast_single]
  | cons c cs ih =>
    by_cases hc : c = ','
    · have hne := commaSegments_ne_nil cs
      simp only [getlineTokens, commaSegments, hc, if_true, List.append_nil]
      rw [dropTrailingEmpty_cons _ _ hne, ih]
      cases hs : commaSegments cs with
      | nil => exact absurd hs hne
      | cons s rest => simp
    · simp only [getlineTokens, commaSegments, hc, if_false]
      rw [ih]
      cases hs : commaSegments cs with
      | nil => exact absurd hs (commaSegments_ne_nil cs)
      | cons s rest => simp

theorem parseKeys_eq (s : String) :
    parseKeys s = (dropTrailingEmpty (commaSegments s.data)).map String.mk := by
  unfold parseKeys
  rw [getlineTokens_eq]
  cases hs : commaSegments s.data with
  | nil => exact absurd hs (commaSegments_ne_nil _)
  | cons a rest => simp

theorem dropTrailingEmpty_filter (l : List (List Char)) :
    (dropTrailingEmpty l).filter (fun s => decide (s ≠ [])) =
      l.filter (fun s => decide (s ≠ [])) := by
  unfold dropTrailingEmpty
  split_ifs with h
  · obtain ⟨l', rfl⟩ : ∃ l', l = l' ++ [[]] := by
      rcases List.eq_nil_or_concat l with rfl | ⟨l', b, rfl⟩
      · simp at h
      · rw [List.concat_eq_append, List.getLast?_concat, Option.some.injEq] at h
        exact ⟨l', by rw [h, List.concat_eq_append]⟩
    simp
  · rfl

theorem parseKeys_eq_keySegments (s : String) : parseKeys s = keySegments s :=
  parseKeys_eq s

theorem parseKeys_filter (s : String) :
    (parseKeys s).filter (fun k => decide (k ≠ "")) =
      ((commaSegments s.data).map String.mk).filter (fun k => decide (k ≠ "")) := by
  have hfun : ((fun k : String => decide (k ≠ "")) ∘ String.mk) =
      (fun cs : List Char => decide (cs ≠ [])) := by
    funext cs
    simp [String.ext_iff]
  rw [parseKeys_eq, List.filter_map, List.filter_map, hfun, dropTrailingEmpty_filter]

/-- A rejection of `MuonSelector::PassCuts` for the muon type comes from its type step. -/
theorem muon_PassCuts_failed_type (cfg : MuonSelector) (mu : Muon) (pv : Vertex)
    (r : MuonPassCutsResult) (hr : MuonSelector.PassCuts cfg mu pv = some r)
    (hf : r.failed = some MuonCut.muonType) : MuonSelector.passType cfg mu = some r := by
  unfold MuonSelector.PassCuts at hr
  simp only [] at hr
  split_ifs at hr
  all_goals try (cases hr; cases hf)
  exact hr

/-! ## Single-collection mode against the fan-out over one empty label -/

namespace ElectronSelector

/-- The selector run does not read `m_inputAlgoSystNames`. -/
theorem executeSelection_inputAlgoSystNames (cfg : ElectronSelector) (key : String)
    (st : Store) (c : Cutflow) (xs : List (Decorated Electron)) (w : ℚ) (cp : Bool) :
    executeSelection { cfg with m_inputAlgoSystNames := key } st c xs w cp =
      executeSelection cfg st c xs w cp := rfl

/-- The loop over systematic names for the single label `""`. -/
theorem systLoop_empty_label (cfg : ElectronSelector) (w : ℚ) (c : Cutflow) (st : Store)
    (cp ep : Bool) (out : List String) :
    systLoop cfg w [""] c st cp ep out =
      match st.retrieveElectrons cfg.m_inContainerName with
      | none =>
        some { ok := false, cutflow := c, store := st, eventPass := ep,
               vecOutContainerNames := out }
      | some inElectrons =>
        match executeSelection cfg st c inElectrons w cp with
        | none => none
        | some r =>
          if cfg.m_createSelectedContainer && r.eventPass then
            match (st.decorated cfg.m_inContainerName (StoreObj.electrons r.objects)).record
                cfg.m_outContainerName (StoreObj.selectedElectrons r.selected) with
            | none =>
              some { ok := false, cutflow := r.cutflow,
                     store := st.decorated cfg.m_inContainerName (StoreObj.electrons r.objects),
                     eventPass := ep || r.eventPass,
                     vecOutContainerNames := if r.eventPass then out ++ [""] else out }
            | some st2 =>
              some { ok := true, cutflow := r.cutflow, store := st2,
                     eventPass := ep || r.eventPass,
                     vecOutContainerNames := if r.eventPass then out ++ [""] else out }
          else
            some { ok := true, cutflow := r.cutflow,
                   store := st.decorated cfg.m_inContainerName (StoreObj.electrons r.objects),
                   eventPass := ep || r.eventPass,
                   vecOutContainerNames := if r.eventPass then out ++ [""] else out } := by
  simp only [systLoop, String.append_empty]

end ElectronSelector

/-! ## The counts of the object loop -/

section LoopCounts

variable {α : Type} (pc : α → Decorations → Option (Int × Decorations)) (v : α → Int)
  (n : Int) (dec cre : Bool)

/-- Once the cap is reached the loop evaluates nothing more. -/
theorem selectionLoop_capped (xs : List (Decorated α)) (idx : Nat) (nObj nPass : Int)
    (sel ev : List Nat) (r : LoopResult α) (hcap : n > 0 ∧ nObj ≥ n)
    (h : selectionLoop pc n dec cre idx xs nObj nPass sel ev = some r) :
    r.nObj = nObj ∧ r.nPass = nPass ∧ r.selected = sel ∧ r.evaluated = ev := by
  induction xs generalizing idx r with
  | nil =>
    simp only [selectionLoop, Option.some.injEq] at h
    subst h
    exact ⟨rfl, rfl, rfl, rfl⟩
  | cons x rest ih =>
    cases dec with
    | true =>
      rw [selectionLoop_skip pc n cre x rest idx nObj nPass sel ev hcap,
        Option.map_eq_some'] at h
      obtain ⟨r', hr', rfl⟩ := h
      exact ih (idx + 1) r' hr'
    | false =>
      rw [selectionLoop_break pc n cre x rest idx nObj nPass sel ev hcap,
        Option.some.injEq] at h
      subst h
      exact ⟨rfl, rfl, rfl, rfl⟩

/-- The objects passed to `PassCuts` are the first `k` of the container: `nObj` grows by `k`
and `nPass` by the number of those whose value is not zero. -/
theorem selectionLoop_counts (hpc : ∀ o a, ∃ a', pc o a = some (v o, a'))
    (xs : List (Decorated α)) (idx : Nat) (nObj nPass : Int) (sel ev : List Nat)
    (r : LoopResult α)
    (h : selectionLoop pc n dec cre idx xs nObj nPass sel ev = some r) :
    ∃ k : Nat, k ≤ xs.length ∧ r.nObj = nObj + k ∧
      r.nPass = nPass + (((xs.take k).filter (fun x => decide (v x.obj ≠ 0))).length : Int) ∧
      r.evaluated = ev ++ List.range' idx k := by
  induction xs generalizing idx nObj nPass sel ev r with
  | nil =>
    simp only [selectionLoop, Option.some.injEq] at h
    subst h
    exact ⟨0, le_refl _, by simp, by simp, by simp⟩
  | cons x rest ih =>
    by_cases hcap : n > 0 ∧ nObj ≥ n
    · obtain ⟨h1, h2, -, h4⟩ :=
        selectionLoop_capped pc n dec cre (x :: rest) idx nObj nPass sel ev r hcap h
      exact ⟨0, Nat.zero_le _, by simp [h1], by simp [h2], by simp [h4]⟩
    · obtain ⟨a', hp⟩ := hpc x.obj x.aux
      rw [selectionLoop_eval pc n dec cre x rest idx nObj nPass sel ev hcap _ _ hp,
        Option.map_eq_some'] at h
      obtain ⟨r', hr', rfl⟩ := h
      obtain ⟨k, hk, hn, hp', he⟩ := ih _ _ _ _ _ r' hr'
      refine ⟨k + 1, by simpa using hk, ?_, ?_, ?_⟩
      · simp only [hn]
        push_cast
        ring
      · simp only [hp', List.take_succ_cons]
        by_cases hv : v x.obj = 0
        · simp [hv]
        · simp [hv]
          ring
      · simp only [he, List.range'_succ, List.append_assoc, List.singleton_append]

end LoopCounts

/-! ## The status and the skip signal of `execute` -/

namespace ElectronSelector

/-- The event-pass flag of a run is the gate on its `nPass`. -/
theorem executeSelection_eventPass_false_iff (cfg : ElectronSelector) (st : Store)
    (c : Cutflow) (xs : List (Decorated Electron)) (w : ℚ) (cp : Bool) (pvx : Vertex)
    (hpv : st.retrieveVertices "PrimaryVertices" = some pvx) (s : SelectionResult Electron)
    (h : executeSelection cfg st c xs w cp = some s) :
    (!s.eventPass) = true ↔
      (cfg.m_pass_min > 0 ∧ s.nPass < cfg.m_pass_min) ∨
      (cfg.m_pass_max > 0 ∧ s.nPass > cfg.m_pass_max) := by
  obtain ⟨l, -, -, -, hn, -, -, hiff⟩ := executeSelection_eq cfg st c xs w cp pvx hpv s h
  rw [← hn] at hiff
  cases hep : s.eventPass with
  | true =>
    have := hiff.mp hep
    simp only [Bool.not_true, Bool.false_eq_true, false_iff, not_or]
    exact this
  | false =>
    simp only [Bool.not_false, true_iff]
    by_contra hcon
    rw [not_or] at hcon
    have := hiff.mpr hcon
    rw [hep] at this
    exact absurd this (by decide)

/-- In single-collection mode, with its inputs in the store and the key of the materialized
collection free, `execute` ends in `finish`. -/
theorem execute_single_finish (cfg : ElectronSelector) (c : Cutflow) (st : Store)
    (xs : List (Decorated Electron)) (w : ℚ)
    (hOP : cfg.operatingPointsPresent)
    (hSingle : cfg.m_inputAlgoSystNames = "")
    (hEI : st.retrieveEventInfo "EventInfo" = some (some w))
    (hIn : st.retrieveElectrons cfg.m_inContainerName = some xs)
    (hFree : cfg.m_createSelectedContainer = true → st.lookup cfg.m_outContainerName = none) :
    ∃ s st', executeSelection cfg st { c with m_numEvent := wrapInt (c.m_numEvent + 1) } xs w true
        = some s ∧
      execute cfg c st = some (finish s.cutflow st' s.eventPass) := by
  obtain ⟨s, hs⟩ := executeSelection_some cfg st { c with m_numEvent := wrapInt (c.m_numEvent + 1) } xs w
    true hOP
  suffices hex : ∃ st', execute cfg c st = some (finish s.cutflow st' s.eventPass) by
    obtain ⟨st', h⟩ := hex
    exact ⟨s, st', hs, h⟩
  unfold execute
  simp only [hEI, hSingle, if_true, hIn, hs]
  by_cases hcr : (cfg.m_createSelectedContainer && s.eventPass) = true
  · have hcreate : cfg.m_createSelectedContainer = true := by
      cases hcc : cfg.m_createSelectedContainer with
      | true => rfl
      | false => rw [hcc] at hcr; exact absurd hcr (by simp)
    have hrec := Store.record_eq_some
      (st.decorated cfg.m_inContainerName (StoreObj.electrons s.objects)) cfg.m_outContainerName
      (StoreObj.selectedElectrons s.selected)
      (Store.lookup_decorated_none st _ _ _ (hFree hcreate))
    simp only [hcr, if_true, hrec]
    exact ⟨_, rfl⟩
  · simp only [hcr, Bool.false_eq_true, if_false]
    exact ⟨_, rfl⟩

/-- In fan-out mode, with its inputs in the store and the output keys free, `execute` ends in
`finish`, with the event-pass flag of the loop over the labels. -/
theorem execute_fanout_finish (cfg : ElectronSelector) (c : Cutflow) (st : Store)
    (labels : List String) (w : ℚ)
    (hOP : cfg.operatingPointsPresent)
    (hFan : cfg.m_inputAlgoSystNames ≠ "")
    (hEI : st.retrieveEventInfo "EventInfo" = some (some w))
    (hL : st.retrieveSystNames cfg.m_inputAlgoSystNames = some labels)
    (hIn : ∀ l ∈ labels, (st.retrieveElectrons (cfg.m_inContainerName ++ l)).isSome = true)
    (hOutFree : st.lookup cfg.m_outputAlgoSystNames = none)
    (hFresh : cfg.m_createSelectedContainer = true →
      labels.Nodup ∧ ∀ l ∈ labels, st.lookup (cfg.m_outContainerName ++ l) = none ∧
        cfg.m_outContainerName ++ l ≠ cfg.m_outputAlgoSystNames) :
    ∃ cf st',
      execute cfg c st = some (finish cf st' (labels.any (selectionPasses cfg st))) := by
  obtain ⟨f, hf, hok, -, hep, -, hnone, -, -⟩ :=
    systLoop_spec cfg hOP w labels { c with m_numEvent := wrapInt (c.m_numEvent + 1) }
      st true false [] hIn (fun hc => ⟨(hFresh hc).1, fun l hl => ((hFresh hc).2 l hl).1⟩)
  have hfree := hnone _ hOutFree (fun hc l hl _ heq => ((hFresh hc).2 l hl).2 heq.symm)
  have hrec := Store.record_eq_some f.store cfg.m_outputAlgoSystNames
    (StoreObj.systNames f.vecOutContainerNames) hfree
  rw [Bool.false_or] at hep
  refine ⟨f.cutflow,
    f.store ++ [(cfg.m_outputAlgoSystNames, StoreObj.systNames f.vecOutContainerNames)], ?_⟩
  simp only [execute, hEI, hFan, if_false, hL, hf, hok, if_true, hrec, hep]

end ElectronSelector

namespace MuonSelector

/-- With the primary vertex in the store and the key of the materialized collection free,
`executeConst` returns `SUCCESS`, and signals `skipEvent` exactly when the gate on `nPass`
fails. -/
theorem executeConst_success (cfg : MuonSelector) (c : Cutflow) (st : Store) (key : String)
    (ms : List (Decorated Muon)) (w : ℚ) (pvx : Vertex) (hT : cfg.muonTypeKnown)
    (hPV : st.retrieveVertices "PrimaryVertices" = some pvx)
    (hFree : cfg.m_createSelectedContainer = true → st.lookup cfg.m_outContainerName = none) :
    ∃ r, executeConst cfg c st key ms w = some r ∧
      r.exec.status = StatusCode.SUCCESS ∧
      (r.exec.skipEvent = true ↔
        (cfg.m_pass_min > 0 ∧ r.nPass < cfg.m_pass_min) ∨
        (cfg.m_pass_max > 0 ∧ r.nPass > cfg.m_pass_max)) := by
  obtain ⟨l, hl⟩ := selectionLoop_some (passSel cfg pvx) (passValue cfg pvx) cfg.m_nToProcess
    cfg.m_decorateSelectedObjects cfg.m_createSelectedContainer
    (muon_passSel_eq_passValue cfg pvx hT) ms 0 0 0 [] []
  unfold executeConst
  simp only [hPV, hl]
  by_cases h1 : cfg.m_pass_min > 0 ∧ l.nPass < cfg.m_pass_min
  · simp only [h1, and_self, if_true]
    exact ⟨_, rfl, rfl, by simp [h1]⟩
  · by_cases h2 : cfg.m_pass_max > 0 ∧ l.nPass > cfg.m_pass_max
    · simp only [h1, h2, and_self, if_true, if_false]
      exact ⟨_, rfl, rfl, by simp [h2]⟩
    · simp only [h1, h2, if_false]
      cases hc : cfg.m_createSelectedContainer with
      | false =>
        simp only [Bool.false_eq_true, if_false]
        exact ⟨_, rfl, rfl, by simp [h1, h2]⟩
      | true =>
        have hrec := Store.record_eq_some (st.decorated key (StoreObj.muons l.objects))
          cfg.m_outContainerName (StoreObj.selectedMuons l.selected)
          (Store.lookup_decorated_none st _ _ _ (hFree hc))
        simp only [if_true, hrec]
        exact ⟨_, rfl, rfl, by simp [h1, h2]⟩

end MuonSelector

/-! ## The fan-out loop when an input is missing -/

theorem Store.retrieveSystNames_decorated (st : Store) (key : String)
    (xs ys : List (Decorated Electron)) (hx : st.retrieveElectrons key = some xs) (k : String) :
    (st.decorated key (StoreObj.electrons ys)).retrieveSystNames k =
      st.retrieveSystNames k := by
  unfold Store.retrieveSystNames
  rw [Store.lookup_decorated]
  by_cases hk : k = key
  · subst hk
    simp only [if_true]
    unfold Store.retrieveElectrons at hx
    cases hl : st.lookup k with
    | none => rfl
    | some o =>
      rw [hl] at hx
      cases o <;> simp at hx ⊢
  · simp only [hk, if_false]

theorem Store.retrieveSystNames_append (st : Store) (key : String) (view : List Nat)
    (k : String) :
    (st ++ [(key, StoreObj.selectedElectrons view)]).retrieveSystNames k =
      st.retrieveSystNames k := by
  unfold Store.retrieveSystNames
  rw [Store.lookup_append_single]
  cases hl : st.lookup k with
  | none =>
    simp only []
    split_ifs <;> rfl
  | some o => rfl

namespace ElectronSelector

/-- The loop over the labels records no list of names. -/
theorem systLoop_systNames (cfg : ElectronSelector) (w : ℚ)
    (labels : List String) (c : Cutflow) (st : Store) (cp ep : Bool) (out : List String)
    (f : FanOut) (h : systLoop cfg w labels c st cp ep out = some f) (k : String) :
    f.store.retrieveSystNames k = st.retrieveSystNames k := by
  induction labels generalizing c st cp ep out with
  | nil =>
    simp only [systLoop, Option.some.injEq] at h
    subst h
    rfl
  | cons l ls ih =>
    simp only [systLoop] at h
    cases hx : st.retrieveElectrons (cfg.m_inContainerName ++ l) with
    | none =>
      simp only [hx, Option.some.injEq] at h
      subst h
      rfl
    | some xs =>
      simp only [hx] at h
      cases hr : executeSelection cfg st c xs w cp with
      | none =>
        simp only [hr] at h
        exact absurd h (by simp)
      | some r =>
        simp only [hr] at h
        have h1 := Store.retrieveSystNames_decorated st (cfg.m_inContainerName ++ l) xs
          r.objects hx k
        split at h
        · cases hrec : (st.decorated (cfg.m_inContainerName ++ l)
              (StoreObj.electrons r.objects)).record (cfg.m_outContainerName ++ l)
              (StoreObj.selectedElectrons r.selected) with
          | none =>
            simp only [hrec, Option.some.injEq] at h
            subst h
            exact h1
          | some st2 =>
            simp only [hrec] at h
            obtain ⟨-, hst2⟩ := Store.record_some _ _ _ _ hrec
            rw [ih _ _ _ _ _ h, hst2, Store.retrieveSystNames_append, h1]
        · rw [ih _ _ _ _ _ h, h1]

/-- When the loop over the labels ends without a failure, the container of every label was
in the store. -/
theorem systLoop_ok_containers (cfg : ElectronSelector) (hOP : cfg.operatingPointsPresent)
    (w : ℚ) (labels : List String) (c : Cutflow) (st : Store) (cp ep : Bool)
    (out : List String) (f : FanOut) (h : systLoop cfg w labels c st cp ep out = some f)
    (hok : f.ok = true) :
    ∀ l ∈ labels, (st.retrieveElectrons (cfg.m_inContainerName ++ l)).isSome = true := by
  induction labels generalizing c st cp ep out with
  | nil =>
    intro l hl
    exact absurd hl (List.not_mem_nil l)
  | cons l ls ih =>
    simp only [systLoop] at h
    cases hx : st.retrieveElectrons (cfg.m_inContainerName ++ l) with
    | none =>
      simp only [hx, Option.some.injEq] at h
      subst h
      exact absurd hok (by simp)
    | some xs =>
      obtain ⟨r, hr⟩ := executeSelection_some cfg st c xs w cp hOP
      have hobj := executeSelection_objects cfg st c xs w cp r hr
      have hS1 := Store.SameInputs.decorated st (cfg.m_inContainerName ++ l) xs r.objects hx hobj
      simp only [hx, hr] at h
      have hfin : ∀ (st2 : Store) (ep' : Bool) (out' : List String), st.SameInputs st2 →
          systLoop cfg w ls r.cutflow st2 false ep' out' = some f →
          ∀ l' ∈ l :: ls,
            (st.retrieveElectrons (cfg.m_inContainerName ++ l')).isSome = true := by
        intro st2 ep' out' hS2 h2 l' hl'
        rcases List.mem_cons.mp hl' with rfl | hmem
        · rw [hx]
          rfl
        · have h3 := ih _ _ _ _ _ h2 l' hmem
          have h4 := hS2.2 (cfg.m_inContainerName ++ l')
          cases hst : st.retrieveElectrons (cfg.m_inContainerName ++ l') with
          | some ys => rfl
          | none =>
            rw [hst] at h4
            cases hst2 : st2.retrieveElectrons (cfg.m_inContainerName ++ l') with
            | none => rw [hst2] at h3; exact absurd h3 (by simp)
            | some zs => rw [hst2] at h4; exact absurd h4 (by simp)
      split at h
      · cases hrec : (st.decorated (cfg.m_inContainerName ++ l)
            (StoreObj.electrons r.objects)).record (cfg.m_outContainerName ++ l)
            (StoreObj.selectedElectrons r.selected) with
        | none =>
          simp only [hrec, Option.some.injEq] at h
          subst h
          exact absurd hok (by simp)
        | some st2 =>
          simp only [hrec] at h
          obtain ⟨-, hst2⟩ := Store.record_some _ _ _ _ hrec
          refine hfin st2 _ _ ?_ h
          rw [hst2]
          exact hS1.trans (Store.SameInputs.append _ _ _ (by intro pvx; simp) (by intro c; simp))
      · exact hfin _ _ _ hS1 h

end ElectronSelector

/-! ## What one run and one `execute` add to the counters -/

theorem wrapInt_eq_self (x : Int) (h1 : -2147483648 ≤ x) (h2 : x ≤ 2147483647) :
    wrapInt x = x := by
  unfold wrapInt
  omega

theorem wrapInt_bounds (x : Int) : -2147483648 ≤ wrapInt x ∧ wrapInt x ≤ 2147483647 := by
  unfold wrapInt
  omega

@[simp] theorem wrapInt_zero : wrapInt 0 = 0 := by decide

@[simp] theorem wrapInt_one : wrapInt 1 = 1 := by decide

@[simp] theorem wrapInt_two : wrapInt 2 = 2 := by decide

namespace Store

theorem size_le_objectCount (st : Store) (key : String) (obj : StoreObj)
    (h : st.lookup key = some obj) : obj.size ≤ st.objectCount := by
  induction st with
  | nil => simp [List.lookup] at h
  | cons kv rest ih =>
    obtain ⟨k, v⟩ := kv
    rw [lookup_cons_eq] at h
    simp only [objectCount, List.map_cons, List.sum_cons]
    split_ifs at h with hk
    · simp only [Option.some.injEq] at h
      subst h
      exact Nat.le_add_right _ _
    · exact le_trans (ih h) (Nat.le_add_left _ _)

theorem retrieveElectrons_length_le (st : Store) (key : String)
    (xs : List (Decorated Electron)) (h : st.retrieveElectrons key = some xs) :
    xs.length ≤ st.objectCount := by
  unfold retrieveElectrons at h
  split at h
  · rename_i c hl
    simp only [Option.some.injEq] at h
    subst h
    exact size_le_objectCount st key _ hl
  · exact absurd h (by simp)

theorem retrieveMuons_length_le (st : Store) (key : String)
    (ms : List (Decorated Muon)) (h : st.retrieveMuons key = some ms) :
    ms.length ≤ st.objectCount := by
  unfold retrieveMuons at h
  split at h
  · rename_i c hl
    simp only [Option.some.injEq] at h
    subst h
    exact size_le_objectCount st key _ hl
  · exact absurd h (by simp)

end Store

namespace ElectronSelector

/-- The counts of one run of `executeSelection` and what it does to the counters: nothing
unless the run is counted and the primary vertices are there. -/
theorem executeSelection_delta (cfg : ElectronSelector) (hOP : cfg.operatingPointsPresent)
    (st : Store) (c : Cutflow) (xs : List (Decorated Electron)) (w : ℚ) (cp : Bool)
    (r : SelectionResult Electron) (h : executeSelection cfg st c xs w cp = some r) :
    0 ≤ r.nPass ∧ r.nPass ≤ r.nObj ∧ r.nObj ≤ xs.length ∧
    (r.eventPass = true → (st.retrieveVertices "PrimaryVertices").isSome = true) ∧
    r.cutflow.m_numEvent = c.m_numEvent ∧
    r.cutflow.m_numObject =
      (if cp && (st.retrieveVertices "PrimaryVertices").isSome
        then wrapInt (c.m_numObject + r.nObj) else c.m_numObject) ∧
    r.cutflow.m_numObjectPass =
      (if cp && (st.retrieveVertices "PrimaryVertices").isSome
        then wrapInt (c.m_numObjectPass + r.nPass) else c.m_numObjectPass) ∧
    r.cutflow.m_numEventPass =
      (if cp && r.eventPass then wrapInt (c.m_numEventPass + 1) else c.m_numEventPass) ∧
    r.cutflow.m_weightNumEventPass =
      (if cp && r.eventPass
        then cfg.floatArith.accumulate c.m_weightNumEventPass (FloatValue.finite w)
        else c.m_weightNumEventPass) := by
  unfold executeSelection at h
  cases hpv : st.retrieveVertices "PrimaryVertices" with
  | none =>
    simp only [hpv, Option.some.injEq] at h
    subst h
    simp
  | some pvx =>
    obtain ⟨l, hl⟩ := selectionLoop_some (passSel cfg pvx) (passValue cfg pvx) cfg.m_nToProcess
      cfg.m_decorateSelectedObjects cfg.m_createSelectedContainer
      (passSel_eq_passValue cfg pvx hOP) xs 0 0 0 [] []
    obtain ⟨k, hk, hn, hp, -⟩ := selectionLoop_counts (passSel cfg pvx) (passValue cfg pvx)
      cfg.m_nToProcess cfg.m_decorateSelectedObjects cfg.m_createSelectedContainer
      (passSel_eq_passValue cfg pvx hOP) xs 0 0 0 [] [] l hl
    rw [zero_add] at hn hp
    have hle : ((xs.take k).filter
        (fun x => decide (passValue cfg pvx x.obj ≠ 0))).length ≤ k :=
      le_trans (List.length_filter_le _ _) (by simp [List.length_take])
    have h0 : 0 ≤ l.nPass := by rw [hp]; exact Int.natCast_nonneg _
    have h1 : l.nPass ≤ l.nObj := by rw [hp, hn]; exact_mod_cast hle
    have h2 : l.nObj ≤ xs.length := by rw [hn]; exact_mod_cast hk
    simp only [hpv, hl] at h
    cases cp <;> simp only [Bool.false_eq_true, if_false, if_true] at h <;>
      split_ifs at h <;>
      (simp only [Option.some.injEq] at h; subst h; simp [h0, h1, h2])

/-- What one call of `execute` does to the counters: `evt` tells whether the event was
counted, `run` whether a counted run took place, `seen` and `passed` are the objects it
counted, `pass` tells whether the event was counted as passing, `w` is the event weight. -/
theorem execute_delta (cfg : ElectronSelector) (hOP : cfg.operatingPointsPresent)
    (c : Cutflow) (st : Store) :
    ∃ (r : ExecResult) (seen passed : Int) (evt run pass : Bool) (w : ℚ),
      execute cfg c st = some r ∧
      0 ≤ passed ∧ passed ≤ seen ∧ seen ≤ st.objectCount ∧
      (pass = true → run = true) ∧ (run = true → evt = true) ∧
      (evt = true → st.retrieveEventInfo "EventInfo" = some (some w)) ∧
      r.cutflow.m_numEvent = (if evt then wrapInt (c.m_numEvent + 1) else c.m_numEvent) ∧
      r.cutflow.m_numObject = (if run then wrapInt (c.m_numObject + seen) else c.m_numObject) ∧
      r.cutflow.m_numObjectPass =
        (if run then wrapInt (c.m_numObjectPass + passed) else c.m_numObjectPass) ∧
      r.cutflow.m_numEventPass =
        (if pass then wrapInt (c.m_numEventPass + 1) else c.m_numEventPass) ∧
      r.cutflow.m_weightNumEventPass =
        (if pass then cfg.floatArith.accumulate c.m_weightNumEventPass (FloatValue.finite w)
         else c.m_weightNumEventPass) := by
  have hnone : ∀ r : ExecResult, execute cfg c st = some r → r.cutflow = c →
      ∃ (r : ExecResult) (seen passed : Int) (evt run pass : Bool) (w : ℚ),
      execute cfg c st = some r ∧
      0 ≤ passed ∧ passed ≤ seen ∧ seen ≤ st.objectCount ∧
      (pass = true → run = true) ∧ (run = true → evt = true) ∧
      (evt = true → st.retrieveEventInfo "EventInfo" = some (some w)) ∧
      r.cutflow.m_numEvent = (if evt then wrapInt (c.m_numEvent + 1) else c.m_numEvent) ∧
      r.cutflow.m_numObject = (if run then wrapInt (c.m_numObject + seen) else c.m_numObject) ∧
      r.cutflow.m_numObjectPass =
        (if run then wrapInt (c.m_numObjectPass + passed) else c.m_numObjectPass) ∧
      r.cutflow.m_numEventPass =
        (if pass then wrapInt (c.m_numEventPass + 1) else c.m_numEventPass) ∧
      r.cutflow.m_weightNumEventPass =
        (if pass then cfg.floatArith.accumulate c.m_weightNumEventPass (FloatValue.finite w)
         else c.m_weightNumEventPass) := by
    intro r hr hc
    exact ⟨r, 0, 0, false, false, false, 0, hr, le_refl _, le_refl _, Int.natCast_nonneg _,
      fun h => h, fun h => h, fun h => absurd h (by decide), by simp [hc], by simp [hc],
      by simp [hc], by simp [hc], by simp [hc]⟩
  obtain ⟨oow, hE⟩ : ∃ oow, st.retrieveEventInfo "EventInfo" = oow := ⟨_, rfl⟩
  cases oow with
  | none => exact hnone (failure c st) (by simp only [execute, hE]) rfl
  | some ow =>
    cases ow with
    | none => exact hnone (failure c st) (by simp only [execute, hE]) rfl
    | some w =>
      have hzero : ∀ r : ExecResult, execute cfg c st = some r →
          r.cutflow = { c with m_numEvent := wrapInt (c.m_numEvent + 1) } →
          ∃ (r : ExecResult) (seen passed : Int) (evt run pass : Bool) (w : ℚ),
          execute cfg c st = some r ∧
          0 ≤ passed ∧ passed ≤ seen ∧ seen ≤ st.objectCount ∧
          (pass = true → run = true) ∧ (run = true → evt = true) ∧
          (evt = true → st.retrieveEventInfo "EventInfo" = some (some w)) ∧
          r.cutflow.m_numEvent = (if evt then wrapInt (c.m_numEvent + 1) else c.m_numEvent) ∧
          r.cutflow.m_numObject =
            (if run then wrapInt (c.m_numObject + seen) else c.m_numObject) ∧
          r.cutflow.m_numObjectPass =
            (if run then wrapInt (c.m_numObjectPass + passed) else c.m_numObjectPass) ∧
          r.cutflow.m_numEventPass =
            (if pass then wrapInt (c.m_numEventPass + 1) else c.m_numEventPass) ∧
          r.cutflow.m_weightNumEventPass =
            (if pass then
              cfg.floatArith.accumulate c.m_weightNumEventPass (FloatValue.finite w)
             else c.m_weightNumEventPass) := by
        intro r hr hc
        exact ⟨r, 0, 0, true, false, false, w, hr, le_refl _, le_refl _,
          Int.natCast_nonneg _, fun h => h, fun h => absurd h (by decide),
          fun _ => hE, by simp [hc], by simp [hc], by simp [hc], by simp [hc], by simp [hc]⟩
      have hrun : ∀ (r : ExecResult) (key : String) (xs : List (Decorated Electron))
          (s : SelectionResult Electron), execute cfg c st = some r →
          st.retrieveElectrons key = some xs →
          executeSelection cfg st { c with m_numEvent := wrapInt (c.m_numEvent + 1) } xs w true
            = some s →
          r.cutflow = s.cutflow →
          ∃ (r : ExecResult) (seen passed : Int) (evt run pass : Bool) (w : ℚ),
          execute cfg c st = some r ∧
          0 ≤ passed ∧ passed ≤ seen ∧ seen ≤ st.objectCount ∧
          (pass = true → run = true) ∧ (run = true → evt = true) ∧
          (evt = true → st.retrieveEventInfo "EventInfo" = some (some w)) ∧
          r.cutflow.m_numEvent = (if evt then wrapInt (c.m_numEvent + 1) else c.m_numEvent) ∧
          r.cutflow.m_numObject =
            (if run then wrapInt (c.m_numObject + seen) else c.m_numObject) ∧
          r.cutflow.m_numObjectPass =
            (if run then wrapInt (c.m_numObjectPass + passed) else c.m_numObjectPass) ∧
          r.cutflow.m_numEventPass =
            (if pass then wrapInt (c.m_numEventPass + 1) else c.m_numEventPass) ∧
          r.cutflow.m_weightNumEventPass =
            (if pass then
              cfg.floatArith.accumulate c.m_weightNumEventPass (FloatValue.finite w)
             else c.m_weightNumEventPass) := by
        intro r key xs s hr hxs hs hc
        obtain ⟨h0, h1, h2, hpr, hd1, hd2, hd3, hd4, hd5⟩ :=
          executeSelection_delta cfg hOP st _ xs w true s hs
        have h3 : s.nObj ≤ st.objectCount :=
          le_trans h2 (by exact_mod_cast Store.retrieveElectrons_length_le st key xs hxs)
        refine ⟨r, s.nObj, s.nPass, true, (st.retrieveVertices "PrimaryVertices").isSome,
          s.eventPass, w, hr, h0, h1, h3, hpr, fun _ => rfl, fun _ => hE, ?_, ?_, ?_, ?_, ?_⟩
        · rw [hc, hd1]; simp
        · rw [hc, hd2]; simp
        · rw [hc, hd3]; simp
        · rw [hc, hd4]; simp
        · rw [hc, hd5]; simp
      by_cases hS : cfg.m_inputAlgoSystNames = ""
      · obtain ⟨oxs, hX⟩ : ∃ oxs, st.retrieveElectrons cfg.m_inContainerName = oxs := ⟨_, rfl⟩
        cases oxs with
        | none =>
          exact hzero (failure { c with m_numEvent := wrapInt (c.m_numEvent + 1) } st)
            (by simp only [execute, hE, hS, if_true, hX]) rfl
        | some xs =>
          obtain ⟨s, hs⟩ := executeSelection_some cfg st
            { c with m_numEvent := wrapInt (c.m_numEvent + 1) } xs w true hOP
          have hex : ∃ r, execute cfg c st = some r ∧ r.cutflow = s.cutflow := by
            simp only [execute, hE, hS, if_true, hX, hs]
            split_ifs
            · cases (st.decorated cfg.m_inContainerName (StoreObj.electrons s.objects)).record
                  cfg.m_outContainerName (StoreObj.selectedElectrons s.selected) with
              | none => exact ⟨_, rfl, rfl⟩
              | some st2 => exact ⟨_, rfl, rfl⟩
            · exact ⟨_, rfl, rfl⟩
          obtain ⟨r, hr, hc⟩ := hex
          exact hrun r _ xs s hr hX hs hc
      · obtain ⟨ol, hL⟩ : ∃ ol, st.retrieveSystNames cfg.m_inputAlgoSystNames = ol := ⟨_, rfl⟩
        cases ol with
        | none =>
          exact hzero (failure { c with m_numEvent := wrapInt (c.m_numEvent + 1) } st)
            (by simp only [execute, hE, hS, if_false, hL]) rfl
        | some labels =>
          obtain ⟨f, hf⟩ := systLoop_some cfg hOP w labels
            { c with m_numEvent := wrapInt (c.m_numEvent + 1) } st true false []
          obtain ⟨r, hr, hc⟩ := execute_fanout_cutflow cfg c st labels w hS hE hL f hf
          cases labels with
          | nil =>
            simp only [systLoop, Option.some.injEq] at hf
            subst hf
            exact hzero r hr hc
          | cons hd tl =>
            obtain ⟨f', hf', hcf⟩ := systLoop_cutflow_first cfg hOP w hd tl
              { c with m_numEvent := wrapInt (c.m_numEvent + 1) } st false []
            rw [hf] at hf'
            simp only [Option.some.injEq] at hf'
            subst hf'
            obtain ⟨oxs, hX⟩ :
              ∃ oxs, st.retrieveElectrons (cfg.m_inContainerName ++ hd) = oxs := ⟨_, rfl⟩
            cases oxs with
            | none =>
              rw [hX] at hcf
              exact hzero r hr (hc.trans hcf)
            | some xs =>
              obtain ⟨s, hs⟩ := executeSelection_some cfg st
                { c with m_numEvent := wrapInt (c.m_numEvent + 1) } xs w true hOP
              have hX' := hX
              rw [hX] at hcf
              simp only [hs] at hcf
              exact hrun r _ xs s hr hX' hs (hc.trans hcf)

end ElectronSelector

namespace MuonSelector

/-- The counts of one run of `executeConst` and what it does to the counters: nothing when
the primary vertices are missing. -/
theorem executeConst_delta (cfg : MuonSelector) (hT : cfg.muonTypeKnown) (c : Cutflow)
    (st : Store) (key : String) (ms : List (Decorated Muon)) (w : ℚ) (r : ConstResult)
    (h : executeConst cfg c st key ms w = some r) :
    ∃ run pass : Bool, 0 ≤ r.nPass ∧ r.nPass ≤ r.nObj ∧ r.nObj ≤ ms.length ∧
    (pass = true → run = true) ∧
    run = (st.retrieveVertices "PrimaryVertices").isSome ∧
    (run = true →
      (pass = true ↔ ¬ (cfg.m_pass_min > 0 ∧ r.nPass < cfg.m_pass_min) ∧
        ¬ (cfg.m_pass_max > 0 ∧ r.nPass > cfg.m_pass_max))) ∧
    r.exec.cutflow.m_numEvent = c.m_numEvent ∧
    r.exec.cutflow.m_numObject =
      (if run then wrapInt (c.m_numObject + r.nObj) else c.m_numObject) ∧
    r.exec.cutflow.m_numObjectPass =
      (if run then wrapInt (c.m_numObjectPass + r.nPass) else c.m_numObjectPass) ∧
    r.exec.cutflow.m_numEventPass =
      (if pass then wrapInt (c.m_numEventPass + 1) else c.m_numEventPass) ∧
    r.exec.cutflow.m_weightNumEventPass =
      (if pass then cfg.floatArith.accumulate c.m_weightNumEventPass (FloatValue.finite w)
       else c.m_weightNumEventPass) := by
  unfold executeConst at h
  cases hpv : st.retrieveVertices "PrimaryVertices" with
  | none =>
    simp only [hpv, Option.some.injEq] at h
    subst h
    exact ⟨false, false, by simp⟩
  | some pvx =>
    obtain ⟨l, hl⟩ := selectionLoop_some (passSel cfg pvx) (passValue cfg pvx) cfg.m_nToProcess
      cfg.m_decorateSelectedObjects cfg.m_createSelectedContainer
      (muon_passSel_eq_passValue cfg pvx hT) ms 0 0 0 [] []
    obtain ⟨k, hk, hn, hp, -⟩ := selectionLoop_counts (passSel cfg pvx) (passValue cfg pvx)
      cfg.m_nToProcess cfg.m_decorateSelectedObjects cfg.m_createSelectedContainer
      (muon_passSel_eq_passValue cfg pvx hT) ms 0 0 0 [] [] l hl
    rw [zero_add] at hn hp
    have hle : ((ms.take k).filter
        (fun x => decide (passValue cfg pvx x.obj ≠ 0))).length ≤ k :=
      le_trans (List.length_filter_le _ _) (by simp [List.length_take])
    have h0 : 0 ≤ l.nPass := by rw [hp]; exact Int.natCast_nonneg _
    have h1 : l.nPass ≤ l.nObj := by rw [hp, hn]; exact_mod_cast hle
    have h2 : l.nObj ≤ ms.length := by rw [hn]; exact_mod_cast hk
    simp only [hpv, hl] at h
    split_ifs at h with hmin hmax hc
    · simp only [Option.some.injEq] at h; subst h
      exact ⟨true, false, by simp [h0, h1, h2, hmin]⟩
    · simp only [Option.some.injEq] at h; subst h
      exact ⟨true, false, by simp [h0, h1, h2, hmax]⟩
    · cases hrec : (st.decorated key (StoreObj.muons l.objects)).record cfg.m_outContainerName
          (StoreObj.selectedMuons l.selected) with
      | none =>
        simp only [hrec, Option.some.injEq] at h; subst h
        exact ⟨true, true, by simp [h0, h1, h2, hmin, hmax]⟩
      | some st2 =>
        simp only [hrec, Option.some.injEq] at h; subst h
        exact ⟨true, true, by simp [h0, h1, h2, hmin, hmax]⟩
    · simp only [Option.some.injEq] at h; subst h
      exact ⟨true, true, by simp [h0, h1, h2, hmin, hmax]⟩

/-- What one call of the muon `execute` does to the counters, as `execute_delta`. -/
theorem muon_execute_delta (cfg : MuonSelector) (hT : cfg.muonTypeKnown)
    (c : Cutflow) (st : Store) :
    ∃ (r : ExecResult) (seen passed : Int) (evt run pass : Bool) (w : ℚ),
      execute cfg c st = some r ∧
      0 ≤ passed ∧ passed ≤ seen ∧ seen ≤ st.objectCount ∧
      (pass = true → run = true) ∧ (run = true → evt = true) ∧
      (evt = true → st.retrieveEventInfo "EventInfo" = some (some w)) ∧
      r.cutflow.m_numEvent = (if evt then wrapInt (c.m_numEvent + 1) else c.m_numEvent) ∧
      r.cutflow.m_numObject = (if run then wrapInt (c.m_numObject + seen) else c.m_numObject) ∧
      r.cutflow.m_numObjectPass =
        (if run then wrapInt (c.m_numObjectPass + passed) else c.m_numObjectPass) ∧
      r.cutflow.m_numEventPass =
        (if pass then wrapInt (c.m_numEventPass + 1) else c.m_numEventPass) ∧
      r.cutflow.m_weightNumEventPass =
        (if pass then cfg.floatArith.accumulate c.m_weightNumEventPass (FloatValue.finite w)
         else c.m_weightNumEventPass) := by
  unfold execute
  cases hE : st.retrieveEventInfo "EventInfo" with
  | none =>
    exact ⟨_, 0, 0, false, false, false, 0, rfl, le_refl _, le_refl _, Int.natCast_nonneg _,
      fun h => h, fun h => h, fun h => absurd h (by decide), by simp, by simp, by simp,
      by simp, by simp⟩
  | some ow =>
    cases ow with
    | none =>
      exact ⟨_, 0, 0, false, false, false, 0, rfl, le_refl _, le_refl _, Int.natCast_nonneg _,
        fun h => h, fun h => h, fun h => absurd h (by decide), by simp, by simp, by simp,
        by simp, by simp⟩
    | some w =>
      cases hM : st.retrieveMuons cfg.m_inContainerName with
      | none =>
        exact ⟨_, 0, 0, true, false, false, w, rfl, le_refl _, le_refl _, Int.natCast_nonneg _,
          fun h => h, fun h => absurd h (by decide), fun _ => rfl, by simp, by simp, by simp,
          by simp, by simp⟩
      | some ms =>
        obtain ⟨r, hr⟩ := executeConst_some cfg
          { c with m_numEvent := wrapInt (c.m_numEvent + 1) } st cfg.m_inContainerName ms w hT
        obtain ⟨run, pass, h0, h1, h2, hpr, -, -, hd1, hd2, hd3, hd4, hd5⟩ :=
          executeConst_delta cfg hT _ st _ ms w r hr
        have h3 : r.nObj ≤ st.objectCount :=
          le_trans h2 (by exact_mod_cast Store.retrieveMuons_length_le st _ ms hM)
        simp only [hr, Option.map_some']
        exact ⟨_, r.nObj, r.nPass, true, run, pass, w, rfl, h0, h1, h3, hpr, fun _ => rfl,
          fun _ => rfl, by rw [hd1]; simp, by rw [hd2], by rw [hd3], by rw [hd4], by rw [hd5]⟩

end MuonSelector

/-- One step of the counters keeps the relations between them, as long as no count passes
the largest `int`. -/
theorem Cutflow.consistent_step (c c' : Cutflow) (seen passed : Int) (evt run pass : Bool)
    (n : Nat) (hc : c.consistent)
    (h0 : 0 ≤ passed) (h1 : passed ≤ seen) (h2 : seen ≤ n)
    (hpr : pass = true → run = true) (hre : run = true → evt = true)
    (hE : c.m_numEvent + 1 ≤ 2147483647) (hO : c.m_numObject + n ≤ 2147483647)
    (d1 : c'.m_numEvent = (if evt then wrapInt (c.m_numEvent + 1) else c.m_numEvent))
    (d2 : c'.m_numObject = (if run then wrapInt (c.m_numObject + seen) else c.m_numObject))
    (d3 : c'.m_numObjectPass =
      (if run then wrapInt (c.m_numObjectPass + passed) else c.m_numObjectPass))
    (d4 : c'.m_numEventPass =
      (if pass then wrapInt (c.m_numEventPass + 1) else c.m_numEventPass)) :
    c'.consistent ∧ c.countsNotBelow c' ∧ c'.m_numEvent ≤ c.m_numEvent + 1 ∧
      c'.m_numObject ≤ c.m_numObject + n := by
  obtain ⟨c0, c1, c2, c3⟩ := hc
  have e1 : wrapInt (c.m_numEvent + 1) = c.m_numEvent + 1 :=
    wrapInt_eq_self _ (by omega) (by omega)
  have e2 : wrapInt (c.m_numObject + seen) = c.m_numObject + seen :=
    wrapInt_eq_self _ (by omega) (by omega)
  have e3 : wrapInt (c.m_numObjectPass + passed) = c.m_numObjectPass + passed :=
    wrapInt_eq_self _ (by omega) (by omega)
  have e4 : wrapInt (c.m_numEventPass + 1) = c.m_numEventPass + 1 :=
    wrapInt_eq_self _ (by omega) (by omega)
  rw [e1] at d1
  rw [e2] at d2
  rw [e3] at d3
  rw [e4] at d4
  unfold Cutflow.consistent Cutflow.countsNotBelow
  cases evt <;> cases run <;> cases pass <;>
    simp only [Bool.false_eq_true, if_false, if_true] at d1 d2 d3 d4 <;>
    first
    | (exact absurd (hpr rfl) (by decide))
    | (exact absurd (hre rfl) (by decide))
    | (rw [d1, d2, d3, d4]; omega)

/-- The relations between the counters are kept by every sequence of calls of the electron
`execute` that does not take a count past the largest `int`, and the event counter grows by
at most the number of calls. -/
theorem executeEvents_consistent (cfg : ElectronSelector) (hOP : cfg.operatingPointsPresent)
    (events : List Store) (c : Cutflow) (hc : c.consistent)
    (hE : c.m_numEvent + events.length ≤ 2147483647)
    (hO : c.m_numObject + ((events.map Store.objectCount).sum : Nat) ≤ 2147483647) :
    ∃ c', ElectronSelector.executeEvents cfg c events = some c' ∧ c'.consistent ∧
      c.countsNotBelow c' ∧ c'.m_numEvent ≤ c.m_numEvent + events.length := by
  induction events generalizing c with
  | nil =>
    exact ⟨c, rfl, hc, ⟨le_refl _, le_refl _, le_refl _, le_refl _⟩, by simp⟩
  | cons st rest ih =>
    simp only [List.length_cons, Nat.cast_add, Nat.cast_one, List.map_cons, List.sum_cons]
      at hE hO
    obtain ⟨r, seen, passed, evt, run, pass, w, hr, h0, h1, h2, hpr, hre, -, d1, d2, d3, d4, -⟩ :=
      ElectronSelector.execute_delta cfg hOP c st
    obtain ⟨hc', hnb, he, ho⟩ := Cutflow.consistent_step c r.cutflow seen passed evt run pass
      st.objectCount hc h0 h1 h2 hpr hre (by omega) (by omega) d1 d2 d3 d4
    obtain ⟨c', hc'', hcons, hnb', hhi⟩ := ih r.cutflow hc' (by omega) (by omega)
    refine ⟨c', by simp only [ElectronSelector.executeEvents, hr, hc''], hcons, ?_, ?_⟩
    · unfold Cutflow.countsNotBelow at hnb hnb' ⊢
      omega
    · simp only [List.length_cons, Nat.cast_add, Nat.cast_one]
      omega

/-- The relations between the counters are kept by every sequence of calls of the muon
`execute` that does not take a count past the largest `int`, and the event counter grows by
at most the number of calls. -/
theorem muon_executeEvents_consistent (cfg : MuonSelector) (hT : cfg.muonTypeKnown)
    (events : List Store) (c : Cutflow) (hc : c.consistent)
    (hE : c.m_numEvent + events.length ≤ 2147483647)
    (hO : c.m_numObject + ((events.map Store.objectCount).sum : Nat) ≤ 2147483647) :
    ∃ c', MuonSelector.executeEvents cfg c events = some c' ∧ c'.consistent ∧
      c.countsNotBelow c' ∧ c'.m_numEvent ≤ c.m_numEvent + events.length := by
  induction events generalizing c with
  | nil =>
    exact ⟨c, rfl, hc, ⟨le_refl _, le_refl _, le_refl _, le_refl _⟩, by simp⟩
  | cons st rest ih =>
    simp only [List.length_cons, Nat.cast_add, Nat.cast_one, List.map_cons, List.sum_cons]
      at hE hO
    obtain ⟨r, seen, passed, evt, run, pass, w, hr, h0, h1, h2, hpr, hre, -, d1, d2, d3, d4, -⟩ :=
      MuonSelector.muon_execute_delta cfg hT c st
    obtain ⟨hc', hnb, he, ho⟩ := Cutflow.consistent_step c r.cutflow seen passed evt run pass
      st.objectCount hc h0 h1 h2 hpr hre (by omega) (by omega) d1 d2 d3 d4
    obtain ⟨c', hc'', hcons, hnb', hhi⟩ := ih r.cutflow hc' (by omega) (by omega)
    refine ⟨c', by simp only [MuonSelector.executeEvents, hr, hc''], hcons, ?_, ?_⟩
    · unfold Cutflow.countsNotBelow at hnb hnb' ⊢
      omega
    · simp only [List.length_cons, Nat.cast_add, Nat.cast_one]
      omega

theorem wrapInt_add_wrapInt (x y : Int) : wrapInt (wrapInt x + y) = wrapInt (x + y) := by
  unfold wrapInt
  omega

/-- One call of `execute` leaves no count below its value before when the counts leave room
for one more event and for the objects of the event. -/
theorem Cutflow.countsNotBelow_step (c c' : Cutflow) (seen passed : Int) (evt run pass : Bool)
    (n : Nat) (hroom : c.roomFor 1 n)
    (h0 : 0 ≤ passed) (h1 : passed ≤ seen) (h2 : seen ≤ n)
    (d1 : c'.m_numEvent = (if evt then wrapInt (c.m_numEvent + 1) else c.m_numEvent))
    (d2 : c'.m_numObject = (if run then wrapInt (c.m_numObject + seen) else c.m_numObject))
    (d3 : c'.m_numObjectPass =
      (if run then wrapInt (c.m_numObjectPass + passed) else c.m_numObjectPass))
    (d4 : c'.m_numEventPass =
      (if pass then wrapInt (c.m_numEventPass + 1) else c.m_numEventPass)) :
    c.countsNotBelow c' := by
  obtain ⟨⟨a1, a2⟩, ⟨b1, b2⟩, ⟨o1, o2⟩, ⟨q1, q2⟩⟩ := hroom
  simp only [Nat.cast_one] at a2 b2
  have e1 : wrapInt (c.m_numEvent + 1) = c.m_numEvent + 1 :=
    wrapInt_eq_self _ (by omega) (by omega)
  have e2 : wrapInt (c.m_numObject + seen) = c.m_numObject + seen :=
    wrapInt_eq_self _ (by omega) (by omega)
  have e3 : wrapInt (c.m_numObjectPass + passed) = c.m_numObjectPass + passed :=
    wrapInt_eq_self _ (by omega) (by omega)
  have e4 : wrapInt (c.m_numEventPass + 1) = c.m_numEventPass + 1 :=
    wrapInt_eq_self _ (by omega) (by omega)
  rw [e1] at d1
  rw [e2] at d2
  rw [e3] at d3
  rw [e4] at d4
  unfold Cutflow.countsNotBelow
  cases evt <;> cases run <;> cases pass <;>
    simp only [Bool.false_eq_true, if_false, if_true] at d1 d2 d3 d4 <;>
    (rw [d1, d2, d3, d4]; omega)

/-- Every sequence of calls of the electron `execute` returns. -/
theorem executeEvents_some (cfg : ElectronSelector) (hOP : cfg.operatingPointsPresent)
    (events : List Store) (c : Cutflow) :
    ∃ c', ElectronSelector.executeEvents cfg c events = some c' := by
  induction events generalizing c with
  | nil => exact ⟨c, rfl⟩
  | cons st rest ih =>
    obtain ⟨r, -, -, -, -, -, -, hr, -⟩ := ElectronSelector.execute_delta cfg hOP c st
    obtain ⟨c', hc'⟩ := ih r.cutflow
    exact ⟨c', by simp only [ElectronSelector.executeEvents, hr, hc']⟩

/-- Every sequence of calls of the muon `execute` returns. -/
theorem muon_executeEvents_some (cfg : MuonSelector) (hT : cfg.muonTypeKnown)
    (events : List Store) (c : Cutflow) :
    ∃ c', MuonSelector.executeEvents cfg c events = some c' := by
  induction events generalizing c with
  | nil => exact ⟨c, rfl⟩
  | cons st rest ih =>
    obtain ⟨r, -, -, -, -, -, -, hr, -⟩ := MuonSelector.muon_execute_delta cfg hT c st
    obtain ⟨c', hc'⟩ := ih r.cutflow
    exact ⟨c', by simp only [MuonSelector.executeEvents, hr, hc']⟩

/-- The counters after one call of `execute` on the event of `passFailStore`: one more event,
two more objects seen, one more object passed, one more event passed. -/
theorem execute_passFailStore (c : Cutflow) :
    (ElectronSelector.execute pTMinElectronSelector c passFailStore).map (fun r => r.cutflow) =
      some { m_numEvent := wrapInt (c.m_numEvent + 1),
             m_numObject := wrapInt (c.m_numObject + 2),
             m_numEventPass := wrapInt (c.m_numEventPass + 1),
             m_weightNumEventPass := exactAdd c.m_weightNumEventPass (FloatValue.finite 1),
             m_numObjectPass := wrapInt (c.m_numObjectPass + 1) } := by
  simp +decide [ElectronSelector.execute, Store.retrieveEventInfo, Store.retrieveElectrons,
    ElectronSelector.executeSelection, Store.retrieveVertices, passFailStore, exampleStore,
    List.lookup, selectionLoop, ElectronSelector.passSel, ElectronSelector.PassCuts,
    ElectronSelector.kinematicCut, pTMinElectronSelector, exampleElectronSelector,
    exampleElectron, ElectronSelector.inCrack, d0_significance, z0sintheta, exampleTrack,
    sentinel, ElectronSelector.passLikelihoodPID, ElectronSelector.passCutBasedPID,
    ElectronSelector.passIsolation, getDecor, auxdecor, ElectronSelector.finish,
    ElectronSelector.failure]
  norm_num

/-- The counts of objects after `n` events of `passFailStore`, from counts that are values
of an `int`: `2 n` more objects seen and `n` more objects passed, each sum wrapped to 32
bits. -/
theorem executeEvents_passFailStore (n : Nat) (c : Cutflow)
    (hO : -2147483648 ≤ c.m_numObject ∧ c.m_numObject ≤ 2147483647)
    (hP : -2147483648 ≤ c.m_numObjectPass ∧ c.m_numObjectPass ≤ 2147483647) :
    ∃ c', ElectronSelector.executeEvents pTMinElectronSelector c
        (List.replicate n passFailStore) = some c' ∧
      c'.m_numObject = wrapInt (c.m_numObject + 2 * n) ∧
      c'.m_numObjectPass = wrapInt (c.m_numObjectPass + n) := by
  induction n generalizing c with
  | zero =>
    refine ⟨c, rfl, ?_, ?_⟩
    · simp only [Nat.cast_zero, mul_zero, add_zero]
      exact (wrapInt_eq_self _ hO.1 hO.2).symm
    · simp only [Nat.cast_zero, add_zero]
      exact (wrapInt_eq_self _ hP.1 hP.2).symm
  | succ n ih =>
    have h1 := execute_passFailStore c
    obtain ⟨r, hr⟩ : ∃ r, ElectronSelector.execute pTMinElectronSelector c passFailStore
        = some r := by
      cases hx : ElectronSelector.execute pTMinElectronSelector c passFailStore with
      | none => rw [hx] at h1; simp at h1
      | some r => exact ⟨r, rfl⟩
    rw [hr, Option.map_some', Option.some.injEq] at h1
    obtain ⟨c', hc', e1, e2⟩ := ih r.cutflow (by rw [h1]; exact wrapInt_bounds _)
      (by rw [h1]; exact wrapInt_bounds _)
    refine ⟨c', by simp only [List.replicate_succ, ElectronSelector.executeEvents, hr, hc'],
      ?_, ?_⟩
    · rw [e1, h1, wrapInt_add_wrapInt]
      congr 1
      push_cast
      ring
    · rw [e2, h1, wrapInt_add_wrapInt]
      congr 1
      push_cast
      ring

/-! ## The object-quality mask -/

theorem testBit_1446 (i : Nat) : Nat.testBit 1446 i = decide (i ∈ objectQualityBits) := by
  by_cases hi : i < 11
  · interval_cases i <;> decide
  · have h1 : Nat.testBit 1446 i = false := by
      apply Nat.testBit_lt_two_pow
      calc 1446 < 2 ^ 11 := by norm_num
        _ ≤ 2 ^ i := Nat.pow_le_pow_right (by norm_num) (by omega)
    have h2 : i ∉ objectQualityBits := by
      simp only [objectQualityBits, List.mem_cons, List.mem_singleton, List.not_mem_nil,
        or_false]
      omega
    rw [h1]
    simp [h2]

/-- The mask 1446 keeps exactly the bits 1, 2, 5, 7, 8 and 10 of a word. -/
theorem and_1446_eq_zero_iff (n : Nat) :
    n &&& 1446 = 0 ↔ ∀ i ∈ objectQualityBits, n.testBit i = false := by
  constructor
  · intro h i hi
    have h1 : (n &&& 1446).testBit i = false := by rw [h]; exact Nat.zero_testBit i
    rw [Nat.testBit_and, testBit_1446, decide_eq_true hi, Bool.and_true] at h1
    exact h1
  · intro h
    apply Nat.eq_of_testBit_eq
    intro i
    rw [Nat.testBit_and, Nat.zero_testBit, testBit_1446]
    by_cases hi : i ∈ objectQualityBits
    · rw [h i hi, Bool.false_and]
    · rw [decide_eq_false hi, Bool.and_false]

/-- Two words with the same bits 1, 2, 5, 7, 8 and 10 have the same image under the mask. -/
theorem and_1446_congr (n m : Nat)
    (h : ∀ i ∈ objectQualityBits, n.testBit i = m.testBit i) : n &&& 1446 = m &&& 1446 := by
  apply Nat.eq_of_testBit_eq
  intro i
  rw [Nat.testBit_and, Nat.testBit_and, testBit_1446]
  by_cases hi : i ∈ objectQualityBits
  · rw [h i hi]
  · rw [decide_eq_false hi, Bool.and_false, Bool.and_false]

/-! ## The number of objects in the store after the fan-out loop -/

theorem Store.length_decorated (st : Store) (key : String) (obj : StoreObj) :
    (st.decorated key obj).length = st.length := by
  simp [Store.decorated]

namespace ElectronSelector

/-- When the loop over the labels ends without a failure it has added to the store one object
for each label whose run passed, if materialization is requested, and none otherwise. -/
theorem systLoop_store_length (cfg : ElectronSelector) (hOP : cfg.operatingPointsPresent)
    (w : ℚ) (labels : List String) (c : Cutflow) (st : Store) (cp ep : Bool)
    (out : List String) (f : FanOut) (h : systLoop cfg w labels c st cp ep out = some f)
    (hok : f.ok = true) :
    f.store.length = st.length +
      (if cfg.m_createSelectedContainer then (labels.filter (selectionPasses cfg st)).length
       else 0) := by
  induction labels generalizing c st cp ep out with
  | nil =>
    simp only [systLoop, Option.some.injEq] at h
    subst h
    simp
  | cons l ls ih =>
    simp only [systLoop] at h
    cases hx : st.retrieveElectrons (cfg.m_inContainerName ++ l) with
    | none =>
      simp only [hx, Option.some.injEq] at h
      subst h
      exact absurd hok (by simp)
    | some xs =>
      obtain ⟨r, hr⟩ := executeSelection_some cfg st c xs w cp hOP
      have hpass := eventPass_eq_selectionPasses cfg hOP st l xs hx c w cp r hr
      have hobj := executeSelection_objects cfg st c xs w cp r hr
      have hS1 := Store.SameInputs.decorated st (cfg.m_inContainerName ++ l) xs r.objects hx hobj
      simp only [hx, hr, hpass] at h
      have hfilter : ∀ st2, st.SameInputs st2 →
          ls.filter (selectionPasses cfg st2) = ls.filter (selectionPasses cfg st) :=
        fun st2 hS2 => List.filter_congr (fun l' _ => selectionPasses_congr cfg hOP st st2 hS2 l')
      split at h
      · rename_i hcond
        have hcreate : cfg.m_createSelectedContainer = true := by
          cases hcc : cfg.m_createSelectedContainer with
          | true => rfl
          | false => rw [hcc] at hcond; exact absurd hcond (by simp)
        have hp : selectionPasses cfg st l = true := by
          rw [hcreate] at hcond
          simpa using hcond
        cases hrec : (st.decorated (cfg.m_inContainerName ++ l)
            (StoreObj.electrons r.objects)).record (cfg.m_outContainerName ++ l)
            (StoreObj.selectedElectrons r.selected) with
        | none =>
          simp only [hrec, Option.some.injEq] at h
          subst h
          exact absurd hok (by simp)
        | some st2 =>
          simp only [hrec] at h
          obtain ⟨-, hst2⟩ := Store.record_some _ _ _ _ hrec
          have hS2 : st.SameInputs st2 := by
            rw [hst2]
            exact hS1.trans
              (Store.SameInputs.append _ _ _ (by intro pvx; simp) (by intro c; simp))
          rw [ih _ _ _ _ _ h, hfilter st2 hS2, hst2]
          simp only [hcreate, if_true, List.length_append, List.length_singleton,
            Store.length_decorated, List.filter_cons, hp, List.length_cons, List.length_nil]
          omega
      · rename_i hcond
        rw [ih _ _ _ _ _ h, hfilter _ hS1, Store.length_decorated]
        cases hcc : cfg.m_createSelectedContainer with
        | false => simp
        | true =>
          have hp : selectionPasses cfg st l = false := by
            rw [hcc] at hcond
            simpa using hcond
          simp [List.filter_cons, hp]

end ElectronSelector

/-! ## The objects evaluated by the loop, with and without decoration -/

section LoopDecorate

variable {α : Type} (pc : α → Decorations → Option (Int × Decorations)) (v : α → Int)
  (n : Int) (dec cre : Bool)

/-- The objects passed to `PassCuts` are all of them when there is no positive cap, and
otherwise those met before `nObj` reaches the cap. -/
theorem selectionLoop_evaluated (hpc : ∀ o a, ∃ a', pc o a = some (v o, a'))
    (xs : List (Decorated α)) (idx : Nat) (nObj nPass : Int) (sel ev : List Nat)
    (r : LoopResult α)
    (h : selectionLoop pc n dec cre idx xs nObj nPass sel ev = some r) :
    r.evaluated = ev ++ List.range' idx
      (if n > 0 then min xs.length (n - nObj).toNat else xs.length) := by
  induction xs generalizing idx nObj nPass sel ev r with
  | nil =>
    simp only [selectionLoop, Option.some.injEq] at h
    subst h
    simp
  | cons x rest ih =>
    by_cases hcap : n > 0 ∧ nObj ≥ n
    · obtain ⟨-, -, -, h4⟩ :=
        selectionLoop_capped pc n dec cre (x :: rest) idx nObj nPass sel ev r hcap h
      have hk : min (rest.length + 1) (n - nObj).toNat = 0 := by omega
      simp only [h4, hcap.1, if_true, List.length_cons, hk, List.range'_zero, List.append_nil]
    · obtain ⟨a', hp⟩ := hpc x.obj x.aux
      rw [selectionLoop_eval pc n dec cre x rest idx nObj nPass sel ev hcap _ _ hp,
        Option.map_eq_some'] at h
      obtain ⟨r', hr', rfl⟩ := h
      rw [ih _ _ _ _ _ r' hr']
      by_cases hn : n > 0
      · have hk : min (rest.length + 1) (n - nObj).toNat =
            min rest.length (n - (nObj + 1)).toNat + 1 := by
          have : ¬ nObj ≥ n := fun h' => hcap ⟨hn, h'⟩
          omega
        simp only [hn, if_true, List.length_cons, hk, List.range'_succ, List.append_assoc,
          List.singleton_append]
      · simp only [hn, if_false, List.length_cons, List.range'_succ, List.append_assoc,
          List.singleton_append]

/-- Decorating the objects, rather than leaving the loop at the cap, changes none of the
counts, nor the view of selected objects, nor the objects evaluated. -/
theorem selectionLoop_decorate (hpc : ∀ o a, ∃ a', pc o a = some (v o, a'))
    (xs : List (Decorated α)) (idx : Nat) (nObj nPass : Int) (sel ev : List Nat)
    (r r' : LoopResult α)
    (h : selectionLoop pc n true cre idx xs nObj nPass sel ev = some r)
    (h' : selectionLoop pc n false cre idx xs nObj nPass sel ev = some r') :
    r.nObj = r'.nObj ∧ r.nPass = r'.nPass ∧ r.selected = r'.selected ∧
      r.evaluated = r'.evaluated := by
  induction xs generalizing idx nObj nPass sel ev r r' with
  | nil =>
    simp only [selectionLoop, Option.some.injEq] at h h'
    subst h
    subst h'
    exact ⟨rfl, rfl, rfl, rfl⟩
  | cons x rest ih =>
    by_cases hcap : n > 0 ∧ nObj ≥ n
    · obtain ⟨h1, h2, h3, h4⟩ :=
        selectionLoop_capped pc n true cre (x :: rest) idx nObj nPass sel ev r hcap h
      obtain ⟨h1', h2', h3', h4'⟩ :=
        selectionLoop_capped pc n false cre (x :: rest) idx nObj nPass sel ev r' hcap h'
      exact ⟨h1.trans h1'.symm, h2.trans h2'.symm, h3.trans h3'.symm, h4.trans h4'.symm⟩
    · obtain ⟨a', hp⟩ := hpc x.obj x.aux
      rw [selectionLoop_eval pc n true cre x rest idx nObj nPass sel ev hcap _ _ hp,
        Option.map_eq_some'] at h
      rw [selectionLoop_eval pc n false cre x rest idx nObj nPass sel ev hcap _ _ hp,
        Option.map_eq_some'] at h'
      obtain ⟨s, hs, rfl⟩ := h
      obtain ⟨s', hs', rfl⟩ := h'
      exact ih _ _ _ _ _ s s' hs hs'

end LoopDecorate

/-- Whether a key can be recorded after a container was decorated does not depend on the
decorations. -/
theorem Store.record_decorated_none_iff (st : Store) (key : String) (o1 o2 : StoreObj)
    (k : String) (x : StoreObj) :
    (st.decorated key o1).record k x = none ↔ (st.decorated key o2).record k x = none := by
  unfold Store.record
  rw [Store.lookup_decorated, Store.lookup_decorated]
  by_cases hk : k = key
  · simp only [hk, if_true]
    cases st.lookup key <;> simp
  · simp only [hk, if_false]
    cases st.lookup k <;> simp

/-! ## The impact-parameter cuts -/

/-- A rejection of the muon `PassCuts` at an impact-parameter cut is that of a muon that is
not stand-alone and whose quantity, as the machine computed it, is not below the bound. -/
theorem muon_PassCuts_failed_impact (cfg : MuonSelector) (mu : Muon) (pv : Vertex)
    (r : MuonPassCutsResult) (hr : MuonSelector.PassCuts cfg mu pv = some r) :
    (r.failed = some MuonCut.d0 →
      mu.muonType ≠ MuonType.MuonStandAlone ∧
        cfg.m_d0_max ≤ mu.primaryTrackParticle.d0) ∧
    (r.failed = some MuonCut.d0sig →
      mu.muonType ≠ MuonType.MuonStandAlone ∧
        (d0_significance cfg.floatArith mu.primaryTrackParticle).lt cfg.m_d0sig_max = false) ∧
    (r.failed = some MuonCut.z0sintheta →
      mu.muonType ≠ MuonType.MuonStandAlone ∧
        (z0sintheta cfg.floatArith mu.primaryTrackParticle pv).fabs.lt cfg.m_z0sintheta_max
          = false) := by
  unfold MuonSelector.PassCuts at hr
  simp only [] at hr
  split_ifs at hr with h1 h2 h3 h4 h5 h6
  · cases hr; simp
  · cases hr; simp
  · cases hr; simp
  · cases hr
    simp only [true_implies, reduceCtorEq, false_implies, Option.some.injEq, and_true]
    exact ⟨h4.1, not_lt.mp h4.2⟩
  · cases hr
    simp only [true_implies, reduceCtorEq, false_implies, Option.some.injEq, and_true,
      true_and]
    exact ⟨h5.1, by simpa using h5.2⟩
  · cases hr
    simp only [true_implies, reduceCtorEq, false_implies, Option.some.injEq, true_and]
    exact ⟨h6.1, by simpa using h6.2⟩
  · rcases MuonSelector.passType_failed cfg mu r hr with h | h | h | h <;> simp [h]

/-- A rejection of the electron `PassCuts` at an impact-parameter cut is that of an electron
whose quantity, as the machine computed it, is not below the bound. -/
theorem PassCuts_failed_impact (cfg : ElectronSelector) (el : Electron) (aux : Decorations)
    (pv : Vertex) (hOP : cfg.operatingPointsPresent) (r : PassCutsResult)
    (hr : ElectronSelector.PassCuts cfg el aux pv = some r) :
    (r.failed = some ElectronCut.d0 → cfg.m_d0_max ≤ el.trackParticle.d0) ∧
    (r.failed = some ElectronCut.d0sig →
      (d0_significance cfg.floatArith el.trackParticle).lt cfg.m_d0sig_max = false) ∧
    (r.failed = some ElectronCut.z0sintheta →
      (z0sintheta cfg.floatArith el.trackParticle pv).fabs.lt cfg.m_z0sintheta_max = false) := by
  obtain ⟨r', hr', -, -, hf⟩ := ElectronSelector.PassCuts_eq_firstFailing cfg el aux pv hOP
  rw [hr, Option.some.injEq] at hr'
  subst hr'
  refine ⟨?_, ?_, ?_⟩
  · intro hx
    have := firstFailing_mem _ _ (hf ▸ hx)
    simpa [ElectronSelector.criteria, ElectronSelector.kinematicCriteria,
      ElectronSelector.identificationCriteria] using this
  · intro hx
    have := firstFailing_mem _ _ (hf ▸ hx)
    simpa [ElectronSelector.criteria, ElectronSelector.kinematicCriteria,
      ElectronSelector.identificationCriteria] using this
  · intro hx
    have := firstFailing_mem _ _ (hf ▸ hx)
    simpa [ElectronSelector.criteria, ElectronSelector.kinematicCriteria,
      ElectronSelector.identificationCriteria] using this

/-! ## The muon isolation step when a variable is missing -/

namespace MuonSelector

/-- The isolation step rejects nothing when one of the two variables cannot be retrieved. -/
theorem failsIsolation_missing (cfg : MuonSelector) (mu : Muon)
    (hmiss : mu.isolation.lookup cfg.m_TrackBasedIsoType = none ∨
      mu.isolation.lookup cfg.m_CaloBasedIsoType = none) :
    failsIsolation cfg mu = false := by
  unfold failsIsolation
  rcases hmiss with h | h
  · simp only [h]
  · cases h1 : mu.isolation.lookup cfg.m_TrackBasedIsoType with
    | none => rfl
    | some x => simp only [h]

/-- A rejection at the isolation step is made with the isolation cut enabled, by the test of
the two ratios. -/
theorem passIsoTool_failed_isolation (cfg : MuonSelector) (mu : Muon)
    (h : (passIsoTool cfg mu).failed = some MuonCut.isolation) :
    cfg.m_doIsolation = true ∧ failsIsolation cfg mu = true := by
  unfold passIsoTool at h
  split_ifs at h with h1 h2
  · simpa using h1
  · cases h

theorem muon_PassCuts_failed_isolation (cfg : MuonSelector) (mu : Muon) (pv : Vertex)
    (r : MuonPassCutsResult) (hr : PassCuts cfg mu pv = some r)
    (hf : r.failed = some MuonCut.isolation) :
    cfg.m_doIsolation = true ∧ failsIsolation cfg mu = true := by
  unfold PassCuts at hr
  simp only [] at hr
  split_ifs at hr
  all_goals try (cases hr; cases hf)
  unfold passType at hr
  split_ifs at hr
  · cases hp : parseMuonType cfg.m_muonType with
    | none => rw [hp] at hr; cases hr
    | some t =>
      rw [hp] at hr
      simp only [] at hr
      split_ifs at hr
      · cases hr; cases hf
      · cases hr
        exact passIsoTool_failed_isolation cfg mu hf
  · cases hr
    exact passIsoTool_failed_isolation cfg mu hf

end MuonSelector

/-! ## The claims -/

/-- C1: in fan-out mode, with the event information and the list of labels in the store,
`execute` returns; whenever it returns `SUCCESS` the list it has recorded under
`OutputAlgoSystNames` is the input list filtered, in order, to the labels whose
`executeSelection` run returned event-pass (a label is in the output if and only if it is an
input label whose run passed); and it does return `SUCCESS` when the container of every label
is in the store and the output keys are free (the key of the output list and, if
materialization is requested, the keys `OutputContainer + label` of pairwise distinct
labels). -/
theorem C1_output_labels_are_the_passing_labels
    (cfg : ElectronSelector) (c : Cutflow) (st : Store) (labels : List String) (w : ℚ)
    (hOP : cfg.operatingPointsPresent)
    (hFan : cfg.m_inputAlgoSystNames ≠ "")
    (hEI : st.retrieveEventInfo "EventInfo" = some (some w))
    (hL : st.retrieveSystNames cfg.m_inputAlgoSystNames = some labels) :
    ∃ r, ElectronSelector.execute cfg c st = some r ∧
      (r.status = StatusCode.SUCCESS →
        r.store.retrieveSystNames cfg.m_outputAlgoSystNames =
          some (labels.filter (ElectronSelector.selectionPasses cfg st)) ∧
        ∀ l, l ∈ labels.filter (ElectronSelector.selectionPasses cfg st) ↔
          l ∈ labels ∧ ElectronSelector.selectionPasses cfg st l = true) ∧
      ((∀ l ∈ labels, (st.retrieveElectrons (cfg.m_inContainerName ++ l)).isSome = true) →
        st.lookup cfg.m_outputAlgoSystNames = none →
        (cfg.m_createSelectedContainer = true →
          labels.Nodup ∧ ∀ l ∈ labels, st.lookup (cfg.m_outContainerName ++ l) = none ∧
            cfg.m_outContainerName ++ l ≠ cfg.m_outputAlgoSystNames) →
        r.status = StatusCode.SUCCESS) := by
  obtain ⟨f, hf⟩ := ElectronSelector.systLoop_some cfg hOP w labels
    { c with m_numEvent := wrapInt (c.m_numEvent + 1) } st true false []
  have htotal : (∀ l ∈ labels,
        (st.retrieveElectrons (cfg.m_inContainerName ++ l)).isSome = true) →
      st.lookup cfg.m_outputAlgoSystNames = none →
      (cfg.m_createSelectedContainer = true →
        labels.Nodup ∧ ∀ l ∈ labels, st.lookup (cfg.m_outContainerName ++ l) = none ∧
          cfg.m_outContainerName ++ l ≠ cfg.m_outputAlgoSystNames) →
      f.ok = true ∧ f.store.lookup cfg.m_outputAlgoSystNames = none := by
    intro hIn hOutFree hFresh
    obtain ⟨f', hf', hok, -, -, -, hnone, -, -⟩ :=
      ElectronSelector.systLoop_spec cfg hOP w labels { c with m_numEvent := wrapInt (c.m_numEvent + 1) }
        st true false [] hIn (fun hc => ⟨(hFresh hc).1, fun l hl => ((hFresh hc).2 l hl).1⟩)
    rw [hf] at hf'
    simp only [Option.some.injEq] at hf'
    subst hf'
    exact ⟨hok, hnone _ hOutFree (fun hc l hl _ heq => ((hFresh hc).2 l hl).2 heq.symm)⟩
  by_cases hok : f.ok = true
  · cases hrec : f.store.record cfg.m_outputAlgoSystNames
        (StoreObj.systNames f.vecOutContainerNames) with
    | none =>
      refine ⟨ElectronSelector.failure f.cutflow f.store, ?_, ?_, ?_⟩
      · simp only [ElectronSelector.execute, hEI, hFan, if_false, hL, hf, hok, if_true, hrec]
      · intro h
        exact absurd h (by simp [ElectronSelector.failure])
      · intro hIn hOutFree hFresh
        rw [Store.record_eq_some _ _ _ (htotal hIn hOutFree hFresh).2] at hrec
        exact absurd hrec (by simp)
    | some st2 =>
      obtain ⟨hfree, hst2⟩ := Store.record_some _ _ _ _ hrec
      obtain ⟨hvec, -, -⟩ := ElectronSelector.systLoop_ok cfg hOP w labels _ st true false [] f
        hf hok
      refine ⟨ElectronSelector.finish f.cutflow st2 f.eventPass, ?_, ?_, fun _ _ _ => rfl⟩
      · simp only [ElectronSelector.execute, hEI, hFan, if_false, hL, hf, hok, if_true, hrec]
      · intro _
        refine ⟨?_, fun l => List.mem_filter⟩
        simp only [ElectronSelector.finish, hst2, Store.retrieveSystNames,
          Store.lookup_append_single, hfree, if_true, hvec, List.nil_append]
  · refine ⟨ElectronSelector.failure f.cutflow f.store, ?_, ?_, ?_⟩
    · simp only [ElectronSelector.execute, hEI, hFan, if_false, hL, hf, hok,
        Bool.false_eq_true]
    · intro h
      exact absurd h (by simp [ElectronSelector.failure])
    · intro hIn hOutFree hFresh
      exact absurd (htotal hIn hOutFree hFresh).1 hok

/-- C1, at the input of its example: labels `""`, `SYS_UP`, `SYS_DOWN`, of which only `SYS_UP`
passes, so that the filtered list is `["SYS_UP"]`; every container is in the store and the
output keys are free. -/
theorem C1_output_labels_are_the_passing_labels_witness :
    fanOutElectronSelector.operatingPointsPresent ∧
    fanOutElectronSelector.m_inputAlgoSystNames ≠ "" ∧
    fanOutStore.retrieveEventInfo "EventInfo" = some (some 2) ∧
    fanOutStore.retrieveSystNames fanOutElectronSelector.m_inputAlgoSystNames =
      some ["", "SYS_UP", "SYS_DOWN"] ∧
    ["", "SYS_UP", "SYS_DOWN"].filter
      (ElectronSelector.selectionPasses fanOutElectronSelector fanOutStore) = ["SYS_UP"] ∧
    (∀ l ∈ ["", "SYS_UP", "SYS_DOWN"],
      (fanOutStore.retrieveElectrons
        (fanOutElectronSelector.m_inContainerName ++ l)).isSome = true) ∧
    fanOutStore.lookup fanOutElectronSelector.m_outputAlgoSystNames = none ∧
    (fanOutElectronSelector.m_createSelectedContainer = true →
      ["", "SYS_UP", "SYS_DOWN"].Nodup ∧ ∀ l ∈ ["", "SYS_UP", "SYS_DOWN"],
        fanOutStore.lookup (fanOutElectronSelector.m_outContainerName ++ l) = none ∧
        fanOutElectronSelector.m_outContainerName ++ l ≠
          fanOutElectronSelector.m_outputAlgoSystNames) ∧
    ∃ r, ElectronSelector.execute fanOutElectronSelector Cutflow.zero fanOutStore = some r ∧
      (r.status = StatusCode.SUCCESS →
        r.store.retrieveSystNames fanOutElectronSelector.m_outputAlgoSystNames =
          some (["", "SYS_UP", "SYS_DOWN"].filter
            (ElectronSelector.selectionPasses fanOutElectronSelector fanOutStore)) ∧
        ∀ l, l ∈ ["", "SYS_UP", "SYS_DOWN"].filter
            (ElectronSelector.selectionPasses fanOutElectronSelector fanOutStore) ↔
          l ∈ ["", "SYS_UP", "SYS_DOWN"] ∧
            ElectronSelector.selectionPasses fanOutElectronSelector fanOutStore l = true) ∧
      ((∀ l ∈ ["", "SYS_UP", "SYS_DOWN"],
          (fanOutStore.retrieveElectrons
            (fanOutElectronSelector.m_inContainerName ++ l)).isSome = true) →
        fanOutStore.lookup fanOutElectronSelector.m_outputAlgoSystNames = none →
        (fanOutElectronSelector.m_createSelectedContainer = true →
          ["", "SYS_UP", "SYS_DOWN"].Nodup ∧ ∀ l ∈ ["", "SYS_UP", "SYS_DOWN"],
            fanOutStore.lookup (fanOutElectronSelector.m_outContainerName ++ l) = none ∧
            fanOutElectronSelector.m_outContainerName ++ l ≠
              fanOutElectronSelector.m_outputAlgoSystNames) →
        r.status = StatusCode.SUCCESS) :=
  ⟨by simp [ElectronSelector.operatingPointsPresent, fanOutElectronSelector,
      exampleElectronSelector],
   by decide, by rfl, by rfl, selectionPasses_fanOutStore,
   by decide, by rfl, fun _ => by decide,
   C1_output_labels_are_the_passing_labels fanOutElectronSelector Cutflow.zero fanOutStore
     ["", "SYS_UP", "SYS_DOWN"] 2
     (by simp [ElectronSelector.operatingPointsPresent, fanOutElectronSelector,
        exampleElectronSelector])
     (by decide) (by rfl) (by rfl)⟩

/-- C2: in fan-out mode, the cutflow members after `execute` over a non-empty list of labels
are equal to those after `execute` over the list holding its first label only, the two stores
being otherwise the same: the variations after the first contribute to no accumulator. -/
theorem C2_only_the_first_variation_is_counted
    (cfg : ElectronSelector) (c : Cutflow) (st st' : Store) (hd : String) (tl : List String)
    (hOP : cfg.operatingPointsPresent)
    (hFan : cfg.m_inputAlgoSystNames ≠ "")
    (hL : st.retrieveSystNames cfg.m_inputAlgoSystNames = some (hd :: tl))
    (hL' : st'.retrieveSystNames cfg.m_inputAlgoSystNames = some [hd])
    (hSame : ∀ key, key ≠ cfg.m_inputAlgoSystNames → st'.lookup key = st.lookup key) :
    ∃ r r', ElectronSelector.execute cfg c st = some r ∧
      ElectronSelector.execute cfg c st' = some r' ∧
      r.cutflow = r'.cutflow ∧
      r.cutflow.m_numObject = r'.cutflow.m_numObject ∧
      r.cutflow.m_numObjectPass = r'.cutflow.m_numObjectPass ∧
      r.cutflow.m_numEventPass = r'.cutflow.m_numEventPass ∧
      r.cutflow.m_weightNumEventPass = r'.cutflow.m_weightNumEventPass := by
  have hlk : ∃ v, st.lookup cfg.m_inputAlgoSystNames = some (StoreObj.systNames v) := by
    unfold Store.retrieveSystNames at hL
    cases h : st.lookup cfg.m_inputAlgoSystNames with
    | none => simp [h] at hL
    | some v => cases v <;> simp [h] at hL; exact ⟨_, rfl⟩
  have hlk' : ∃ v, st'.lookup cfg.m_inputAlgoSystNames = some (StoreObj.systNames v) := by
    unfold Store.retrieveSystNames at hL'
    cases h : st'.lookup cfg.m_inputAlgoSystNames with
    | none => simp [h] at hL'
    | some v => cases v <;> simp [h] at hL'; exact ⟨_, rfl⟩
  obtain ⟨v, hv⟩ := hlk
  obtain ⟨v', hv'⟩ := hlk'
  have hEIeq : st'.retrieveEventInfo "EventInfo" = st.retrieveEventInfo "EventInfo" := by
    unfold Store.retrieveEventInfo
    by_cases hk : "EventInfo" = cfg.m_inputAlgoSystNames
    · rw [hk, hv, hv']
    · rw [hSame _ hk]
  have hPVeq : st'.retrieveVertices "PrimaryVertices" =
      st.retrieveVertices "PrimaryVertices" := by
    unfold Store.retrieveVertices
    by_cases hk : "PrimaryVertices" = cfg.m_inputAlgoSystNames
    · rw [hk, hv, hv']
    · rw [hSame _ hk]
  have hELeq : ∀ key, st'.retrieveElectrons key = st.retrieveElectrons key := by
    intro key
    unfold Store.retrieveElectrons
    by_cases hk : key = cfg.m_inputAlgoSystNames
    · rw [hk, hv, hv']
    · rw [hSame _ hk]
  have hcases : (st.retrieveEventInfo "EventInfo" = none ∨
      st.retrieveEventInfo "EventInfo" = some none) ∨
      ∃ w, st.retrieveEventInfo "EventInfo" = some (some w) := by
    cases h : st.retrieveEventInfo "EventInfo" with
    | none => exact Or.inl (Or.inl rfl)
    | some o =>
      cases o with
      | none => exact Or.inl (Or.inr rfl)
      | some w => exact Or.inr ⟨w, rfl⟩
  rcases hcases with hEI | ⟨w, hEI⟩
  · have hEI' := hEIeq
    refine ⟨ElectronSelector.failure c st, ElectronSelector.failure c st', ?_, ?_,
      rfl, rfl, rfl, rfl, rfl⟩
    · rcases hEI with h | h <;> simp only [ElectronSelector.execute, h]
    · rcases hEI with h | h <;> (rw [h] at hEI'; simp only [ElectronSelector.execute, hEI'])
  · have hEI' := hEIeq.trans hEI
    obtain ⟨f, hf, hfc⟩ := ElectronSelector.systLoop_cutflow_first cfg hOP w hd tl
      { c with m_numEvent := wrapInt (c.m_numEvent + 1) } st false []
    obtain ⟨f', hf', hfc'⟩ := ElectronSelector.systLoop_cutflow_first cfg hOP w hd []
      { c with m_numEvent := wrapInt (c.m_numEvent + 1) } st' false []
    obtain ⟨r, hr, hrc⟩ := ElectronSelector.execute_fanout_cutflow cfg c st (hd :: tl) w hFan
      hEI hL f hf
    obtain ⟨r', hr', hrc'⟩ := ElectronSelector.execute_fanout_cutflow cfg c st' [hd] w hFan
      hEI' hL' f' hf'
    have heq : r.cutflow = r'.cutflow := by
      rw [hrc, hrc', hfc, hfc', hELeq]
      cases st.retrieveElectrons (cfg.m_inContainerName ++ hd) with
      | none => rfl
      | some xs =>
        simp only []
        rw [ElectronSelector.executeSelection_store_congr cfg st st' hPVeq]
    exact ⟨r, r', hr, hr', heq, by rw [heq], by rw [heq], by rw [heq], by rw [heq]⟩

/-- C2, at a concrete input: the example event with three variations against the same event
with the nominal variation only. -/
theorem C2_only_the_first_variation_is_counted_witness :
    fanOutElectronSelector.operatingPointsPresent ∧
    fanOutElectronSelector.m_inputAlgoSystNames ≠ "" ∧
    fanOutStore.retrieveSystNames fanOutElectronSelector.m_inputAlgoSystNames =
      some ("" :: ["SYS_UP", "SYS_DOWN"]) ∧
    fanOutStoreFirstOnly.retrieveSystNames fanOutElectronSelector.m_inputAlgoSystNames =
      some [""] ∧
    (∀ key, key ≠ fanOutElectronSelector.m_inputAlgoSystNames →
      fanOutStoreFirstOnly.lookup key = fanOutStore.lookup key) ∧
    ∃ r r', ElectronSelector.execute fanOutElectronSelector Cutflow.zero fanOutStore = some r ∧
      ElectronSelector.execute fanOutElectronSelector Cutflow.zero fanOutStoreFirstOnly
        = some r' ∧
      r.cutflow = r'.cutflow ∧
      r.cutflow.m_numObject = r'.cutflow.m_numObject ∧
      r.cutflow.m_numObjectPass = r'.cutflow.m_numObjectPass ∧
      r.cutflow.m_numEventPass = r'.cutflow.m_numEventPass ∧
      r.cutflow.m_weightNumEventPass = r'.cutflow.m_weightNumEventPass :=
  ⟨by simp [ElectronSelector.operatingPointsPresent, fanOutElectronSelector,
      exampleElectronSelector],
   by decide, by rfl, by rfl,
   fun key hk => by
     rw [fanOutStoreFirstOnly, Store.lookup_decorated]
     exact if_neg hk,
   C2_only_the_first_variation_is_counted fanOutElectronSelector Cutflow.zero fanOutStore
     fanOutStoreFirstOnly "" ["SYS_UP", "SYS_DOWN"]
     (by simp [ElectronSelector.operatingPointsPresent, fanOutElectronSelector,
        exampleElectronSelector])
     (by decide) (by rfl) (by rfl)
     (fun key hk => by
       rw [fanOutStoreFirstOnly, Store.lookup_decorated]
       exact if_neg hk)⟩

/-- C3 (as stated, refuted): with `PassMax = 0`, a non-negative value, the electron selector
reports event-pass for a container with one passing electron, so `nPass = 1` exceeds the
bound. -/
theorem C3_counterexample_passMax_zero :
    ∃ r, ElectronSelector.executeSelection { exampleElectronSelector with m_pass_max := 0 }
        (exampleStore []) Cutflow.zero [{ obj := exampleElectron 15, aux := [] }] 1 true
          = some r ∧
      r.eventPass = true ∧
      (0 : Int) ≤ ({ exampleElectronSelector with m_pass_max := 0 } : ElectronSelector).m_pass_max ∧
      ¬ r.nPass ≤ ({ exampleElectronSelector with m_pass_max := 0 } : ElectronSelector).m_pass_max := by
  simp +decide [ElectronSelector.executeSelection, Store.retrieveVertices, exampleStore,
    List.lookup, selectionLoop, ElectronSelector.passSel, ElectronSelector.PassCuts,
    ElectronSelector.kinematicCut, exampleElectronSelector, exampleElectron,
    ElectronSelector.inCrack, d0_significance, z0sintheta, exampleTrack, sentinel,
    ElectronSelector.passLikelihoodPID, ElectronSelector.passCutBasedPID,
    ElectronSelector.passIsolation]
  norm_num

/-- C3 (amended): both selectors return, and when the run reports event-pass (the electron
selector returns `true`; the muon selector, with the primary vertices in the store, does not
call `skipEvent`) the number of passing objects satisfies `PassMin ≤ nPass` whenever
`PassMin > 0` and `nPass ≤ PassMax` whenever `PassMax > 0`. -/
theorem C3_event_pass_respects_positive_bounds
    (ecfg : ElectronSelector) (mcfg : MuonSelector) (st : Store) (c : Cutflow)
    (inElectrons : List (Decorated Electron)) (inMuons : List (Decorated Muon)) (key : String)
    (w : ℚ) (countPass : Bool)
    (hOP : ecfg.operatingPointsPresent) (hT : mcfg.muonTypeKnown)
    (hPV : (st.retrieveVertices "PrimaryVertices").isSome = true) :
    (∃ r, ElectronSelector.executeSelection ecfg st c inElectrons w countPass = some r ∧
      (r.eventPass = true →
        (0 < ecfg.m_pass_min → ecfg.m_pass_min ≤ r.nPass) ∧
        (0 < ecfg.m_pass_max → r.nPass ≤ ecfg.m_pass_max))) ∧
    (∃ r, MuonSelector.executeConst mcfg c st key inMuons w = some r ∧
      (r.exec.skipEvent = false →
        (0 < mcfg.m_pass_min → mcfg.m_pass_min ≤ r.nPass) ∧
        (0 < mcfg.m_pass_max → r.nPass ≤ mcfg.m_pass_max))) := by
  obtain ⟨pvx, hpv⟩ := Option.isSome_iff_exists.mp hPV
  constructor
  · obtain ⟨r, hr⟩ := ElectronSelector.executeSelection_some ecfg st c inElectrons w countPass hOP
    refine ⟨r, hr, fun hp => ?_⟩
    obtain ⟨l, -, -, -, hnp, -, -, hiff⟩ :=
      ElectronSelector.executeSelection_eq ecfg st c inElectrons w countPass pvx hpv r hr
    obtain ⟨h1, h2⟩ := hiff.mp hp
    rw [hnp]
    constructor
    · intro h0
      by_contra hlt
      exact h1 ⟨h0, by omega⟩
    · intro h0
      by_contra hlt
      exact h2 ⟨h0, by omega⟩
  · obtain ⟨r, hr⟩ := MuonSelector.executeConst_some mcfg c st key inMuons w hT
    refine ⟨r, hr, fun hp => ?_⟩
    obtain ⟨l, -, -, -, hnp, -, -, hiff⟩ :=
      MuonSelector.executeConst_eq mcfg c st key inMuons w pvx hpv r hr
    obtain ⟨h1, h2⟩ := hiff.mp hp
    rw [hnp]
    constructor
    · intro h0
      by_contra hlt
      exact h1 ⟨h0, by omega⟩
    · intro h0
      by_contra hlt
      exact h2 ⟨h0, by omega⟩

/-- C3 (amended), at a concrete input: gates `PassMin = 1`, `PassMax = 2` over one electron
and one muon. -/
theorem C3_event_pass_respects_positive_bounds_witness :
    gatedElectronSelector.operatingPointsPresent ∧
    gatedMuonSelector.muonTypeKnown ∧
    ((exampleStore []).retrieveVertices "PrimaryVertices").isSome = true ∧
    ((∃ r, ElectronSelector.executeSelection
          gatedElectronSelector (exampleStore [])
          Cutflow.zero [{ obj := exampleElectron 15, aux := [] }] 1 true = some r ∧
        (r.eventPass = true →
          (0 < gatedElectronSelector.m_pass_min →
            gatedElectronSelector.m_pass_min ≤ r.nPass) ∧
          (0 < gatedElectronSelector.m_pass_max →
            r.nPass ≤ gatedElectronSelector.m_pass_max))) ∧
     (∃ r, MuonSelector.executeConst
          gatedMuonSelector Cutflow.zero
          (exampleStore []) "Muons" [{ obj := exampleMuon 15, aux := [] }] 1 = some r ∧
        (r.exec.skipEvent = false →
          (0 < gatedMuonSelector.m_pass_min →
            gatedMuonSelector.m_pass_min ≤ r.nPass) ∧
          (0 < gatedMuonSelector.m_pass_max →
            r.nPass ≤ gatedMuonSelector.m_pass_max)))) :=
  ⟨by simp [ElectronSelector.operatingPointsPresent, gatedElectronSelector, exampleElectronSelector],
   by simp [MuonSelector.muonTypeKnown, gatedMuonSelector, exampleMuonSelector],
   by rfl,
   C3_event_pass_respects_positive_bounds _ _ _ _ _ _ _ _ _
     (by simp [ElectronSelector.operatingPointsPresent, gatedElectronSelector, exampleElectronSelector])
     (by simp [MuonSelector.muonTypeKnown, gatedMuonSelector, exampleMuonSelector])
     (by rfl)⟩

/-- C4 (as stated, refuted): with `NToProcess = 0` and decoration enabled, the electron at
position 0 (a position not below the cap) is passed to `PassCuts` and ends the run decorated
`passSel = 1`, not -1. -/
theorem C4_counterexample_nToProcess_zero :
    ∃ r, ElectronSelector.executeSelection { exampleElectronSelector with m_nToProcess := 0 }
        (exampleStore []) Cutflow.zero [{ obj := exampleElectron 15, aux := [] }] 1 true
          = some r ∧
      ({ exampleElectronSelector with m_nToProcess := 0 } : ElectronSelector).m_decorateSelectedObjects
        = true ∧
      (0 : Int) ≤ ({ exampleElectronSelector with m_nToProcess := 0 } : ElectronSelector).m_nToProcess ∧
      (∃ x, r.objects[0]? = some x ∧ getDecor x.aux "passSel" = some 1) ∧
      0 ∈ r.evaluated := by
  simp +decide [ElectronSelector.executeSelection, Store.retrieveVertices, exampleStore,
    List.lookup, selectionLoop, ElectronSelector.passSel, ElectronSelector.PassCuts,
    ElectronSelector.kinematicCut, exampleElectronSelector, exampleElectron,
    ElectronSelector.inCrack, d0_significance, z0sintheta, exampleTrack, sentinel,
    ElectronSelector.passLikelihoodPID, ElectronSelector.passCutBasedPID,
    ElectronSelector.passIsolation, getDecor, auxdecor]
  norm_num

/-- C4 (amended): with `DecorateSelectedObjects` enabled and `NToProcess > 0`, both selector
runs return, keep the objects of the container, and every object at a position at or beyond
`NToProcess` ends the run decorated `passSel = -1` and is not passed to `PassCuts`. -/
theorem C4_beyond_positive_cap_decorated_minus_one
    (ecfg : ElectronSelector) (mcfg : MuonSelector) (st : Store) (c : Cutflow)
    (inElectrons : List (Decorated Electron)) (inMuons : List (Decorated Muon)) (key : String)
    (w : ℚ) (countPass : Bool)
    (hOP : ecfg.operatingPointsPresent) (hT : mcfg.muonTypeKnown)
    (hPV : (st.retrieveVertices "PrimaryVertices").isSome = true)
    (hdecE : ecfg.m_decorateSelectedObjects = true) (hcapE : 0 < ecfg.m_nToProcess)
    (hdecM : mcfg.m_decorateSelectedObjects = true) (hcapM : 0 < mcfg.m_nToProcess) :
    (∃ r, ElectronSelector.executeSelection ecfg st c inElectrons w countPass = some r ∧
      r.objects.map Decorated.obj = inElectrons.map Decorated.obj ∧
      ∀ (k : Nat) (x : Decorated Electron), r.objects[k]? = some x → ecfg.m_nToProcess ≤ k →
        getDecor x.aux "passSel" = some (-1) ∧ k ∉ r.evaluated) ∧
    (∃ r, MuonSelector.executeConst mcfg c st key inMuons w = some r ∧
      r.objects.map Decorated.obj = inMuons.map Decorated.obj ∧
      ∀ (k : Nat) (x : Decorated Muon), r.objects[k]? = some x → mcfg.m_nToProcess ≤ k →
        getDecor x.aux "passSel" = some (-1) ∧ k ∉ r.evaluated) := by
  obtain ⟨pvx, hpv⟩ := Option.isSome_iff_exists.mp hPV
  constructor
  · obtain ⟨r, hr⟩ := ElectronSelector.executeSelection_some ecfg st c inElectrons w countPass hOP
    obtain ⟨l, hl, hobj, -, -, -, hev, -⟩ :=
      ElectronSelector.executeSelection_eq ecfg st c inElectrons w countPass pvx hpv r hr
    rw [hdecE] at hl
    obtain ⟨h1, h2⟩ := selectionLoop_beyond_cap (ElectronSelector.passSel ecfg pvx)
      ecfg.m_nToProcess ecfg.m_createSelectedContainer hcapE inElectrons 0 0 0 [] [] l
      (Or.inl (by simp)) hl
    refine ⟨r, hr, ?_, ?_⟩
    · rw [hobj]; exact selectionLoop_objects _ _ _ _ _ _ _ _ _ _ _ hl
    · intro k x hk hle
      rw [hobj] at hk
      rw [hev]
      refine ⟨h1 k x hk (by simpa using hle), fun hmem => ?_⟩
      rcases h2 k hmem with h3 | h3
      · simp at h3
      · omega
  · obtain ⟨r, hr⟩ := MuonSelector.executeConst_some mcfg c st key inMuons w hT
    obtain ⟨l, hl, hobj, -, -, -, hev, -⟩ :=
      MuonSelector.executeConst_eq mcfg c st key inMuons w pvx hpv r hr
    rw [hdecM] at hl
    obtain ⟨h1, h2⟩ := selectionLoop_beyond_cap (MuonSelector.passSel mcfg pvx)
      mcfg.m_nToProcess mcfg.m_createSelectedContainer hcapM inMuons 0 0 0 [] [] l
      (Or.inl (by simp)) hl
    refine ⟨r, hr, ?_, ?_⟩
    · rw [hobj]; exact selectionLoop_objects _ _ _ _ _ _ _ _ _ _ _ hl
    · intro k x hk hle
      rw [hobj] at hk
      rw [hev]
      refine ⟨h1 k x hk (by simpa using hle), fun hmem => ?_⟩
      rcases h2 k hmem with h3 | h3
      · simp at h3
      · omega

/-- C4 (amended), at a concrete input: cap 1 over two electrons and two muons. -/
theorem C4_beyond_positive_cap_decorated_minus_one_witness :
    cappedElectronSelector.operatingPointsPresent ∧
    cappedMuonSelector.muonTypeKnown ∧
    ((exampleStore []).retrieveVertices "PrimaryVertices").isSome = true ∧
    cappedElectronSelector.m_decorateSelectedObjects = true ∧
    0 < cappedElectronSelector.m_nToProcess ∧
    cappedMuonSelector.m_decorateSelectedObjects = true ∧
    0 < cappedMuonSelector.m_nToProcess ∧
    ((∃ r, ElectronSelector.executeSelection cappedElectronSelector (exampleStore [])
          Cutflow.zero
          [{ obj := exampleElectron 15, aux := [] }, { obj := exampleElectron 25, aux := [] }]
          1 true = some r ∧
        r.objects.map Decorated.obj =
          [{ obj := exampleElectron 15, aux := [] },
           { obj := exampleElectron 25, aux := [] }].map Decorated.obj ∧
        ∀ (k : Nat) (x : Decorated Electron), r.objects[k]? = some x →
          cappedElectronSelector.m_nToProcess ≤ k →
          getDecor x.aux "passSel" = some (-1) ∧ k ∉ r.evaluated) ∧
     (∃ r, MuonSelector.executeConst cappedMuonSelector Cutflow.zero (exampleStore []) "Muons"
          [{ obj := exampleMuon 15, aux := [] }, { obj := exampleMuon 25, aux := [] }] 1
            = some r ∧
        r.objects.map Decorated.obj =
          [{ obj := exampleMuon 15, aux := [] },
           { obj := exampleMuon 25, aux := [] }].map Decorated.obj ∧
        ∀ (k : Nat) (x : Decorated Muon), r.objects[k]? = some x →
          cappedMuonSelector.m_nToProcess ≤ k →
          getDecor x.aux "passSel" = some (-1) ∧ k ∉ r.evaluated)) :=
  ⟨by simp [ElectronSelector.operatingPointsPresent, cappedElectronSelector,
      exampleElectronSelector],
   by simp [MuonSelector.muonTypeKnown, cappedMuonSelector, exampleMuonSelector],
   by rfl, by rfl, by decide, by rfl, by decide,
   C4_beyond_positive_cap_decorated_minus_one _ _ _ _ _ _ _ _ _
     (by simp [ElectronSelector.operatingPointsPresent, cappedElectronSelector,
        exampleElectronSelector])
     (by simp [MuonSelector.muonTypeKnown, cappedMuonSelector, exampleMuonSelector])
     (by rfl) (by rfl) (by decide) (by rfl) (by decide)⟩

/-- C5: when the inputs of the run are in the store and the output key is free before
`execute`, the store holds afterwards a materialized collection under the output key if and
only if `CreateSelectedContainer` is enabled and the selector run passed:
* electron selector, single-collection mode, key `OutputContainer`;
* electron selector, fan-out mode over pairwise distinct labels, key `OutputContainer + label`
  for every label, the run being the one over that label's container;
* muon selector, key `OutputContainer`, the run passing when the primary vertices are in the
  store and `skipEvent` is not called. -/
theorem C5_materialized_collection_recorded_iff_run_passed
    (ecfg fcfg : ElectronSelector) (mcfg : MuonSelector) (c : Cutflow) (st : Store)
    (xs : List (Decorated Electron)) (ms : List (Decorated Muon)) (labels : List String)
    (w : ℚ)
    (hEI : st.retrieveEventInfo "EventInfo" = some (some w))
    (hOP : ecfg.operatingPointsPresent)
    (hSingle : ecfg.m_inputAlgoSystNames = "")
    (hInE : st.retrieveElectrons ecfg.m_inContainerName = some xs)
    (hFreeE : st.lookup ecfg.m_outContainerName = none)
    (hOPf : fcfg.operatingPointsPresent)
    (hFan : fcfg.m_inputAlgoSystNames ≠ "")
    (hL : st.retrieveSystNames fcfg.m_inputAlgoSystNames = some labels)
    (hInF : ∀ l ∈ labels,
      (st.retrieveElectrons (fcfg.m_inContainerName ++ l)).isSome = true)
    (hNodup : labels.Nodup)
    (hFreeF : ∀ l ∈ labels, st.lookup (fcfg.m_outContainerName ++ l) = none)
    (hT : mcfg.muonTypeKnown)
    (hInM : st.retrieveMuons mcfg.m_inContainerName = some ms)
    (hFreeM : st.lookup mcfg.m_outContainerName = none) :
    (∃ s e, ElectronSelector.executeSelection ecfg st
          { c with m_numEvent := wrapInt (c.m_numEvent + 1) } xs w true = some s ∧
        ElectronSelector.execute ecfg c st = some e ∧
        (e.store.holdsSelectedElectrons ecfg.m_outContainerName ↔
          ecfg.m_createSelectedContainer = true ∧ s.eventPass = true)) ∧
    (∃ e, ElectronSelector.execute fcfg c st = some e ∧
        ∀ l ∈ labels, (e.store.holdsSelectedElectrons (fcfg.m_outContainerName ++ l) ↔
          fcfg.m_createSelectedContainer = true ∧
          ElectronSelector.selectionPasses fcfg st l = true)) ∧
    (∃ r, MuonSelector.executeConst mcfg { c with m_numEvent := wrapInt (c.m_numEvent + 1) } st
          mcfg.m_inContainerName ms w = some r ∧
        MuonSelector.execute mcfg c st = some r.exec ∧
        (r.exec.store.holdsSelectedMuons mcfg.m_outContainerName ↔
          mcfg.m_createSelectedContainer = true ∧
          (st.retrieveVertices "PrimaryVertices").isSome = true ∧
          r.exec.skipEvent = false)) :=
  ⟨ElectronSelector.execute_single_materialized ecfg c st xs w hOP hSingle hEI hInE hFreeE,
   ElectronSelector.execute_fanout_materialized fcfg c st labels w hOPf hFan hEI hL hInF
     hNodup hFreeF,
   MuonSelector.execute_materialized mcfg c st ms w hT hEI hInM hFreeM⟩

/-- C5, at a concrete input: the example event, the electron selector in single-collection
mode and in fan-out mode, and the muon selector, all three with materialization. -/
theorem C5_materialized_collection_recorded_iff_run_passed_witness :
    fanOutStore.retrieveEventInfo "EventInfo" = some (some 2) ∧
    materializingElectronSelector.operatingPointsPresent ∧
    materializingElectronSelector.m_inputAlgoSystNames = "" ∧
    fanOutStore.retrieveElectrons materializingElectronSelector.m_inContainerName =
      some [{ obj := exampleElectron 5, aux := [] }] ∧
    fanOutStore.lookup materializingElectronSelector.m_outContainerName = none ∧
    fanOutElectronSelector.operatingPointsPresent ∧
    fanOutElectronSelector.m_inputAlgoSystNames ≠ "" ∧
    fanOutStore.retrieveSystNames fanOutElectronSelector.m_inputAlgoSystNames =
      some ["", "SYS_UP", "SYS_DOWN"] ∧
    (∀ l ∈ ["", "SYS_UP", "SYS_DOWN"],
      (fanOutStore.retrieveElectrons (fanOutElectronSelector.m_inContainerName ++ l)).isSome
        = true) ∧
    ["", "SYS_UP", "SYS_DOWN"].Nodup ∧
    (∀ l ∈ ["", "SYS_UP", "SYS_DOWN"],
      fanOutStore.lookup (fanOutElectronSelector.m_outContainerName ++ l) = none) ∧
    materializingMuonSelector.muonTypeKnown ∧
    fanOutStore.retrieveMuons materializingMuonSelector.m_inContainerName =
      some [{ obj := exampleMuon 15, aux := [] }] ∧
    fanOutStore.lookup materializingMuonSelector.m_outContainerName = none ∧
    ((∃ s e, ElectronSelector.executeSelection materializingElectronSelector fanOutStore
          { Cutflow.zero with m_numEvent := wrapInt (Cutflow.zero.m_numEvent + 1) }
          [{ obj := exampleElectron 5, aux := [] }] 2 true = some s ∧
        ElectronSelector.execute materializingElectronSelector Cutflow.zero fanOutStore
          = some e ∧
        (e.store.holdsSelectedElectrons materializingElectronSelector.m_outContainerName ↔
          materializingElectronSelector.m_createSelectedContainer = true ∧
          s.eventPass = true)) ∧
     (∃ e, ElectronSelector.execute fanOutElectronSelector Cutflow.zero fanOutStore = some e ∧
        ∀ l ∈ ["", "SYS_UP", "SYS_DOWN"],
          (e.store.holdsSelectedElectrons (fanOutElectronSelector.m_outContainerName ++ l) ↔
            fanOutElectronSelector.m_createSelectedContainer = true ∧
            ElectronSelector.selectionPasses fanOutElectronSelector fanOutStore l = true)) ∧
     (∃ r, MuonSelector.executeConst materializingMuonSelector
          { Cutflow.zero with m_numEvent := wrapInt (Cutflow.zero.m_numEvent + 1) } fanOutStore
          materializingMuonSelector.m_inContainerName [{ obj := exampleMuon 15, aux := [] }] 2
            = some r ∧
        MuonSelector.execute materializingMuonSelector Cutflow.zero fanOutStore
          = some r.exec ∧
        (r.exec.store.holdsSelectedMuons materializingMuonSelector.m_outContainerName ↔
          materializingMuonSelector.m_createSelectedContainer = true ∧
          (fanOutStore.retrieveVertices "PrimaryVertices").isSome = true ∧
          r.exec.skipEvent = false))) :=
  ⟨by rfl,
   by simp [ElectronSelector.operatingPointsPresent, materializingElectronSelector,
      exampleElectronSelector],
   by rfl, by rfl, by rfl,
   by simp [ElectronSelector.operatingPointsPresent, fanOutElectronSelector,
      exampleElectronSelector],
   by decide, by rfl, by decide, by decide, by decide,
   by simp [MuonSelector.muonTypeKnown, materializingMuonSelector, exampleMuonSelector],
   by rfl, by rfl,
   C5_materialized_collection_recorded_iff_run_passed materializingElectronSelector
     fanOutElectronSelector materializingMuonSelector Cutflow.zero fanOutStore
     [{ obj := exampleElectron 5, aux := [] }] [{ obj := exampleMuon 15, aux := [] }]
     ["", "SYS_UP", "SYS_DOWN"] 2
     (by rfl)
     (by simp [ElectronSelector.operatingPointsPresent, materializingElectronSelector,
        exampleElectronSelector])
     (by rfl) (by rfl) (by rfl)
     (by simp [ElectronSelector.operatingPointsPresent, fanOutElectronSelector,
        exampleElectronSelector])
     (by decide) (by rfl) (by decide) (by decide) (by decide)
     (by simp [MuonSelector.muonTypeKnown, materializingMuonSelector, exampleMuonSelector])
     (by rfl) (by rfl)⟩

/-- C6: with `DecorateSelectedObjects` and `CreateSelectedContainer` both enabled, both
selector runs return and the materialized collection is the list of the positions, in order,
of the objects decorated `passSel = 1`: a position is in the materialized collection if and
only if the object there is decorated 1. -/
theorem C6_materialized_collection_is_decorated_pass
    (ecfg : ElectronSelector) (mcfg : MuonSelector) (st : Store) (c : Cutflow)
    (inElectrons : List (Decorated Electron)) (inMuons : List (Decorated Muon)) (key : String)
    (w : ℚ) (countPass : Bool)
    (hOP : ecfg.operatingPointsPresent) (hT : mcfg.muonTypeKnown)
    (hPV : (st.retrieveVertices "PrimaryVertices").isSome = true)
    (hdecE : ecfg.m_decorateSelectedObjects = true)
    (hcreE : ecfg.m_createSelectedContainer = true)
    (hdecM : mcfg.m_decorateSelectedObjects = true)
    (hcreM : mcfg.m_createSelectedContainer = true) :
    (∃ r, ElectronSelector.executeSelection ecfg st c inElectrons w countPass = some r ∧
      r.objects.map Decorated.obj = inElectrons.map Decorated.obj ∧
      r.selected = positionsDecoratedPass r.objects ∧
      ∀ i, i ∈ r.selected ↔ ∃ x, r.objects[i]? = some x ∧ getDecor x.aux "passSel" = some 1) ∧
    (∃ r, MuonSelector.executeConst mcfg c st key inMuons w = some r ∧
      r.objects.map Decorated.obj = inMuons.map Decorated.obj ∧
      r.selected = positionsDecoratedPass r.objects ∧
      ∀ i, i ∈ r.selected ↔ ∃ x, r.objects[i]? = some x ∧ getDecor x.aux "passSel" = some 1) := by
  obtain ⟨pvx, hpv⟩ := Option.isSome_iff_exists.mp hPV
  constructor
  · obtain ⟨r, hr⟩ := ElectronSelector.executeSelection_some ecfg st c inElectrons w countPass hOP
    obtain ⟨l, hl, hobj, -, -, hsel, -, -⟩ :=
      ElectronSelector.executeSelection_eq ecfg st c inElectrons w countPass pvx hpv r hr
    rw [hdecE, hcreE] at hl
    have hs := selectionLoop_selected (ElectronSelector.passSel ecfg pvx) ecfg.m_nToProcess
      (fun o a p a' hp => by
        obtain ⟨a2, ha2⟩ := ElectronSelector.passSel_eq_passValue ecfg pvx hOP o a
        rw [ha2] at hp
        simp only [Option.some.injEq, Prod.mk.injEq] at hp
        rw [← hp.1]
        exact ElectronSelector.passValue_01 ecfg pvx o)
      inElectrons 0 0 0 [] [] l hl
    have hpos : r.selected = positionsDecoratedPass r.objects := by
      rw [hsel, hobj, hs]; simp [positionsDecoratedPass, List.enum]
    refine ⟨r, hr, ?_, hpos, ?_⟩
    · rw [hobj]; exact selectionLoop_objects _ _ _ _ _ _ _ _ _ _ _ hl
    · intro i
      rw [hpos]
      exact mem_positionsDecoratedPass r.objects i
  · obtain ⟨r, hr⟩ := MuonSelector.executeConst_some mcfg c st key inMuons w hT
    obtain ⟨l, hl, hobj, -, -, hsel, -, -⟩ :=
      MuonSelector.executeConst_eq mcfg c st key inMuons w pvx hpv r hr
    rw [hdecM, hcreM] at hl
    have hs := selectionLoop_selected (MuonSelector.passSel mcfg pvx) mcfg.m_nToProcess
      (fun o a p a' hp => by
        obtain ⟨a2, ha2⟩ := MuonSelector.muon_passSel_eq_passValue mcfg pvx hT o a
        rw [ha2] at hp
        simp only [Option.some.injEq, Prod.mk.injEq] at hp
        rw [← hp.1]
        exact MuonSelector.muon_passValue_01 mcfg pvx o hT)
      inMuons 0 0 0 [] [] l hl
    have hpos : r.selected = positionsDecoratedPass r.objects := by
      rw [hsel, hobj, hs]; simp [positionsDecoratedPass, List.enum]
    refine ⟨r, hr, ?_, hpos, ?_⟩
    · rw [hobj]; exact selectionLoop_objects _ _ _ _ _ _ _ _ _ _ _ hl
    · intro i
      rw [hpos]
      exact mem_positionsDecoratedPass r.objects i

/-- C6, at a concrete input: two electrons and two muons, pT 15 and 5, under `pTMin = 10`. -/
theorem C6_materialized_collection_is_decorated_pass_witness :
    materializingElectronSelector.operatingPointsPresent ∧
    materializingMuonSelector.muonTypeKnown ∧
    ((exampleStore []).retrieveVertices "PrimaryVertices").isSome = true ∧
    materializingElectronSelector.m_decorateSelectedObjects = true ∧
    materializingElectronSelector.m_createSelectedContainer = true ∧
    materializingMuonSelector.m_decorateSelectedObjects = true ∧
    materializingMuonSelector.m_createSelectedContainer = true ∧
    ((∃ r, ElectronSelector.executeSelection materializingElectronSelector (exampleStore [])
          Cutflow.zero
          [{ obj := exampleElectron 15, aux := [] }, { obj := exampleElectron 5, aux := [] }]
          1 true = some r ∧
        r.objects.map Decorated.obj =
          [{ obj := exampleElectron 15, aux := [] },
           { obj := exampleElectron 5, aux := [] }].map Decorated.obj ∧
        r.selected = positionsDecoratedPass r.objects ∧
        ∀ i, i ∈ r.selected ↔
          ∃ x, r.objects[i]? = some x ∧ getDecor x.aux "passSel" = some 1) ∧
     (∃ r, MuonSelector.executeConst materializingMuonSelector Cutflow.zero (exampleStore [])
          "Muons" [{ obj := exampleMuon 15, aux := [] }, { obj := exampleMuon 5, aux := [] }] 1
            = some r ∧
        r.objects.map Decorated.obj =
          [{ obj := exampleMuon 15, aux := [] },
           { obj := exampleMuon 5, aux := [] }].map Decorated.obj ∧
        r.selected = positionsDecoratedPass r.objects ∧
        ∀ i, i ∈ r.selected ↔
          ∃ x, r.objects[i]? = some x ∧ getDecor x.aux "passSel" = some 1)) :=
  ⟨by simp [ElectronSelector.operatingPointsPresent, materializingElectronSelector,
      exampleElectronSelector],
   by simp [MuonSelector.muonTypeKnown, materializingMuonSelector, exampleMuonSelector],
   by rfl, by rfl, by rfl, by rfl, by rfl,
   C6_materialized_collection_is_decorated_pass _ _ _ _ _ _ _ _ _
     (by simp [ElectronSelector.operatingPointsPresent, materializingElectronSelector,
        exampleElectronSelector])
     (by simp [MuonSelector.muonTypeKnown, materializingMuonSelector, exampleMuonSelector])
     (by rfl) (by rfl) (by rfl) (by rfl) (by rfl)⟩

/-- C7: when the configured operating points are in the tool maps, `ElectronSelector::PassCuts`
returns 1 if and only if every criterion of the specification's list holds (each one being
disabled or satisfied), it returns 0 otherwise, and the `return 0` taken is that of the first
criterion of the fixed order that fails. The d0-significance and z0 sin(theta) criteria are
the comparisons `d0_significance < d0sigMax` and `fabs(z0sintheta) < z0sinthetaMax` of the
floating-point values computed by `PassCuts`: an electron whose d0 significance is infinite or
NaN, as for a zero `sqrt(cov(0,0))`, does not meet the criterion and gets 0. -/
theorem C7_passCuts_first_failing_criterion (cfg : ElectronSelector) (electron : Electron)
    (aux : Decorations) (primaryVertex : Vertex) (hOP : cfg.operatingPointsPresent) :
    ∃ r, ElectronSelector.PassCuts cfg electron aux primaryVertex = some r ∧
      (r.value = 1 ↔ ∀ c ∈ ElectronSelector.criteria cfg electron primaryVertex, c.2 = true) ∧
      (r.value ≠ 1 → r.value = 0) ∧
      r.failed = firstFailing (ElectronSelector.criteria cfg electron primaryVertex) ∧
      ((d0_significance cfg.floatArith electron.trackParticle = FloatValue.nan ∨
        d0_significance cfg.floatArith electron.trackParticle = FloatValue.posInf) →
        r.value = 0) := by
  obtain ⟨r, hr, hiff, h0, hf⟩ :=
    ElectronSelector.PassCuts_eq_firstFailing cfg electron aux primaryVertex hOP
  refine ⟨r, hr, hiff, h0, hf, ?_⟩
  intro hnf
  apply h0
  intro h1
  have := (hiff.mp h1) (ElectronCut.d0sig,
      (d0_significance cfg.floatArith electron.trackParticle).lt cfg.m_d0sig_max)
    (by simp [ElectronSelector.criteria, ElectronSelector.kinematicCriteria])
  rcases hnf with h | h <;> simp [h] at this

/-- C7, at a concrete input: the likelihood cut at `Medium` and an electron of pT 15, whose
track has d0 = 1 and a zero `sqrt(cov(0,0))`: the d0 significance is infinite and the
electron is rejected at the d0-significance criterion. -/
theorem C7_passCuts_first_failing_criterion_witness :
    mediumLHElectronSelector.operatingPointsPresent ∧
    d0_significance mediumLHElectronSelector.floatArith
      { exampleTrack with d0 := 1, sqrtCov00 := FloatValue.finite 0 } = FloatValue.posInf ∧
    (ElectronSelector.PassCuts mediumLHElectronSelector
        { exampleElectron 15 with
          trackParticle := { exampleTrack with d0 := 1, sqrtCov00 := FloatValue.finite 0 } } []
        { z := 0 }).map (fun r => (r.value, r.failed)) = some (0, some ElectronCut.d0sig) ∧
    ∃ r, ElectronSelector.PassCuts mediumLHElectronSelector
        { exampleElectron 15 with
          trackParticle := { exampleTrack with d0 := 1, sqrtCov00 := FloatValue.finite 0 } } []
        { z := 0 } = some r ∧
      (r.value = 1 ↔
        ∀ c ∈ ElectronSelector.criteria mediumLHElectronSelector
          { exampleElectron 15 with
            trackParticle := { exampleTrack with d0 := 1, sqrtCov00 := FloatValue.finite 0 } }
          { z := 0 },
          c.2 = true) ∧
      (r.value ≠ 1 → r.value = 0) ∧
      r.failed = firstFailing
        (ElectronSelector.criteria mediumLHElectronSelector
          { exampleElectron 15 with
            trackParticle := { exampleTrack with d0 := 1, sqrtCov00 := FloatValue.finite 0 } }
          { z := 0 }) ∧
      r.value = 0 := by
  have hOP : mediumLHElectronSelector.operatingPointsPresent := by
    simp +decide [ElectronSelector.operatingPointsPresent, mediumLHElectronSelector,
      exampleElectronSelector]
  have hinf : d0_significance mediumLHElectronSelector.floatArith
      { exampleTrack with d0 := 1, sqrtCov00 := FloatValue.finite 0 } = FloatValue.posInf := by
    simp +decide [d0_significance, mediumLHElectronSelector, exampleElectronSelector,
      exampleTrack]
  obtain ⟨r, hr, hiff, h0, hf, hnf⟩ :=
    C7_passCuts_first_failing_criterion mediumLHElectronSelector
      { exampleElectron 15 with
        trackParticle := { exampleTrack with d0 := 1, sqrtCov00 := FloatValue.finite 0 } } []
      { z := 0 } hOP
  refine ⟨hOP, hinf, ?_, r, hr, hiff, h0, hf, hnf (Or.inr hinf)⟩
  simp +decide [ElectronSelector.PassCuts, ElectronSelector.kinematicCut,
    mediumLHElectronSelector, exampleElectronSelector, exampleElectron,
    ElectronSelector.inCrack, d0_significance, z0sintheta, exampleTrack, sentinel]
  norm_num

/-- C8 (as stated, refuted): with `d0Max` left at the sentinel 1e8, of two electrons that
differ only in d0 the one with d0 = 0 is accepted and the one with d0 = 2e8 is rejected by the
d0 criterion. -/
theorem C8_counterexample_d0Max_at_sentinel :
    exampleElectronSelector.m_d0_max = sentinel ∧
    (∃ r, ElectronSelector.PassCuts exampleElectronSelector (exampleElectron 15) []
        { z := 0 } = some r ∧ r.value = 1) ∧
    (∃ r, ElectronSelector.PassCuts exampleElectronSelector
        { exampleElectron 15 with trackParticle := { exampleTrack with d0 := 200000000 } } []
        { z := 0 } = some r ∧ r.value = 0 ∧ r.failed = some ElectronCut.d0) := by
  refine ⟨rfl, ?_, ?_⟩
  · simp +decide [ElectronSelector.PassCuts, ElectronSelector.kinematicCut,
      exampleElectronSelector, exampleElectron, ElectronSelector.inCrack, d0_significance,
      z0sintheta, exampleTrack, sentinel, ElectronSelector.passLikelihoodPID,
      ElectronSelector.passCutBasedPID, ElectronSelector.passIsolation]
    norm_num
  · simp +decide [ElectronSelector.PassCuts, ElectronSelector.kinematicCut,
      exampleElectronSelector, exampleElectron, ElectronSelector.inCrack, d0_significance,
      z0sintheta, exampleTrack, sentinel, ElectronSelector.passLikelihoodPID,
      ElectronSelector.passCutBasedPID, ElectronSelector.passIsolation]
    norm_num

/-- C8 (amended): in both `PassCuts`, a bound among pTMax, pTMin and etaMax that is left at the
sentinel 1e8 rejects no object, and for the electron the criteria that precede identification
then do not depend on pT (both pT bounds at the sentinel) or on eta (etaMax at the sentinel);
the bounds d0Max, d0sigMax and z0sinthetaMax have no sentinel test: an electron, or a muon
that is not stand-alone, is rejected when its d0 is not below d0Max, or when the comparison
`d0_significance < d0sigMax` or `fabs(z0sintheta) < z0sinthetaMax` of the floating-point value
computed by `PassCuts` with its bound is false, whatever the value of the bound. The last two
comparisons are those of the machine, on the rounded value, and are false for NaN. -/
theorem C8_sentinel_disables_kinematic_bounds_only
    (ecfg : ElectronSelector) (mcfg : MuonSelector) (electron : Electron) (aux : Decorations)
    (muon : Muon) (primaryVertex : Vertex)
    (hOP : ecfg.operatingPointsPresent) (hT : mcfg.muonTypeKnown) :
    (∃ r, ElectronSelector.PassCuts ecfg electron aux primaryVertex = some r ∧
      (ecfg.m_pT_max = sentinel → r.failed ≠ some ElectronCut.pTMax) ∧
      (ecfg.m_pT_min = sentinel → r.failed ≠ some ElectronCut.pTMin) ∧
      (ecfg.m_eta_max = sentinel → r.failed ≠ some ElectronCut.etaMax) ∧
      ((¬ electron.trackParticle.d0 < ecfg.m_d0_max ∨
         ¬ (d0_significance ecfg.floatArith electron.trackParticle).lt ecfg.m_d0sig_max ∨
         ¬ (z0sintheta ecfg.floatArith electron.trackParticle primaryVertex).fabs.lt
            ecfg.m_z0sintheta_max) →
        r.value = 0)) ∧
    (ecfg.m_pT_max = sentinel → ecfg.m_pT_min = sentinel → ∀ pt : ℚ,
      ElectronSelector.kinematicCut ecfg { electron with pt := pt } primaryVertex =
        ElectronSelector.kinematicCut ecfg electron primaryVertex) ∧
    (ecfg.m_eta_max = sentinel → ∀ eta : ℚ,
      ElectronSelector.kinematicCut ecfg { electron with eta := eta } primaryVertex =
        ElectronSelector.kinematicCut ecfg electron primaryVertex) ∧
    (∃ r, MuonSelector.PassCuts mcfg muon primaryVertex = some r ∧
      (mcfg.m_pT_max = sentinel → r.failed ≠ some MuonCut.pTMax) ∧
      (mcfg.m_pT_min = sentinel → r.failed ≠ some MuonCut.pTMin) ∧
      (mcfg.m_eta_max = sentinel → r.failed ≠ some MuonCut.etaMax) ∧
      (muon.muonType ≠ MuonType.MuonStandAlone →
        (¬ muon.primaryTrackParticle.d0 < mcfg.m_d0_max ∨
         ¬ (d0_significance mcfg.floatArith muon.primaryTrackParticle).lt mcfg.m_d0sig_max ∨
         ¬ (z0sintheta mcfg.floatArith muon.primaryTrackParticle primaryVertex).fabs.lt
            mcfg.m_z0sintheta_max) →
        r.value = 0)) := by
  refine ⟨ElectronSelector.PassCuts_bounds ecfg electron aux primaryVertex hOP, ?_, ?_, ?_⟩
  · intro h1 h2 pt
    simp [ElectronSelector.kinematicCut, h1, h2]
  · intro h1 eta
    simp [ElectronSelector.kinematicCut, h1]
  · obtain ⟨r, hr, -⟩ := MuonSelector.PassCuts_some mcfg muon primaryVertex hT
    exact ⟨r, hr, MuonSelector.muon_PassCuts_bounds mcfg muon primaryVertex r hr⟩

/-- C8 (amended), at a concrete input: the default bounds, an electron and a muon of pT 15. -/
theorem C8_sentinel_disables_kinematic_bounds_only_witness :
    exampleElectronSelector.operatingPointsPresent ∧
    exampleMuonSelector.muonTypeKnown ∧
    ((∃ r, ElectronSelector.PassCuts exampleElectronSelector (exampleElectron 15) []
          { z := 0 } = some r ∧
      (exampleElectronSelector.m_pT_max = sentinel → r.failed ≠ some ElectronCut.pTMax) ∧
      (exampleElectronSelector.m_pT_min = sentinel → r.failed ≠ some ElectronCut.pTMin) ∧
      (exampleElectronSelector.m_eta_max = sentinel → r.failed ≠ some ElectronCut.etaMax) ∧
      ((¬ (exampleElectron 15).trackParticle.d0 < exampleElectronSelector.m_d0_max ∨
         ¬ (d0_significance exampleElectronSelector.floatArith
              (exampleElectron 15).trackParticle).lt exampleElectronSelector.m_d0sig_max ∨
         ¬ (z0sintheta exampleElectronSelector.floatArith (exampleElectron 15).trackParticle
              { z := 0 }).fabs.lt exampleElectronSelector.m_z0sintheta_max) →
        r.value = 0)) ∧
    (exampleElectronSelector.m_pT_max = sentinel → exampleElectronSelector.m_pT_min = sentinel →
      ∀ pt : ℚ,
      ElectronSelector.kinematicCut exampleElectronSelector
          { exampleElectron 15 with pt := pt } { z := 0 } =
        ElectronSelector.kinematicCut exampleElectronSelector (exampleElectron 15) { z := 0 }) ∧
    (exampleElectronSelector.m_eta_max = sentinel → ∀ eta : ℚ,
      ElectronSelector.kinematicCut exampleElectronSelector
          { exampleElectron 15 with eta := eta } { z := 0 } =
        ElectronSelector.kinematicCut exampleElectronSelector (exampleElectron 15) { z := 0 }) ∧
    (∃ r, MuonSelector.PassCuts exampleMuonSelector (exampleMuon 15) { z := 0 } = some r ∧
      (exampleMuonSelector.m_pT_max = sentinel → r.failed ≠ some MuonCut.pTMax) ∧
      (exampleMuonSelector.m_pT_min = sentinel → r.failed ≠ some MuonCut.pTMin) ∧
      (exampleMuonSelector.m_eta_max = sentinel → r.failed ≠ some MuonCut.etaMax) ∧
      ((exampleMuon 15).muonType ≠ MuonType.MuonStandAlone →
        (¬ (exampleMuon 15).primaryTrackParticle.d0 < exampleMuonSelector.m_d0_max ∨
         ¬ (d0_significance exampleMuonSelector.floatArith
              (exampleMuon 15).primaryTrackParticle).lt exampleMuonSelector.m_d0sig_max ∨
         ¬ (z0sintheta exampleMuonSelector.floatArith (exampleMuon 15).primaryTrackParticle
              { z := 0 }).fabs.lt exampleMuonSelector.m_z0sintheta_max) →
        r.value = 0))) :=
  ⟨by simp [ElectronSelector.operatingPointsPresent, exampleElectronSelector],
   by simp [MuonSelector.muonTypeKnown, exampleMuonSelector],
   C8_sentinel_disables_kinematic_bounds_only _ _ _ _ _ _
     (by simp [ElectronSelector.operatingPointsPresent, exampleElectronSelector])
     (by simp [MuonSelector.muonTypeKnown, exampleMuonSelector])⟩

/-- C9 (as stated, refuted): with the likelihood hard cut enabled at `Medium`, an electron of
pT 15 passes every criterion preceding identification and is rejected by the configured tool;
`PassCuts` returns 0 and the `Medium` decoration is the default -1 written by
`setDecorations`, not the tool's decision (which would be 0). -/
theorem C9_counterexample_hard_cut_before_decorations :
    ElectronSelector.kinematicCut mediumLHCutElectronSelector (exampleElectron 15) { z := 0 }
      = none ∧
    mediumLHCutElectronSelector.m_doLHPIDcut = true ∧
    ∃ r, ElectronSelector.PassCuts mediumLHCutElectronSelector (exampleElectron 15) []
        { z := 0 } = some r ∧
      r.value = 0 ∧
      ∃ kv ∈ mediumLHCutElectronSelector.m_el_LH_PIDManager.getValidTools,
        kv.2.getOperatingPointName = "Medium" ∧ kv.2.accept (exampleElectron 15) = false ∧
        getDecor r.aux "Medium" = some (-1) := by
  refine ⟨?_, rfl, ?_⟩
  · norm_num [ElectronSelector.kinematicCut, mediumLHCutElectronSelector,
      exampleElectronSelector, exampleElectron, ElectronSelector.inCrack, d0_significance,
      z0sintheta, exampleTrack, sentinel]
  · simp +decide [ElectronSelector.PassCuts, ElectronSelector.kinematicCut,
      mediumLHCutElectronSelector, exampleElectronSelector, exampleElectron,
      ElectronSelector.inCrack, d0_significance, z0sintheta, exampleTrack, sentinel,
      ElectronSelector.passLikelihoodPID, exampleLHFromMedium, PIDManager.getValidTools,
      PIDManager.setDecorations, findTool, getDecor, auxdecor]
    norm_num
    decide

/-- C9 (amended): for an electron that passes every criterion preceding identification (tool
maps with the configured operating points, decoration names that do not collide), `PassCuts`
returns and
* if `DoLHPIDCut` is disabled or the configured likelihood tool accepts, every valid
  likelihood working point has its decoration equal to its tool's decision;
* if moreover `DoCutBasedPIDCut` is disabled or the configured cut-based tool accepts, so has
  every valid cut-based working point;
* if `DoLHPIDCut` is enabled and the configured likelihood tool rejects, `PassCuts` returns 0
  at the likelihood cut having written only the defaults of `setDecorations`;
* if the likelihood step is passed, `DoCutBasedPIDCut` is enabled and the configured cut-based
  tool rejects, `PassCuts` returns 0 at the cut-based cut having written only the cut-based
  defaults on top of the likelihood decorations.
The hard cut of a family is applied before that family's working-point decorations are
written. -/
theorem C9_working_point_decorations_follow_hard_cut
    (cfg : ElectronSelector) (electron : Electron) (aux : Decorations) (primaryVertex : Vertex)
    (h0 : ElectronSelector.kinematicCut cfg electron primaryVertex = none)
    (hOP : cfg.operatingPointsPresent) (hN : cfg.decorationNamesDistinct) :
    ∃ r, ElectronSelector.PassCuts cfg electron aux primaryVertex = some r ∧
      ((cfg.m_doLHPIDcut = true → ElectronSelector.configuredLHAccepts cfg electron = true) →
        ∀ kv ∈ cfg.m_el_LH_PIDManager.getValidTools,
          getDecor r.aux kv.2.getOperatingPointName =
            some (if kv.2.accept electron then 1 else 0)) ∧
      ((cfg.m_doLHPIDcut = true → ElectronSelector.configuredLHAccepts cfg electron = true) →
        (cfg.m_doCutBasedPIDcut = true →
          ElectronSelector.configuredCutBasedAccepts cfg electron = true) →
        ∀ kv ∈ cfg.m_el_CutBased_PIDManager.getValidTools,
          getDecor r.aux kv.2.getOperatingPointName =
            some (if kv.2.accept electron then 1 else 0)) ∧
      (cfg.m_doLHPIDcut = true → ElectronSelector.configuredLHAccepts cfg electron = false →
        r.value = 0 ∧ r.failed = some ElectronCut.likelihoodPID ∧
        r.aux = cfg.m_el_LH_PIDManager.setDecorations aux) ∧
      ((cfg.m_doLHPIDcut = true → ElectronSelector.configuredLHAccepts cfg electron = true) →
        cfg.m_doCutBasedPIDcut = true →
        ElectronSelector.configuredCutBasedAccepts cfg electron = false →
        r.value = 0 ∧ r.failed = some ElectronCut.cutBasedPID ∧
        r.aux = cfg.m_el_CutBased_PIDManager.setDecorations
          (ElectronSelector.auxAfterLH cfg electron aux)) := by
  obtain ⟨hndLH, hndCB, hLHnames, hCBnames⟩ := hN
  have hLHdecor : ∀ kv ∈ cfg.m_el_LH_PIDManager.getValidTools,
      getDecor (ElectronSelector.auxAfterLH cfg electron aux) kv.2.getOperatingPointName =
        some (if kv.2.accept electron then 1 else 0) := fun kv hkv =>
    decorateWPs_getDecor_mem _ electron _ hndLH kv hkv
  by_cases hLH : cfg.m_doLHPIDcut = true → ElectronSelector.configuredLHAccepts cfg electron = true
  · obtain ⟨cs, hcs⟩ := ElectronSelector.passLikelihoodPID_accepted cfg electron aux hLH
    by_cases hCB : cfg.m_doCutBasedPIDcut = true →
        ElectronSelector.configuredCutBasedAccepts cfg electron = true
    · obtain ⟨cs', hcs'⟩ := ElectronSelector.passCutBasedPID_accepted cfg electron
        (ElectronSelector.auxAfterLH cfg electron aux) cs hCB
      have hres : ElectronSelector.PassCuts cfg electron aux primaryVertex = some
          (ElectronSelector.passIsolation cfg electron
            (decorateWPs cfg.m_el_CutBased_PIDManager.getValidTools electron
              (cfg.m_el_CutBased_PIDManager.setDecorations
                (ElectronSelector.auxAfterLH cfg electron aux))) cs') := by
        rw [ElectronSelector.PassCuts, h0]
        simp only [hcs, hcs']
      refine ⟨_, hres, ?_, ?_, ?_, ?_⟩
      · intro _ kv hkv
        have hmem := List.mem_map_of_mem (fun kv => kv.2.getOperatingPointName) hkv
        obtain ⟨h1, h2, h3⟩ := hLHnames _ hmem
        rw [ElectronSelector.passIsolation_aux, getDecor_auxdecor_ne _ _ _ _ h3,
          decorateWPs_getDecor_notin _ _ _ _ h1, setDecorations_getDecor_notin _ _ _ h2]
        exact hLHdecor kv hkv
      · intro _ _ kv hkv
        have hmem := List.mem_map_of_mem (fun kv => kv.2.getOperatingPointName) hkv
        rw [ElectronSelector.passIsolation_aux, getDecor_auxdecor_ne _ _ _ _ (hCBnames _ hmem)]
        exact decorateWPs_getDecor_mem _ electron _ hndCB kv hkv
      · intro h1 h2
        rw [hLH h1] at h2
        exact absurd h2 (by simp)
      · intro _ h1 h2
        rw [hCB h1] at h2
        exact absurd h2 (by simp)
    · have hcb : cfg.m_doCutBasedPIDcut = true := by
        by_contra hne
        exact hCB (fun h => absurd h hne)
      have hrej : ElectronSelector.configuredCutBasedAccepts cfg electron = false := by
        by_contra hne
        exact hCB (fun _ => by simpa using hne)
      obtain ⟨cs', hcs'⟩ := ElectronSelector.passCutBasedPID_rejected cfg electron
        (ElectronSelector.auxAfterLH cfg electron aux) cs hOP hcb hrej
      have hres : ElectronSelector.PassCuts cfg electron aux primaryVertex = some
          { value := 0, failed := some ElectronCut.cutBasedPID,
            aux := cfg.m_el_CutBased_PIDManager.setDecorations
              (ElectronSelector.auxAfterLH cfg electron aux), calls := cs' } := by
        rw [ElectronSelector.PassCuts, h0]
        simp only [hcs, hcs']
      refine ⟨_, hres, ?_, ?_, ?_, ?_⟩
      · intro _ kv hkv
        have hmem := List.mem_map_of_mem (fun kv => kv.2.getOperatingPointName) hkv
        obtain ⟨-, h2, -⟩ := hLHnames _ hmem
        simp only
        rw [setDecorations_getDecor_notin _ _ _ h2]
        exact hLHdecor kv hkv
      · intro _ h1
        exact absurd h1 hCB
      · intro h1 h2
        rw [hLH h1] at h2
        exact absurd h2 (by simp)
      · intro _ _ _
        exact ⟨rfl, rfl, rfl⟩
  · have hlh : cfg.m_doLHPIDcut = true := by
      by_contra hne
      exact hLH (fun h => absurd h hne)
    have hrej : ElectronSelector.configuredLHAccepts cfg electron = false := by
      by_contra hne
      exact hLH (fun _ => by simpa using hne)
    obtain ⟨cs, hcs⟩ := ElectronSelector.passLikelihoodPID_rejected cfg electron aux hOP hlh hrej
    have hres : ElectronSelector.PassCuts cfg electron aux primaryVertex = some
        { value := 0, failed := some ElectronCut.likelihoodPID,
          aux := cfg.m_el_LH_PIDManager.setDecorations aux, calls := cs } := by
      rw [ElectronSelector.PassCuts, h0]
      simp only [hcs]
    refine ⟨_, hres, ?_, ?_, ?_, ?_⟩
    · intro h1
      exact absurd h1 hLH
    · intro h1
      exact absurd h1 hLH
    · intro _ _
      exact ⟨rfl, rfl, rfl⟩
    · intro h1
      exact absurd h1 hLH

/-- C9 (amended), at a concrete input: the likelihood cut at `Medium` and an electron of pT 25,
which the `Medium` tool accepts. -/
theorem C9_working_point_decorations_follow_hard_cut_witness :
    ElectronSelector.kinematicCut mediumLHElectronSelector (exampleElectron 25) { z := 0 }
      = none ∧
    mediumLHElectronSelector.operatingPointsPresent ∧
    mediumLHElectronSelector.decorationNamesDistinct ∧
    ∃ r, ElectronSelector.PassCuts mediumLHElectronSelector (exampleElectron 25) [] { z := 0 }
        = some r ∧
      ((mediumLHElectronSelector.m_doLHPIDcut = true →
          ElectronSelector.configuredLHAccepts mediumLHElectronSelector (exampleElectron 25)
            = true) →
        ∀ kv ∈ mediumLHElectronSelector.m_el_LH_PIDManager.getValidTools,
          getDecor r.aux kv.2.getOperatingPointName =
            some (if kv.2.accept (exampleElectron 25) then 1 else 0)) ∧
      ((mediumLHElectronSelector.m_doLHPIDcut = true →
          ElectronSelector.configuredLHAccepts mediumLHElectronSelector (exampleElectron 25)
            = true) →
        (mediumLHElectronSelector.m_doCutBasedPIDcut = true →
          ElectronSelector.configuredCutBasedAccepts mediumLHElectronSelector
            (exampleElectron 25) = true) →
        ∀ kv ∈ mediumLHElectronSelector.m_el_CutBased_PIDManager.getValidTools,
          getDecor r.aux kv.2.getOperatingPointName =
            some (if kv.2.accept (exampleElectron 25) then 1 else 0)) ∧
      (mediumLHElectronSelector.m_doLHPIDcut = true →
        ElectronSelector.configuredLHAccepts mediumLHElectronSelector (exampleElectron 25)
          = false →
        r.value = 0 ∧ r.failed = some ElectronCut.likelihoodPID ∧
        r.aux = mediumLHElectronSelector.m_el_LH_PIDManager.setDecorations []) ∧
      ((mediumLHElectronSelector.m_doLHPIDcut = true →
          ElectronSelector.configuredLHAccepts mediumLHElectronSelector (exampleElectron 25)
            = true) →
        mediumLHElectronSelector.m_doCutBasedPIDcut = true →
        ElectronSelector.configuredCutBasedAccepts mediumLHElectronSelector
          (exampleElectron 25) = false →
        r.value = 0 ∧ r.failed = some ElectronCut.cutBasedPID ∧
        r.aux = mediumLHElectronSelector.m_el_CutBased_PIDManager.setDecorations
          (ElectronSelector.auxAfterLH mediumLHElectronSelector (exampleElectron 25) [])) :=
  ⟨kinematicCut_example25, operatingPointsPresent_example, decorationNamesDistinct_example,
   C9_working_point_decorations_follow_hard_cut _ _ _ _ kinematicCut_example25
     operatingPointsPresent_example decorationNamesDistinct_example⟩

/-- C10: for an electron that passes every criterion preceding isolation, `PassCuts` returns
for both values of `DoIsolationCut`, with the same decorations, among which `isIsolated` is
the decision of the isolation tool (1 or 0); the returned value is 0 exactly when the cut is
enabled and the electron is not isolated, and 1 otherwise. -/
theorem C10_isIsolated_decorated_whatever_the_flag
    (cfg : ElectronSelector) (electron : Electron) (aux : Decorations) (primaryVertex : Vertex)
    (h0 : ElectronSelector.kinematicCut cfg electron primaryVertex = none)
    (hLH : cfg.m_doLHPIDcut = true → ElectronSelector.configuredLHAccepts cfg electron = true)
    (hCB : cfg.m_doCutBasedPIDcut = true →
      ElectronSelector.configuredCutBasedAccepts cfg electron = true) :
    ∃ auxOut,
      getDecor auxOut "isIsolated" =
        some (if cfg.m_IsolationSelectionTool electron then 1 else 0) ∧
      ∀ doIsolation : Bool,
        ∃ r, ElectronSelector.PassCuts { cfg with m_doIsolation := doIsolation } electron aux
            primaryVertex = some r ∧
          r.aux = auxOut ∧
          r.value =
            if doIsolation = true ∧ cfg.m_IsolationSelectionTool electron = false then 0
            else 1 := by
  refine ⟨auxdecor (ElectronSelector.auxAfterCutBased cfg electron aux) "isIsolated"
    (if cfg.m_IsolationSelectionTool electron then 1 else 0), getDecor_auxdecor _ _ _, ?_⟩
  intro b
  obtain ⟨cs, hcs⟩ := ElectronSelector.PassCuts_reaches_isolation
    { cfg with m_doIsolation := b } electron aux primaryVertex h0 hLH hCB
  exact ⟨_, hcs, ElectronSelector.passIsolation_aux _ _ _ _,
    ElectronSelector.passIsolation_value _ _ _ _⟩

/-- C10, at a concrete input: the likelihood cut at `Medium` and an electron of pT 25. -/
theorem C10_isIsolated_decorated_whatever_the_flag_witness :
    ElectronSelector.kinematicCut mediumLHElectronSelector (exampleElectron 25) { z := 0 }
      = none ∧
    (mediumLHElectronSelector.m_doLHPIDcut = true →
      ElectronSelector.configuredLHAccepts mediumLHElectronSelector (exampleElectron 25)
        = true) ∧
    (mediumLHElectronSelector.m_doCutBasedPIDcut = true →
      ElectronSelector.configuredCutBasedAccepts mediumLHElectronSelector (exampleElectron 25)
        = true) ∧
    ∃ auxOut,
      getDecor auxOut "isIsolated" =
        some (if mediumLHElectronSelector.m_IsolationSelectionTool (exampleElectron 25) then 1
          else 0) ∧
      ∀ doIsolation : Bool,
        ∃ r, ElectronSelector.PassCuts
            { mediumLHElectronSelector with m_doIsolation := doIsolation }
            (exampleElectron 25) [] { z := 0 } = some r ∧
          r.aux = auxOut ∧
          r.value =
            if doIsolation = true ∧
                mediumLHElectronSelector.m_IsolationSelectionTool (exampleElectron 25) = false
            then 0 else 1 :=
  ⟨kinematicCut_example25, fun _ => configuredLHAccepts_example25,
   fun h => absurd h (by decide),
   C10_isIsolated_decorated_whatever_the_flag _ _ _ _ kinematicCut_example25
     (fun _ => configuredLHAccepts_example25) (fun h => absurd h (by decide))⟩

/-- C11: for a stand-alone muon `MuonSelector::PassCuts` returns, never by one of the three
impact-parameter cuts, and its result is the same for every `m_d0_max`, `m_d0sig_max` and
`m_z0sintheta_max` and for every track and primary vertex on which the external selection tool
answers alike; a muon of another type whose d0 is not below `m_d0_max` is rejected. -/
theorem C11_stand_alone_muon_skips_impact_parameter_cuts (cfg : MuonSelector) (mu : Muon)
    (pv : Vertex) (hT : cfg.muonTypeKnown)
    (hSA : mu.muonType = MuonType.MuonStandAlone) :
    ∃ r, MuonSelector.PassCuts cfg mu pv = some r ∧
      r.failed ≠ some MuonCut.d0 ∧ r.failed ≠ some MuonCut.d0sig ∧
      r.failed ≠ some MuonCut.z0sintheta ∧
      (∀ d0Max d0sigMax z0sinthetaMax : ℚ,
        MuonSelector.PassCuts
          { cfg with m_d0_max := d0Max, m_d0sig_max := d0sigMax,
                     m_z0sintheta_max := z0sinthetaMax } mu pv = some r) ∧
      (∀ (tp : TrackParticle) (pv' : Vertex),
        cfg.m_muonSelectionTool { mu with primaryTrackParticle := tp } =
          cfg.m_muonSelectionTool mu →
        MuonSelector.PassCuts cfg { mu with primaryTrackParticle := tp } pv' = some r) ∧
      (∀ mu' : Muon, mu'.muonType ≠ MuonType.MuonStandAlone →
        ¬ mu'.primaryTrackParticle.d0 < cfg.m_d0_max →
        ∃ r', MuonSelector.PassCuts cfg mu' pv = some r' ∧ r'.value = 0) := by
  obtain ⟨r, hr, -⟩ := MuonSelector.PassCuts_some cfg mu pv hT
  obtain ⟨hf1, hf2, hf3⟩ := MuonSelector.PassCuts_standAlone_failed cfg mu pv hSA r hr
  refine ⟨r, hr, hf1, hf2, hf3, ?_, ?_, ?_⟩
  · intro a b c
    rw [← hr, MuonSelector.PassCuts_standAlone cfg mu pv hSA,
      MuonSelector.PassCuts_standAlone _ mu pv hSA]
    rfl
  · intro tp pv' htool
    rw [← hr, MuonSelector.PassCuts_standAlone cfg mu pv hSA,
      MuonSelector.PassCuts_standAlone cfg { mu with primaryTrackParticle := tp } pv' hSA,
      MuonSelector.passType_track cfg mu tp htool]
  · intro mu' hne hd0
    obtain ⟨r', hr', -⟩ := MuonSelector.PassCuts_some cfg mu' pv hT
    exact ⟨r', hr', (MuonSelector.muon_PassCuts_bounds cfg mu' pv r' hr').2.2.2 hne
      (Or.inl hd0)⟩

/-- C11, at a concrete input: under the bound `m_d0_max = -1` the stand-alone muon of pT 15 and
d0 zero is accepted, and the combined muon with the same values is rejected by the d0 cut. -/
theorem C11_stand_alone_muon_skips_impact_parameter_cuts_witness :
    impossibleD0MuonSelector.muonTypeKnown ∧
    (standAloneMuon 15).muonType = MuonType.MuonStandAlone ∧
    ¬ (standAloneMuon 15).primaryTrackParticle.d0 < impossibleD0MuonSelector.m_d0_max ∧
    MuonSelector.PassCuts impossibleD0MuonSelector (standAloneMuon 15) { z := 0 } =
      some { value := 1, failed := none } ∧
    MuonSelector.PassCuts impossibleD0MuonSelector (exampleMuon 15) { z := 0 } =
      some { value := 0, failed := some MuonCut.d0 } ∧
    (∃ r, MuonSelector.PassCuts impossibleD0MuonSelector (standAloneMuon 15) { z := 0 } =
        some r ∧
      r.failed ≠ some MuonCut.d0 ∧ r.failed ≠ some MuonCut.d0sig ∧
      r.failed ≠ some MuonCut.z0sintheta ∧
      (∀ d0Max d0sigMax z0sinthetaMax : ℚ,
        MuonSelector.PassCuts
          { impossibleD0MuonSelector with
            m_d0_max := d0Max, m_d0sig_max := d0sigMax, m_z0sintheta_max := z0sinthetaMax }
          (standAloneMuon 15) { z := 0 } = some r) ∧
      (∀ (tp : TrackParticle) (pv' : Vertex),
        impossibleD0MuonSelector.m_muonSelectionTool
            { (standAloneMuon 15) with primaryTrackParticle := tp } =
          impossibleD0MuonSelector.m_muonSelectionTool (standAloneMuon 15) →
        MuonSelector.PassCuts impossibleD0MuonSelector
          { (standAloneMuon 15) with primaryTrackParticle := tp } pv' = some r) ∧
      (∀ mu' : Muon, mu'.muonType ≠ MuonType.MuonStandAlone →
        ¬ mu'.primaryTrackParticle.d0 < impossibleD0MuonSelector.m_d0_max →
        ∃ r', MuonSelector.PassCuts impossibleD0MuonSelector mu' { z := 0 } = some r' ∧
          r'.value = 0)) := by
  have hT : impossibleD0MuonSelector.muonTypeKnown := by
    intro h
    exact absurd rfl h
  refine ⟨hT, rfl, ?_, ?_, ?_,
    C11_stand_alone_muon_skips_impact_parameter_cuts _ _ _ hT rfl⟩
  · simp +decide [standAloneMuon, exampleMuon, exampleTrack, impossibleD0MuonSelector,
      exampleMuonSelector]
  · simp +decide [MuonSelector.PassCuts, MuonSelector.passType, MuonSelector.passIsoTool,
      MuonSelector.failsIsolation, standAloneMuon, exampleMuon, exampleTrack,
      impossibleD0MuonSelector, exampleMuonSelector, sentinel, d0_significance, z0sintheta]
  · simp +decide [MuonSelector.PassCuts, MuonSelector.passType, MuonSelector.passIsoTool,
      MuonSelector.failsIsolation, standAloneMuon, exampleMuon, exampleTrack,
      impossibleD0MuonSelector, exampleMuonSelector, sentinel, d0_significance, z0sintheta]

/-- C13: `ElectronSelector::configure` returns FAILURE exactly when `m_inContainerName` is
empty, or `m_LHOperatingPoint` is none of VeryLoose, Loose, Medium, Tight, VeryTight, or
`m_CutBasedOperatingPoint` is none of IsEMLoose, IsEMMedium, IsEMTight; the two hard-cut flags
have no part in the status; and when it returns FAILURE, `initialize` returns FAILURE without
resetting a counter or setting up a tool. -/
theorem C13_electron_configure_fails_on_unknown_names (cfg : ElectronSelector) :
    ((ElectronSelector.configure cfg).status = StatusCode.FAILURE ↔
      (cfg.m_inContainerName = "" ∨
       cfg.m_LHOperatingPoint ∉ ["VeryLoose", "Loose", "Medium", "Tight", "VeryTight"] ∨
       cfg.m_CutBasedOperatingPoint ∉ ["IsEMLoose", "IsEMMedium", "IsEMTight"])) ∧
    (∀ doLH doCutBased : Bool,
      (ElectronSelector.configure
        { cfg with m_doLHPIDcut := doLH, m_doCutBasedPIDcut := doCutBased }).status =
      (ElectronSelector.configure cfg).status) ∧
    ((ElectronSelector.configure cfg).status = StatusCode.FAILURE →
      ∀ (c : Cutflow) (toolSetup : StatusCode),
        ElectronSelector.initialize cfg c toolSetup = (StatusCode.FAILURE, c)) := by
  refine ⟨?_, ?_, ?_⟩
  · unfold ElectronSelector.configure
    split_ifs with h1 h2 h3
    · simp [h1]
    · simp only [true_iff]
      exact Or.inr (Or.inl (by simpa using h2))
    · simp only [true_iff]
      exact Or.inr (Or.inr (by simpa using h3))
    · simp only [reduceCtorEq, false_iff, not_or]
      refine ⟨h1, ?_, ?_⟩
      · intro hmem
        apply h2
        simpa using hmem
      · intro hmem
        apply h3
        simpa using hmem
  · intro a b
    rfl
  · intro hf c t
    simp [ ElectronSelector.initialize, hf]

/-- C13, at a concrete input: the default configuration with the likelihood operating point
`Bogus` and the likelihood cut disabled is refused by `configure`, and `initialize` fails. -/
theorem C13_electron_configure_fails_on_unknown_names_witness :
    unknownLHElectronSelector.m_doLHPIDcut = false ∧
    (ElectronSelector.configure unknownLHElectronSelector).status = StatusCode.FAILURE ∧
    (∀ (c : Cutflow) (toolSetup : StatusCode),
      ElectronSelector.initialize unknownLHElectronSelector c toolSetup =
        (StatusCode.FAILURE, c)) ∧
    (ElectronSelector.configure exampleElectronSelector).status = StatusCode.SUCCESS := by
  have h := C13_electron_configure_fails_on_unknown_names unknownLHElectronSelector
  have hf : (ElectronSelector.configure unknownLHElectronSelector).status =
      StatusCode.FAILURE := h.1.mpr (Or.inr (Or.inl (by decide)))
  exact ⟨rfl, hf, h.2.2 hf, by decide⟩

/-- C14: `MuonSelector::configure` returns FAILURE exactly when `m_muonQuality` is none of
Tight, Medium, Loose, VeryLoose, or `m_muonType` is none of the empty name, Combined,
MuonStandAlone, SegmentTagged, CaloTagged, SiliconAssociatedForwardMuon, or
`m_inContainerName` is empty; after SUCCESS the type requirement of `PassCuts` can be
evaluated; and with the empty `m_muonType` `PassCuts` returns, goes from the kinematic cuts
straight to the isolation step and never rejects a muon for its type. -/
theorem C14_muon_configure_fails_on_unknown_names (cfg : MuonSelector) :
    ((MuonSelector.configure cfg).status = StatusCode.FAILURE ↔
      (cfg.m_muonQuality ∉ ["Tight", "Medium", "Loose", "VeryLoose"] ∨
       cfg.m_muonType ∉ ["", "Combined", "MuonStandAlone", "SegmentTagged", "CaloTagged",
          "SiliconAssociatedForwardMuon"] ∨
       cfg.m_inContainerName = "")) ∧
    ((MuonSelector.configure cfg).status = StatusCode.SUCCESS → cfg.muonTypeKnown) ∧
    (cfg.m_muonType = "" → ∀ (mu : Muon) (pv : Vertex),
      MuonSelector.passType cfg mu = some (MuonSelector.passIsoTool cfg mu) ∧
      ∃ r, MuonSelector.PassCuts cfg mu pv = some r ∧ r.failed ≠ some MuonCut.muonType) := by
  have hiff : (MuonSelector.configure cfg).status = StatusCode.FAILURE ↔
      (cfg.m_muonQuality ∉ ["Tight", "Medium", "Loose", "VeryLoose"] ∨
       cfg.m_muonType ∉ ["", "Combined", "MuonStandAlone", "SegmentTagged", "CaloTagged",
          "SiliconAssociatedForwardMuon"] ∨
       cfg.m_inContainerName = "") := by
    unfold MuonSelector.configure
    simp only [muonQualitySet, muonTypeSet]
    by_cases h1 : cfg.m_muonQuality ∈ ["Tight", "Medium", "Loose", "VeryLoose"]
    · by_cases h2 : cfg.m_muonType ∈ ["", "Combined", "MuonStandAlone", "SegmentTagged",
          "CaloTagged", "SiliconAssociatedForwardMuon"]
      · by_cases h3 : cfg.m_inContainerName = ""
        · simp only [h1, h2, h3, not_true_eq_false, if_false, if_true, or_true]
        · simp only [h1, h2, h3, not_true_eq_false, if_false, or_false, reduceCtorEq]
      · simp only [h1, h2, not_true_eq_false, not_false_eq_true, if_false, if_true, true_or,
          or_true]
    · simp only [h1, not_false_eq_true, if_true, true_or]
  refine ⟨hiff, ?_, ?_⟩
  · intro hs hne
    have hnf : ¬ (MuonSelector.configure cfg).status = StatusCode.FAILURE := by
      rw [hs]
      decide
    rw [hiff, not_or, not_or] at hnf
    have hmem := not_not.mp hnf.2.1
    simp only [List.mem_cons, List.mem_singleton, List.not_mem_nil, or_false] at hmem
    rcases hmem with h | h | h | h | h | h
    · exact absurd h hne
    all_goals (rw [h]; decide)
  · intro hempty mu pv
    have hT : cfg.muonTypeKnown := fun hne => absurd hempty hne
    have hpt : MuonSelector.passType cfg mu = some (MuonSelector.passIsoTool cfg mu) := by
      simp [MuonSelector.passType, hempty]
    obtain ⟨r, hr, -⟩ := MuonSelector.PassCuts_some cfg mu pv hT
    refine ⟨hpt, r, hr, ?_⟩
    intro hf
    have h := muon_PassCuts_failed_type cfg mu pv r hr hf
    rw [hpt, Option.some.injEq] at h
    rcases MuonSelector.passIsoTool_failed cfg mu with h' | h' | h' <;>
      (rw [h, hf] at h'; cases h')

/-- C14, at a concrete input: the default configuration, whose `m_muonType` is empty, is
accepted by `configure`, and the one with the muon quality `Bogus` is refused. -/
theorem C14_muon_configure_fails_on_unknown_names_witness :
    exampleMuonSelector.m_muonType = "" ∧
    (MuonSelector.configure exampleMuonSelector).status = StatusCode.SUCCESS ∧
    (MuonSelector.configure unknownQualityMuonSelector).status = StatusCode.FAILURE ∧
    exampleMuonSelector.muonTypeKnown ∧
    (∀ (mu : Muon) (pv : Vertex),
      MuonSelector.passType exampleMuonSelector mu =
        some (MuonSelector.passIsoTool exampleMuonSelector mu) ∧
      ∃ r, MuonSelector.PassCuts exampleMuonSelector mu pv = some r ∧
        r.failed ≠ some MuonCut.muonType) := by
  have h := C14_muon_configure_fails_on_unknown_names exampleMuonSelector
  have h' := C14_muon_configure_fails_on_unknown_names unknownQualityMuonSelector
  have hs : (MuonSelector.configure exampleMuonSelector).status = StatusCode.SUCCESS := by
    decide
  exact ⟨rfl, hs, h'.1.mpr (Or.inl (by decide)), h.2.1 hs, h.2.2 rfl⟩

/-- C15, counterexample: `configure` keeps the empty segment of the pass keys `a,,b` of the
electron selector and the leading empty segment of the pass keys `,a` of the muon selector, so
that both key lists contain the empty string. -/
theorem C15_counterexample_empty_segment_kept :
    (ElectronSelector.configure keyedElectronSelector).status = StatusCode.SUCCESS ∧
    (ElectronSelector.configure keyedElectronSelector).m_passKeys = ["a", "", "b"] ∧
    "" ∈ (ElectronSelector.configure keyedElectronSelector).m_passKeys ∧
    (MuonSelector.configure keyedMuonSelector).status = StatusCode.SUCCESS ∧
    (MuonSelector.configure keyedMuonSelector).m_passKeys = ["", "a"] ∧
    "" ∈ (MuonSelector.configure keyedMuonSelector).m_passKeys := by
  refine ⟨by decide, by decide, by decide, by decide, by decide, by decide⟩

/-- C15 (amended): when `configure` gets to the parsing of the keys (always after SUCCESS), each
key list is the list of the comma-separated segments of its string in their order, empty
segments included, without the segment after the last comma when that one is empty; so the
non-empty keys are the non-empty segments, in their order. -/
theorem C15_key_lists_are_segments_without_empty_last (ecfg : ElectronSelector)
    (mcfg : MuonSelector)
    (hE : (ElectronSelector.configure ecfg).status = StatusCode.SUCCESS)
    (hM : (MuonSelector.configure mcfg).status = StatusCode.SUCCESS) :
    (ElectronSelector.configure ecfg).m_passKeys = keySegments ecfg.m_passAuxDecorKeys ∧
    (ElectronSelector.configure ecfg).m_failKeys = keySegments ecfg.m_failAuxDecorKeys ∧
    (MuonSelector.configure mcfg).m_passKeys = keySegments mcfg.m_passAuxDecorKeys ∧
    (MuonSelector.configure mcfg).m_failKeys = keySegments mcfg.m_failAuxDecorKeys ∧
    (∀ s : String,
      (keySegments s).filter (fun k => decide (k ≠ "")) =
        ((commaSegments s.data).map String.mk).filter (fun k => decide (k ≠ ""))) := by
  refine ⟨?_, ?_, ?_, ?_, ?_⟩
  · unfold ElectronSelector.configure at hE ⊢
    split_ifs at hE ⊢
    exact parseKeys_eq_keySegments _
  · unfold ElectronSelector.configure at hE ⊢
    split_ifs at hE ⊢
    exact parseKeys_eq_keySegments _
  · unfold MuonSelector.configure at hM ⊢
    split_ifs at hM ⊢
    exact parseKeys_eq_keySegments _
  · unfold MuonSelector.configure at hM ⊢
    split_ifs at hM ⊢
    exact parseKeys_eq_keySegments _
  · intro s
    rw [← parseKeys_eq_keySegments]
    exact parseKeys_filter s

/-- C15 (amended), at a concrete input: the keys `a,,b`, `a,`, `,a` and `a,b`. -/
theorem C15_key_lists_are_segments_without_empty_last_witness :
    (ElectronSelector.configure keyedElectronSelector).status = StatusCode.SUCCESS ∧
    (MuonSelector.configure keyedMuonSelector).status = StatusCode.SUCCESS ∧
    keySegments "a,,b" = ["a", "", "b"] ∧ keySegments "a," = ["a"] ∧
    keySegments ",a" = ["", "a"] ∧ keySegments "a,b" = ["a", "b"] ∧ keySegments "" = [] ∧
    ((ElectronSelector.configure keyedElectronSelector).m_passKeys =
        keySegments keyedElectronSelector.m_passAuxDecorKeys ∧
      (ElectronSelector.configure keyedElectronSelector).m_failKeys =
        keySegments keyedElectronSelector.m_failAuxDecorKeys ∧
      (MuonSelector.configure keyedMuonSelector).m_passKeys =
        keySegments keyedMuonSelector.m_passAuxDecorKeys ∧
      (MuonSelector.configure keyedMuonSelector).m_failKeys =
        keySegments keyedMuonSelector.m_failAuxDecorKeys ∧
      (∀ s : String,
        (keySegments s).filter (fun k => decide (k ≠ "")) =
          ((commaSegments s.data).map String.mk).filter (fun k => decide (k ≠ "")))) :=
  ⟨by decide, by decide, by decide, by decide, by decide, by decide, by decide,
    C15_key_lists_are_segments_without_empty_last keyedElectronSelector keyedMuonSelector
      (by decide) (by decide)⟩

/-- C16: `ElectronSelector::execute` in single-collection mode and the same selector in fan-out
mode over the one-element list `[""]` both return, with the same status, the same skip
signal, the same cutflow members and the same store under every key but
`m_outputAlgoSystNames` (so the same decorated input container and the same materialized
collection); the fan-out run alone publishes the list of output names, which is `[""]` when
the event passes and empty otherwise. The key of that list is free in the store before the
run and differs from the key of the materialized collection. -/
theorem C16_single_mode_is_fan_out_over_empty_label (cfg : ElectronSelector) (key : String)
    (c : Cutflow) (st : Store) (hOP : cfg.operatingPointsPresent)
    (hS : cfg.m_inputAlgoSystNames = "") (hkey : key ≠ "")
    (hL : st.retrieveSystNames key = some [""])
    (hfree : st.lookup cfg.m_outputAlgoSystNames = none)
    (hkeys : cfg.m_createSelectedContainer = true →
      cfg.m_outContainerName ≠ cfg.m_outputAlgoSystNames) :
    ∃ rS rF, ElectronSelector.execute cfg c st = some rS ∧
      ElectronSelector.execute { cfg with m_inputAlgoSystNames := key } c st = some rF ∧
      rF.status = rS.status ∧ rF.skipEvent = rS.skipEvent ∧ rF.cutflow = rS.cutflow ∧
      (∀ k, k ≠ cfg.m_outputAlgoSystNames → rF.store.lookup k = rS.store.lookup k) ∧
      rS.store.lookup cfg.m_outputAlgoSystNames = none ∧
      (rF.status = StatusCode.SUCCESS →
        rF.store.retrieveSystNames cfg.m_outputAlgoSystNames =
          some (if rF.skipEvent then [] else [""])) := by
  have hfail : ∀ c' : Cutflow, ∀ st' : Store, st'.lookup cfg.m_outputAlgoSystNames = none →
      (ElectronSelector.failure c' st').status = (ElectronSelector.failure c' st').status ∧
      (ElectronSelector.failure c' st').skipEvent =
        (ElectronSelector.failure c' st').skipEvent ∧
      (ElectronSelector.failure c' st').cutflow = (ElectronSelector.failure c' st').cutflow ∧
      (∀ k, k ≠ cfg.m_outputAlgoSystNames →
        (ElectronSelector.failure c' st').store.lookup k =
          (ElectronSelector.failure c' st').store.lookup k) ∧
      (ElectronSelector.failure c' st').store.lookup cfg.m_outputAlgoSystNames = none ∧
      ((ElectronSelector.failure c' st').status = StatusCode.SUCCESS →
        (ElectronSelector.failure c' st').store.retrieveSystNames cfg.m_outputAlgoSystNames =
          some (if (ElectronSelector.failure c' st').skipEvent then [] else [""])) :=
    fun c' st' h => ⟨rfl, rfl, rfl, fun _ _ => rfl, h, fun hs => by cases hs⟩
  have hfin : ∀ (c' : Cutflow) (st' : Store) (ep : Bool),
      st'.lookup cfg.m_outputAlgoSystNames = none →
      ∃ st3, st'.record cfg.m_outputAlgoSystNames
          (StoreObj.systNames (if ep then [] ++ [""] else [])) = some st3 ∧
      (ElectronSelector.finish c' st3 (false || ep)).status =
        (ElectronSelector.finish c' st' ep).status ∧
      (ElectronSelector.finish c' st3 (false || ep)).skipEvent =
        (ElectronSelector.finish c' st' ep).skipEvent ∧
      (ElectronSelector.finish c' st3 (false || ep)).cutflow =
        (ElectronSelector.finish c' st' ep).cutflow ∧
      (∀ k, k ≠ cfg.m_outputAlgoSystNames →
        (ElectronSelector.finish c' st3 (false || ep)).store.lookup k =
          (ElectronSelector.finish c' st' ep).store.lookup k) ∧
      (ElectronSelector.finish c' st' ep).store.lookup cfg.m_outputAlgoSystNames = none ∧
      ((ElectronSelector.finish c' st3 (false || ep)).status = StatusCode.SUCCESS →
        (ElectronSelector.finish c' st3 (false || ep)).store.retrieveSystNames
            cfg.m_outputAlgoSystNames =
          some (if (ElectronSelector.finish c' st3 (false || ep)).skipEvent then []
            else [""])) := by
    intro c' st' ep h
    refine ⟨_, Store.record_eq_some st' _ _ h, rfl, ?_, rfl, ?_, h, ?_⟩
    · simp [ElectronSelector.finish]
    · intro k hk
      simp only [ElectronSelector.finish, Store.lookup_append_single]
      cases st'.lookup k with
      | none => simp [hk]
      | some x => rfl
    · intro _
      simp only [ElectronSelector.finish, Store.retrieveSystNames,
        Store.lookup_append_single, h, if_true, Bool.false_or]
      cases ep <;> rfl
  have hin : ({ cfg with m_inputAlgoSystNames := key } : ElectronSelector).m_inputAlgoSystNames
      ≠ "" := hkey
  unfold ElectronSelector.execute
  simp only [hS, hin, if_true, if_false, hL]
  cases hE : st.retrieveEventInfo "EventInfo" with
  | none => exact ⟨_, _, rfl, rfl, hfail c st hfree⟩
  | some ow =>
    cases ow with
    | none => exact ⟨_, _, rfl, rfl, hfail c st hfree⟩
    | some w =>
      simp only [ElectronSelector.systLoop_empty_label,
        ElectronSelector.executeSelection_inputAlgoSystNames]
      cases hX : st.retrieveElectrons cfg.m_inContainerName with
      | none => exact ⟨_, _, rfl, rfl, hfail _ st hfree⟩
      | some xs =>
        obtain ⟨r, hr⟩ := ElectronSelector.executeSelection_some cfg st
          { c with m_numEvent := wrapInt (c.m_numEvent + 1) } xs w true hOP
        simp only [hr]
        have hfree1 : (st.decorated cfg.m_inContainerName
            (StoreObj.electrons r.objects)).lookup cfg.m_outputAlgoSystNames = none :=
          Store.lookup_decorated_none st _ _ _ hfree
        by_cases hcr : (cfg.m_createSelectedContainer && r.eventPass) = true
        · simp only [hcr, if_true]
          cases hrec : (st.decorated cfg.m_inContainerName
              (StoreObj.electrons r.objects)).record cfg.m_outContainerName
              (StoreObj.selectedElectrons r.selected) with
          | none => exact ⟨_, _, rfl, rfl, hfail _ _ hfree1⟩
          | some st2 =>
            have hcreate : cfg.m_createSelectedContainer = true := by
              cases hcc : cfg.m_createSelectedContainer with
              | true => rfl
              | false => rw [hcc] at hcr; exact absurd hcr (by simp)
            obtain ⟨-, hst2⟩ := Store.record_some _ _ _ _ hrec
            have hfree2 : st2.lookup cfg.m_outputAlgoSystNames = none := by
              rw [hst2, Store.lookup_append_single, hfree1]
              simp only [ite_eq_right_iff]
              intro h
              exact absurd h.symm (hkeys hcreate)
            obtain ⟨st3, h3, hrest⟩ := hfin r.cutflow st2 r.eventPass hfree2
            simp only [h3]
            exact ⟨_, _, rfl, rfl, hrest⟩
        · obtain ⟨st3, h3, hrest⟩ := hfin r.cutflow _ r.eventPass hfree1
          simp only [hcr, Bool.false_eq_true, if_false, if_true, h3]
          exact ⟨_, _, rfl, rfl, hrest⟩

/-- C16, at a concrete input: the materializing configuration on the event of
`fanOutStoreFirstOnly`, against its fan-out over the list `[""]` stored under
`ElectronCalibrator_Syst`. -/
theorem C16_single_mode_is_fan_out_over_empty_label_witness :
    materializingElectronSelector.operatingPointsPresent ∧
    materializingElectronSelector.m_inputAlgoSystNames = "" ∧
    "ElectronCalibrator_Syst" ≠ "" ∧
    fanOutStoreFirstOnly.retrieveSystNames "ElectronCalibrator_Syst" = some [""] ∧
    fanOutStoreFirstOnly.lookup materializingElectronSelector.m_outputAlgoSystNames = none ∧
    (∃ rS rF, ElectronSelector.execute materializingElectronSelector Cutflow.zero
        fanOutStoreFirstOnly = some rS ∧
      ElectronSelector.execute
        { materializingElectronSelector with m_inputAlgoSystNames := "ElectronCalibrator_Syst" }
        Cutflow.zero fanOutStoreFirstOnly = some rF ∧
      rF.status = rS.status ∧ rF.skipEvent = rS.skipEvent ∧ rF.cutflow = rS.cutflow ∧
      (∀ k, k ≠ materializingElectronSelector.m_outputAlgoSystNames →
        rF.store.lookup k = rS.store.lookup k) ∧
      rS.store.lookup materializingElectronSelector.m_outputAlgoSystNames = none ∧
      (rF.status = StatusCode.SUCCESS →
        rF.store.retrieveSystNames materializingElectronSelector.m_outputAlgoSystNames =
          some (if rF.skipEvent then [] else [""]))) := by
  have hOP : materializingElectronSelector.operatingPointsPresent :=
    ⟨fun h => absurd h (by decide), fun h => absurd h (by decide)⟩
  exact ⟨hOP, rfl, by decide, by decide, by decide,
    C16_single_mode_is_fan_out_over_empty_label materializingElectronSelector
      "ElectronCalibrator_Syst" Cutflow.zero fanOutStoreFirstOnly hOP rfl (by decide)
      (by decide) (by decide) (fun _ => by decide)⟩

/-- C17 (as stated, refuted): a counted run over one electron from a state in which
`m_numObject` is 2147483647, the largest `int`, evaluates one object and leaves
`m_numObject` at -2147483648, not at 2147483648. -/
theorem C17_counterexample_objects_seen_at_largest_int :
    (ElectronSelector.executeSelection exampleElectronSelector (exampleStore [])
        { Cutflow.zero with m_numObject := 2147483647 }
        [{ obj := exampleElectron 15, aux := [] }] 2 true).map
      (fun r => (r.nObj, r.cutflow.m_numObject)) = some (1, -2147483648) := by
  simp +decide [ElectronSelector.executeSelection, Store.retrieveVertices, exampleStore,
    List.lookup, selectionLoop, ElectronSelector.passSel, ElectronSelector.PassCuts,
    ElectronSelector.kinematicCut, exampleElectronSelector, exampleElectron,
    ElectronSelector.inCrack, d0_significance, z0sintheta, exampleTrack, sentinel,
    ElectronSelector.passLikelihoodPID, ElectronSelector.passCutBasedPID,
    ElectronSelector.passIsolation, getDecor, auxdecor, Cutflow.zero]
  norm_num [wrapInt]

/-- C17 (amended): with the primary vertex in the store, a run of
`ElectronSelector::executeSelection` with `countPass = true`, and a run of
`MuonSelector::executeConst`, returns; the objects passed to `PassCuts` are the first `k` of
the container; `m_numObject += nObj` (with `nObj = k`) and `m_numObjectPass += nPass` (with
`nPass` the number of those accepted) are carried out whether or not the event passes,
`m_numEventPass++` and `m_weightNumEventPass += w` exactly when the event passes the gate on
`nPass`, and `m_numEvent` is left alone. The counts are `int`: each one holds the sum wrapped
to 32 bits, which is the sum itself when the counts leave room for one more event and for the
objects of the container. The weight sum holds the floating-point sum the machine gives. -/
theorem C17_counted_run_updates_the_counters (ecfg : ElectronSelector) (mcfg : MuonSelector)
    (st : Store) (c : Cutflow) (pvx : Vertex) (xs : List (Decorated Electron))
    (ms : List (Decorated Muon)) (key : String) (w : ℚ)
    (hOP : ecfg.operatingPointsPresent) (hT : mcfg.muonTypeKnown)
    (hPV : st.retrieveVertices "PrimaryVertices" = some pvx) :
    (∃ r k, ElectronSelector.executeSelection ecfg st c xs w true = some r ∧
      k ≤ xs.length ∧ r.evaluated = List.range k ∧ r.nObj = k ∧
      r.nPass =
        (((xs.take k).filter (fun x => decide (ecfg.passValue pvx x.obj ≠ 0))).length : Int) ∧
      (r.eventPass = true ↔
        ¬ (ecfg.m_pass_min > 0 ∧ r.nPass < ecfg.m_pass_min) ∧
        ¬ (ecfg.m_pass_max > 0 ∧ r.nPass > ecfg.m_pass_max)) ∧
      r.cutflow.m_numObject = wrapInt (c.m_numObject + r.nObj) ∧
      r.cutflow.m_numObjectPass = wrapInt (c.m_numObjectPass + r.nPass) ∧
      r.cutflow.m_numEventPass =
        (if r.eventPass then wrapInt (c.m_numEventPass + 1) else c.m_numEventPass) ∧
      r.cutflow.m_weightNumEventPass =
        (if r.eventPass then
          ecfg.floatArith.accumulate c.m_weightNumEventPass (FloatValue.finite w)
         else c.m_weightNumEventPass) ∧
      r.cutflow.m_numEvent = c.m_numEvent ∧
      (c.roomFor 1 xs.length →
        r.cutflow.m_numObject = c.m_numObject + r.nObj ∧
        r.cutflow.m_numObjectPass = c.m_numObjectPass + r.nPass ∧
        r.cutflow.m_numEventPass = c.m_numEventPass + (if r.eventPass then 1 else 0))) ∧
    (∃ r k, MuonSelector.executeConst mcfg c st key ms w = some r ∧
      k ≤ ms.length ∧ r.evaluated = List.range k ∧ r.nObj = k ∧
      r.nPass =
        (((ms.take k).filter (fun x => decide (mcfg.passValue pvx x.obj ≠ 0))).length : Int) ∧
      (r.exec.skipEvent = false ↔
        ¬ (mcfg.m_pass_min > 0 ∧ r.nPass < mcfg.m_pass_min) ∧
        ¬ (mcfg.m_pass_max > 0 ∧ r.nPass > mcfg.m_pass_max)) ∧
      r.exec.cutflow.m_numObject = wrapInt (c.m_numObject + r.nObj) ∧
      r.exec.cutflow.m_numObjectPass = wrapInt (c.m_numObjectPass + r.nPass) ∧
      r.exec.cutflow.m_numEventPass =
        (if r.exec.skipEvent then c.m_numEventPass else wrapInt (c.m_numEventPass + 1)) ∧
      r.exec.cutflow.m_weightNumEventPass =
        (if r.exec.skipEvent then c.m_weightNumEventPass
         else mcfg.floatArith.accumulate c.m_weightNumEventPass (FloatValue.finite w)) ∧
      r.exec.cutflow.m_numEvent = c.m_numEvent ∧
      (c.roomFor 1 ms.length →
        r.exec.cutflow.m_numObject = c.m_numObject + r.nObj ∧
        r.exec.cutflow.m_numObjectPass = c.m_numObjectPass + r.nPass ∧
        r.exec.cutflow.m_numEventPass =
          c.m_numEventPass + (if r.exec.skipEvent then 0 else 1))) := by
  have hE : ∃ r k, ElectronSelector.executeSelection ecfg st c xs w true = some r ∧
      k ≤ xs.length ∧ r.evaluated = List.range k ∧ r.nObj = k ∧
      r.nPass =
        (((xs.take k).filter (fun x => decide (ecfg.passValue pvx x.obj ≠ 0))).length : Int) ∧
      (r.eventPass = true ↔
        ¬ (ecfg.m_pass_min > 0 ∧ r.nPass < ecfg.m_pass_min) ∧
        ¬ (ecfg.m_pass_max > 0 ∧ r.nPass > ecfg.m_pass_max)) ∧
      r.cutflow.m_numObject = wrapInt (c.m_numObject + r.nObj) ∧
      r.cutflow.m_numObjectPass = wrapInt (c.m_numObjectPass + r.nPass) ∧
      r.cutflow.m_numEventPass =
        (if r.eventPass then wrapInt (c.m_numEventPass + 1) else c.m_numEventPass) ∧
      r.cutflow.m_weightNumEventPass =
        (if r.eventPass then
          ecfg.floatArith.accumulate c.m_weightNumEventPass (FloatValue.finite w)
         else c.m_weightNumEventPass) ∧
      r.cutflow.m_numEvent = c.m_numEvent := by
    obtain ⟨l, hl⟩ := selectionLoop_some (ElectronSelector.passSel ecfg pvx)
      (ElectronSelector.passValue ecfg pvx) ecfg.m_nToProcess ecfg.m_decorateSelectedObjects
      ecfg.m_createSelectedContainer (ElectronSelector.passSel_eq_passValue ecfg pvx hOP)
      xs 0 0 0 [] []
    obtain ⟨k, hk, hn, hp, he⟩ := selectionLoop_counts (ElectronSelector.passSel ecfg pvx)
      (ElectronSelector.passValue ecfg pvx) ecfg.m_nToProcess ecfg.m_decorateSelectedObjects
      ecfg.m_createSelectedContainer (ElectronSelector.passSel_eq_passValue ecfg pvx hOP)
      xs 0 0 0 [] [] l hl
    rw [zero_add] at hn hp
    rw [List.nil_append, ← List.range_eq_range'] at he
    unfold ElectronSelector.executeSelection
    simp only [hPV, hl, if_true]
    by_cases h1 : ecfg.m_pass_min > 0 ∧ l.nPass < ecfg.m_pass_min
    · simp only [h1, and_self, if_true]
      exact ⟨_, k, rfl, hk, he, hn, hp, by simp [h1], rfl, rfl, by simp, by simp, rfl⟩
    · by_cases h2 : ecfg.m_pass_max > 0 ∧ l.nPass > ecfg.m_pass_max
      · simp only [h1, h2, and_self, if_true, if_false]
        exact ⟨_, k, rfl, hk, he, hn, hp, by simp [h2], rfl, rfl, by simp, by simp, rfl⟩
      · simp only [h1, h2, if_false]
        exact ⟨_, k, rfl, hk, he, hn, hp, by simp [h1, h2], rfl, rfl, by simp, by simp, rfl⟩
  have hM : ∃ r k, MuonSelector.executeConst mcfg c st key ms w = some r ∧
      k ≤ ms.length ∧ r.evaluated = List.range k ∧ r.nObj = k ∧
      r.nPass =
        (((ms.take k).filter (fun x => decide (mcfg.passValue pvx x.obj ≠ 0))).length : Int) ∧
      (r.exec.skipEvent = false ↔
        ¬ (mcfg.m_pass_min > 0 ∧ r.nPass < mcfg.m_pass_min) ∧
        ¬ (mcfg.m_pass_max > 0 ∧ r.nPass > mcfg.m_pass_max)) ∧
      r.exec.cutflow.m_numObject = wrapInt (c.m_numObject + r.nObj) ∧
      r.exec.cutflow.m_numObjectPass = wrapInt (c.m_numObjectPass + r.nPass) ∧
      r.exec.cutflow.m_numEventPass =
        (if r.exec.skipEvent then c.m_numEventPass else wrapInt (c.m_numEventPass + 1)) ∧
      r.exec.cutflow.m_weightNumEventPass =
        (if r.exec.skipEvent then c.m_weightNumEventPass
         else mcfg.floatArith.accumulate c.m_weightNumEventPass (FloatValue.finite w)) ∧
      r.exec.cutflow.m_numEvent = c.m_numEvent := by
    obtain ⟨l, hl⟩ := selectionLoop_some (MuonSelector.passSel mcfg pvx)
      (MuonSelector.passValue mcfg pvx) mcfg.m_nToProcess mcfg.m_decorateSelectedObjects
      mcfg.m_createSelectedContainer (MuonSelector.muon_passSel_eq_passValue mcfg pvx hT)
      ms 0 0 0 [] []
    obtain ⟨k, hk, hn, hp, he⟩ := selectionLoop_counts (MuonSelector.passSel mcfg pvx)
      (MuonSelector.passValue mcfg pvx) mcfg.m_nToProcess mcfg.m_decorateSelectedObjects
      mcfg.m_createSelectedContainer (MuonSelector.muon_passSel_eq_passValue mcfg pvx hT)
      ms 0 0 0 [] [] l hl
    rw [zero_add] at hn hp
    rw [List.nil_append, ← List.range_eq_range'] at he
    unfold MuonSelector.executeConst
    simp only [hPV, hl]
    by_cases h1 : mcfg.m_pass_min > 0 ∧ l.nPass < mcfg.m_pass_min
    · simp only [h1, and_self, if_true]
      exact ⟨_, k, rfl, hk, he, hn, hp, by simp [h1], rfl, rfl, by simp, by simp, rfl⟩
    · by_cases h2 : mcfg.m_pass_max > 0 ∧ l.nPass > mcfg.m_pass_max
      · simp only [h1, h2, and_self, if_true, if_false]
        exact ⟨_, k, rfl, hk, he, hn, hp, by simp [h2], rfl, rfl, by simp, by simp, rfl⟩
      · simp only [h1, h2, if_false]
        cases hc : mcfg.m_createSelectedContainer with
        | false =>
          simp only [Bool.false_eq_true, if_false]
          exact ⟨_, k, rfl, hk, he, hn, hp, by simp [h1, h2], rfl, rfl, by simp, by simp, rfl⟩
        | true =>
          simp only [if_true]
          cases ((st.decorated key (StoreObj.muons l.objects)).record mcfg.m_outContainerName
            (StoreObj.selectedMuons l.selected)) with
          | none =>
            exact ⟨_, k, rfl, hk, he, hn, hp, by simp [h1, h2], rfl, rfl, by simp, by simp,
              rfl⟩
          | some st2 =>
            exact ⟨_, k, rfl, hk, he, hn, hp, by simp [h1, h2], rfl, rfl, by simp, by simp,
              rfl⟩
  constructor
  · obtain ⟨r, k, hr, hk, he, hn, hp, hpass, e1, e2, e3, e4, e5⟩ := hE
    refine ⟨r, k, hr, hk, he, hn, hp, hpass, e1, e2, e3, e4, e5, ?_⟩
    intro hroom
    obtain ⟨-, ⟨p1, p2⟩, ⟨o1, o2⟩, ⟨q1, q2⟩⟩ := hroom
    have hle : ((xs.take k).filter
        (fun x => decide (ecfg.passValue pvx x.obj ≠ 0))).length ≤ k :=
      le_trans (List.length_filter_le _ _) (by simp [List.length_take])
    have hk' : (k : Int) ≤ (xs.length : Int) := by exact_mod_cast hk
    have hle' : (((xs.take k).filter
        (fun x => decide (ecfg.passValue pvx x.obj ≠ 0))).length : Int) ≤ (k : Int) := by
      exact_mod_cast hle
    have hnn : (0 : Int) ≤ (((xs.take k).filter
        (fun x => decide (ecfg.passValue pvx x.obj ≠ 0))).length : Int) := Int.natCast_nonneg _
    have hkn : (0 : Int) ≤ (k : Int) := Int.natCast_nonneg _
    simp only [Nat.cast_one] at p2
    refine ⟨?_, ?_, ?_⟩
    · rw [e1, wrapInt_eq_self _ (by omega) (by omega)]
    · rw [e2, wrapInt_eq_self _ (by omega) (by omega)]
    · rw [e3, wrapInt_eq_self _ (by omega) (by omega)]
      split_ifs <;> simp
  · obtain ⟨r, k, hr, hk, he, hn, hp, hpass, e1, e2, e3, e4, e5⟩ := hM
    refine ⟨r, k, hr, hk, he, hn, hp, hpass, e1, e2, e3, e4, e5, ?_⟩
    intro hroom
    obtain ⟨-, ⟨p1, p2⟩, ⟨o1, o2⟩, ⟨q1, q2⟩⟩ := hroom
    have hle : ((ms.take k).filter
        (fun x => decide (mcfg.passValue pvx x.obj ≠ 0))).length ≤ k :=
      le_trans (List.length_filter_le _ _) (by simp [List.length_take])
    have hk' : (k : Int) ≤ (ms.length : Int) := by exact_mod_cast hk
    have hle' : (((ms.take k).filter
        (fun x => decide (mcfg.passValue pvx x.obj ≠ 0))).length : Int) ≤ (k : Int) := by
      exact_mod_cast hle
    have hnn : (0 : Int) ≤ (((ms.take k).filter
        (fun x => decide (mcfg.passValue pvx x.obj ≠ 0))).length : Int) := Int.natCast_nonneg _
    have hkn : (0 : Int) ≤ (k : Int) := Int.natCast_nonneg _
    simp only [Nat.cast_one] at p2
    refine ⟨?_, ?_, ?_⟩
    · rw [e1, wrapInt_eq_self _ (by omega) (by omega)]
    · rw [e2, wrapInt_eq_self _ (by omega) (by omega)]
    · rw [e3, wrapInt_eq_self _ (by omega) (by omega)]
      split_ifs <;> simp

/-- C17 (amended), at a concrete input: with the weight 2, one accepted electron and no gate
add 1, 1, 1 and 2 to the four counters, and under `PassMin = 1` one rejected electron adds 1
to `m_numObject` alone. -/
theorem C17_counted_run_updates_the_counters_witness :
    exampleElectronSelector.operatingPointsPresent ∧
    exampleMuonSelector.muonTypeKnown ∧
    (exampleStore []).retrieveVertices "PrimaryVertices" = some { z := 0 } ∧
    Cutflow.zero.roomFor 1 1 ∧
    (ElectronSelector.executeSelection exampleElectronSelector (exampleStore []) Cutflow.zero
        [{ obj := exampleElectron 15, aux := [] }] 2 true).map (fun r => r.cutflow) =
      some { m_numEvent := 0, m_numObject := 1, m_numEventPass := 1,
             m_weightNumEventPass := 2, m_numObjectPass := 1 } ∧
    (ElectronSelector.executeSelection fanOutElectronSelector (exampleStore []) Cutflow.zero
        [{ obj := exampleElectron 5, aux := [] }] 2 true).map (fun r => r.cutflow) =
      some { m_numEvent := 0, m_numObject := 1, m_numEventPass := 0,
             m_weightNumEventPass := 0, m_numObjectPass := 0 } ∧
    ((∃ r k, ElectronSelector.executeSelection exampleElectronSelector (exampleStore [])
        Cutflow.zero [{ obj := exampleElectron 15, aux := [] }] 2 true = some r ∧
      k ≤ [({ obj := exampleElectron 15, aux := [] } : Decorated Electron)].length ∧
      r.evaluated = List.range k ∧ r.nObj = k ∧
      r.nPass =
        ((([({ obj := exampleElectron 15, aux := [] } : Decorated Electron)].take k).filter
          (fun x => decide (exampleElectronSelector.passValue { z := 0 } x.obj ≠ 0))).length :
            Int) ∧
      (r.eventPass = true ↔
        ¬ (exampleElectronSelector.m_pass_min > 0 ∧
            r.nPass < exampleElectronSelector.m_pass_min) ∧
        ¬ (exampleElectronSelector.m_pass_max > 0 ∧
            r.nPass > exampleElectronSelector.m_pass_max)) ∧
      r.cutflow.m_numObject = wrapInt (Cutflow.zero.m_numObject + r.nObj) ∧
      r.cutflow.m_numObjectPass = wrapInt (Cutflow.zero.m_numObjectPass + r.nPass) ∧
      r.cutflow.m_numEventPass =
        (if r.eventPass then wrapInt (Cutflow.zero.m_numEventPass + 1)
         else Cutflow.zero.m_numEventPass) ∧
      r.cutflow.m_weightNumEventPass =
        (if r.eventPass then
          exampleElectronSelector.floatArith.accumulate Cutflow.zero.m_weightNumEventPass
            (FloatValue.finite 2)
         else Cutflow.zero.m_weightNumEventPass) ∧
      r.cutflow.m_numEvent = Cutflow.zero.m_numEvent ∧
      (Cutflow.zero.roomFor 1
          [({ obj := exampleElectron 15, aux := [] } : Decorated Electron)].length →
        r.cutflow.m_numObject = Cutflow.zero.m_numObject + r.nObj ∧
        r.cutflow.m_numObjectPass = Cutflow.zero.m_numObjectPass + r.nPass ∧
        r.cutflow.m_numEventPass =
          Cutflow.zero.m_numEventPass + (if r.eventPass then 1 else 0))) ∧
    (∃ r k, MuonSelector.executeConst exampleMuonSelector Cutflow.zero (exampleStore [])
        "Muons" [{ obj := exampleMuon 15, aux := [] }] 2 = some r ∧
      k ≤ [({ obj := exampleMuon 15, aux := [] } : Decorated Muon)].length ∧
      r.evaluated = List.range k ∧ r.nObj = k ∧
      r.nPass =
        ((([({ obj := exampleMuon 15, aux := [] } : Decorated Muon)].take k).filter
          (fun x => decide (exampleMuonSelector.passValue { z := 0 } x.obj ≠ 0))).length :
            Int) ∧
      (r.exec.skipEvent = false ↔
        ¬ (exampleMuonSelector.m_pass_min > 0 ∧ r.nPass < exampleMuonSelector.m_pass_min) ∧
        ¬ (exampleMuonSelector.m_pass_max > 0 ∧ r.nPass > exampleMuonSelector.m_pass_max)) ∧
      r.exec.cutflow.m_numObject = wrapInt (Cutflow.zero.m_numObject + r.nObj) ∧
      r.exec.cutflow.m_numObjectPass = wrapInt (Cutflow.zero.m_numObjectPass + r.nPass) ∧
      r.exec.cutflow.m_numEventPass =
        (if r.exec.skipEvent then Cutflow.zero.m_numEventPass
         else wrapInt (Cutflow.zero.m_numEventPass + 1)) ∧
      r.exec.cutflow.m_weightNumEventPass =
        (if r.exec.skipEvent then Cutflow.zero.m_weightNumEventPass
         else exampleMuonSelector.floatArith.accumulate Cutflow.zero.m_weightNumEventPass
           (FloatValue.finite 2)) ∧
      r.exec.cutflow.m_numEvent = Cutflow.zero.m_numEvent ∧
      (Cutflow.zero.roomFor 1 [({ obj := exampleMuon 15, aux := [] } : Decorated Muon)].length →
        r.exec.cutflow.m_numObject = Cutflow.zero.m_numObject + r.nObj ∧
        r.exec.cutflow.m_numObjectPass = Cutflow.zero.m_numObjectPass + r.nPass ∧
        r.exec.cutflow.m_numEventPass =
          Cutflow.zero.m_numEventPass + (if r.exec.skipEvent then 0 else 1)))) := by
  have hOP : exampleElectronSelector.operatingPointsPresent :=
    ⟨fun h => absurd h (by decide), fun h => absurd h (by decide)⟩
  have hT : exampleMuonSelector.muonTypeKnown := fun h => absurd rfl h
  refine ⟨hOP, hT, rfl, by simp [Cutflow.roomFor, Cutflow.zero], ?_, ?_,
    C17_counted_run_updates_the_counters exampleElectronSelector exampleMuonSelector
      (exampleStore []) Cutflow.zero { z := 0 } _ _ "Muons" 2 hOP hT rfl⟩
  · simp +decide [ElectronSelector.executeSelection, Store.retrieveVertices, exampleStore,
      List.lookup, selectionLoop, ElectronSelector.passSel, ElectronSelector.PassCuts,
      ElectronSelector.kinematicCut, exampleElectronSelector, exampleElectron,
      ElectronSelector.inCrack, d0_significance, z0sintheta, exampleTrack, sentinel,
      ElectronSelector.passLikelihoodPID, ElectronSelector.passCutBasedPID,
      ElectronSelector.passIsolation, getDecor, auxdecor, Cutflow.zero]
    norm_num
  · simp +decide [ElectronSelector.executeSelection, Store.retrieveVertices, exampleStore,
      List.lookup, selectionLoop, ElectronSelector.passSel, ElectronSelector.PassCuts,
      ElectronSelector.kinematicCut, fanOutElectronSelector, exampleElectronSelector,
      exampleElectron, ElectronSelector.inCrack, d0_significance, z0sintheta, exampleTrack,
      sentinel, ElectronSelector.passLikelihoodPID, ElectronSelector.passCutBasedPID,
      ElectronSelector.passIsolation, getDecor, auxdecor, Cutflow.zero]

/-- C18: with the event information, the primary vertex, the input containers (and, in fan-out
mode, the list of labels) in the store and the output keys free, `execute` returns `SUCCESS`
whatever the objects and the gate give, and signals `skipEvent` exactly when the gate fails:
in single-collection mode and for the muons when `nPass` is below a positive `PassMin` or
above a positive `PassMax`, in fan-out mode when the run of every label fails. -/
theorem C18_gate_failure_skips_and_returns_success (ecfg : ElectronSelector)
    (mcfg : MuonSelector) (c : Cutflow) (st : Store) (w : ℚ) (pvx : Vertex)
    (hOP : ecfg.operatingPointsPresent) (hT : mcfg.muonTypeKnown)
    (hEI : st.retrieveEventInfo "EventInfo" = some (some w))
    (hPV : st.retrieveVertices "PrimaryVertices" = some pvx) :
    (ecfg.m_inputAlgoSystNames = "" → ∀ xs : List (Decorated Electron),
      st.retrieveElectrons ecfg.m_inContainerName = some xs →
      (ecfg.m_createSelectedContainer = true → st.lookup ecfg.m_outContainerName = none) →
      ∃ s e, ElectronSelector.executeSelection ecfg st
          { c with m_numEvent := wrapInt (c.m_numEvent + 1) } xs w true = some s ∧
        ElectronSelector.execute ecfg c st = some e ∧
        e.status = StatusCode.SUCCESS ∧
        (e.skipEvent = true ↔
          (ecfg.m_pass_min > 0 ∧ s.nPass < ecfg.m_pass_min) ∨
          (ecfg.m_pass_max > 0 ∧ s.nPass > ecfg.m_pass_max))) ∧
    (ecfg.m_inputAlgoSystNames ≠ "" → ∀ labels : List String,
      st.retrieveSystNames ecfg.m_inputAlgoSystNames = some labels →
      (∀ l ∈ labels, (st.retrieveElectrons (ecfg.m_inContainerName ++ l)).isSome = true) →
      st.lookup ecfg.m_outputAlgoSystNames = none →
      (ecfg.m_createSelectedContainer = true →
        labels.Nodup ∧ ∀ l ∈ labels, st.lookup (ecfg.m_outContainerName ++ l) = none ∧
          ecfg.m_outContainerName ++ l ≠ ecfg.m_outputAlgoSystNames) →
      ∃ e, ElectronSelector.execute ecfg c st = some e ∧
        e.status = StatusCode.SUCCESS ∧
        (e.skipEvent = true ↔
          ∀ l ∈ labels, ElectronSelector.selectionPasses ecfg st l = false)) ∧
    (∀ ms : List (Decorated Muon),
      st.retrieveMuons mcfg.m_inContainerName = some ms →
      (mcfg.m_createSelectedContainer = true → st.lookup mcfg.m_outContainerName = none) →
      ∃ r, MuonSelector.executeConst mcfg { c with m_numEvent := wrapInt (c.m_numEvent + 1) } st
          mcfg.m_inContainerName ms w = some r ∧
        MuonSelector.execute mcfg c st = some r.exec ∧
        r.exec.status = StatusCode.SUCCESS ∧
        (r.exec.skipEvent = true ↔
          (mcfg.m_pass_min > 0 ∧ r.nPass < mcfg.m_pass_min) ∨
          (mcfg.m_pass_max > 0 ∧ r.nPass > mcfg.m_pass_max))) := by
  refine ⟨?_, ?_, ?_⟩
  · intro hS xs hX hFree
    obtain ⟨s, st', hs, he⟩ :=
      ElectronSelector.execute_single_finish ecfg c st xs w hOP hS hEI hX hFree
    exact ⟨s, _, hs, he, rfl,
      ElectronSelector.executeSelection_eventPass_false_iff ecfg st _ xs w true pvx hPV s hs⟩
  · intro hFan labels hL hIn hOutFree hFresh
    obtain ⟨cf, st', he⟩ :=
      ElectronSelector.execute_fanout_finish ecfg c st labels w hOP hFan hEI hL hIn hOutFree
        hFresh
    refine ⟨_, he, rfl, ?_⟩
    simp only [ElectronSelector.finish, Bool.not_eq_true', List.any_eq_false,
      Bool.not_eq_true]
  · intro ms hM hFree
    obtain ⟨r, hr, hs, hiff⟩ := MuonSelector.executeConst_success mcfg
      { c with m_numEvent := wrapInt (c.m_numEvent + 1) } st mcfg.m_inContainerName ms w pvx hT hPV hFree
    refine ⟨r, hr, ?_, hs, hiff⟩
    simp only [MuonSelector.execute, hEI, hM, hr, Option.map_some']

/-- C18, at a concrete input: the event of `fanOutStore`, whose nominal electron of pT 5 fails
`pTMin = 10` under `PassMin = 1`; the single-collection run of the electrons, the fan-out run
and the run of the muons under `PassMin = 1`, `PassMax = 2` return `SUCCESS`, and the
single-collection run signals `skipEvent`. -/
theorem C18_gate_failure_skips_and_returns_success_witness :
    fanOutElectronSelector.operatingPointsPresent ∧ gatedMuonSelector.muonTypeKnown ∧
    fanOutStore.retrieveEventInfo "EventInfo" = some (some 2) ∧
    fanOutStore.retrieveVertices "PrimaryVertices" = some { z := 0 } ∧
    (ElectronSelector.execute { fanOutElectronSelector with m_inputAlgoSystNames := "" }
        Cutflow.zero fanOutStore).map (fun e => (e.status, e.skipEvent)) =
      some (StatusCode.SUCCESS, true) ∧
    (∃ s e, ElectronSelector.executeSelection
          { fanOutElectronSelector with m_inputAlgoSystNames := "" } fanOutStore
          { Cutflow.zero with m_numEvent := wrapInt (Cutflow.zero.m_numEvent + 1) }
          [{ obj := exampleElectron 5, aux := [] }] 2 true = some s ∧
        ElectronSelector.execute { fanOutElectronSelector with m_inputAlgoSystNames := "" }
          Cutflow.zero fanOutStore = some e ∧
        e.status = StatusCode.SUCCESS ∧
        (e.skipEvent = true ↔
          (fanOutElectronSelector.m_pass_min > 0 ∧ s.nPass < fanOutElectronSelector.m_pass_min) ∨
          (fanOutElectronSelector.m_pass_max > 0 ∧
            s.nPass > fanOutElectronSelector.m_pass_max))) ∧
    (∃ e, ElectronSelector.execute fanOutElectronSelector Cutflow.zero fanOutStore = some e ∧
        e.status = StatusCode.SUCCESS ∧
        (e.skipEvent = true ↔
          ∀ l ∈ ["", "SYS_UP", "SYS_DOWN"],
            ElectronSelector.selectionPasses fanOutElectronSelector fanOutStore l = false)) ∧
    (∃ r, MuonSelector.executeConst gatedMuonSelector
          { Cutflow.zero with m_numEvent := wrapInt (Cutflow.zero.m_numEvent + 1) } fanOutStore
          gatedMuonSelector.m_inContainerName [{ obj := exampleMuon 15, aux := [] }] 2 =
          some r ∧
        MuonSelector.execute gatedMuonSelector Cutflow.zero fanOutStore = some r.exec ∧
        r.exec.status = StatusCode.SUCCESS ∧
        (r.exec.skipEvent = true ↔
          (gatedMuonSelector.m_pass_min > 0 ∧ r.nPass < gatedMuonSelector.m_pass_min) ∨
          (gatedMuonSelector.m_pass_max > 0 ∧ r.nPass > gatedMuonSelector.m_pass_max))) := by
  have hOP : fanOutElectronSelector.operatingPointsPresent :=
    ⟨fun h => absurd h (by decide), fun h => absurd h (by decide)⟩
  have hOP' : ({ fanOutElectronSelector with m_inputAlgoSystNames := "" } :
      ElectronSelector).operatingPointsPresent :=
    ⟨fun h => absurd h (by decide), fun h => absurd h (by decide)⟩
  have hT : gatedMuonSelector.muonTypeKnown := fun h => absurd rfl h
  have hsingle := (C18_gate_failure_skips_and_returns_success
    { fanOutElectronSelector with m_inputAlgoSystNames := "" } gatedMuonSelector Cutflow.zero
    fanOutStore 2 { z := 0 } hOP' hT rfl rfl).1 rfl _ rfl (fun _ => by decide)
  have h := C18_gate_failure_skips_and_returns_success fanOutElectronSelector
    gatedMuonSelector Cutflow.zero fanOutStore 2 { z := 0 } hOP hT rfl rfl
  refine ⟨hOP, hT, rfl, rfl, ?_, hsingle,
    h.2.1 (by decide) ["", "SYS_UP", "SYS_DOWN"] rfl (by decide) (by decide)
      (fun _ => by decide),
    h.2.2 _ rfl (fun _ => by decide)⟩
  obtain ⟨s, e, hs, he, hst, hiff⟩ := hsingle
  rw [he]
  have hn : s.nPass = 0 := by
    have hs' := hs
    simp +decide [ElectronSelector.executeSelection, Store.retrieveVertices, fanOutStore,
      List.lookup, selectionLoop, ElectronSelector.passSel, ElectronSelector.PassCuts,
      ElectronSelector.kinematicCut, fanOutElectronSelector, exampleElectronSelector,
      exampleElectron, ElectronSelector.inCrack, d0_significance, z0sintheta, exampleTrack,
      sentinel, ElectronSelector.passLikelihoodPID, ElectronSelector.passCutBasedPID,
      ElectronSelector.passIsolation, getDecor, auxdecor, Cutflow.zero] at hs'
    rw [← hs']
  have hskip : e.skipEvent = true := hiff.mpr (Or.inl ⟨by decide, by rw [hn]; decide⟩)
  simp only [Option.map_some', hst, hskip]

/-- C19: when the list of labels is not in the store, or the container of one of the labels
(the first or a later one) is not, or the container of the single-collection mode is not, or
the muon container is not, `execute` returns `FAILURE` without a `skipEvent`; in fan-out mode
the store then holds no list of names that it did not hold before the run. -/
theorem C19_missing_input_returns_failure (ecfg : ElectronSelector) (mcfg : MuonSelector)
    (c : Cutflow) (st : Store) (hOP : ecfg.operatingPointsPresent) :
    (ecfg.m_inputAlgoSystNames ≠ "" →
      st.retrieveSystNames ecfg.m_inputAlgoSystNames = none →
      ∃ e, ElectronSelector.execute ecfg c st = some e ∧ e.status = StatusCode.FAILURE ∧
        e.skipEvent = false ∧ e.store = st) ∧
    (ecfg.m_inputAlgoSystNames ≠ "" → ∀ labels : List String,
      st.retrieveSystNames ecfg.m_inputAlgoSystNames = some labels →
      (∃ l ∈ labels, st.retrieveElectrons (ecfg.m_inContainerName ++ l) = none) →
      ∃ e, ElectronSelector.execute ecfg c st = some e ∧ e.status = StatusCode.FAILURE ∧
        e.skipEvent = false ∧
        ∀ k, e.store.retrieveSystNames k = st.retrieveSystNames k) ∧
    (ecfg.m_inputAlgoSystNames = "" →
      st.retrieveElectrons ecfg.m_inContainerName = none →
      ∃ e, ElectronSelector.execute ecfg c st = some e ∧ e.status = StatusCode.FAILURE ∧
        e.skipEvent = false ∧ e.store = st) ∧
    (st.retrieveMuons mcfg.m_inContainerName = none →
      ∃ e, MuonSelector.execute mcfg c st = some e ∧ e.status = StatusCode.FAILURE ∧
        e.skipEvent = false ∧ e.store = st) := by
  refine ⟨?_, ?_, ?_, ?_⟩
  · intro hFan hL
    unfold ElectronSelector.execute
    cases hE : st.retrieveEventInfo "EventInfo" with
    | none => exact ⟨_, rfl, rfl, rfl, rfl⟩
    | some ow =>
      cases ow with
      | none => exact ⟨_, rfl, rfl, rfl, rfl⟩
      | some w =>
        simp only [hFan, if_false, hL]
        exact ⟨_, rfl, rfl, rfl, rfl⟩
  · intro hFan labels hL hmiss
    unfold ElectronSelector.execute
    cases hE : st.retrieveEventInfo "EventInfo" with
    | none => exact ⟨_, rfl, rfl, rfl, fun _ => rfl⟩
    | some ow =>
      cases ow with
      | none => exact ⟨_, rfl, rfl, rfl, fun _ => rfl⟩
      | some w =>
        obtain ⟨f, hf⟩ := ElectronSelector.systLoop_some ecfg hOP w labels
          { c with m_numEvent := wrapInt (c.m_numEvent + 1) } st true false []
        have hok : f.ok = false := by
          cases hfo : f.ok with
          | false => rfl
          | true =>
            obtain ⟨l, hl, hnone⟩ := hmiss
            have := ElectronSelector.systLoop_ok_containers ecfg hOP w labels _ st true false
              [] f hf hfo l hl
            rw [hnone] at this
            exact absurd this (by simp)
        simp only [hFan, if_false, hL, hf, hok, Bool.false_eq_true]
        exact ⟨_, rfl, rfl, rfl,
          fun k => ElectronSelector.systLoop_systNames ecfg w labels _ st true false [] f hf k⟩
  · intro hS hX
    unfold ElectronSelector.execute
    cases hE : st.retrieveEventInfo "EventInfo" with
    | none => exact ⟨_, rfl, rfl, rfl, rfl⟩
    | some ow =>
      cases ow with
      | none => exact ⟨_, rfl, rfl, rfl, rfl⟩
      | some w =>
        simp only [hS, if_true, hX]
        exact ⟨_, rfl, rfl, rfl, rfl⟩
  · intro hM
    unfold MuonSelector.execute
    cases hE : st.retrieveEventInfo "EventInfo" with
    | none => exact ⟨_, rfl, rfl, rfl, rfl⟩
    | some ow =>
      cases ow with
      | none => exact ⟨_, rfl, rfl, rfl, rfl⟩
      | some w =>
        simp only [hM]
        exact ⟨_, rfl, rfl, rfl, rfl⟩

/-- C19, at concrete inputs: the fan-out run on `fanOutStoreMissingDown`, where the container
of the last label is missing, and the fan-out, single-collection and muon runs on
`noContainerStore`, which holds neither a list of labels nor a container. -/
theorem C19_missing_input_returns_failure_witness :
    fanOutElectronSelector.operatingPointsPresent ∧
    exampleElectronSelector.operatingPointsPresent ∧
    fanOutStoreMissingDown.retrieveSystNames fanOutElectronSelector.m_inputAlgoSystNames =
      some ["", "SYS_UP", "SYS_DOWN"] ∧
    fanOutStoreMissingDown.retrieveElectrons
      (fanOutElectronSelector.m_inContainerName ++ "SYS_DOWN") = none ∧
    (∃ e, ElectronSelector.execute fanOutElectronSelector Cutflow.zero fanOutStoreMissingDown
        = some e ∧ e.status = StatusCode.FAILURE ∧ e.skipEvent = false ∧
      ∀ k, e.store.retrieveSystNames k = fanOutStoreMissingDown.retrieveSystNames k) ∧
    (∃ e, ElectronSelector.execute fanOutElectronSelector Cutflow.zero noContainerStore
        = some e ∧ e.status = StatusCode.FAILURE ∧ e.skipEvent = false ∧
      e.store = noContainerStore) ∧
    (∃ e, ElectronSelector.execute exampleElectronSelector Cutflow.zero noContainerStore
        = some e ∧ e.status = StatusCode.FAILURE ∧ e.skipEvent = false ∧
      e.store = noContainerStore) ∧
    (∃ e, MuonSelector.execute exampleMuonSelector Cutflow.zero noContainerStore
        = some e ∧ e.status = StatusCode.FAILURE ∧ e.skipEvent = false ∧
      e.store = noContainerStore) := by
  have hOP : fanOutElectronSelector.operatingPointsPresent :=
    ⟨fun h => absurd h (by decide), fun h => absurd h (by decide)⟩
  have hOP' : exampleElectronSelector.operatingPointsPresent :=
    ⟨fun h => absurd h (by decide), fun h => absurd h (by decide)⟩
  exact ⟨hOP, hOP', rfl, rfl,
    (C19_missing_input_returns_failure fanOutElectronSelector exampleMuonSelector Cutflow.zero
      fanOutStoreMissingDown hOP).2.1 (by decide) _ rfl ⟨"SYS_DOWN", by decide, rfl⟩,
    (C19_missing_input_returns_failure fanOutElectronSelector exampleMuonSelector Cutflow.zero
      noContainerStore hOP).1 (by decide) rfl,
    (C19_missing_input_returns_failure exampleElectronSelector exampleMuonSelector
      Cutflow.zero noContainerStore hOP').2.2.1 rfl rfl,
    (C19_missing_input_returns_failure exampleElectronSelector exampleMuonSelector
      Cutflow.zero noContainerStore hOP').2.2.2 rfl⟩

/-- C20, the code at the failing input: on `noVertexStore`, which holds the event information
and the containers and no primary vertex, `ElectronSelector::execute` in single-collection
mode returns `SUCCESS` with a `skipEvent`, having counted the event and no object, while
`MuonSelector::execute` returns `FAILURE` without a `skipEvent`. -/
theorem C20_electron_execute_skips_without_primary_vertex :
    noVertexStore.retrieveVertices "PrimaryVertices" = none ∧
    ElectronSelector.execute exampleElectronSelector Cutflow.zero noVertexStore =
      some { status := StatusCode.SUCCESS,
             cutflow := { m_numEvent := 1, m_numObject := 0, m_numEventPass := 0,
                          m_weightNumEventPass := 0, m_numObjectPass := 0 },
             store := noVertexStore, skipEvent := true } ∧
    MuonSelector.execute exampleMuonSelector Cutflow.zero noVertexStore =
      some { status := StatusCode.FAILURE,
             cutflow := { m_numEvent := 1, m_numObject := 0, m_numEventPass := 0,
                          m_weightNumEventPass := 0, m_numObjectPass := 0 },
             store := noVertexStore, skipEvent := false } := by
  refine ⟨rfl, ?_, ?_⟩
  · rfl
  · rfl

/-- C21, counterexample: on an event of weight -1 whose electron (and muon) of pT 15 passes,
`execute` takes `m_weightNumEventPass` from 0 to -1, a value below the one before the call, in
both selectors. -/
theorem C21_counterexample_negative_event_weight :
    (ElectronSelector.execute exampleElectronSelector Cutflow.zero negativeWeightStore).map
        (fun e => (e.status, e.cutflow.m_weightNumEventPass)) =
      some (StatusCode.SUCCESS, FloatValue.finite (-1)) ∧
    (MuonSelector.execute exampleMuonSelector Cutflow.zero negativeWeightStore).map
        (fun e => (e.status, e.cutflow.m_weightNumEventPass)) =
      some (StatusCode.SUCCESS, FloatValue.finite (-1)) ∧
    Cutflow.zero.m_weightNumEventPass = FloatValue.finite 0 ∧ (-1 : ℚ) < 0 := by
  refine ⟨?_, ?_, ?_, ?_⟩
  · simp +decide [ElectronSelector.execute, Store.retrieveEventInfo, Store.retrieveElectrons,
      ElectronSelector.executeSelection, Store.retrieveVertices, negativeWeightStore,
      List.lookup, selectionLoop, ElectronSelector.passSel, ElectronSelector.PassCuts,
      ElectronSelector.kinematicCut, exampleElectronSelector, exampleElectron,
      ElectronSelector.inCrack, d0_significance, z0sintheta, exampleTrack, sentinel,
      ElectronSelector.passLikelihoodPID, ElectronSelector.passCutBasedPID,
      ElectronSelector.passIsolation, getDecor, auxdecor, Cutflow.zero,
      ElectronSelector.finish, ElectronSelector.failure]
    norm_num
  · simp +decide [MuonSelector.execute, Store.retrieveEventInfo, Store.retrieveMuons,
      MuonSelector.executeConst, Store.retrieveVertices, negativeWeightStore,
      List.lookup, selectionLoop, MuonSelector.passSel, MuonSelector.PassCuts,
      MuonSelector.passType, MuonSelector.passIsoTool, MuonSelector.failsIsolation,
      exampleMuonSelector, exampleMuon, d0_significance, z0sintheta, exampleTrack, sentinel,
      Cutflow.zero]
  · simp [Cutflow.zero]
  · norm_num

/-- C21 (amended): every call of `execute`, of either selector, returns; when the counts are
values of an `int` that leave room for one more event and for the objects of the event, it
leaves the counters of events, of objects seen, of objects passed and of events passed not
below their values before the call; `m_weightNumEventPass` is left as it was or becomes the
floating-point sum of itself and the event weight, which is not below the value before when
that sum is exact and the event weight is not negative. -/
theorem C21_counts_do_not_decrease_within_int_range
    (ecfg : ElectronSelector) (mcfg : MuonSelector) (c : Cutflow) (st : Store)
    (hOP : ecfg.operatingPointsPresent) (hT : mcfg.muonTypeKnown) :
    (∃ r, ElectronSelector.execute ecfg c st = some r ∧
      (c.roomFor 1 st.objectCount → c.countsNotBelow r.cutflow) ∧
      (r.cutflow.m_weightNumEventPass = c.m_weightNumEventPass ∨
        ∃ w, st.retrieveEventInfo "EventInfo" = some (some w) ∧
          r.cutflow.m_weightNumEventPass =
            ecfg.floatArith.accumulate c.m_weightNumEventPass (FloatValue.finite w)) ∧
      (∀ q w, c.m_weightNumEventPass = FloatValue.finite q →
        st.retrieveEventInfo "EventInfo" = some (some w) → 0 ≤ w →
        ecfg.floatArith.accumulate (FloatValue.finite q) (FloatValue.finite w) =
          FloatValue.finite (q + w) →
        ∃ q', r.cutflow.m_weightNumEventPass = FloatValue.finite q' ∧ q ≤ q')) ∧
    (∃ r, MuonSelector.execute mcfg c st = some r ∧
      (c.roomFor 1 st.objectCount → c.countsNotBelow r.cutflow) ∧
      (r.cutflow.m_weightNumEventPass = c.m_weightNumEventPass ∨
        ∃ w, st.retrieveEventInfo "EventInfo" = some (some w) ∧
          r.cutflow.m_weightNumEventPass =
            mcfg.floatArith.accumulate c.m_weightNumEventPass (FloatValue.finite w)) ∧
      (∀ q w, c.m_weightNumEventPass = FloatValue.finite q →
        st.retrieveEventInfo "EventInfo" = some (some w) → 0 ≤ w →
        mcfg.floatArith.accumulate (FloatValue.finite q) (FloatValue.finite w) =
          FloatValue.finite (q + w) →
        ∃ q', r.cutflow.m_weightNumEventPass = FloatValue.finite q' ∧ q ≤ q')) := by
  have key : ∀ (arith : FloatArith) (r : ExecResult) (seen passed : Int)
      (evt run pass : Bool) (w : ℚ),
      0 ≤ passed → passed ≤ seen → seen ≤ st.objectCount →
      (pass = true → run = true) → (run = true → evt = true) →
      (evt = true → st.retrieveEventInfo "EventInfo" = some (some w)) →
      r.cutflow.m_numEvent = (if evt then wrapInt (c.m_numEvent + 1) else c.m_numEvent) →
      r.cutflow.m_numObject = (if run then wrapInt (c.m_numObject + seen) else c.m_numObject) →
      r.cutflow.m_numObjectPass =
        (if run then wrapInt (c.m_numObjectPass + passed) else c.m_numObjectPass) →
      r.cutflow.m_numEventPass =
        (if pass then wrapInt (c.m_numEventPass + 1) else c.m_numEventPass) →
      r.cutflow.m_weightNumEventPass =
        (if pass then arith.accumulate c.m_weightNumEventPass (FloatValue.finite w)
         else c.m_weightNumEventPass) →
      (c.roomFor 1 st.objectCount → c.countsNotBelow r.cutflow) ∧
      (r.cutflow.m_weightNumEventPass = c.m_weightNumEventPass ∨
        ∃ w, st.retrieveEventInfo "EventInfo" = some (some w) ∧
          r.cutflow.m_weightNumEventPass =
            arith.accumulate c.m_weightNumEventPass (FloatValue.finite w)) ∧
      (∀ q w, c.m_weightNumEventPass = FloatValue.finite q →
        st.retrieveEventInfo "EventInfo" = some (some w) → 0 ≤ w →
        arith.accumulate (FloatValue.finite q) (FloatValue.finite w) =
          FloatValue.finite (q + w) →
        ∃ q', r.cutflow.m_weightNumEventPass = FloatValue.finite q' ∧ q ≤ q') := by
    intro arith r seen passed evt run pass w h0 h1 h2 hpr hre hev d1 d2 d3 d4 d5
    refine ⟨fun hroom => Cutflow.countsNotBelow_step c r.cutflow seen passed evt run pass
      st.objectCount hroom h0 h1 h2 d1 d2 d3 d4, ?_, ?_⟩
    · cases pass with
      | false => exact Or.inl (by rw [d5]; simp)
      | true => exact Or.inr ⟨w, hev (hre (hpr rfl)), by rw [d5]; simp⟩
    · intro q w' hq hw' hnn hex
      cases pass with
      | false => exact ⟨q, by rw [d5]; simpa using hq, le_refl _⟩
      | true =>
        have hww : w' = w := by
          have := hev (hre (hpr rfl))
          rw [hw'] at this
          simpa using this
        subst hww
        refine ⟨q + w', ?_, by linarith⟩
        rw [d5, hq]
        simpa using hex
  constructor
  · obtain ⟨r, seen, passed, evt, run, pass, w, hr, h0, h1, h2, hpr, hre, hev, d1, d2, d3, d4,
      d5⟩ := ElectronSelector.execute_delta ecfg hOP c st
    exact ⟨r, hr, key ecfg.floatArith r seen passed evt run pass w h0 h1 h2 hpr hre hev d1 d2 d3
      d4 d5⟩
  · obtain ⟨r, seen, passed, evt, run, pass, w, hr, h0, h1, h2, hpr, hre, hev, d1, d2, d3, d4,
      d5⟩ := MuonSelector.muon_execute_delta mcfg hT c st
    exact ⟨r, hr, key mcfg.floatArith r seen passed evt run pass w h0 h1 h2 hpr hre hev d1 d2 d3
      d4 d5⟩

/-- C21 (amended), at a concrete input: the default selectors on the event of `fanOutStore`,
whose weight is 2 and whose containers hold four objects, from counters all equal to zero. -/
theorem C21_counts_do_not_decrease_within_int_range_witness :
    exampleElectronSelector.operatingPointsPresent ∧ exampleMuonSelector.muonTypeKnown ∧
    Cutflow.zero.roomFor 1 fanOutStore.objectCount ∧
    (∃ r, ElectronSelector.execute exampleElectronSelector Cutflow.zero fanOutStore = some r ∧
      Cutflow.zero.countsNotBelow r.cutflow ∧
      ∃ q', r.cutflow.m_weightNumEventPass = FloatValue.finite q' ∧ (0 : ℚ) ≤ q') ∧
    (∃ r, MuonSelector.execute exampleMuonSelector Cutflow.zero fanOutStore = some r ∧
      Cutflow.zero.countsNotBelow r.cutflow ∧
      ∃ q', r.cutflow.m_weightNumEventPass = FloatValue.finite q' ∧ (0 : ℚ) ≤ q') := by
  have hOP : exampleElectronSelector.operatingPointsPresent :=
    ⟨fun h => absurd h (by decide), fun h => absurd h (by decide)⟩
  have hT : exampleMuonSelector.muonTypeKnown := fun h => absurd rfl h
  have hroom : Cutflow.zero.roomFor 1 fanOutStore.objectCount := by
    simp [Cutflow.roomFor, Cutflow.zero, Store.objectCount, fanOutStore, StoreObj.size]
  have hw : fanOutStore.retrieveEventInfo "EventInfo" = some (some 2) := rfl
  have hz : Cutflow.zero.m_weightNumEventPass = FloatValue.finite 0 := by
    simp [Cutflow.zero]
  obtain ⟨⟨r, hr, hc, -, hmono⟩, ⟨r', hr', hc', -, hmono'⟩⟩ :=
    C21_counts_do_not_decrease_within_int_range exampleElectronSelector
      exampleMuonSelector Cutflow.zero fanOutStore hOP hT
  exact ⟨hOP, hT, hroom,
    ⟨r, hr, hc hroom, hmono 0 2 hz hw (by norm_num) (by simp [exampleElectronSelector])⟩,
    ⟨r', hr', hc' hroom, hmono' 0 2 hz hw (by norm_num) (by simp [exampleMuonSelector])⟩⟩

/-- C22 (as stated, refuted): after `initialize` and 1073741824 events, each with an electron
of pT 15 and an electron of pT 5 under `pTMin` = 10, the count of objects passed is
1073741824 and the count of objects seen, an `int` that has wrapped, is -2147483648: the
objects passed are more than the objects seen. -/
theorem C22_counterexample_objects_seen_wraps :
    ( ElectronSelector.initialize pTMinElectronSelector Cutflow.zero StatusCode.SUCCESS) =
      (StatusCode.SUCCESS, Cutflow.zero) ∧
    ∃ c', ElectronSelector.executeEvents pTMinElectronSelector Cutflow.zero
        (List.replicate 1073741824 passFailStore) = some c' ∧
      c'.m_numObject = -2147483648 ∧ c'.m_numObjectPass = 1073741824 ∧
      ¬ c'.m_numObjectPass ≤ c'.m_numObject := by
  refine ⟨by decide, ?_⟩
  obtain ⟨c', hc', e1, e2⟩ := executeEvents_passFailStore 1073741824 Cutflow.zero
    (by simp [Cutflow.zero]) (by simp [Cutflow.zero])
  have f1 : c'.m_numObject = -2147483648 := by
    rw [e1]
    norm_num [Cutflow.zero, wrapInt]
  have f2 : c'.m_numObjectPass = 1073741824 := by
    rw [e2]
    norm_num [Cutflow.zero, wrapInt]
  exact ⟨c', hc', f1, f2, by rw [f1, f2]; decide⟩

/-- C22 (amended): `initialize`, when it returns `SUCCESS`, leaves every counter at zero;
every sequence of calls of `execute` from there, of either selector, returns, and when the
calls are at most 2147483647 and the containers of the events hold at most 2147483647
objects in all, so that no `int` count wraps, the objects passed are at most the objects
seen and the events passed at most the events counted, which are at most the calls made; and
in every run of `executeSelection` or `executeConst` `0 ≤ nPass ≤ nObj ≤` the size of the
container. -/
theorem C22_objects_passed_at_most_seen_within_int_range
    (ecfg : ElectronSelector) (mcfg : MuonSelector)
    (hOP : ecfg.operatingPointsPresent) (hT : mcfg.muonTypeKnown) :
    (∀ (c : Cutflow) (toolSetup : StatusCode),
      ( ElectronSelector.initialize ecfg c toolSetup).1 = StatusCode.SUCCESS →
      ( ElectronSelector.initialize ecfg c toolSetup).2 = Cutflow.zero) ∧
    (∀ (c : Cutflow) (toolSetup : StatusCode),
      ( MuonSelector.initialize mcfg c toolSetup).1 = StatusCode.SUCCESS →
      ( MuonSelector.initialize mcfg c toolSetup).2 = Cutflow.zero) ∧
    (∀ events : List Store,
      ∃ c', ElectronSelector.executeEvents ecfg Cutflow.zero events = some c' ∧
        (events.length ≤ 2147483647 → (events.map Store.objectCount).sum ≤ 2147483647 →
          c'.m_numObjectPass ≤ c'.m_numObject ∧ c'.m_numEventPass ≤ c'.m_numEvent ∧
          c'.m_numEvent ≤ events.length)) ∧
    (∀ events : List Store,
      ∃ c', MuonSelector.executeEvents mcfg Cutflow.zero events = some c' ∧
        (events.length ≤ 2147483647 → (events.map Store.objectCount).sum ≤ 2147483647 →
          c'.m_numObjectPass ≤ c'.m_numObject ∧ c'.m_numEventPass ≤ c'.m_numEvent ∧
          c'.m_numEvent ≤ events.length)) ∧
    (∀ (st : Store) (c : Cutflow) (xs : List (Decorated Electron)) (w : ℚ) (cp : Bool),
      ∃ r, ElectronSelector.executeSelection ecfg st c xs w cp = some r ∧
        0 ≤ r.nPass ∧ r.nPass ≤ r.nObj ∧ r.nObj ≤ xs.length) ∧
    (∀ (st : Store) (c : Cutflow) (key : String) (ms : List (Decorated Muon)) (w : ℚ),
      ∃ r, MuonSelector.executeConst mcfg c st key ms w = some r ∧
        0 ≤ r.nPass ∧ r.nPass ≤ r.nObj ∧ r.nObj ≤ ms.length) := by
  have hz : Cutflow.zero.consistent := by
    simp [Cutflow.consistent, Cutflow.zero]
  refine ⟨?_, ?_, ?_, ?_, ?_, ?_⟩
  · intro c t h
    by_cases hf : (ElectronSelector.configure ecfg).status = StatusCode.FAILURE
    · simp [ ElectronSelector.initialize, hf] at h
    · simp [ ElectronSelector.initialize, hf, Cutflow.zero]
  · intro c t h
    by_cases hf : (MuonSelector.configure mcfg).status = StatusCode.FAILURE
    · simp [ MuonSelector.initialize, hf] at h
    · simp [ MuonSelector.initialize, hf, Cutflow.zero]
  · intro events
    obtain ⟨c', hc'⟩ := executeEvents_some ecfg hOP events Cutflow.zero
    refine ⟨c', hc', fun hE hO => ?_⟩
    obtain ⟨c'', hc'', ⟨-, h1, -, h2⟩, -, h3⟩ :=
      executeEvents_consistent ecfg hOP events Cutflow.zero hz
        (by simp only [Cutflow.zero]; omega) (by simp only [Cutflow.zero]; omega)
    rw [hc', Option.some.injEq] at hc''
    subst hc''
    exact ⟨h1, h2, by simpa [Cutflow.zero] using h3⟩
  · intro events
    obtain ⟨c', hc'⟩ := muon_executeEvents_some mcfg hT events Cutflow.zero
    refine ⟨c', hc', fun hE hO => ?_⟩
    obtain ⟨c'', hc'', ⟨-, h1, -, h2⟩, -, h3⟩ :=
      muon_executeEvents_consistent mcfg hT events Cutflow.zero hz
        (by simp only [Cutflow.zero]; omega) (by simp only [Cutflow.zero]; omega)
    rw [hc', Option.some.injEq] at hc''
    subst hc''
    exact ⟨h1, h2, by simpa [Cutflow.zero] using h3⟩
  · intro st c xs w cp
    obtain ⟨r, hr⟩ := ElectronSelector.executeSelection_some ecfg st c xs w cp hOP
    obtain ⟨h0, h1, h2, -⟩ := ElectronSelector.executeSelection_delta ecfg hOP st c xs w cp r hr
    exact ⟨r, hr, h0, h1, h2⟩
  · intro st c key ms w
    obtain ⟨r, hr⟩ := MuonSelector.executeConst_some mcfg c st key ms w hT
    obtain ⟨-, -, h0, h1, h2, -⟩ := MuonSelector.executeConst_delta mcfg hT c st key ms w r hr
    exact ⟨r, hr, h0, h1, h2⟩

/-- C22 (amended), at a concrete input: the default selectors run over the events of
`fanOutStore`, `negativeWeightStore` and `noContainerStore`, in turn: three calls, eight
objects in the containers. -/
theorem C22_objects_passed_at_most_seen_within_int_range_witness :
    exampleElectronSelector.operatingPointsPresent ∧ exampleMuonSelector.muonTypeKnown ∧
    ( ElectronSelector.initialize exampleElectronSelector Cutflow.zero
        StatusCode.SUCCESS).1 = StatusCode.SUCCESS ∧
    [fanOutStore, negativeWeightStore, noContainerStore].length ≤ 2147483647 ∧
    ([fanOutStore, negativeWeightStore, noContainerStore].map Store.objectCount).sum
      ≤ 2147483647 ∧
    (∃ c', ElectronSelector.executeEvents exampleElectronSelector Cutflow.zero
        [fanOutStore, negativeWeightStore, noContainerStore] = some c' ∧
      c'.m_numObjectPass ≤ c'.m_numObject ∧ c'.m_numEventPass ≤ c'.m_numEvent ∧
      c'.m_numEvent ≤ [fanOutStore, negativeWeightStore, noContainerStore].length) ∧
    (∃ c', MuonSelector.executeEvents exampleMuonSelector Cutflow.zero
        [fanOutStore, negativeWeightStore, noContainerStore] = some c' ∧
      c'.m_numObjectPass ≤ c'.m_numObject ∧ c'.m_numEventPass ≤ c'.m_numEvent ∧
      c'.m_numEvent ≤ [fanOutStore, negativeWeightStore, noContainerStore].length) := by
  have hOP : exampleElectronSelector.operatingPointsPresent :=
    ⟨fun h => absurd h (by decide), fun h => absurd h (by decide)⟩
  have hT : exampleMuonSelector.muonTypeKnown := fun h => absurd rfl h
  have hlen : [fanOutStore, negativeWeightStore, noContainerStore].length ≤ 2147483647 := by
    decide
  have hsum : ([fanOutStore, negativeWeightStore, noContainerStore].map
      Store.objectCount).sum ≤ 2147483647 := by
    simp [Store.objectCount, fanOutStore, negativeWeightStore, noContainerStore, StoreObj.size]
  have h := C22_objects_passed_at_most_seen_within_int_range
    exampleElectronSelector exampleMuonSelector hOP hT
  obtain ⟨c1, hc1, h1⟩ := h.2.2.1 [fanOutStore, negativeWeightStore, noContainerStore]
  obtain ⟨c2, hc2, h2⟩ := h.2.2.2.1 [fanOutStore, negativeWeightStore, noContainerStore]
  exact ⟨hOP, hT, by decide, hlen, hsum, ⟨c1, hc1, h1 hlen hsum⟩, ⟨c2, hc2, h2 hlen hsum⟩⟩

/-- C23: when one of the criteria that precede identification does not hold for an electron,
`ElectronSelector::PassCuts` returns 0 at one of those criteria with the decorations of the
electron exactly as they were and with no call of the likelihood, cut-based or isolation
tools. -/
theorem C23_early_rejection_writes_nothing (cfg : ElectronSelector) (el : Electron)
    (aux : Decorations) (pv : Vertex)
    (hfail : ∃ p ∈ ElectronSelector.kinematicCriteria cfg el pv, p.2 = false) :
    ∃ cut, (cut, false) ∈ ElectronSelector.kinematicCriteria cfg el pv ∧
      ElectronSelector.PassCuts cfg el aux pv =
        some { value := 0, failed := some cut, aux := aux, calls := [] } ∧
      ∀ key, getDecor aux key =
        getDecor (match ElectronSelector.PassCuts cfg el aux pv with
                  | some r => r.aux
                  | none => []) key := by
  have hk := ElectronSelector.kinematicCut_eq_firstFailing cfg el pv
  cases hc : ElectronSelector.kinematicCut cfg el pv with
  | none =>
    rw [hc] at hk
    obtain ⟨p, hp, hp2⟩ := hfail
    have := (ElectronSelector.firstFailing_eq_none _).mp hk.symm p hp
    rw [hp2] at this
    exact absurd this (by decide)
  | some cut =>
    rw [hc] at hk
    have hres : ElectronSelector.PassCuts cfg el aux pv =
        some { value := 0, failed := some cut, aux := aux, calls := [] } := by
      simp only [ElectronSelector.PassCuts, hc]
    refine ⟨cut, firstFailing_mem _ _ hk.symm, hres, ?_⟩
    intro key
    rw [hres]

/-- C23, at a concrete input: under `pTMin = 10` the electron of pT 5, decorated `Loose = 1`
before the call, is rejected by the pT min cut and keeps exactly that decoration. -/
theorem C23_early_rejection_writes_nothing_witness :
    (∃ p ∈ ElectronSelector.kinematicCriteria materializingElectronSelector (exampleElectron 5)
        { z := 0 }, p.2 = false) ∧
    ElectronSelector.PassCuts materializingElectronSelector (exampleElectron 5)
        [("Loose", 1)] { z := 0 } =
      some { value := 0, failed := some ElectronCut.pTMin, aux := [("Loose", 1)], calls := [] } ∧
    (∃ cut, (cut, false) ∈ ElectronSelector.kinematicCriteria materializingElectronSelector
        (exampleElectron 5) { z := 0 } ∧
      ElectronSelector.PassCuts materializingElectronSelector (exampleElectron 5)
          [("Loose", 1)] { z := 0 } =
        some { value := 0, failed := some cut, aux := [("Loose", 1)], calls := [] } ∧
      ∀ key, getDecor [("Loose", 1)] key =
        getDecor (match ElectronSelector.PassCuts materializingElectronSelector
                    (exampleElectron 5) [("Loose", 1)] { z := 0 } with
                  | some r => r.aux
                  | none => []) key) := by
  have hfail : ∃ p ∈ ElectronSelector.kinematicCriteria materializingElectronSelector
      (exampleElectron 5) { z := 0 }, p.2 = false := by
    refine ⟨(ElectronCut.pTMin, false), ?_, rfl⟩
    simp +decide [ElectronSelector.kinematicCriteria, materializingElectronSelector,
      exampleElectronSelector, exampleElectron, sentinel]
  refine ⟨hfail, ?_, C23_early_rejection_writes_nothing _ _ _ _ hfail⟩
  simp +decide [ElectronSelector.PassCuts, ElectronSelector.kinematicCut,
    materializingElectronSelector, exampleElectronSelector, exampleElectron,
    ElectronSelector.inCrack, d0_significance, z0sintheta, exampleTrack, sentinel]

/-- C24: in fan-out mode, for every list of labels, the empty one included, with the container
of every label in the store and the output keys free, `execute` returns `SUCCESS`, records
under `m_outputAlgoSystNames` the list of the labels whose run passed, also when that list is
empty, and signals `skipEvent` exactly when no run passed, that is exactly when the recorded
list is empty. -/
theorem C24_event_pass_is_the_or_of_the_label_flags
    (cfg : ElectronSelector) (c : Cutflow) (st : Store) (labels : List String) (w : ℚ)
    (hOP : cfg.operatingPointsPresent)
    (hFan : cfg.m_inputAlgoSystNames ≠ "")
    (hEI : st.retrieveEventInfo "EventInfo" = some (some w))
    (hL : st.retrieveSystNames cfg.m_inputAlgoSystNames = some labels)
    (hIn : ∀ l ∈ labels, (st.retrieveElectrons (cfg.m_inContainerName ++ l)).isSome = true)
    (hOutFree : st.lookup cfg.m_outputAlgoSystNames = none)
    (hFresh : cfg.m_createSelectedContainer = true →
      labels.Nodup ∧ ∀ l ∈ labels, st.lookup (cfg.m_outContainerName ++ l) = none ∧
        cfg.m_outContainerName ++ l ≠ cfg.m_outputAlgoSystNames) :
    ∃ e names, ElectronSelector.execute cfg c st = some e ∧
      e.status = StatusCode.SUCCESS ∧
      e.store.retrieveSystNames cfg.m_outputAlgoSystNames = some names ∧
      names = labels.filter (ElectronSelector.selectionPasses cfg st) ∧
      e.skipEvent = !(labels.any (ElectronSelector.selectionPasses cfg st)) ∧
      (e.skipEvent = true ↔ names = []) := by
  obtain ⟨f, hf, hok, hvec, hep, -, hnone, -, -⟩ :=
    ElectronSelector.systLoop_spec cfg hOP w labels { c with m_numEvent := wrapInt (c.m_numEvent + 1) }
      st true false [] hIn (fun hc => ⟨(hFresh hc).1, fun l hl => ((hFresh hc).2 l hl).1⟩)
  have hfree := hnone _ hOutFree (fun hc l hl _ heq => ((hFresh hc).2 l hl).2 heq.symm)
  have hrec := Store.record_eq_some f.store cfg.m_outputAlgoSystNames
    (StoreObj.systNames f.vecOutContainerNames) hfree
  rw [Bool.false_or] at hep
  rw [List.nil_append] at hvec
  refine ⟨ElectronSelector.finish f.cutflow
    (f.store ++ [(cfg.m_outputAlgoSystNames, StoreObj.systNames f.vecOutContainerNames)])
    f.eventPass, labels.filter (ElectronSelector.selectionPasses cfg st), ?_, rfl, ?_, rfl, ?_, ?_⟩
  · simp only [ElectronSelector.execute, hEI, hFan, if_false, hL, hf, hok, if_true, hrec]
  · simp only [ElectronSelector.finish, Store.retrieveSystNames, Store.lookup_append_single,
      hfree, if_true, hvec]
  · simp only [ElectronSelector.finish, hep]
  · simp only [ElectronSelector.finish, hep, Bool.not_eq_true', List.any_eq_false,
      List.filter_eq_nil_iff, Bool.not_eq_true]

/-- C24, at concrete inputs: the event of `emptyLabelsStore`, whose list of labels is empty (the
empty list is recorded and the event is skipped), and that of `fanOutStore`, where the run of
`SYS_UP` passes. -/
theorem C24_event_pass_is_the_or_of_the_label_flags_witness :
    fanOutElectronSelector.operatingPointsPresent ∧
    fanOutElectronSelector.m_inputAlgoSystNames ≠ "" ∧
    emptyLabelsStore.retrieveSystNames fanOutElectronSelector.m_inputAlgoSystNames = some [] ∧
    (∃ e, ElectronSelector.execute fanOutElectronSelector Cutflow.zero emptyLabelsStore =
        some e ∧ e.status = StatusCode.SUCCESS ∧
      e.store.retrieveSystNames fanOutElectronSelector.m_outputAlgoSystNames = some [] ∧
      e.skipEvent = true) ∧
    (∃ e names, ElectronSelector.execute fanOutElectronSelector Cutflow.zero fanOutStore =
        some e ∧ e.status = StatusCode.SUCCESS ∧
      e.store.retrieveSystNames fanOutElectronSelector.m_outputAlgoSystNames = some names ∧
      names = ["", "SYS_UP", "SYS_DOWN"].filter
        (ElectronSelector.selectionPasses fanOutElectronSelector fanOutStore) ∧
      e.skipEvent = !(["", "SYS_UP", "SYS_DOWN"].any
        (ElectronSelector.selectionPasses fanOutElectronSelector fanOutStore)) ∧
      (e.skipEvent = true ↔ names = [])) := by
  have hOP : fanOutElectronSelector.operatingPointsPresent :=
    ⟨fun h => absurd h (by decide), fun h => absurd h (by decide)⟩
  obtain ⟨e, names, he, hs, hn, hnames, hskip, -⟩ :=
    C24_event_pass_is_the_or_of_the_label_flags fanOutElectronSelector Cutflow.zero
      emptyLabelsStore [] 1 hOP (by decide) rfl rfl (by decide) (by decide)
      (fun _ => by decide)
  refine ⟨hOP, by decide, rfl, ⟨e, he, hs, ?_, ?_⟩,
    C24_event_pass_is_the_or_of_the_label_flags fanOutElectronSelector Cutflow.zero
      fanOutStore ["", "SYS_UP", "SYS_DOWN"] 2 hOP (by decide) rfl rfl (by decide) (by decide)
      (fun _ => by decide)⟩
  · rw [hn, hnames]
    rfl
  · rw [hskip]
    rfl

/-- C25: a run of `ElectronSelector::executeSelection` with `countPass = false` returns and
leaves every cutflow member as it was, and its event-pass flag, the decorated objects, the
view of selected objects, `nObj`, `nPass` and the objects evaluated are those of the run with
`countPass = true` on the same input. -/
theorem C25_uncounted_run_differs_in_the_counters_only (cfg : ElectronSelector) (st : Store)
    (c : Cutflow) (xs : List (Decorated Electron)) (w : ℚ)
    (hOP : cfg.operatingPointsPresent) :
    ∃ r r', ElectronSelector.executeSelection cfg st c xs w false = some r ∧
      ElectronSelector.executeSelection cfg st c xs w true = some r' ∧
      r.cutflow = c ∧ r.eventPass = r'.eventPass ∧ r.objects = r'.objects ∧
      r.selected = r'.selected ∧ r.nObj = r'.nObj ∧ r.nPass = r'.nPass ∧
      r.evaluated = r'.evaluated := by
  unfold ElectronSelector.executeSelection
  cases hpv : st.retrieveVertices "PrimaryVertices" with
  | none => exact ⟨_, _, rfl, rfl, rfl, rfl, rfl, rfl, rfl, rfl, rfl⟩
  | some pvx =>
    obtain ⟨l, hl⟩ := selectionLoop_some (ElectronSelector.passSel cfg pvx)
      (ElectronSelector.passValue cfg pvx) cfg.m_nToProcess cfg.m_decorateSelectedObjects
      cfg.m_createSelectedContainer (ElectronSelector.passSel_eq_passValue cfg pvx hOP)
      xs 0 0 0 [] []
    simp only [hl, Bool.false_eq_true, if_false, if_true]
    by_cases h1 : cfg.m_pass_min > 0 ∧ l.nPass < cfg.m_pass_min
    · simp only [h1, and_self, if_true]
      exact ⟨_, _, rfl, rfl, rfl, rfl, rfl, rfl, rfl, rfl, rfl⟩
    · by_cases h2 : cfg.m_pass_max > 0 ∧ l.nPass > cfg.m_pass_max
      · simp only [h1, h2, and_self, if_true, if_false]
        exact ⟨_, _, rfl, rfl, rfl, rfl, rfl, rfl, rfl, rfl, rfl⟩
      · simp only [h1, h2, if_false]
        exact ⟨_, _, rfl, rfl, rfl, rfl, rfl, rfl, rfl, rfl, rfl⟩

/-- C25, at a concrete input: the default configuration on one electron of pT 15, from counters
all equal to zero. -/
theorem C25_uncounted_run_differs_in_the_counters_only_witness :
    exampleElectronSelector.operatingPointsPresent ∧
    (ElectronSelector.executeSelection exampleElectronSelector (exampleStore []) Cutflow.zero
        [{ obj := exampleElectron 15, aux := [] }] 2 true).map (fun r => r.cutflow) =
      some { m_numEvent := 0, m_numObject := 1, m_numEventPass := 1,
             m_weightNumEventPass := 2, m_numObjectPass := 1 } ∧
    (∃ r r', ElectronSelector.executeSelection exampleElectronSelector (exampleStore [])
        Cutflow.zero [{ obj := exampleElectron 15, aux := [] }] 2 false = some r ∧
      ElectronSelector.executeSelection exampleElectronSelector (exampleStore [])
        Cutflow.zero [{ obj := exampleElectron 15, aux := [] }] 2 true = some r' ∧
      r.cutflow = Cutflow.zero ∧ r.eventPass = r'.eventPass ∧ r.objects = r'.objects ∧
      r.selected = r'.selected ∧ r.nObj = r'.nObj ∧ r.nPass = r'.nPass ∧
      r.evaluated = r'.evaluated) := by
  have hOP : exampleElectronSelector.operatingPointsPresent :=
    ⟨fun h => absurd h (by decide), fun h => absurd h (by decide)⟩
  refine ⟨hOP, ?_,
    C25_uncounted_run_differs_in_the_counters_only exampleElectronSelector (exampleStore [])
      Cutflow.zero _ 2 hOP⟩
  simp +decide [ElectronSelector.executeSelection, Store.retrieveVertices, exampleStore,
    List.lookup, selectionLoop, ElectronSelector.passSel, ElectronSelector.PassCuts,
    ElectronSelector.kinematicCut, exampleElectronSelector, exampleElectron,
    ElectronSelector.inCrack, d0_significance, z0sintheta, exampleTrack, sentinel,
    ElectronSelector.passLikelihoodPID, ElectronSelector.passCutBasedPID,
    ElectronSelector.passIsolation, getDecor, auxdecor, Cutflow.zero]
  norm_num

/-- C26: with the object-quality cut enabled, an electron that passes the author criterion is
rejected by `ElectronSelector::PassCuts` at the object-quality criterion exactly when
`OQ &&& 1446` is not zero, that is when one of the bits 1, 2, 5, 7, 8, 10 of `OQ` is set; an
electron whose `OQ` has the same six bits gets the same object-quality decision, and a word
with none of the six bits set passes the criterion. -/
theorem C26_object_quality_reads_six_bits (cfg : ElectronSelector) (el : Electron)
    (aux : Decorations) (pv : Vertex) (hOP : cfg.operatingPointsPresent)
    (hOQ : cfg.m_doOQCut = true)
    (hAuthor : cfg.m_doAuthorCut = true →
      el.authorElectron = true ∨ el.authorAmbiguous = true) :
    ∃ r, ElectronSelector.PassCuts cfg el aux pv = some r ∧
      (r.failed ≠ some ElectronCut.objectQuality ↔ el.OQ &&& 1446 = 0) ∧
      (el.OQ &&& 1446 = 0 ↔ ∀ i ∈ objectQualityBits, el.OQ.testBit i = false) ∧
      (∀ oq : Nat, (∀ i ∈ objectQualityBits, oq.testBit i = el.OQ.testBit i) →
        ∃ r', ElectronSelector.PassCuts cfg { el with OQ := oq } aux pv = some r' ∧
          (r'.failed = some ElectronCut.objectQuality ↔
            r.failed = some ElectronCut.objectQuality)) := by
  have main : ∀ e : Electron,
      (cfg.m_doAuthorCut = true → e.authorElectron = true ∨ e.authorAmbiguous = true) →
      ∃ r, ElectronSelector.PassCuts cfg e aux pv = some r ∧
        (r.failed ≠ some ElectronCut.objectQuality ↔ e.OQ &&& 1446 = 0) := by
    intro e hA
    obtain ⟨r, hr, -, -, hf⟩ := ElectronSelector.PassCuts_eq_firstFailing cfg e aux pv hOP
    refine ⟨r, hr, ?_⟩
    by_cases h0 : e.OQ &&& 1446 = 0
    · simp only [h0, iff_true]
      intro hx
      have := firstFailing_mem _ _ (hf ▸ hx)
      simp [ElectronSelector.criteria, ElectronSelector.kinematicCriteria,
        ElectronSelector.identificationCriteria, h0] at this
    · simp only [h0, iff_false, not_not]
      rw [hf]
      have hA' : decide (cfg.m_doAuthorCut = true →
          e.authorElectron = true ∨ e.authorAmbiguous = true) = true := decide_eq_true hA
      have hQ' : decide (cfg.m_doOQCut = true → e.OQ &&& 1446 = 0) = false :=
        decide_eq_false (fun h => h0 (h hOQ))
      simp only [firstFailing, ElectronSelector.criteria, ElectronSelector.kinematicCriteria,
        hA', hQ', List.cons_append, List.find?, Bool.not_true, Bool.not_false,
        Option.map_some']
  obtain ⟨r, hr, hiff⟩ := main el hAuthor
  refine ⟨r, hr, hiff, and_1446_eq_zero_iff el.OQ, ?_⟩
  intro oq hbits
  obtain ⟨r', hr', hiff'⟩ := main { el with OQ := oq } hAuthor
  refine ⟨r', hr', ?_⟩
  have hm : oq &&& 1446 = el.OQ &&& 1446 := and_1446_congr oq el.OQ hbits
  have hiff'' : r'.failed ≠ some ElectronCut.objectQuality ↔ el.OQ &&& 1446 = 0 := by
    rw [← hm]; exact hiff'
  constructor
  · intro h
    by_contra hn
    exact (hiff''.mpr (hiff.mp hn)) h
  · intro h
    by_contra hn
    exact (hiff.mpr (hiff''.mp hn)) h

/-- C26, at a concrete input: the electron of pT 15 with `OQ = 2048 + 1` (bits 11 and 0, none
of the six) passes the object-quality criterion, and with `OQ = 4` (bit 2) it is rejected
there. -/
theorem C26_object_quality_reads_six_bits_witness :
    exampleElectronSelector.operatingPointsPresent ∧
    exampleElectronSelector.m_doOQCut = true ∧
    ElectronSelector.PassCuts exampleElectronSelector { exampleElectron 15 with OQ := 4 } []
        { z := 0 } =
      some { value := 0, failed := some ElectronCut.objectQuality, aux := [], calls := [] } ∧
    (∃ r, ElectronSelector.PassCuts exampleElectronSelector
        { exampleElectron 15 with OQ := 2049 } [] { z := 0 } = some r ∧
      (r.failed ≠ some ElectronCut.objectQuality ↔ 2049 &&& 1446 = 0) ∧
      r.failed ≠ some ElectronCut.objectQuality) := by
  have hOP : exampleElectronSelector.operatingPointsPresent :=
    ⟨fun h => absurd h (by decide), fun h => absurd h (by decide)⟩
  obtain ⟨r, hr, hiff, -, -⟩ := C26_object_quality_reads_six_bits exampleElectronSelector
    { exampleElectron 15 with OQ := 2049 } [] { z := 0 } hOP rfl (fun _ => Or.inl rfl)
  refine ⟨hOP, rfl, ?_, r, hr, hiff, hiff.mpr (by decide)⟩
  simp +decide [ElectronSelector.PassCuts, ElectronSelector.kinematicCut,
    exampleElectronSelector, exampleElectron]

/-- C27: two distinct labels give distinct keys `m_outContainerName + label` and distinct keys
`m_inContainerName + label`, so the keys of a list of labels without duplicates are pairwise
distinct; on such a list, with the inputs in the store and the output keys free, the fan-out
`execute` returns `SUCCESS` (no key is recorded twice), has added to the store one object for
each label whose run passed, if materialization is requested, and the list of names, and the
store holds a materialized collection under the key of a label exactly when materialization
is requested and the run of that label passed. -/
theorem C27_distinct_labels_have_distinct_keys
    (cfg : ElectronSelector) (c : Cutflow) (st : Store) (labels : List String) (w : ℚ)
    (hOP : cfg.operatingPointsPresent)
    (hFan : cfg.m_inputAlgoSystNames ≠ "")
    (hEI : st.retrieveEventInfo "EventInfo" = some (some w))
    (hL : st.retrieveSystNames cfg.m_inputAlgoSystNames = some labels)
    (hIn : ∀ l ∈ labels, (st.retrieveElectrons (cfg.m_inContainerName ++ l)).isSome = true)
    (hNodup : labels.Nodup)
    (hFree : ∀ l ∈ labels, st.lookup (cfg.m_outContainerName ++ l) = none)
    (hOutFree : st.lookup cfg.m_outputAlgoSystNames = none)
    (hDistinct : ∀ l ∈ labels, cfg.m_outContainerName ++ l ≠ cfg.m_outputAlgoSystNames) :
    (∀ l1 l2 : String, l1 ≠ l2 →
      cfg.m_outContainerName ++ l1 ≠ cfg.m_outContainerName ++ l2 ∧
      cfg.m_inContainerName ++ l1 ≠ cfg.m_inContainerName ++ l2) ∧
    (labels.map (fun l => cfg.m_outContainerName ++ l)).Nodup ∧
    (labels.map (fun l => cfg.m_inContainerName ++ l)).Nodup ∧
    ∃ e, ElectronSelector.execute cfg c st = some e ∧ e.status = StatusCode.SUCCESS ∧
      e.store.length = st.length +
        (if cfg.m_createSelectedContainer then
          (labels.filter (ElectronSelector.selectionPasses cfg st)).length else 0) + 1 ∧
      ∀ l ∈ labels, (e.store.holdsSelectedElectrons (cfg.m_outContainerName ++ l) ↔
        cfg.m_createSelectedContainer = true ∧
          ElectronSelector.selectionPasses cfg st l = true) := by
  have hinj : ∀ base : String, Function.Injective (fun l : String => base ++ l) :=
    fun base l1 l2 h => string_append_left_cancel base l1 l2 h
  refine ⟨fun l1 l2 hne => ⟨fun h => hne (hinj _ h), fun h => hne (hinj _ h)⟩,
    hNodup.map (hinj _), hNodup.map (hinj _), ?_⟩
  obtain ⟨f, hf, hok, -, -, -, hnone, -, -⟩ :=
    ElectronSelector.systLoop_spec cfg hOP w labels { c with m_numEvent := wrapInt (c.m_numEvent + 1) }
      st true false [] hIn (fun _ => ⟨hNodup, hFree⟩)
  have hfree := hnone _ hOutFree (fun _ l hl _ heq => hDistinct l hl heq.symm)
  have hrec := Store.record_eq_some f.store cfg.m_outputAlgoSystNames
    (StoreObj.systNames f.vecOutContainerNames) hfree
  have hlen := ElectronSelector.systLoop_store_length cfg hOP w labels _ st true false [] f
    hf hok
  have hex : ElectronSelector.execute cfg c st = some (ElectronSelector.finish f.cutflow
      (f.store ++ [(cfg.m_outputAlgoSystNames, StoreObj.systNames f.vecOutContainerNames)])
      f.eventPass) := by
    simp only [ElectronSelector.execute, hEI, hFan, if_false, hL, hf, hok, if_true, hrec]
  obtain ⟨e, he, hholds⟩ := ElectronSelector.execute_fanout_materialized cfg c st labels w hOP
    hFan hEI hL hIn hNodup hFree
  rw [hex, Option.some.injEq] at he
  subst he
  refine ⟨_, hex, rfl, ?_, hholds⟩
  simp only [ElectronSelector.finish, List.length_append, List.length_singleton, hlen]

/-- C27, at the input of the fan-out example: the labels `""`, `SYS_UP`, `SYS_DOWN`, of which
`SYS_UP` alone passes. -/
theorem C27_distinct_labels_have_distinct_keys_witness :
    fanOutElectronSelector.operatingPointsPresent ∧
    ["", "SYS_UP", "SYS_DOWN"].Nodup ∧
    (["", "SYS_UP", "SYS_DOWN"].map (fun l => fanOutElectronSelector.m_outContainerName ++ l)
      = ["SelEl", "SelElSYS_UP", "SelElSYS_DOWN"]) ∧
    ((∀ l1 l2 : String, l1 ≠ l2 →
      fanOutElectronSelector.m_outContainerName ++ l1 ≠
        fanOutElectronSelector.m_outContainerName ++ l2 ∧
      fanOutElectronSelector.m_inContainerName ++ l1 ≠
        fanOutElectronSelector.m_inContainerName ++ l2) ∧
    (["", "SYS_UP", "SYS_DOWN"].map
      (fun l => fanOutElectronSelector.m_outContainerName ++ l)).Nodup ∧
    (["", "SYS_UP", "SYS_DOWN"].map
      (fun l => fanOutElectronSelector.m_inContainerName ++ l)).Nodup ∧
    ∃ e, ElectronSelector.execute fanOutElectronSelector Cutflow.zero fanOutStore = some e ∧
      e.status = StatusCode.SUCCESS ∧
      e.store.length = fanOutStore.length +
        (if fanOutElectronSelector.m_createSelectedContainer then
          (["", "SYS_UP", "SYS_DOWN"].filter
            (ElectronSelector.selectionPasses fanOutElectronSelector fanOutStore)).length
          else 0) + 1 ∧
      ∀ l ∈ ["", "SYS_UP", "SYS_DOWN"],
        (e.store.holdsSelectedElectrons (fanOutElectronSelector.m_outContainerName ++ l) ↔
          fanOutElectronSelector.m_createSelectedContainer = true ∧
            ElectronSelector.selectionPasses fanOutElectronSelector fanOutStore l = true)) := by
  have hOP : fanOutElectronSelector.operatingPointsPresent :=
    ⟨fun h => absurd h (by decide), fun h => absurd h (by decide)⟩
  exact ⟨hOP, by decide, by decide,
    C27_distinct_labels_have_distinct_keys fanOutElectronSelector Cutflow.zero fanOutStore
      ["", "SYS_UP", "SYS_DOWN"] 2 hOP (by decide) rfl rfl (by decide) (by decide)
      (by decide) (by decide) (by decide)⟩

/-- C28: with the primary vertex in the store, a run of `executeSelection` (and of
`executeConst`) with `m_decorateSelectedObjects` enabled and the same run with it disabled both
return, with the same event-pass flag (status and skip signal for the muons), `nObj`, `nPass`,
cutflow members and view of selected objects; both evaluate the objects at the positions below
`min(size, m_nToProcess)` when `m_nToProcess > 0` and all the objects otherwise. -/
theorem C28_decoration_flag_changes_no_count (ecfg : ElectronSelector) (mcfg : MuonSelector)
    (st : Store) (c : Cutflow) (xs : List (Decorated Electron)) (ms : List (Decorated Muon))
    (key : String) (w : ℚ) (cp : Bool) (pvx : Vertex)
    (hOP : ecfg.operatingPointsPresent) (hT : mcfg.muonTypeKnown)
    (hPV : st.retrieveVertices "PrimaryVertices" = some pvx) :
    (∃ r r',
      ElectronSelector.executeSelection { ecfg with m_decorateSelectedObjects := true }
        st c xs w cp = some r ∧
      ElectronSelector.executeSelection { ecfg with m_decorateSelectedObjects := false }
        st c xs w cp = some r' ∧
      r.eventPass = r'.eventPass ∧ r.nObj = r'.nObj ∧ r.nPass = r'.nPass ∧
      r.cutflow = r'.cutflow ∧ r.selected = r'.selected ∧ r.evaluated = r'.evaluated ∧
      r.evaluated = List.range
        (if ecfg.m_nToProcess > 0 then min xs.length ecfg.m_nToProcess.toNat
         else xs.length)) ∧
    (∃ r r',
      MuonSelector.executeConst { mcfg with m_decorateSelectedObjects := true }
        c st key ms w = some r ∧
      MuonSelector.executeConst { mcfg with m_decorateSelectedObjects := false }
        c st key ms w = some r' ∧
      r.exec.status = r'.exec.status ∧ r.exec.skipEvent = r'.exec.skipEvent ∧
      r.nObj = r'.nObj ∧ r.nPass = r'.nPass ∧
      r.exec.cutflow = r'.exec.cutflow ∧ r.selected = r'.selected ∧
      r.evaluated = r'.evaluated ∧
      r.evaluated = List.range
        (if mcfg.m_nToProcess > 0 then min ms.length mcfg.m_nToProcess.toNat
         else ms.length)) := by
  constructor
  · have hpc := ElectronSelector.passSel_eq_passValue ecfg pvx hOP
    obtain ⟨l, hl⟩ := selectionLoop_some (ElectronSelector.passSel ecfg pvx)
      (ElectronSelector.passValue ecfg pvx) ecfg.m_nToProcess true
      ecfg.m_createSelectedContainer hpc xs 0 0 0 [] []
    obtain ⟨l', hl'⟩ := selectionLoop_some (ElectronSelector.passSel ecfg pvx)
      (ElectronSelector.passValue ecfg pvx) ecfg.m_nToProcess false
      ecfg.m_createSelectedContainer hpc xs 0 0 0 [] []
    obtain ⟨e1, e2, e3, e4⟩ := selectionLoop_decorate (ElectronSelector.passSel ecfg pvx)
      (ElectronSelector.passValue ecfg pvx) ecfg.m_nToProcess ecfg.m_createSelectedContainer
      hpc xs 0 0 0 [] [] l l' hl hl'
    have hev := selectionLoop_evaluated (ElectronSelector.passSel ecfg pvx)
      (ElectronSelector.passValue ecfg pvx) ecfg.m_nToProcess true
      ecfg.m_createSelectedContainer hpc xs 0 0 0 [] [] l hl
    rw [List.nil_append, sub_zero, ← List.range_eq_range'] at hev
    have hon : selectionLoop
        (ElectronSelector.passSel { ecfg with m_decorateSelectedObjects := true } pvx)
        ecfg.m_nToProcess true ecfg.m_createSelectedContainer 0 xs 0 0 [] [] = some l := hl
    have hoff : selectionLoop
        (ElectronSelector.passSel { ecfg with m_decorateSelectedObjects := false } pvx)
        ecfg.m_nToProcess false ecfg.m_createSelectedContainer 0 xs 0 0 [] [] = some l' := hl'
    unfold ElectronSelector.executeSelection
    simp only [hPV, hon, hoff, ← e1, ← e2]
    by_cases h1 : ecfg.m_pass_min > 0 ∧ l.nPass < ecfg.m_pass_min
    · simp only [h1, and_self, if_true]
      exact ⟨_, _, rfl, rfl, rfl, rfl, rfl, rfl, e3, e4, hev⟩
    · by_cases h2 : ecfg.m_pass_max > 0 ∧ l.nPass > ecfg.m_pass_max
      · simp only [h1, h2, and_self, if_true, if_false]
        exact ⟨_, _, rfl, rfl, rfl, rfl, rfl, rfl, e3, e4, hev⟩
      · simp only [h1, h2, if_false]
        exact ⟨_, _, rfl, rfl, rfl, rfl, rfl, rfl, e3, e4, hev⟩
  · have hpc := MuonSelector.muon_passSel_eq_passValue mcfg pvx hT
    obtain ⟨l, hl⟩ := selectionLoop_some (MuonSelector.passSel mcfg pvx)
      (MuonSelector.passValue mcfg pvx) mcfg.m_nToProcess true
      mcfg.m_createSelectedContainer hpc ms 0 0 0 [] []
    obtain ⟨l', hl'⟩ := selectionLoop_some (MuonSelector.passSel mcfg pvx)
      (MuonSelector.passValue mcfg pvx) mcfg.m_nToProcess false
      mcfg.m_createSelectedContainer hpc ms 0 0 0 [] []
    obtain ⟨e1, e2, e3, e4⟩ := selectionLoop_decorate (MuonSelector.passSel mcfg pvx)
      (MuonSelector.passValue mcfg pvx) mcfg.m_nToProcess mcfg.m_createSelectedContainer
      hpc ms 0 0 0 [] [] l l' hl hl'
    have hev := selectionLoop_evaluated (MuonSelector.passSel mcfg pvx)
      (MuonSelector.passValue mcfg pvx) mcfg.m_nToProcess true
      mcfg.m_createSelectedContainer hpc ms 0 0 0 [] [] l hl
    rw [List.nil_append, sub_zero, ← List.range_eq_range'] at hev
    have hon : selectionLoop
        (MuonSelector.passSel { mcfg with m_decorateSelectedObjects := true } pvx)
        mcfg.m_nToProcess true mcfg.m_createSelectedContainer 0 ms 0 0 [] [] = some l := hl
    have hoff : selectionLoop
        (MuonSelector.passSel { mcfg with m_decorateSelectedObjects := false } pvx)
        mcfg.m_nToProcess false mcfg.m_createSelectedContainer 0 ms 0 0 [] [] = some l' := hl'
    unfold MuonSelector.executeConst
    simp only [hPV, hon, hoff, ← e1, ← e2, ← e3]
    by_cases h1 : mcfg.m_pass_min > 0 ∧ l.nPass < mcfg.m_pass_min
    · simp only [h1, and_self, if_true]
      exact ⟨_, _, rfl, rfl, rfl, rfl, rfl, rfl, rfl, rfl, e4, hev⟩
    · by_cases h2 : mcfg.m_pass_max > 0 ∧ l.nPass > mcfg.m_pass_max
      · simp only [h1, h2, and_self, if_true, if_false]
        exact ⟨_, _, rfl, rfl, rfl, rfl, rfl, rfl, rfl, rfl, e4, hev⟩
      · simp only [h1, h2, if_false]
        cases hc : mcfg.m_createSelectedContainer with
        | false =>
          simp only [Bool.false_eq_true, if_false]
          exact ⟨_, _, rfl, rfl, rfl, rfl, rfl, rfl, rfl, rfl, e4, hev⟩
        | true =>
          simp only [if_true]
          have hiff := Store.record_decorated_none_iff st key (StoreObj.muons l.objects)
            (StoreObj.muons l'.objects) mcfg.m_outContainerName
            (StoreObj.selectedMuons l.selected)
          cases hr1 : (st.decorated key (StoreObj.muons l.objects)).record
              mcfg.m_outContainerName (StoreObj.selectedMuons l.selected) with
          | none =>
            rw [hiff.mp hr1]
            exact ⟨_, _, rfl, rfl, rfl, rfl, rfl, rfl, rfl, rfl, e4, hev⟩
          | some st2 =>
            cases hr2 : (st.decorated key (StoreObj.muons l'.objects)).record
                mcfg.m_outContainerName (StoreObj.selectedMuons l.selected) with
            | none =>
              rw [hiff.mpr hr2] at hr1
              exact absurd hr1 (by simp)
            | some st2' =>
              exact ⟨_, _, rfl, rfl, rfl, rfl, rfl, rfl, rfl, rfl, e4, hev⟩

/-- C28, at a concrete input: under `NToProcess = 1` two electrons (two muons) are in the
container; the object at position 0 alone is evaluated, with the decoration and without. -/
theorem C28_decoration_flag_changes_no_count_witness :
    cappedElectronSelector.operatingPointsPresent ∧ cappedMuonSelector.muonTypeKnown ∧
    (exampleStore []).retrieveVertices "PrimaryVertices" = some { z := 0 } ∧
    (∃ r r',
      ElectronSelector.executeSelection
        { cappedElectronSelector with m_decorateSelectedObjects := true } (exampleStore [])
        Cutflow.zero
        [{ obj := exampleElectron 15, aux := [] }, { obj := exampleElectron 25, aux := [] }]
        1 true = some r ∧
      ElectronSelector.executeSelection
        { cappedElectronSelector with m_decorateSelectedObjects := false } (exampleStore [])
        Cutflow.zero
        [{ obj := exampleElectron 15, aux := [] }, { obj := exampleElectron 25, aux := [] }]
        1 true = some r' ∧
      r.eventPass = r'.eventPass ∧ r.nObj = r'.nObj ∧ r.nPass = r'.nPass ∧
      r.cutflow = r'.cutflow ∧ r.selected = r'.selected ∧ r.evaluated = r'.evaluated ∧
      r.evaluated = [0]) ∧
    (∃ r r',
      MuonSelector.executeConst { cappedMuonSelector with m_decorateSelectedObjects := true }
        Cutflow.zero (exampleStore []) "Muons"
        [{ obj := exampleMuon 15, aux := [] }, { obj := exampleMuon 25, aux := [] }] 1 =
        some r ∧
      MuonSelector.executeConst { cappedMuonSelector with m_decorateSelectedObjects := false }
        Cutflow.zero (exampleStore []) "Muons"
        [{ obj := exampleMuon 15, aux := [] }, { obj := exampleMuon 25, aux := [] }] 1 =
        some r' ∧
      r.exec.status = r'.exec.status ∧ r.exec.skipEvent = r'.exec.skipEvent ∧
      r.nObj = r'.nObj ∧ r.nPass = r'.nPass ∧
      r.exec.cutflow = r'.exec.cutflow ∧ r.selected = r'.selected ∧
      r.evaluated = r'.evaluated ∧ r.evaluated = [0]) := by
  have hOP : cappedElectronSelector.operatingPointsPresent :=
    ⟨fun h => absurd h (by decide), fun h => absurd h (by decide)⟩
  have hT : cappedMuonSelector.muonTypeKnown := fun h => absurd rfl h
  obtain ⟨he, hm⟩ := C28_decoration_flag_changes_no_count cappedElectronSelector
    cappedMuonSelector (exampleStore []) Cutflow.zero
    [{ obj := exampleElectron 15, aux := [] }, { obj := exampleElectron 25, aux := [] }]
    [{ obj := exampleMuon 15, aux := [] }, { obj := exampleMuon 25, aux := [] }]
    "Muons" 1 true { z := 0 } hOP hT rfl
  exact ⟨hOP, hT, rfl, he, hm⟩

/-- C29: both `PassCuts` compare the signed d0 with `m_d0_max`: a rejection at the d0 cut is
that of a track with `m_d0_max ≤ d0`, so under a positive bound a track of negative d0 is never
rejected there, while a track with `m_d0_max ≤ d0` is rejected (for the muons, when not
stand-alone); the d0-significance cut rejects when `d0_significance < m_d0sig_max` is false
for the floating-point value computed from `fabs(d0)`, which is the same for d0 and for -d0,
and the z0 sin(theta) cut when `fabs(z0sintheta) < m_z0sintheta_max` is false, a comparison
of the absolute value. -/
theorem C29_d0_cut_is_signed (ecfg : ElectronSelector) (mcfg : MuonSelector) (el : Electron)
    (aux : Decorations) (mu : Muon) (pv : Vertex)
    (hOP : ecfg.operatingPointsPresent) (hT : mcfg.muonTypeKnown) :
    (∃ r, ElectronSelector.PassCuts ecfg el aux pv = some r ∧
      (r.failed = some ElectronCut.d0 → ecfg.m_d0_max ≤ el.trackParticle.d0) ∧
      (0 < ecfg.m_d0_max → el.trackParticle.d0 < 0 → r.failed ≠ some ElectronCut.d0) ∧
      (ecfg.m_d0_max ≤ el.trackParticle.d0 → r.value = 0) ∧
      (r.failed = some ElectronCut.d0sig →
        (d0_significance ecfg.floatArith el.trackParticle).lt ecfg.m_d0sig_max = false) ∧
      (r.failed = some ElectronCut.z0sintheta →
        (z0sintheta ecfg.floatArith el.trackParticle pv).fabs.lt ecfg.m_z0sintheta_max
          = false)) ∧
    (∃ r, MuonSelector.PassCuts mcfg mu pv = some r ∧
      (r.failed = some MuonCut.d0 → mcfg.m_d0_max ≤ mu.primaryTrackParticle.d0) ∧
      (0 < mcfg.m_d0_max → mu.primaryTrackParticle.d0 < 0 → r.failed ≠ some MuonCut.d0) ∧
      (mu.muonType ≠ MuonType.MuonStandAlone → mcfg.m_d0_max ≤ mu.primaryTrackParticle.d0 →
        r.value = 0) ∧
      (r.failed = some MuonCut.d0sig →
        (d0_significance mcfg.floatArith mu.primaryTrackParticle).lt mcfg.m_d0sig_max
          = false) ∧
      (r.failed = some MuonCut.z0sintheta →
        (z0sintheta mcfg.floatArith mu.primaryTrackParticle pv).fabs.lt mcfg.m_z0sintheta_max
          = false)) ∧
    (∀ (arith : FloatArith) (tp : TrackParticle),
      d0_significance arith { tp with d0 := -tp.d0 } = d0_significance arith tp) ∧
    (∀ value bound : ℚ,
      (FloatValue.finite value).fabs.lt bound = true ↔ |value| < bound) := by
  refine ⟨?_, ?_, ?_, ?_⟩
  · obtain ⟨r, hr, -, -, -, hrej⟩ := ElectronSelector.PassCuts_bounds ecfg el aux pv hOP
    obtain ⟨h1, h2, h3⟩ := PassCuts_failed_impact ecfg el aux pv hOP r hr
    refine ⟨r, hr, h1, ?_, ?_, h2, h3⟩
    · intro hpos hneg hx
      have := h1 hx
      linarith
    · intro hge
      exact hrej (Or.inl (not_lt.mpr hge))
  · obtain ⟨r, hr, -⟩ := MuonSelector.PassCuts_some mcfg mu pv hT
    obtain ⟨h1, h2, h3⟩ := muon_PassCuts_failed_impact mcfg mu pv r hr
    refine ⟨r, hr, fun hx => (h1 hx).2, ?_, ?_, fun hx => (h2 hx).2, fun hx => (h3 hx).2⟩
    · intro hpos hneg hx
      have := (h1 hx).2
      linarith
    · intro hsa hge
      exact (MuonSelector.muon_PassCuts_bounds mcfg mu pv r hr).2.2.2 hsa
        (Or.inl (not_lt.mpr hge))
  · intro arith tp
    simp [d0_significance]
  · intro value bound
    simp

/-- C29, at a concrete input: under `d0Max = 1` (other bounds at their defaults) the electron
and the muon whose track has d0 = -5 are accepted, and those with d0 = 5 are rejected at the
d0 cut; with d0 = -5 and a zero `sqrt(cov(0,0))` the d0 significance is infinite and the
electron is rejected at the d0-significance cut. -/
theorem C29_d0_cut_is_signed_witness :
    ({ exampleElectronSelector with m_d0_max := 1 } : ElectronSelector).operatingPointsPresent ∧
    ({ exampleMuonSelector with m_d0_max := 1 } : MuonSelector).muonTypeKnown ∧
    (ElectronSelector.PassCuts { exampleElectronSelector with m_d0_max := 1 }
        { exampleElectron 15 with trackParticle := { exampleTrack with d0 := -5 } } []
        { z := 0 }).map (fun r => (r.value, r.failed)) = some (1, none) ∧
    (ElectronSelector.PassCuts { exampleElectronSelector with m_d0_max := 1 }
        { exampleElectron 15 with trackParticle := { exampleTrack with d0 := 5 } } []
        { z := 0 }).map (fun r => (r.value, r.failed)) = some (0, some ElectronCut.d0) ∧
    (ElectronSelector.PassCuts { exampleElectronSelector with m_d0_max := 1 }
        { exampleElectron 15 with
          trackParticle := { exampleTrack with d0 := -5, sqrtCov00 := FloatValue.finite 0 } } []
        { z := 0 }).map (fun r => (r.value, r.failed)) = some (0, some ElectronCut.d0sig) ∧
    MuonSelector.PassCuts { exampleMuonSelector with m_d0_max := 1 }
        { exampleMuon 15 with primaryTrackParticle := { exampleTrack with d0 := -5 } }
        { z := 0 } = some { value := 1, failed := none } ∧
    MuonSelector.PassCuts { exampleMuonSelector with m_d0_max := 1 }
        { exampleMuon 15 with primaryTrackParticle := { exampleTrack with d0 := 5 } }
        { z := 0 } = some { value := 0, failed := some MuonCut.d0 } ∧
    (∃ r, ElectronSelector.PassCuts { exampleElectronSelector with m_d0_max := 1 }
        { exampleElectron 15 with trackParticle := { exampleTrack with d0 := -5 } } []
        { z := 0 } = some r ∧ r.failed ≠ some ElectronCut.d0) ∧
    (∃ r, MuonSelector.PassCuts { exampleMuonSelector with m_d0_max := 1 }
        { exampleMuon 15 with primaryTrackParticle := { exampleTrack with d0 := -5 } }
        { z := 0 } = some r ∧ r.failed ≠ some MuonCut.d0) := by
  have hOP : ({ exampleElectronSelector with m_d0_max := 1 } :
      ElectronSelector).operatingPointsPresent :=
    ⟨fun h => absurd h (by decide), fun h => absurd h (by decide)⟩
  have hT : ({ exampleMuonSelector with m_d0_max := 1 } : MuonSelector).muonTypeKnown :=
    fun h => absurd rfl h
  obtain ⟨⟨r, hr, -, hneg, -⟩, ⟨r', hr', -, hneg', -⟩, -⟩ :=
    C29_d0_cut_is_signed { exampleElectronSelector with m_d0_max := 1 }
      { exampleMuonSelector with m_d0_max := 1 }
      { exampleElectron 15 with trackParticle := { exampleTrack with d0 := -5 } } []
      { exampleMuon 15 with primaryTrackParticle := { exampleTrack with d0 := -5 } }
      { z := 0 } hOP hT
  refine ⟨hOP, hT, ?_, ?_, ?_, ?_, ?_,
    ⟨r, hr, hneg (by norm_num) (by norm_num)⟩, ⟨r', hr', hneg' (by norm_num) (by norm_num)⟩⟩
  · simp +decide [ElectronSelector.PassCuts, ElectronSelector.kinematicCut,
      exampleElectronSelector, exampleElectron, ElectronSelector.inCrack, d0_significance,
      z0sintheta, exampleTrack, sentinel, ElectronSelector.passLikelihoodPID,
      ElectronSelector.passCutBasedPID, ElectronSelector.passIsolation]
    norm_num
  · simp +decide [ElectronSelector.PassCuts, ElectronSelector.kinematicCut,
      exampleElectronSelector, exampleElectron, ElectronSelector.inCrack, d0_significance,
      z0sintheta, exampleTrack, sentinel]
    norm_num
  · simp +decide [ElectronSelector.PassCuts, ElectronSelector.kinematicCut,
      exampleElectronSelector, exampleElectron, ElectronSelector.inCrack, d0_significance,
      z0sintheta, exampleTrack, sentinel]
    norm_num
  · simp +decide [MuonSelector.PassCuts, MuonSelector.passType, MuonSelector.passIsoTool,
      MuonSelector.failsIsolation, exampleMuonSelector, exampleMuon, exampleTrack, sentinel,
      d0_significance, z0sintheta]
  · simp +decide [MuonSelector.PassCuts, MuonSelector.passType, MuonSelector.passIsoTool,
      MuonSelector.failsIsolation, exampleMuonSelector, exampleMuon, exampleTrack, sentinel,
      d0_significance, z0sintheta]

/-- C30: for a muon from which the track-based or the calorimeter-based isolation variable
cannot be retrieved, `MuonSelector::PassCuts` returns the same result with the isolation cut
enabled as with it disabled, and that result is not a rejection at the isolation step. -/
theorem C30_missing_isolation_variable_means_no_isolation_cut (cfg : MuonSelector) (mu : Muon)
    (pv : Vertex) (hT : cfg.muonTypeKnown)
    (hmiss : mu.isolation.lookup cfg.m_TrackBasedIsoType = none ∨
      mu.isolation.lookup cfg.m_CaloBasedIsoType = none) :
    ∃ r, MuonSelector.PassCuts { cfg with m_doIsolation := true } mu pv = some r ∧
      MuonSelector.PassCuts { cfg with m_doIsolation := false } mu pv = some r ∧
      r.failed ≠ some MuonCut.isolation := by
  have hf : ∀ b : Bool,
      MuonSelector.failsIsolation { cfg with m_doIsolation := b } mu = false :=
    fun b => MuonSelector.failsIsolation_missing { cfg with m_doIsolation := b } mu hmiss
  have heq : MuonSelector.PassCuts { cfg with m_doIsolation := true } mu pv =
      MuonSelector.PassCuts { cfg with m_doIsolation := false } mu pv := by
    simp only [MuonSelector.PassCuts, MuonSelector.passType, MuonSelector.passIsoTool,
      hf true, hf false, Bool.and_false]
  obtain ⟨r, hr, -⟩ := MuonSelector.PassCuts_some { cfg with m_doIsolation := false } mu pv hT
  refine ⟨r, heq.trans hr, hr, ?_⟩
  intro hx
  have := (MuonSelector.muon_PassCuts_failed_isolation _ mu pv r hr hx).1
  exact absurd this (by simp)

/-- C30, at a concrete input: with the isolation cut enabled, the muon of pT 15 that has
`ptcone20 = 100` and no `etcone20` is accepted, as it is with the cut disabled. -/
theorem C30_missing_isolation_variable_means_no_isolation_cut_witness :
    exampleMuonSelector.muonTypeKnown ∧
    ({ exampleMuon 15 with isolation := [("ptcone20", 100)] } : Muon).isolation.lookup
      exampleMuonSelector.m_CaloBasedIsoType = none ∧
    MuonSelector.PassCuts { exampleMuonSelector with m_doIsolation := true }
      { exampleMuon 15 with isolation := [("ptcone20", 100)] } { z := 0 } =
      some { value := 1, failed := none } ∧
    (∃ r, MuonSelector.PassCuts { exampleMuonSelector with m_doIsolation := true }
        { exampleMuon 15 with isolation := [("ptcone20", 100)] } { z := 0 } = some r ∧
      MuonSelector.PassCuts { exampleMuonSelector with m_doIsolation := false }
        { exampleMuon 15 with isolation := [("ptcone20", 100)] } { z := 0 } = some r ∧
      r.failed ≠ some MuonCut.isolation) := by
  have hT : exampleMuonSelector.muonTypeKnown := fun h => absurd rfl h
  refine ⟨hT, rfl, ?_,
    C30_missing_isolation_variable_means_no_isolation_cut exampleMuonSelector
      { exampleMuon 15 with isolation := [("ptcone20", 100)] } { z := 0 } hT (Or.inr rfl)⟩
  simp +decide [MuonSelector.PassCuts, MuonSelector.passType, MuonSelector.passIsoTool,
    MuonSelector.failsIsolation, exampleMuonSelector, exampleMuon, exampleTrack, sentinel,
    d0_significance, z0sintheta]

end xAH
